import Mathlib

/-!
# Maze generation and visibility flood of `my32x32maze.c`

A shallow embedding of the grid, the maze generator (`GridCreate`,
`GridMazeRoom`, `GridMaze`) and the visibility flood (`GridFloodVisibility`)
of `Source/my32x32maze.c`, followed by theorems about them.

Conventions of the embedding.

* A `CELL *` is the integer index of the cell in `grid->cells`; pointer
  arithmetic is integer arithmetic on indices.  A read outside `[0, size)`
  (undefined behaviour in C) yields `CELL.blank`, a write outside is dropped.
* C `int` is `Int`; the values that occur (coordinates, depth tags) stay far
  from the 32-bit limits.  `/` and `%` of C are `Int.tdiv` and `Int.tmod`.
* The `float` fields `depth` and `timeStamp` are integers: the program only
  stores `MAZE_VISIBILITY_MAX` minus integer attenuations in `depth`, and only
  compares `timeStamp` for equality.
* `GetRandomValue` reads a stream `rs : Nat → Nat` of raw draws at a position
  that is threaded through the generator.
* `while (1)`, the retry of `GridMaze` and the recursion of the flood take a
  fuel argument and return `none` when it runs out.
-/

namespace Maze

/-! ## Defines, enums and tables -/

def MAZE_VISIBILITY_MAX : Int := 30
def MAZE_ROOM_PERCENT : Int := 80
def MAZE_NEAR_PERCENT : Int := 40
def MAZE_CUT_PERCENT : Int := 10
def MAZE_ROOM_BONUS_PERCENT : Int := 15
def MAZE_DEAD_BONUS_PERCENT : Int := 60

def UNVISITED : Int := 0
def WALL : Int := 1
def START : Int := 2
def END_TEMP : Int := 3
def END : Int := 4
def ROOMCENTER : Int := 5
def ROOMBORDER : Int := 6
def DOOR : Int := 7
def BONUS : Int := 8
def LAST_COLOR : Int := 9
def OPEN : Int := 10

def CFL_INVISIBLE : Int := 1

/-- The macro `MAKEODD(x)`, `((int)(x) | 1)`. -/
def MAKEODD (x : Int) : Int := Int.lor x 1

/-- The macro `max(a, b)`, `((a) > (b) ? (a) : (b))`. -/
def cmax (a b : Int) : Int := if a > b then a else b

/-- The function `abs` of the C library. -/
def cabs (a : Int) : Int := if a < 0 then -a else a

def offsets4 : List (Int × Int) := [(1, 0), (0, -1), (-1, 0), (0, 1)]

def offsets8 : List (Int × Int) :=
  [(1, 0), (1, -1), (0, -1), (-1, -1), (-1, 0), (-1, 1), (0, 1), (1, 1)]

/-- The table entry `offsets4[dir][0]`. -/
def off4X (dir : Int) : Int := (offsets4.getD dir.toNat (0, 0)).1

/-- The table entry `offsets4[dir][1]`. -/
def off4Y (dir : Int) : Int := (offsets4.getD dir.toNat (0, 0)).2

/-- The table entry `offsets8[dir][0]`. -/
def off8X (dir : Int) : Int := (offsets8.getD dir.toNat (0, 0)).1

/-- The table entry `offsets8[dir][1]`. -/
def off8Y (dir : Int) : Int := (offsets8.getD dir.toNat (0, 0)).2

/-! ## Cells and grids -/

/-- The struct `CELL` (the back pointer `grid` is passed explicitly instead). -/
structure CELL where
  index : Int
  posX : Int
  posY : Int
  type : Int
  neighborCount : Int
  depth : Int
  timeStamp : Int
  flags : Int
deriving DecidableEq, Repr

/-- What a read outside the cell array yields in the embedding. -/
def CELL.blank : CELL := ⟨0, 0, 0, 0, 0, 0, 0, 0⟩

/-- The struct `GRID`. -/
structure GRID where
  width : Int
  height : Int
  cells : List CELL
  size : Int
  bonus : Int
  ptrOffsets4 : List Int
  ptrOffsets8 : List Int
deriving DecidableEq, Repr

/-- The cell behind the pointer `grid->cells + i`. -/
def GRID.cellAt (g : GRID) (i : Int) : CELL :=
  if 0 ≤ i then g.cells.getD i.toNat CELL.blank else CELL.blank

/-- A write through the pointer `grid->cells + i`: the cell becomes `f` of itself. -/
def GRID.modifyCell (g : GRID) (i : Int) (f : CELL → CELL) : GRID :=
  if 0 ≤ i then { g with cells := g.cells.set i.toNat (f (g.cells.getD i.toNat CELL.blank)) }
  else g

/-- The assignment `cell->type = t`. -/
def GRID.setType (g : GRID) (i : Int) (t : Int) : GRID :=
  g.modifyCell i (fun c => { c with type := t })

/-- The field `cell->type`. -/
def GRID.typeAt (g : GRID) (i : Int) : Int := (g.cellAt i).type

/-- The macro `GETCELL(grid, x, y)`, as an index. -/
def GETCELL (g : GRID) (x y : Int) : Int := x + y * g.width

/-- The entry `grid->ptrOffsets4[dir]`. -/
def GRID.ptr4 (g : GRID) (dir : Int) : Int := g.ptrOffsets4.getD dir.toNat 0

/-- The entry `grid->ptrOffsets8[dir]`. -/
def GRID.ptr8 (g : GRID) (dir : Int) : Int := g.ptrOffsets8.getD dir.toNat 0

/-- A loop `for (i = start; i < limit; i += step) body`, for a positive `step`;
`fuel` bounds the number of iterations. -/
def forUp {σ : Type} : Nat → Int → Int → Int → (σ → Int → σ) → σ → σ
  | 0, _, _, _, _, s => s
  | fuel + 1, i, limit, step, body, s =>
    if i < limit then forUp fuel (i + step) limit step body (body s i) else s

/-- The loop `for (i = start; i < limit; i += step)`: with `step ≥ 1` it makes at
most `limit - start` iterations. -/
def forLoop {σ : Type} (start limit step : Int) (body : σ → Int → σ) (s : σ) : σ :=
  forUp (limit - start).toNat start limit step body s

/-- The function `GridCreate`.  `malloc` leaves `neighborCount` uninitialised:
`junk` gives the value each cell happens to hold. -/
def GridCreate (_width _height : Int) (junk : Int → Int) : GRID :=
  let width := MAKEODD (cmax _width 7)
  let height := MAKEODD (cmax _height 7)
  let size := width * height
  { width := width
    height := height
    size := size
    bonus := 0
    ptrOffsets4 := (List.range 4).map (fun (_dir : Nat) => off4X _dir + off4Y _dir * width)
    ptrOffsets8 := (List.range 8).map (fun (_dir : Nat) => off8X _dir + off8Y _dir * width)
    cells := (List.range size.toNat).map (fun (n : Nat) =>
      let _index : Int := n
      { index := _index
        posX := Int.tmod _index width
        posY := Int.tdiv _index width
        type := UNVISITED
        neighborCount := junk _index
        depth := 0
        timeStamp := 0
        flags := CFL_INVISIBLE }) }

/-- A loop `for (i = start; i != last; i += step) body`; `fuel` bounds the number
of iterations. -/
def forNe {σ : Type} : Nat → Int → Int → Int → (σ → Int → σ) → σ → σ
  | 0, _, _, _, _, s => s
  | fuel + 1, i, last, step, body, s =>
    if i ≠ last then forNe fuel (i + step) last step body (body s i) else s

/-! ## Random draws -/

/-- The function `GetRandomValue(min, max)` of raylib, `rand() % (abs(max - min) + 1) + min`,
on the draw at position `k` of the stream `rs`. -/
def GetRandomValue (rs : Nat → Nat) (k : Nat) (min max : Int) : Int :=
  Int.tmod (rs k : Int) (cabs (max - min) + 1) + min

/-! ## Rooms -/

/-- The checks `if (x < 0) continue; if (x >= width) continue; if (y < 0)
continue; if (y >= height) continue;` on the coordinates of a cell: none of
them ends the attempt. -/
def GRID.inBounds (g : GRID) (x y : Int) : Prop :=
  ¬ x < 0 ∧ ¬ x ≥ g.width ∧ ¬ y < 0 ∧ ¬ y ≥ g.height

instance (g : GRID) (x y : Int) : Decidable (g.inBounds x y) := by
  unfold GRID.inBounds; infer_instance

/-- The innermost loop of `GridMazeRoom`, over `_dir2`: a cell two steps from
`(_x, _y)` whose type is within 3 of `_cellsToEnd` gets the type `_cellsToEnd`
(the reassigned `_nextX4`, `_nextY4` are not used again). -/
def roomStitch (_x _y _cellsToEnd : Int) (g : GRID) : GRID :=
  forLoop 0 4 1 (fun (g : GRID) (_dir2 : Int) =>
    let _nextX4 := _x + off4X _dir2 * 2
    let _nextY4 := _y + off4Y _dir2 * 2
    if g.inBounds _nextX4 _nextY4 ∧
        cabs (g.typeAt (GETCELL g _nextX4 _nextY4) - _cellsToEnd) < 3 then
      g.setType (GETCELL g _nextX4 _nextY4) _cellsToEnd
    else g) g

/-- The two nested loops of `GridMazeRoom` that set the rectangle as walkable.
Both run until `_xLast`, `_yLast`, which lie three steps from `_posX`, `_posY`. -/
def roomFill (_posX _posY _xLast _yLast _stepX _stepY _cellsToEnd : Int) (g : GRID) : GRID :=
  forNe 3 _posX _xLast _stepX (fun (g : GRID) (_x : Int) =>
    forNe 3 _posY _yLast _stepY (fun (g : GRID) (_y : Int) =>
      let _cellT := GETCELL g _x _y
      if g.typeAt _cellT > START then g
      else roomStitch _x _y _cellsToEnd (g.setType _cellT _cellsToEnd)) g) g

/-- The loop over `_attempts` of `GridMazeRoom`.  `deeper` is the recursive call,
present when `0 < _count`; `n` is the number of attempts left.  An attempt
goes on to set the room as walkable when each of the three corners passes the
bounds checks and the check `if (cell->type > UNVISITED) continue;`. -/
def roomAttempts (rs : Nat → Nat)
    (deeper : Option (GRID → Nat → Int → Int → Int → GRID × Nat)) :
    Nat → GRID → Nat → Int → Int → Int → Int → Int → GRID × Nat
  | 0, g, k, _, _, _, _, _ => (g, k)
  | n + 1, g, k, _posX, _posY, _cellsToEnd, _dir, _turnSide =>
    let _nextX := _posX + off4X _dir * 2
    let _nextY := _posY + off4Y _dir * 2
    let _dir2 := Int.tmod (_dir + _turnSide) 4
    let _nextX2 := _posX + off4X _dir2 * 2
    let _nextY2 := _posY + off4Y _dir2 * 2
    let _nextX3 := _posX + (off4X _dir + off4X _dir2) * 2
    let _nextY3 := _posY + (off4Y _dir + off4Y _dir2) * 2
    if (g.inBounds _nextX _nextY ∧ ¬ g.typeAt (GETCELL g _nextX _nextY) > UNVISITED) ∧
        (g.inBounds _nextX2 _nextY2 ∧ ¬ g.typeAt (GETCELL g _nextX2 _nextY2) > UNVISITED) ∧
        (g.inBounds _nextX3 _nextY3 ∧ ¬ g.typeAt (GETCELL g _nextX3 _nextY3) > UNVISITED) then
      let _xLast := _posX + (off4X _dir + off4X _dir2) * 3
      let _yLast := _posY + (off4Y _dir + off4Y _dir2) * 3
      let _stepX := Int.tdiv (_nextX3 - _posX) (cabs (_nextX3 - _posX))
      let _stepY := Int.tdiv (_nextY3 - _posY) (cabs (_nextY3 - _posY))
      let g1 := roomFill _posX _posY _xLast _yLast _stepX _stepY _cellsToEnd g
      match deeper with
      | none => (g1, k)
      | some room =>
        let _cellsToEnd := _cellsToEnd + 4
        let _room := GetRandomValue rs k 0 2
        if _room = 0 then room g1 (k + 1) _nextX _nextY _cellsToEnd
        else if _room = 1 then room g1 (k + 1) _nextX2 _nextY2 _cellsToEnd
        else if _room = 2 then room g1 (k + 1) _nextX3 _nextY3 _cellsToEnd
        else (g1, k + 1)
    else
      roomAttempts rs deeper n g k _posX _posY _cellsToEnd (Int.tmod (_dir + _turnSide) 4)
        _turnSide

/-- One call of `GridMazeRoom`, given the recursive call `deeper`. -/
def roomBody (rs : Nat → Nat)
    (deeper : Option (GRID → Nat → Int → Int → Int → GRID × Nat))
    (g : GRID) (k : Nat) (_posX _posY _cellsToEnd : Int) : GRID × Nat :=
  let _cell := GETCELL g _posX _posY
  if g.typeAt _cell = END then (g, k) else
  if g.typeAt _cell = END_TEMP then (g, k) else
  let _dir := GetRandomValue rs k 0 3
  let _turnSide := 1 + GetRandomValue rs (k + 1) 0 1 * 2
  roomAttempts rs deeper 4 g (k + 2) _posX _posY _cellsToEnd _dir _turnSide

/-- The function `GridMazeRoom`; `_count` comes first.  It returns the grid and
the position in the stream of draws. -/
def GridMazeRoom (rs : Nat → Nat) : Nat → GRID → Nat → Int → Int → Int → GRID × Nat
  | 0, g, k, _posX, _posY, _cellsToEnd => roomBody rs none g k _posX _posY _cellsToEnd
  | _count + 1, g, k, _posX, _posY, _cellsToEnd =>
    roomBody rs (some (GridMazeRoom rs _count)) g k _posX _posY _cellsToEnd

/-! ## The generator -/

/-- The first loop of `GridMaze`: every cell of the even rows becomes a wall. -/
def initEvenRows (g : GRID) : GRID :=
  forLoop 0 g.size (g.width * 2) (fun (g : GRID) (_sY : Int) =>
    forLoop _sY (_sY + g.width) 1 (fun (g : GRID) (_sX : Int) =>
      g.modifyCell _sX (fun c => { c with type := WALL, flags := CFL_INVISIBLE, depth := 0 })) g) g

/-- The second loop of `GridMaze`: the odd rows alternate between `WALL` and
`UNVISITED` (`_sX.t ^= WALL` at every step, from `WALL`). -/
def initOddRows (g : GRID) : GRID :=
  forLoop g.width g.size (g.width * 2) (fun (g : GRID) (_sY : Int) =>
    (forLoop _sY (_sY + g.width) 1 (fun (s : GRID × Int) (_sX : Int) =>
      (s.1.modifyCell _sX (fun c => { c with type := s.2, flags := CFL_INVISIBLE, depth := 0 }),
        Int.xor s.2 WALL)) (g, WALL)).1) g

/-- The loops of `GridMaze` that disable some cells beside the border. -/
def breakBorder (rs : Nat → Nat) (s : GRID × Nat) : GRID × Nat :=
  let s1 := forLoop 1 s.1.width (s.1.width - 3) (fun (s : GRID × Nat) (_x : Int) =>
    forLoop 1 s.1.height 2 (fun (s : GRID × Nat) (_y : Int) =>
      if GetRandomValue rs s.2 0 1 > 0 then (s.1, s.2 + 1)
      else (s.1.setType (_x + _y * s.1.width) WALL, s.2 + 1)) s) s
  forLoop 1 s1.1.height (s1.1.height - 3) (fun (s : GRID × Nat) (_y : Int) =>
    forLoop 1 s.1.width 2 (fun (s : GRID × Nat) (_x : Int) =>
      if GetRandomValue rs s.2 0 1 > 0 then (s.1, s.2 + 1)
      else (s.1.setType (_x + _y * s.1.width) WALL, s.2 + 1)) s) s1

/-- The variables of the `while (1)` loop of `GridMaze`: the grid, the position
in the stream of draws, `_cell` and `_cellsToEnd`. -/
structure Carve where
  g : GRID
  k : Nat
  cell : Int
  cellsToEnd : Int
deriving DecidableEq, Repr

/-- The loop over `_attempts` of the `while (1)` loop, looking for an unvisited
neighbour; `n` attempts are left.  The flag tells whether `_attempts == 4` after
the loop. -/
def carveAttempts (rs : Nat → Nat) : Nat → Carve → Int → Int → Carve × Bool
  | 0, s, _, _ => (s, true)
  | n + 1, s, _dir, _turnSide =>
    if s.cellsToEnd > OPEN + 6 ∧ GetRandomValue rs s.k 1 100 ≤ MAZE_CUT_PERCENT then
      ({ s with k := s.k + 1 }, true)
    else
      let s := if s.cellsToEnd > OPEN + 6 then { s with k := s.k + 1 } else s
      let _nextX := (s.g.cellAt s.cell).posX + off4X _dir * 2
      let _nextY := (s.g.cellAt s.cell).posY + off4Y _dir * 2
      let _cellN := s.cell + s.g.ptr4 _dir * 2
      if s.g.inBounds _nextX _nextY ∧ ¬ s.g.typeAt _cellN > UNVISITED then
        let g2 := (s.g.setType _cellN OPEN).setType (s.cell + s.g.ptr4 _dir) OPEN
        let _cellsToEnd := s.cellsToEnd + 2
        if GetRandomValue rs s.k 1 100 ≤ MAZE_ROOM_PERCENT then
          let r := GridMazeRoom rs 1 g2 (s.k + 1) ((g2.cellAt _cellN).posX - off4X _dir * 2)
            ((g2.cellAt _cellN).posY - off4Y _dir * 2) _cellsToEnd
          ({ g := r.1, k := r.2, cell := _cellN, cellsToEnd := _cellsToEnd }, false)
        else
          ({ g := g2, k := s.k + 1, cell := _cellN, cellsToEnd := _cellsToEnd }, false)
      else carveAttempts rs n s (Int.tmod (_dir + _turnSide) 4) _turnSide

/-- The loop over `_dir2` that goes back to an open cell; `n` directions are left. -/
def backtrackScan : Nat → Carve → Int → Carve
  | 0, s, _ => s
  | n + 1, s, _dir2 =>
    let _cellN := s.cell + s.g.ptr4 _dir2
    if s.g.typeAt _cellN ≠ OPEN then backtrackScan n s (_dir2 + 1)
    else
      let g1 := s.g.setType _cellN s.cellsToEnd
      { s with g := g1, cellsToEnd := s.cellsToEnd - 1, cell := _cellN + g1.ptr4 _dir2 }

/-- The branch "not an end yet" of the `while (1)` loop. -/
def backtrack (s : Carve) : Carve :=
  backtrackScan 4
    { s with g := s.g.setType s.cell s.cellsToEnd, cellsToEnd := s.cellsToEnd - 1 } 0

/-- The loop "check visited neighbors" around `_cellT`: the first direction
whose cell two steps away lies in the grid and has a type above `OPEN`, with
that cell; `n` directions are left. -/
def visitedNeighbor (g : GRID) (_cellT : Int) : Nat → Int → Option (Int × Int)
  | 0, _ => none
  | n + 1, _dir2 =>
    let _nextX := (g.cellAt _cellT).posX + off4X _dir2 * 2
    let _nextY := (g.cellAt _cellT).posY + off4Y _dir2 * 2
    if g.inBounds _nextX _nextY ∧ g.typeAt (GETCELL g _nextX _nextY) > OPEN then
      some (_dir2, GETCELL g _nextX _nextY)
    else visitedNeighbor g _cellT n (_dir2 + 1)

/-- The loop over `_x` of "Look for unvisited cells" in row `_y`: the first
unvisited cell with a visited neighbour, as `(_cellT, _dir2, _cellN)`. -/
def unvisitedInRow (g : GRID) (_y : Int) : Nat → Int → Option (Int × Int × Int)
  | 0, _ => none
  | fuel + 1, _x =>
    if _x < g.width then
      let _cellT := GETCELL g _x _y
      if g.typeAt _cellT ≠ UNVISITED then unvisitedInRow g _y fuel (_x + 2)
      else
        match visitedNeighbor g _cellT 4 0 with
        | some (_dir2, _cellN) => some (_cellT, _dir2, _cellN)
        | none => unvisitedInRow g _y fuel (_x + 2)
    else none

/-- The loop over `_y` of "Look for unvisited cells". -/
def unvisitedInGrid (g : GRID) : Nat → Int → Option (Int × Int × Int)
  | 0, _ => none
  | fuel + 1, _y =>
    if _y < g.height then
      match unvisitedInRow g _y g.width.toNat 1 with
      | some r => some r
      | none => unvisitedInGrid g fuel (_y + 2)
    else none

/-- The `while (1)` loop of `GridMaze`; `none` when `fuel` iterations do not
reach its `break`. -/
def carveLoop (rs : Nat → Nat) : Nat → Carve → Option Carve
  | 0, _ => none
  | fuel + 1, s =>
    let _dir := GetRandomValue rs s.k 0 3
    let _turnSide := 1 + GetRandomValue rs (s.k + 1) 0 1 * 2
    let r := carveAttempts rs 4 { s with k := s.k + 2 } _dir _turnSide
    let s1 := r.1
    if r.2 then
      if s1.g.typeAt s1.cell ≠ END ∧ s1.g.typeAt s1.cell ≠ END_TEMP then
        carveLoop rs fuel (backtrack s1)
      else
        let g1 := if s1.g.typeAt s1.cell = END_TEMP then s1.g.setType s1.cell s1.cellsToEnd
          else s1.g
        match unvisitedInGrid g1 g1.height.toNat 1 with
        | some (_cellT, _dir2, _cellN) =>
          let _cellN2 := _cellT + g1.ptr4 _dir2
          let g2 := g1.setType _cellN2 (g1.typeAt _cellN + 1)
          let g3 := g2.setType _cellT END_TEMP
          carveLoop rs fuel
            { g := g3, k := s1.k, cell := _cellT, cellsToEnd := g3.typeAt _cellN2 + 1 }
        | none => some { s1 with g := g1 }
    else carveLoop rs fuel s1

/-- The pass "Connect depth near". -/
def connectNear (rs : Nat → Nat) (s : GRID × Nat) : GRID × Nat :=
  forLoop 3 (s.1.height - 3) 2 (fun (s : GRID × Nat) (_y : Int) =>
    forLoop 3 (s.1.width - 3) 2 (fun (s : GRID × Nat) (_x : Int) =>
      let _cell := GETCELL s.1 _x _y
      if s.1.typeAt _cell < OPEN then s
      else
        forLoop 0 4 1 (fun (s : GRID × Nat) (_dir : Int) =>
          let _cellN := _cell + s.1.ptr4 _dir * 2
          if s.1.typeAt _cellN < OPEN then s
          else if GetRandomValue rs s.2 1 100 ≤ MAZE_NEAR_PERCENT then (s.1, s.2 + 1)
          else if cabs (s.1.typeAt _cellN - s.1.typeAt _cell) < 6 then
            (s.1.setType (_cell + s.1.ptr4 _dir)
              (s.1.typeAt _cell + Int.tdiv (s.1.typeAt _cellN) 2), s.2 + 1)
          else (s.1, s.2 + 1)) s) s) s

/-- The loop over `_dir` of "Remove isolated wall cells": `_cellsToEnd` and `_dir`
when the loop ends; `n` directions are left. -/
def isolatedScan (g : GRID) (_cell : Int) : Nat → Int → Int → Int × Int
  | 0, _cellsToEnd, _dir => (_cellsToEnd, _dir)
  | n + 1, _cellsToEnd, _dir =>
    let _cellN := _cell + g.ptr8 _dir
    if g.typeAt _cellN < START then (_cellsToEnd, _dir)
    else if g.typeAt _cellN ≥ START ∧ g.typeAt _cellN ≤ END then
      if _cellsToEnd < OPEN then isolatedScan g _cell n OPEN (_dir + 1)
      else isolatedScan g _cell n (_cellsToEnd + Int.tdiv _cellsToEnd (_dir + 1)) (_dir + 1)
    else isolatedScan g _cell n (_cellsToEnd + g.typeAt _cellN) (_dir + 1)

/-- The pass "Remove isolated wall cells". -/
def removeIsolated (g : GRID) : GRID :=
  forLoop 2 (g.height - 2) 1 (fun (g : GRID) (_y : Int) =>
    forLoop 2 (g.width - 2) 1 (fun (g : GRID) (_x : Int) =>
      let _cell := GETCELL g _x _y
      if g.typeAt _cell ≠ WALL then g
      else
        let r := isolatedScan g _cell 8 0 0
        if r.2 = 8 then g.setType _cell (Int.tdiv r.1 8) else g) g) g

/-- The body of the loop over `_i` of "Look for start point", before its `break`:
the two columns and the two rows at offset `_i`. -/
def startRing (g : GRID) (_i : Int) (_cellStart : Int) : Int :=
  let s1 := forLoop _i g.width (g.width - (_i + 2)) (fun (_cellStart : Int) (_x : Int) =>
    forLoop _i g.height 2 (fun (_cellStart : Int) (_y : Int) =>
      let _cell := GETCELL g _x _y
      if g.typeAt _cell > g.typeAt _cellStart then _cell else _cellStart) _cellStart) _cellStart
  forLoop _i g.height (g.height - (_i + 2)) (fun (_cellStart : Int) (_y : Int) =>
    forLoop _i g.width 2 (fun (_cellStart : Int) (_x : Int) =>
      let _cell := GETCELL g _x _y
      if g.typeAt _cell > g.typeAt _cellStart then _cell else _cellStart) _cellStart) s1

/-- The loop over `_i` of "Look for start point", from `_cellStart = _grid->cells`.
The test `_cellStart != NULL` holds for every pointer into the cell array, so
the loop breaks at the end of its first iteration. -/
def lookForStart (g : GRID) : Int :=
  let _cellStart : Int := 0
  let _i : Int := 1
  if _i < Int.tdiv g.width 2 then startRing g _i _cellStart else _cellStart

/-- The body of the loops of "count neighbors and identify room centers", for
the cell at `(_x, _y)`. -/
def countCell (g : GRID) (_x _y : Int) : GRID :=
  let _cell := GETCELL g _x _y
  let g1 := g.modifyCell _cell (fun c => { c with neighborCount := 0 })
  if g1.typeAt _cell < START then g1
  else
    let g2 := forLoop 0 8 1 (fun (g : GRID) (_dir : Int) =>
      let _cellN := _cell + g.ptr8 _dir
      if g.typeAt _cellN < START then g
      else g.modifyCell _cell (fun c => { c with neighborCount := c.neighborCount + 1 })) g1
    if (g2.cellAt _cell).neighborCount = 8 then g2.setType _cell ROOMCENTER else g2

/-- The pass "count neighbors and identify room centers". -/
def countNeighbors (g : GRID) : GRID :=
  forLoop 1 (g.height - 1) 1 (fun (g : GRID) (_y : Int) =>
    forLoop 1 (g.width - 1) 1 (fun (g : GRID) (_x : Int) => countCell g _x _y) g) g

/-- Whether one of the first `n` entries of the offset table `ptr`, from `_dir`
on, leads from `_cell` to a cell of type `t` (a loop over `_dir` that breaks at
the first such cell). -/
def anyNeighbor (g : GRID) (ptr : Int → Int) (_cell t : Int) : Nat → Int → Bool
  | 0, _ => false
  | n + 1, _dir =>
    if g.typeAt (_cell + ptr _dir) ≠ t then anyNeighbor g ptr _cell t n (_dir + 1) else true

/-- The pass "identify room borders". -/
def roomBorders (g : GRID) : GRID :=
  forLoop 1 (g.height - 1) 1 (fun (g : GRID) (_y : Int) =>
    forLoop 1 (g.width - 1) 1 (fun (g : GRID) (_x : Int) =>
      let _cell := GETCELL g _x _y
      if g.typeAt _cell < OPEN then g
      else if anyNeighbor g g.ptr8 _cell ROOMCENTER 8 0 then g.setType _cell ROOMBORDER
      else g) g) g

/-- The pass "doors around rooms". -/
def roomDoors (g : GRID) : GRID :=
  forLoop 1 (g.height - 1) 1 (fun (g : GRID) (_y : Int) =>
    forLoop 1 (g.width - 1) 1 (fun (g : GRID) (_x : Int) =>
      let _cell := GETCELL g _x _y
      if g.typeAt _cell < OPEN then g
      else if anyNeighbor g g.ptr4 _cell ROOMBORDER 4 0 then g.setType _cell DOOR
      else g) g) g

/-- The pass "doors on corridor crosses". -/
def crossDoors (g : GRID) : GRID :=
  forLoop 1 (g.height - 1) 1 (fun (g : GRID) (_y : Int) =>
    forLoop 1 (g.width - 1) 1 (fun (g : GRID) (_x : Int) =>
      let _cell := GETCELL g _x _y
      if g.typeAt _cell < OPEN then g
      else
        let r := forLoop 0 4 1 (fun (r : Int × Int) (_dir : Int) =>
          let _cellN := _cell + g.ptr4 _dir
          if g.typeAt _cellN < OPEN then r
          else if g.typeAt _cellN ≥ g.typeAt r.2 then (r.1 + 1, r.2)
          else (r.1 + 1, _cellN)) ((0 : Int), _cell)
        if _cell ≠ r.2 then
          if r.1 > 2 then g.setType r.2 DOOR else g
        else g) g) g

/-- The pass "corridor treasures". -/
def corridorTreasures (rs : Nat → Nat) (s : GRID × Nat) : GRID × Nat :=
  forLoop 1 (s.1.height - 1) 2 (fun (s : GRID × Nat) (_y : Int) =>
    forLoop 1 (s.1.width - 1) 2 (fun (s : GRID × Nat) (_x : Int) =>
      let _cell := GETCELL s.1 _x _y
      if s.1.typeAt _cell < OPEN then s
      else if (s.1.cellAt _cell).neighborCount ≠ 1 then s
      else if GetRandomValue rs s.2 1 100 > MAZE_DEAD_BONUS_PERCENT then (s.1, s.2 + 1)
      else
        let g1 := s.1.setType _cell BONUS
        ({ g1 with bonus := g1.bonus + 1 }, s.2 + 1)) s) s

/-- The pass "room treasures". -/
def roomTreasures (rs : Nat → Nat) (s : GRID × Nat) : GRID × Nat :=
  forLoop 1 (s.1.width - 1) 1 (fun (s : GRID × Nat) (_x : Int) =>
    forLoop 1 (s.1.height - 1) 1 (fun (s : GRID × Nat) (_y : Int) =>
      let _cell := GETCELL s.1 _x _y
      if s.1.typeAt _cell < ROOMCENTER then s
      else if s.1.typeAt _cell > ROOMBORDER then s
      else if GetRandomValue rs s.2 1 100 > MAZE_ROOM_BONUS_PERCENT then (s.1, s.2 + 1)
      else
        let g1 := s.1.setType _cell BONUS
        ({ g1 with bonus := g1.bonus + 1 }, s.2 + 1)) s) s

/-- The statements of `GridMaze` from the wall pattern to the choice of the
ending cell: the state in which the `while (1)` loop starts. -/
def carveStart (rs : Nat → Nat) (g : GRID) (k : Nat) : Carve :=
  let g1 := initOddRows (initEvenRows g)
  let g2 := { g1 with bonus := 0 }
  let s := breakBorder rs (g2, k)
  let _cellEnd := GETCELL s.1 (MAKEODD (GetRandomValue rs s.2 3 (s.1.width - 4)))
    (MAKEODD (GetRandomValue rs (s.2 + 1) 3 (s.1.height - 4)))
  { g := s.1.setType _cellEnd END, k := s.2 + 2, cell := _cellEnd, cellsToEnd := OPEN }

/-- The statements of `GridMaze` after the `while (1)` loop, up to the test of
the bonus counter: the grid, `_cellStart` and the position in the stream. -/
def finishMaze (rs : Nat → Nat) (g : GRID) (k : Nat) : GRID × Int × Nat :=
  let s1 := connectNear rs (g, k)
  let g2 := removeIsolated s1.1
  let _cellStart := lookForStart g2
  let g3 := g2.setType _cellStart START
  let g4 := crossDoors (roomDoors (roomBorders (countNeighbors g3)))
  let s5 := roomTreasures rs (corridorTreasures rs (g4, s1.2))
  (s5.1, _cellStart, s5.2)

/-- One pass through the body of `GridMaze`, up to the test of the bonus counter. -/
def mazeAttempt (rs : Nat → Nat) (fuel : Nat) (g : GRID) (k : Nat) : Option (GRID × Int × Nat) :=
  match carveLoop rs fuel (carveStart rs g k) with
  | none => none
  | some s => some (finishMaze rs s.g s.k)

/-- The function `GridMaze`: the grid on return, the cell returned and the
position in the stream of draws.  `fuel` bounds the iterations of the
`while (1)` loop of each attempt and the number of attempts. -/
def GridMaze (rs : Nat → Nat) : Nat → GRID → Nat → Option (GRID × Int × Nat)
  | 0, _, _ => none
  | fuel + 1, g, k =>
    match mazeAttempt rs (fuel + 1) g k with
    | none => none
    | some r => if r.1.bonus = 0 then GridMaze rs fuel r.1 r.2.2 else some r

/-- The statement `int _bonus = gBonus * 30 / gGrid->bonus;` of `GameLoop`: the
value of `_bonus`, or `none` when the division is a division by zero. -/
def bonusBar (gBonus : Int) (g : GRID) : Option Int :=
  if g.bonus = 0 then none else some (Int.tdiv (gBonus * 30) g.bonus)

/-! ## The visibility flood -/

/-- The body of the loop "flood neighborhood" of `GridFloodVisibility`, for the
direction `_dir`; `visit` is the recursive call at the depth already reduced. -/
def floodNeighbor (visit : GRID → Int → Option GRID) (_cell _depth _timeStamp : Int)
    (g : GRID) (_dir : Nat) : Option GRID :=
  if (g.cellAt (_cell + g.ptr8 _dir)).timeStamp ≠ _timeStamp ∨
      (g.cellAt (_cell + g.ptr8 _dir)).depth < _depth then
    visit g (_cell + g.ptr8 _dir)
  else some g

/-- The assignments `_cell->depth = _depth; _cell->timeStamp = _timeStamp`. -/
def CELL.stamp (_depth _timeStamp : Int) (c : CELL) : CELL :=
  { c with depth := _depth, timeStamp := _timeStamp }

/-- The assignment `_cell->flags |= CFL_INVISIBLE`. -/
def CELL.hide (c : CELL) : CELL := { c with flags := Int.lor c.flags CFL_INVISIBLE }

/-- The assignment `_cell->flags &= ~CFL_INVISIBLE`. -/
def CELL.unhide (c : CELL) : CELL :=
  { c with flags := Int.land c.flags (Int.not CFL_INVISIBLE) }

/-- The function `GridFloodVisibility`; `none` when the recursion is more than
`fuel` calls deep. -/
def GridFloodVisibility : Nat → GRID → Int → Int → Int → Option GRID
  | 0, _, _, _, _ => none
  | fuel + 1, g, _cell, _depth, _timeStamp =>
    let g1 := g.modifyCell _cell (CELL.stamp _depth _timeStamp)
    if (g1.cellAt _cell).depth < 0 then some (g1.modifyCell _cell CELL.hide)
    else
      let _depth := _depth - (5 - Int.tdiv (g1.cellAt _cell).neighborCount 2)
      let g2 := g1.modifyCell _cell CELL.unhide
      if g2.typeAt _cell ≤ WALL ∨ g2.typeAt _cell = DOOR then some g2
      else
        (List.range 8).foldlM (floodNeighbor
          (fun g _cellT => GridFloodVisibility fuel g _cellT _depth _timeStamp)
          _cell _depth _timeStamp) g2

/-! ## Predicates used in the statements -/

/-- The index `i` lies inside the cell array. -/
def GRID.inb (g : GRID) (i : Int) : Prop := 0 ≤ i ∧ i < (g.cells.length : Int)

instance (g : GRID) (i : Int) : Decidable (g.inb i) := by
  unfold GRID.inb; infer_instance

/-- The coordinates `(x, y)` lie inside the grid. -/
def GRID.InGrid (g : GRID) (x y : Int) : Prop := 0 ≤ x ∧ x < g.width ∧ 0 ≤ y ∧ y < g.height

/-- The coordinates `(x, y)` are those of an interior cell, one off the border. -/
def GRID.Inner (g : GRID) (x y : Int) : Prop :=
  1 ≤ x ∧ x ≤ g.width - 2 ∧ 1 ≤ y ∧ y ≤ g.height - 2

instance (g : GRID) (x y : Int) : Decidable (g.InGrid x y) := by
  unfold GRID.InGrid; infer_instance

instance (g : GRID) (x y : Int) : Decidable (g.Inner x y) := by
  unfold GRID.Inner; infer_instance

/-- The grid has the layout `GridCreate` gives it: dimensions of at least 3, one
cell per position, each holding its index and its coordinates, and the two
tables of pointer offsets. -/
def GRID.Shaped (g : GRID) : Prop :=
  3 ≤ g.width ∧ 3 ≤ g.height ∧ g.size = g.width * g.height ∧
  (g.cells.length : Int) = g.width * g.height ∧
  g.ptrOffsets4 = (List.range 4).map (fun (d : Nat) => off4X d + off4Y d * g.width) ∧
  g.ptrOffsets8 = (List.range 8).map (fun (d : Nat) => off8X d + off8Y d * g.width) ∧
  ∀ x y, g.InGrid x y →
    (g.cellAt (GETCELL g x y)).index = GETCELL g x y ∧
    (g.cellAt (GETCELL g x y)).posX = x ∧ (g.cellAt (GETCELL g x y)).posY = y

/-- The grids agree on everything the flood leaves alone: the dimensions, the
offset tables, the bonus counter and, cell by cell, the index, the
coordinates, the type and the neighbour count. -/
def GRID.SameMaze (g g' : GRID) : Prop :=
  g'.width = g.width ∧ g'.height = g.height ∧ g'.size = g.size ∧ g'.bonus = g.bonus ∧
  g'.ptrOffsets4 = g.ptrOffsets4 ∧ g'.ptrOffsets8 = g.ptrOffsets8 ∧
  g'.cells.length = g.cells.length ∧
  ∀ i, (g'.cellAt i).index = (g.cellAt i).index ∧ (g'.cellAt i).posX = (g.cellAt i).posX ∧
    (g'.cellAt i).posY = (g.cellAt i).posY ∧ (g'.cellAt i).type = (g.cellAt i).type ∧
    (g'.cellAt i).neighborCount = (g.cellAt i).neighborCount

/-- The flood goes on from the cell behind `i`: it is neither a wall (or an
unvisited cell) nor a door. -/
def GRID.Propagates (g : GRID) (i : Int) : Prop := ¬ (g.typeAt i ≤ WALL ∨ g.typeAt i = DOOR)

/-- Every interior cell from which the flood goes on has a neighbour count of at
most 8, and the flood goes on from none of its neighbours on the border. -/
def GRID.FloodSafe (g : GRID) : Prop :=
  ∀ x y, g.Inner x y → g.Propagates (GETCELL g x y) →
    (g.cellAt (GETCELL g x y)).neighborCount ≤ 8 ∧
    ∀ d : Nat, d < 8 → g.Propagates (GETCELL g (x + off8X d) (y + off8Y d)) →
      g.Inner (x + off8X d) (y + off8Y d)

/-- The cell carries the invisible flag. -/
def CELL.invisible (c : CELL) : Prop := Int.land c.flags CFL_INVISIBLE = CFL_INVISIBLE

/-- The Chebyshev distance between two positions. -/
def chebyshev (x1 y1 x2 y2 : Int) : Int := max (cabs (x1 - x2)) (cabs (y1 - y2))

/-- The number of cells of type `t`. -/
def GRID.countType (g : GRID) (t : Int) : Nat := (g.cells.filter (fun c => c.type = t)).length

/-- The cell behind `j` carries the pass id `ts` and a depth of at least `e`: the
flood of that pass leaves it out when it arrives with the depth `e`. -/
def GRID.Stamped (g : GRID) (ts j e : Int) : Prop :=
  (g.cellAt j).timeStamp = ts ∧ e ≤ (g.cellAt j).depth

instance (g : GRID) (i : Int) : Decidable (g.Propagates i) := by
  unfold GRID.Propagates; infer_instance

instance (c : CELL) : Decidable c.invisible := by
  unfold CELL.invisible; infer_instance

/-- A grid of 7 by 7 unvisited cells in which the cell (6, 3), on the right
border, is an open corridor cell with no neighbour counted. -/
def borderGrid : GRID := (GridCreate 7 7 (fun _ => 0)).setType 27 OPEN

/-- A grid of 7 by 7 unvisited cells in which the cell (3, 3), in the middle, is
an open corridor cell with no neighbour counted. -/
def centerGrid : GRID := (GridCreate 7 7 (fun _ => 0)).setType 24 OPEN

/-- A grid of 7 by 7 unvisited cells whose first cell is a wall. -/
def cornerGrid : GRID := (GridCreate 7 7 (fun _ => 0)).setType 0 WALL

/-- The grid `borderGrid` after the flood from (6, 3) with depth 5 and pass id 1. -/
def borderFlooded : GRID :=
  (GridFloodVisibility 2 borderGrid (GETCELL borderGrid 6 3) 5 1).getD borderGrid

/-- The values the loop variable of `for (i = start; i < limit; i += step)` takes,
in order; `fuel` bounds their number. -/
def loopIndices : Nat → Int → Int → Int → List Int
  | 0, _, _, _ => []
  | fuel + 1, i, limit, step =>
    if i < limit then i :: loopIndices fuel (i + step) limit step else []

/-- The grid is one `GridMaze` works on: it has the shape `GridCreate` gives it,
with odd dimensions of at least 7. -/
def GRID.Frame (g : GRID) : Prop :=
  g.Shaped ∧ g.width % 2 = 1 ∧ g.height % 2 = 1 ∧ 7 ≤ g.width ∧ 7 ≤ g.height

/-- The type of the cell at the position `(x, y)`. -/
def GRID.ty (g : GRID) (x y : Int) : Int := g.typeAt (GETCELL g x y)

/-- The grids differ at most in the types of their cells. -/
def GRID.SameButTypes (g g' : GRID) : Prop :=
  g'.width = g.width ∧ g'.height = g.height ∧ g'.size = g.size ∧ g'.bonus = g.bonus ∧
  g'.ptrOffsets4 = g.ptrOffsets4 ∧ g'.ptrOffsets8 = g.ptrOffsets8 ∧
  g'.cells.length = g.cells.length ∧
  ∀ i, g'.cellAt i = { g.cellAt i with type := (g'.cellAt i).type }

/-- Every cell on the border of the grid is a wall. -/
def GRID.BorderWall (g : GRID) : Prop :=
  ∀ x y, g.InGrid x y → ¬ g.Inner x y → g.ty x y = WALL

/-- Both coordinates are odd. -/
def OddPos (p : Int × Int) : Prop := p.1 % 2 = 1 ∧ p.2 % 2 = 1

/-- The position between two positions that lie two cells apart. -/
def midPos (p q : Int × Int) : Int × Int := ((p.1 + q.1) / 2, (p.2 + q.2) / 2)

/-- The positions `p` and `q` lie two cells apart in one of the four directions. -/
def TwoApart (p q : Int × Int) : Prop :=
  (p.2 = q.2 ∧ (p.1 = q.1 + 2 ∨ p.1 = q.1 - 2)) ∨ (p.1 = q.1 ∧ (p.2 = q.2 + 2 ∨ p.2 = q.2 - 2))

/-- The path of the primary carve, from the current cell back to the cell it
started from: every cell but the last is `OPEN` and lies two cells from the
next, the cell between them is `OPEN`, and the last cell, the root, is an end
marker. -/
def GRID.ChainOK (g : GRID) : List (Int × Int) → Prop
  | [] => False
  | [r] => OddPos r ∧ g.Inner r.1 r.2 ∧ (g.ty r.1 r.2 = END ∨ g.ty r.1 r.2 = END_TEMP)
  | p :: q :: rest =>
    OddPos p ∧ g.Inner p.1 p.2 ∧ g.ty p.1 p.2 = OPEN ∧ TwoApart p q ∧
      g.ty (midPos p q).1 (midPos p q).2 = OPEN ∧ g.ChainOK (q :: rest)

/-- The positions of the `OPEN` cells of a path: its cells but the root, and the
cells between them. -/
def chainOpen : List (Int × Int) → List (Int × Int)
  | [] => []
  | [_] => []
  | p :: q :: rest => p :: midPos p q :: chainOpen (q :: rest)

/-- The invariant of the `while (1)` loop of `GridMaze`, for the path `chain`
from the current cell back to the root, the position `e` of the ending cell
and the value `c0` of the depth counter at the root. -/
structure CarveInv (s : Carve) (chain : List (Int × Int)) (e : Int × Int) (c0 : Int) : Prop where
  frame : s.g.Frame
  border : s.g.BorderWall
  census : ∀ i, s.g.typeAt i = UNVISITED ∨ s.g.typeAt i = WALL ∨ s.g.typeAt i = END_TEMP ∨
    s.g.typeAt i = END ∨ OPEN ≤ s.g.typeAt i
  cursor : ∃ p, chain.head? = some p ∧ s.cell = GETCELL s.g p.1 p.2
  chainOK : s.g.ChainOK chain
  nodup : chain.Nodup
  opens : ∀ x y, s.g.InGrid x y → s.g.ty x y = OPEN → (x, y) ∈ chainOpen chain
  temp : ∀ x y, s.g.InGrid x y → s.g.ty x y = END_TEMP → chain.getLast? = some (x, y)
  ending : OddPos e ∧ 3 ≤ e.1 ∧ e.1 ≤ s.g.width - 4 ∧ 3 ≤ e.2 ∧ e.2 ≤ s.g.height - 4 ∧
    ∀ x y, s.g.InGrid x y → (s.g.ty x y = END ↔ (x, y) = e)
  counter : s.cellsToEnd = c0 + 2 * ((chain.length : Int) - 1) ∧ OPEN ≤ c0 ∧
    (chain.getLast? ≠ some e → 13 ≤ c0)
  bonus : s.g.bonus = 0

/-- The state of the grid when the `while (1)` loop of `GridMaze` has ended:
walls on the border, one ending cell at the position `e`, otherwise unvisited
cells, walls and depth tags above `OPEN`, and a bonus counter of 0. -/
structure Carved (g : GRID) (e : Int × Int) : Prop where
  frame : g.Frame
  border : g.BorderWall
  census : ∀ i, g.typeAt i = UNVISITED ∨ g.typeAt i = WALL ∨ g.typeAt i = END ∨
    OPEN + 1 ≤ g.typeAt i
  ending : OddPos e ∧ 3 ≤ e.1 ∧ e.1 ≤ g.width - 4 ∧ 3 ≤ e.2 ∧ e.2 ≤ g.height - 4 ∧
    ∀ x y, g.InGrid x y → (g.ty x y = END ↔ (x, y) = e)
  bonus : g.bonus = 0

/-- What `GridMazeRoom` with a depth tag of at least 14 does to a grid: it
changes types only, gives only depth tags of at least 14, and only to
interior cells that were unvisited or walls and to cells that had a depth tag
of at least 12. -/
def GRID.Retagged (g g' : GRID) : Prop :=
  g.SameButTypes g' ∧
  ∀ i, g'.typeAt i = g.typeAt i ∨
    (14 ≤ g'.typeAt i ∧
      (12 ≤ g.typeAt i ∨ (g.typeAt i ≤ START ∧ ∃ x y, g.Inner x y ∧ i = GETCELL g x y)))

/-- The grids have the same layout: the dimensions, the offset tables and, cell
by cell, the index and the coordinates. -/
def GRID.SameLayout (g g' : GRID) : Prop :=
  g'.width = g.width ∧ g'.height = g.height ∧ g'.size = g.size ∧
  g'.ptrOffsets4 = g.ptrOffsets4 ∧ g'.ptrOffsets8 = g.ptrOffsets8 ∧
  g'.cells.length = g.cells.length ∧
  ∀ i, (g'.cellAt i).index = (g.cellAt i).index ∧ (g'.cellAt i).posX = (g.cellAt i).posX ∧
    (g'.cellAt i).posY = (g.cellAt i).posY

/-- The wall pattern `GridMaze` starts from: unvisited cells at the odd
positions, walls elsewhere. -/
def GRID.Pattern (g : GRID) : Prop :=
  ∀ x y, g.InGrid x y →
    g.ty x y = if x % 2 = 1 ∧ y % 2 = 1 then UNVISITED else WALL

/-- The state of the grid in the passes between the carve and the choice of the
start: as after the carve, but with walls replaced by averages of depth tags,
which can be as low as `OPEN`; a cell of type `OPEN` has no wall around it. -/
structure Settled (g : GRID) (e : Int × Int) : Prop where
  frame : g.Frame
  border : g.BorderWall
  census : ∀ i, g.typeAt i = UNVISITED ∨ g.typeAt i = WALL ∨ g.typeAt i = END ∨
    OPEN ≤ g.typeAt i
  low : ∀ x y, g.InGrid x y → g.ty x y = OPEN →
    ∀ d : Int, 0 ≤ d → d < 8 → g.ty (x + off8X d) (y + off8Y d) ≠ WALL
  ending : OddPos e ∧ 3 ≤ e.1 ∧ e.1 ≤ g.width - 4 ∧ 3 ≤ e.2 ∧ e.2 ≤ g.height - 4 ∧
    ∀ x y, g.InGrid x y → (g.ty x y = END ↔ (x, y) = e)
  bonus : g.bonus = 0

/-- The border of the grid is made of walls, but for the first cell when it is
the start; in that case the cell (1, 1) is not navigable. -/
def GRID.Bordered (g : GRID) (start : Int) : Prop :=
  ∀ x y, g.InGrid x y → ¬ g.Inner x y →
    g.ty x y = WALL ∨ (x = 0 ∧ y = 0 ∧ start = 0 ∧ g.ty 1 1 ≤ WALL)

/-- The state of the grid in the passes between the choice of the start and the
treasures: the cell `start` is the one cell of type `START`, it is the first
cell of the grid or a cell one off the border, the border is made of walls
(but for the first cell, when it is the start), no cell is a temporary end
marker and no bonus is placed. -/
structure Started (g : GRID) (start : Int) : Prop where
  frame : g.Frame
  border : g.Bordered start
  place : start = 0 ∨ ∃ x y, g.Inner x y ∧
    (x = 1 ∨ x = g.width - 2 ∨ y = 1 ∨ y = g.height - 2) ∧ start = GETCELL g x y
  isStart : g.typeAt start = START
  only : ∀ i, g.typeAt i = START → i = start
  oneStart : g.countType START = 1
  noBonus : g.countType BONUS = 0 ∧ g.bonus = 0
  noTemp : ∀ i, g.typeAt i ≠ END_TEMP

/-- Every interior cell has a neighbour count of at most 8. -/
def GRID.Counted (g : GRID) : Prop :=
  ∀ x y, g.Inner x y → (g.cellAt (GETCELL g x y)).neighborCount ≤ 8

/-- The state of the grid when `GridMaze` has placed the treasures. -/
structure Finished (g : GRID) (start : Int) : Prop where
  frame : g.Frame
  border : g.Bordered start
  isStart : g.typeAt start = START
  only : ∀ i, g.typeAt i = START → i = start
  oneStart : g.countType START = 1
  bonus : (g.countType BONUS : Int) = g.bonus
  noTemp : ∀ i, g.typeAt i ≠ END_TEMP
  counts : g.Counted

/-- A stream of draws: the draw number `n` is `n`. -/
def countingDraws : Nat → Nat := fun n => n

/-- A stream of draws that are all 0. -/
def zeroDraws : Nat → Nat := fun _ => 0

/-- What `GridMaze` returns on the grid `GridCreate(7, 7)` with the draws
`countingDraws`: the grid, the cell returned and the number of draws. -/
def sampleMaze : GRID × Int × Nat :=
  (GridMaze countingDraws 100 (GridCreate 7 7 (fun _ => 0)) 0).getD
    (GridCreate 7 7 (fun _ => 0), 0, 0)

/-- What `GridMaze` returns on the grid `GridCreate(9, 9)` with the draws
`zeroDraws`. -/
def cornerMaze : GRID × Int × Nat :=
  (GridMaze zeroDraws 100 (GridCreate 9 9 (fun _ => 0)) 0).getD
    (GridCreate 9 9 (fun _ => 0), 0, 0)

/-! ## Sample grids of the passes -/

/-- A grid of 7 by 7 cells with the wall pattern `GridMaze` starts from, in
which the cell (3, 3) carries the depth tag 12 and the cell (1, 5) the depth
tag 15. -/
def stitchGrid : GRID :=
  ((initOddRows (initEvenRows (GridCreate 7 7 (fun _ => 0)))).setType 24 12).setType 36 15

/-- The grid `stitchGrid` after the call `GridMazeRoom(grid, 3, 3, 14, 0)`, with
the draws `countingDraws`. -/
def stitchedRoom : GRID := (GridMazeRoom countingDraws 0 stitchGrid 0 3 3 14).1

/-! ## The bodies of the loops of three passes -/

/-- The body of the loop over `_dir` of "Connect depth near", for the cell
behind `_cell`. -/
def connectStep (rs : Nat → Nat) (_cell : Int) (s : GRID × Nat) (_dir : Int) : GRID × Nat :=
  let _cellN := _cell + s.1.ptr4 _dir * 2
  if s.1.typeAt _cellN < OPEN then s
  else if GetRandomValue rs s.2 1 100 ≤ MAZE_NEAR_PERCENT then (s.1, s.2 + 1)
  else if cabs (s.1.typeAt _cellN - s.1.typeAt _cell) < 6 then
    (s.1.setType (_cell + s.1.ptr4 _dir)
      (s.1.typeAt _cell + Int.tdiv (s.1.typeAt _cellN) 2), s.2 + 1)
  else (s.1, s.2 + 1)

/-- The body of the loops of "Remove isolated wall cells", for the cell at
`(_x, _y)`. -/
def isolatedCell (g : GRID) (_x _y : Int) : GRID :=
  let _cell := GETCELL g _x _y
  if g.typeAt _cell ≠ WALL then g
  else
    let r := isolatedScan g _cell 8 0 0
    if r.2 = 8 then g.setType _cell (Int.tdiv r.1 8) else g

/-- The loop over `_dir` of "doors on corridor crosses" around the cell behind
`_cell`: `_count` and `_cellCheapest` when the loop ends. -/
def crossScan (g : GRID) (_cell : Int) : Int × Int :=
  forLoop 0 4 1 (fun (r : Int × Int) (_dir : Int) =>
    let _cellN := _cell + g.ptr4 _dir
    if g.typeAt _cellN < OPEN then r
    else if g.typeAt _cellN ≥ g.typeAt r.2 then (r.1 + 1, r.2)
    else (r.1 + 1, _cellN)) ((0 : Int), _cell)

/-- The body of the loops of "doors on corridor crosses", for the cell at
`(_x, _y)`. -/
def crossCell (g : GRID) (_x _y : Int) : GRID :=
  let _cell := GETCELL g _x _y
  if g.typeAt _cell < OPEN then g
  else
    let r := crossScan g _cell
    if _cell ≠ r.2 then
      if r.1 > 2 then g.setType r.2 DOOR else g
    else g

/-- The types of the cells the first `n` entries of `offsets8` lead to from
`(x, y)`. -/
def GRID.around8 (g : GRID) (x y : Int) (n : Nat) : List Int :=
  (List.range n).map (fun (d : Nat) => g.ty (x + off8X d) (y + off8Y d))

/-- The types of the cells the first `n` entries of `offsets4` lead to from
`(x, y)`. -/
def GRID.around4 (g : GRID) (x y : Int) (n : Nat) : List Int :=
  (List.range n).map (fun (d : Nat) => g.ty (x + off4X d) (y + off4Y d))

/-- A stream of draws that are all 50. -/
def fiftyDraws : Nat → Nat := fun _ => 50

/-- A grid of 7 by 7 cells with the wall pattern, in which the cell (3, 3)
carries the depth tag 11 and the cell (5, 3) the depth tag 13. -/
def nearGrid : GRID :=
  ((initOddRows (initEvenRows (GridCreate 7 7 (fun _ => 0)))).setType 24 11).setType 26 13

/-- A grid of 7 by 7 cells with the wall pattern, in which the cell (3, 3)
carries the depth tag 11 and the cells (4, 3), (3, 2) and (2, 3) beside it
the depth tag 12. -/
def crossGrid : GRID :=
  ((((initOddRows (initEvenRows (GridCreate 7 7 (fun _ => 0)))).setType 24 11).setType 25
    12).setType 17 12).setType 23 12

/-- A grid of 7 by 7 unvisited cells in which the cell (2, 2) is a wall and its
eight neighbours carry the depth tags 11, 12, 13, 14, 15, 16, 17 and 19, in the
order of `offsets8`. -/
def isolatedGrid : GRID :=
  (((((((((GridCreate 7 7 (fun _ => 0)).setType 16 WALL).setType 17 11).setType 10 12).setType 9
    13).setType 8 14).setType 15 15).setType 22 16).setType 23 17).setType 24 19

/-- A grid of 7 by 7 cells with the wall pattern, in which the cell (3, 3)
carries the depth tag 13, the cell (4, 3) the depth tag 12 and the cells
(3, 2) and (2, 3) the depth tag 14. -/
def doorGrid : GRID :=
  ((((initOddRows (initEvenRows (GridCreate 7 7 (fun _ => 0)))).setType 24 13).setType 25
    12).setType 17 14).setType 23 14

/-! ## The iterations of the `while (1)` loop -/

/-- The loop over `_attempts` of the iteration of the `while (1)` loop that
starts with the variables `s`, after the two draws for `_dir` and `_turnSide`:
the variables after it, and the flag `_attempts == 4`. -/
def carveTry (rs : Nat → Nat) (s : Carve) : Carve × Bool :=
  carveAttempts rs 4 { s with k := s.k + 2 } (GetRandomValue rs s.k 0 3)
    (1 + GetRandomValue rs (s.k + 1) 0 1 * 2)

/-- The statement `if (_cell->type == END_TEMP) _cell->type = _cellsToEnd;` of
the branch "end reached". -/
def endGrid (s : Carve) : GRID :=
  if s.g.typeAt s.cell = END_TEMP then s.g.setType s.cell s.cellsToEnd else s.g

/-- One iteration of the `while (1)` loop of `GridMaze`: the variables after
it, and whether it left the loop through the `break` of "Look for unvisited
cells". -/
def carveNext (rs : Nat → Nat) (s : Carve) : Carve × Bool :=
  let s1 := (carveTry rs s).1
  if (carveTry rs s).2 then
    if s1.g.typeAt s1.cell ≠ END ∧ s1.g.typeAt s1.cell ≠ END_TEMP then (backtrack s1, false)
    else
      let g1 := endGrid s1
      match unvisitedInGrid g1 g1.height.toNat 1 with
      | some (_cellT, _dir2, _cellN) =>
        let _cellN2 := _cellT + g1.ptr4 _dir2
        let g2 := g1.setType _cellN2 (g1.typeAt _cellN + 1)
        let g3 := g2.setType _cellT END_TEMP
        ({ g := g3, k := s1.k, cell := _cellT, cellsToEnd := g3.typeAt _cellN2 + 1 }, false)
      | none => ({ s1 with g := g1 }, true)
  else (s1, false)

/-- The variables of the `while (1)` loop after `n` iterations. -/
def carveIter (rs : Nat → Nat) : Nat → Carve → Carve
  | 0, s => s
  | n + 1, s => carveIter rs n (carveNext rs s).1

/-- The `while (1)` loop is still running after `n` iterations: none of them
left it. -/
def carveRuns (rs : Nat → Nat) : Nat → Carve → Prop
  | 0, _ => True
  | n + 1, s => (carveNext rs s).2 = false ∧ carveRuns rs n (carveNext rs s).1

instance carveRunsDecidable (rs : Nat → Nat) : ∀ (n : Nat) (s : Carve), Decidable (carveRuns rs n s)
  | 0, _ => isTrue trivial
  | n + 1, s =>
    have := carveRunsDecidable rs n (carveNext rs s).1
    inferInstanceAs (Decidable ((carveNext rs s).2 = false ∧ carveRuns rs n (carveNext rs s).1))

/-- The iteration of the `while (1)` loop that starts with the variables `s`
carves an unvisited cell: the cell two steps from `_cell` in a direction `d`
is unvisited, it becomes `_cell`, and that cell and the cell between are
`OPEN` after the iteration. -/
def CarvesCell (rs : Nat → Nat) (s : Carve) : Prop :=
  ∃ d : Int, 0 ≤ d ∧ d ≤ 3 ∧ s.g.typeAt (s.cell + s.g.ptr4 d * 2) = UNVISITED ∧
    (carveNext rs s).1.cell = s.cell + s.g.ptr4 d * 2 ∧
    (carveNext rs s).1.g.typeAt (s.cell + s.g.ptr4 d * 2) = OPEN ∧
    (carveNext rs s).1.g.typeAt (s.cell + s.g.ptr4 d) = OPEN

/-- The iteration of the `while (1)` loop that starts with the variables `s`
retreats one step along the chain of `OPEN` cells: `_cell` is `OPEN`, so is
the cell one step from it in a direction `d`, and the cell two steps away in
that direction becomes `_cell`. -/
def Retreats (rs : Nat → Nat) (s : Carve) : Prop :=
  ∃ d : Int, 0 ≤ d ∧ d ≤ 3 ∧ s.g.typeAt s.cell = OPEN ∧
    s.g.typeAt (s.cell + s.g.ptr4 d) = OPEN ∧
    (carveNext rs s).1.cell = s.cell + s.g.ptr4 d * 2

/-- The iteration of the `while (1)` loop that starts with the variables `s`
starts a new path: `_cell` is an end marker, and an unvisited cell becomes
`_cell`, with the type `END_TEMP`. -/
def StartsPath (rs : Nat → Nat) (s : Carve) : Prop :=
  (s.g.typeAt s.cell = END ∨ s.g.typeAt s.cell = END_TEMP) ∧
    s.g.typeAt (carveNext rs s).1.cell = UNVISITED ∧
    (carveNext rs s).1.g.typeAt (carveNext rs s).1.cell = END_TEMP

/-- The variables with which the `while (1)` loop starts on the grid
`GridCreate(7, 7)` with the draws `countingDraws`. -/
def sampleStart : Carve := carveStart countingDraws (GridCreate 7 7 (fun _ => 0)) 0

/-! ## The count of navigable neighbours -/

/-- The number of cells of type `START` or more among the eight cells around
`(x, y)`. -/
def GRID.navCount (g : GRID) (x y : Int) : Nat :=
  ((g.around8 x y 8).filter (fun t => START ≤ t)).length

/-- The grids have the same layout, the same navigable cells and, cell by cell,
the same neighbour count. -/
def GRID.NavKept (g g' : GRID) : Prop :=
  g.SameLayout g' ∧ ∀ i, (START ≤ g'.typeAt i ↔ START ≤ g.typeAt i) ∧
    (g'.cellAt i).neighborCount = (g.cellAt i).neighborCount

/-- The passes of `GridMaze` that follow "count neighbors and identify room
centers": room borders, doors around rooms, doors on corridor crosses,
corridor treasures and room treasures. -/
def laterPasses (rs : Nat → Nat) (s : GRID × Nat) : GRID × Nat :=
  roomTreasures rs (corridorTreasures rs (crossDoors (roomDoors (roomBorders s.1)), s.2))

/-! ## The cells the generator dereferences

For each part of `GridMaze` and `GridMazeRoom`, the list of the indices
`p - grid->cells` of the pointers `p` it reads or writes through.  A loop over
neighbours that breaks at the first match is listed with all its directions. -/

/-- The values the loop variable of `for (i = start; i < limit; i += step)`
takes. -/
def loopCells (start limit step : Int) : List Int :=
  loopIndices (limit - start).toNat start limit step

/-- The values the loop variable of `for (i = start; i != last; i += step)`
takes; `fuel` bounds their number. -/
def neIndices : Nat → Int → Int → Int → List Int
  | 0, _, _, _ => []
  | fuel + 1, i, last, step => if i ≠ last then i :: neIndices fuel (i + step) last step else []

/-- The two loops at the start of `GridMaze`: the pointers `_sX.c`. -/
def initAcc (g : GRID) : List Int :=
  (loopCells 0 g.size (g.width * 2)).flatMap (fun _sY => loopCells _sY (_sY + g.width) 1) ++
  (loopCells g.width g.size (g.width * 2)).flatMap (fun _sY => loopCells _sY (_sY + g.width) 1)

/-- The loops that disable cells beside the border: the cells
`_grid->cells[_x + _y * _grid->width]`, listed whatever the draw. -/
def breakBorderAcc (g : GRID) : List Int :=
  (loopCells 1 g.width (g.width - 3)).flatMap (fun _x =>
    (loopCells 1 g.height 2).map (fun _y => _x + _y * g.width)) ++
  (loopCells 1 g.height (g.height - 3)).flatMap (fun _y =>
    (loopCells 1 g.width 2).map (fun _x => _x + _y * g.width))

/-- The statements of `GridMaze` before the `while (1)` loop; the last cell is
`_cellEnd`. -/
def carveStartAcc (rs : Nat → Nat) (g : GRID) (k : Nat) : List Int :=
  initAcc g ++ breakBorderAcc g ++ [(carveStart rs g k).cell]

/-- The loop over `_dir2` of `GridMazeRoom` around `(_x, _y)`: the cells
`_cellN4`, which are read when the bounds checks pass. -/
def roomStitchAcc (g : GRID) (_x _y : Int) : List Int :=
  (List.range 4).flatMap (fun (_dir2 : Nat) =>
    if g.inBounds (_x + off4X _dir2 * 2) (_y + off4Y _dir2 * 2) then
      [GETCELL g (_x + off4X _dir2 * 2) (_y + off4Y _dir2 * 2)]
    else [])

/-- The two nested loops of `GridMazeRoom` that set the rectangle as walkable:
each cell `_cellT` and, listed also for a cell the loop skips, the cells of
the loop over `_dir2`. -/
def roomFillAcc (g : GRID) (_posX _posY _xLast _yLast _stepX _stepY : Int) : List Int :=
  (neIndices 3 _posX _xLast _stepX).flatMap (fun _x =>
    (neIndices 3 _posY _yLast _stepY).flatMap (fun _y =>
      GETCELL g _x _y :: roomStitchAcc g _x _y))

/-- The loop over `_attempts` of `GridMazeRoom`: the corners `_cellN1`,
`_cellN2` and `_cellN3`, each read when the checks before it pass, then the
rectangle and the recursive call `deeperAcc`. -/
def roomAttemptsAcc (rs : Nat → Nat)
    (deeperAcc : Option (GRID → Nat → Int → Int → Int → List Int)) :
    Nat → GRID → Nat → Int → Int → Int → Int → Int → List Int
  | 0, _, _, _, _, _, _, _ => []
  | n + 1, g, k, _posX, _posY, _cellsToEnd, _dir, _turnSide =>
    let _nextX := _posX + off4X _dir * 2
    let _nextY := _posY + off4Y _dir * 2
    let _dir2 := Int.tmod (_dir + _turnSide) 4
    let _nextX2 := _posX + off4X _dir2 * 2
    let _nextY2 := _posY + off4Y _dir2 * 2
    let _nextX3 := _posX + (off4X _dir + off4X _dir2) * 2
    let _nextY3 := _posY + (off4Y _dir + off4Y _dir2) * 2
    (if g.inBounds _nextX _nextY then [GETCELL g _nextX _nextY] else []) ++
    (if (g.inBounds _nextX _nextY ∧ ¬ g.typeAt (GETCELL g _nextX _nextY) > UNVISITED) ∧
        g.inBounds _nextX2 _nextY2 then [GETCELL g _nextX2 _nextY2] else []) ++
    (if (g.inBounds _nextX _nextY ∧ ¬ g.typeAt (GETCELL g _nextX _nextY) > UNVISITED) ∧
        (g.inBounds _nextX2 _nextY2 ∧ ¬ g.typeAt (GETCELL g _nextX2 _nextY2) > UNVISITED) ∧
        g.inBounds _nextX3 _nextY3 then [GETCELL g _nextX3 _nextY3] else []) ++
    if (g.inBounds _nextX _nextY ∧ ¬ g.typeAt (GETCELL g _nextX _nextY) > UNVISITED) ∧
        (g.inBounds _nextX2 _nextY2 ∧ ¬ g.typeAt (GETCELL g _nextX2 _nextY2) > UNVISITED) ∧
        (g.inBounds _nextX3 _nextY3 ∧ ¬ g.typeAt (GETCELL g _nextX3 _nextY3) > UNVISITED) then
      let _xLast := _posX + (off4X _dir + off4X _dir2) * 3
      let _yLast := _posY + (off4Y _dir + off4Y _dir2) * 3
      let _stepX := Int.tdiv (_nextX3 - _posX) (cabs (_nextX3 - _posX))
      let _stepY := Int.tdiv (_nextY3 - _posY) (cabs (_nextY3 - _posY))
      let g1 := roomFill _posX _posY _xLast _yLast _stepX _stepY _cellsToEnd g
      roomFillAcc g _posX _posY _xLast _yLast _stepX _stepY ++
      match deeperAcc with
      | none => []
      | some roomAcc =>
        let _cellsToEnd := _cellsToEnd + 4
        let _room := GetRandomValue rs k 0 2
        if _room = 0 then roomAcc g1 (k + 1) _nextX _nextY _cellsToEnd
        else if _room = 1 then roomAcc g1 (k + 1) _nextX2 _nextY2 _cellsToEnd
        else if _room = 2 then roomAcc g1 (k + 1) _nextX3 _nextY3 _cellsToEnd
        else []
    else
      roomAttemptsAcc rs deeperAcc n g k _posX _posY _cellsToEnd (Int.tmod (_dir + _turnSide) 4)
        _turnSide

/-- One call of `GridMazeRoom`: the cell `_cell` at `(_posX, _posY)`, then the
loop over `_attempts`. -/
def roomBodyAcc (rs : Nat → Nat)
    (deeperAcc : Option (GRID → Nat → Int → Int → Int → List Int))
    (g : GRID) (k : Nat) (_posX _posY _cellsToEnd : Int) : List Int :=
  let _cell := GETCELL g _posX _posY
  _cell ::
    if g.typeAt _cell = END then [] else
    if g.typeAt _cell = END_TEMP then [] else
    let _dir := GetRandomValue rs k 0 3
    let _turnSide := 1 + GetRandomValue rs (k + 1) 0 1 * 2
    roomAttemptsAcc rs deeperAcc 4 g (k + 2) _posX _posY _cellsToEnd _dir _turnSide

/-- The cells a call of `GridMazeRoom` dereferences; `_count` comes first. -/
def GridMazeRoomAcc (rs : Nat → Nat) : Nat → GRID → Nat → Int → Int → Int → List Int
  | 0, g, k, _posX, _posY, _cellsToEnd => roomBodyAcc rs none g k _posX _posY _cellsToEnd
  | _count + 1, g, k, _posX, _posY, _cellsToEnd =>
    roomBodyAcc rs (some (GridMazeRoomAcc rs _count)) g k _posX _posY _cellsToEnd

/-- The loop over `_attempts` of the `while (1)` loop: `_cell`, read for its
position; `_cellN`, read when the bounds checks pass; when that cell is
unvisited, `_cellN` and the cell in the middle, which are written, and the
cells of the room. -/
def carveAttemptsAcc (rs : Nat → Nat) : Nat → Carve → Int → Int → List Int
  | 0, _, _, _ => []
  | n + 1, s, _dir, _turnSide =>
    if s.cellsToEnd > OPEN + 6 ∧ GetRandomValue rs s.k 1 100 ≤ MAZE_CUT_PERCENT then []
    else
      let s := if s.cellsToEnd > OPEN + 6 then { s with k := s.k + 1 } else s
      let _nextX := (s.g.cellAt s.cell).posX + off4X _dir * 2
      let _nextY := (s.g.cellAt s.cell).posY + off4Y _dir * 2
      let _cellN := s.cell + s.g.ptr4 _dir * 2
      s.cell :: ((if s.g.inBounds _nextX _nextY then [_cellN] else []) ++
        if s.g.inBounds _nextX _nextY ∧ ¬ s.g.typeAt _cellN > UNVISITED then
          let g2 := (s.g.setType _cellN OPEN).setType (s.cell + s.g.ptr4 _dir) OPEN
          let _cellsToEnd := s.cellsToEnd + 2
          _cellN :: (s.cell + s.g.ptr4 _dir) ::
            if GetRandomValue rs s.k 1 100 ≤ MAZE_ROOM_PERCENT then
              GridMazeRoomAcc rs 1 g2 (s.k + 1) ((g2.cellAt _cellN).posX - off4X _dir * 2)
                ((g2.cellAt _cellN).posY - off4Y _dir * 2) _cellsToEnd
            else []
        else carveAttemptsAcc rs n s (Int.tmod (_dir + _turnSide) 4) _turnSide)

/-- The loop over `_dir2` of the branch "not an end yet": the cells `_cellN`
it reads, up to the first `OPEN` one, which it writes. -/
def backtrackScanAcc : Nat → Carve → Int → List Int
  | 0, _, _ => []
  | n + 1, s, _dir2 =>
    (s.cell + s.g.ptr4 _dir2) ::
      if s.g.typeAt (s.cell + s.g.ptr4 _dir2) ≠ OPEN then backtrackScanAcc n s (_dir2 + 1) else []

/-- The branch "not an end yet": `_cell`, which is written, then the loop over
`_dir2`. -/
def backtrackAcc (s : Carve) : List Int :=
  s.cell :: backtrackScanAcc 4
    { s with g := s.g.setType s.cell s.cellsToEnd, cellsToEnd := s.cellsToEnd - 1 } 0

/-- The loop "check visited neighbors" around `_cellT`: `_cellT`, read for its
position, and the cells `_cellN` that pass the bounds checks, up to the first
with a type above `OPEN`. -/
def visitedNeighborAcc (g : GRID) (_cellT : Int) : Nat → Int → List Int
  | 0, _ => []
  | n + 1, _dir2 =>
    let _nextX := (g.cellAt _cellT).posX + off4X _dir2 * 2
    let _nextY := (g.cellAt _cellT).posY + off4Y _dir2 * 2
    _cellT ::
      if g.inBounds _nextX _nextY then
        GETCELL g _nextX _nextY ::
          if g.typeAt (GETCELL g _nextX _nextY) > OPEN then []
          else visitedNeighborAcc g _cellT n (_dir2 + 1)
      else visitedNeighborAcc g _cellT n (_dir2 + 1)

/-- The loop over `_x` of "Look for unvisited cells" in the row `_y`: the cells
`_cellT`, the cells of "check visited neighbors" and, when a cell is found,
the cell in the middle `_cellN2`, `_cellN` and `_cellT`, which start the new
path. -/
def unvisitedInRowAcc (g : GRID) (_y : Int) : Nat → Int → List Int
  | 0, _ => []
  | fuel + 1, _x =>
    if _x < g.width then
      let _cellT := GETCELL g _x _y
      _cellT ::
        if g.typeAt _cellT ≠ UNVISITED then unvisitedInRowAcc g _y fuel (_x + 2)
        else
          visitedNeighborAcc g _cellT 4 0 ++
          match visitedNeighbor g _cellT 4 0 with
          | some (_dir2, _cellN) => [_cellT + g.ptr4 _dir2, _cellN, _cellT]
          | none => unvisitedInRowAcc g _y fuel (_x + 2)
    else []

/-- The loop over `_y` of "Look for unvisited cells". -/
def unvisitedInGridAcc (g : GRID) : Nat → Int → List Int
  | 0, _ => []
  | fuel + 1, _y =>
    if _y < g.height then
      unvisitedInRowAcc g _y g.width.toNat 1 ++
      match unvisitedInRow g _y g.width.toNat 1 with
      | some _ => []
      | none => unvisitedInGridAcc g fuel (_y + 2)
    else []

/-- One iteration of the `while (1)` loop: the loop over `_attempts` and, when
it ends with `_attempts == 4`, `_cell`, read for its type, and the cells of
the branch taken. -/
def carveNextAcc (rs : Nat → Nat) (s : Carve) : List Int :=
  carveAttemptsAcc rs 4 { s with k := s.k + 2 } (GetRandomValue rs s.k 0 3)
      (1 + GetRandomValue rs (s.k + 1) 0 1 * 2) ++
    let s1 := (carveTry rs s).1
    if (carveTry rs s).2 then
      s1.cell ::
        if s1.g.typeAt s1.cell ≠ END ∧ s1.g.typeAt s1.cell ≠ END_TEMP then backtrackAcc s1
        else s1.cell :: unvisitedInGridAcc (endGrid s1) (endGrid s1).height.toNat 1
    else []

/-- The `while (1)` loop, for at most `fuel` iterations. -/
def carveLoopAcc (rs : Nat → Nat) : Nat → Carve → List Int
  | 0, _ => []
  | fuel + 1, s =>
    carveNextAcc rs s ++
      if (carveNext rs s).2 then [] else carveLoopAcc rs fuel (carveNext rs s).1

/-- The cell at `(_x, _y)` and the cells `_cell + ptrOffsets4[_dir]`. -/
def around4Acc (g : GRID) (_x _y : Int) : List Int :=
  GETCELL g _x _y :: (List.range 4).map (fun (_dir : Nat) => GETCELL g _x _y + g.ptr4 _dir)

/-- The cell at `(_x, _y)` and the cells `_cell + ptrOffsets8[_dir]`. -/
def around8Acc (g : GRID) (_x _y : Int) : List Int :=
  GETCELL g _x _y :: (List.range 8).map (fun (_dir : Nat) => GETCELL g _x _y + g.ptr8 _dir)

/-- The pass "Connect depth near": `_cell`, the cells `_cellN` two steps away
and the cells between. -/
def connectNearAcc (g : GRID) : List Int :=
  (loopCells 3 (g.height - 3) 2).flatMap (fun _y =>
    (loopCells 3 (g.width - 3) 2).flatMap (fun _x =>
      GETCELL g _x _y :: (List.range 4).flatMap (fun (_dir : Nat) =>
        [GETCELL g _x _y + g.ptr4 _dir * 2, GETCELL g _x _y + g.ptr4 _dir])))

/-- The pass "Remove isolated wall cells". -/
def removeIsolatedAcc (g : GRID) : List Int :=
  (loopCells 2 (g.height - 2) 1).flatMap (fun _y =>
    (loopCells 2 (g.width - 2) 1).flatMap (fun _x => around8Acc g _x _y))

/-- The pass "Look for start point": `_cellStart`, first `_grid->cells`, then
the cells of the two columns and of the two rows one off the border, and the
cell the pass types `START`. -/
def lookForStartAcc (g : GRID) : List Int :=
  0 :: lookForStart g ::
    (if (1 : Int) < Int.tdiv g.width 2 then
      (loopCells 1 g.width (g.width - (1 + 2))).flatMap (fun _x =>
        (loopCells 1 g.height 2).map (fun _y => GETCELL g _x _y)) ++
      (loopCells 1 g.height (g.height - (1 + 2))).flatMap (fun _y =>
        (loopCells 1 g.width 2).map (fun _x => GETCELL g _x _y))
    else [])

/-- The passes over the interior cells that look at the eight cells around:
"count neighbors and identify room centers" and "identify room borders". -/
def interior8Acc (g : GRID) : List Int :=
  (loopCells 1 (g.height - 1) 1).flatMap (fun _y =>
    (loopCells 1 (g.width - 1) 1).flatMap (fun _x => around8Acc g _x _y))

/-- The passes over the interior cells that look at the four cells beside:
"doors around rooms" and "doors on corridor crosses", whose `_cellCheapest` is
the cell or one of the four. -/
def interior4Acc (g : GRID) : List Int :=
  (loopCells 1 (g.height - 1) 1).flatMap (fun _y =>
    (loopCells 1 (g.width - 1) 1).flatMap (fun _x => around4Acc g _x _y))

/-- The pass "corridor treasures". -/
def corridorTreasuresAcc (g : GRID) : List Int :=
  (loopCells 1 (g.height - 1) 2).flatMap (fun _y =>
    (loopCells 1 (g.width - 1) 2).map (fun _x => GETCELL g _x _y))

/-- The pass "room treasures". -/
def roomTreasuresAcc (g : GRID) : List Int :=
  (loopCells 1 (g.width - 1) 1).flatMap (fun _x =>
    (loopCells 1 (g.height - 1) 1).map (fun _y => GETCELL g _x _y))

/-- The passes of `GridMaze` after the `while (1)` loop, each on the grid the
pass before it leaves. -/
def finishMazeAcc (rs : Nat → Nat) (g : GRID) (k : Nat) : List Int :=
  let s1 := connectNear rs (g, k)
  let g2 := removeIsolated s1.1
  let g3 := g2.setType (lookForStart g2) START
  let g4 := countNeighbors g3
  let g5 := roomBorders g4
  let g6 := roomDoors g5
  let g7 := crossDoors g6
  let s8 := corridorTreasures rs (g7, s1.2)
  connectNearAcc g ++ removeIsolatedAcc s1.1 ++ lookForStartAcc g2 ++ interior8Acc g3 ++
    interior8Acc g4 ++ interior4Acc g5 ++ interior4Acc g6 ++ corridorTreasuresAcc g7 ++
    roomTreasuresAcc s8.1

/-- One pass through the body of `GridMaze`, up to the test of the bonus
counter. -/
def mazeAttemptAcc (rs : Nat → Nat) (fuel : Nat) (g : GRID) (k : Nat) : List Int :=
  carveStartAcc rs g k ++ carveLoopAcc rs fuel (carveStart rs g k) ++
    match carveLoop rs fuel (carveStart rs g k) with
    | none => []
    | some s => finishMazeAcc rs s.g s.k

/-- The cells `GridMaze` dereferences, over its attempts. -/
def GridMazeAcc (rs : Nat → Nat) : Nat → GRID → Nat → List Int
  | 0, _, _ => []
  | fuel + 1, g, k =>
    mazeAttemptAcc rs (fuel + 1) g k ++
      match mazeAttempt rs (fuel + 1) g k with
      | none => []
      | some r => if r.1.bonus = 0 then GridMazeAcc rs fuel r.1 r.2.2 else []

/-! ## The states the flood goes through

`GridFloodVisibilityLog` is `GridFloodVisibility` with, beside the grid, the
list of the grids after each of its assignments, in the order of the run. -/

/-- The assignment `_cell->depth = _depth` alone. -/
def CELL.setDepth (_depth : Int) (c : CELL) : CELL := { c with depth := _depth }

/-- The body of the loop "flood neighborhood", for the direction `_dir`, on the
grid `s.1`; the states of the recursive call come after the states `s.2`. -/
def floodNeighborLog (visit : GRID → Int → Option (GRID × List GRID))
    (_cell _depth _timeStamp : Int) (s : GRID × List GRID) (_dir : Nat) :
    Option (GRID × List GRID) :=
  if (s.1.cellAt (_cell + s.1.ptr8 _dir)).timeStamp ≠ _timeStamp ∨
      (s.1.cellAt (_cell + s.1.ptr8 _dir)).depth < _depth then
    (visit s.1 (_cell + s.1.ptr8 _dir)).map (fun r => (r.1, s.2 ++ r.2))
  else some s

/-- The function `GridFloodVisibility` with the states it goes through: the
grid on return and the grids after `_cell->depth = _depth`, after
`_cell->timeStamp = _timeStamp` and after the write of the flags, followed by
those of the recursive calls. -/
def GridFloodVisibilityLog : Nat → GRID → Int → Int → Int → Option (GRID × List GRID)
  | 0, _, _, _, _ => none
  | fuel + 1, g, _cell, _depth, _timeStamp =>
    let g0 := g.modifyCell _cell (CELL.setDepth _depth)
    let g1 := g.modifyCell _cell (CELL.stamp _depth _timeStamp)
    if (g1.cellAt _cell).depth < 0 then
      some (g1.modifyCell _cell CELL.hide, [g0, g1, g1.modifyCell _cell CELL.hide])
    else
      let _depth := _depth - (5 - Int.tdiv (g1.cellAt _cell).neighborCount 2)
      let g2 := g1.modifyCell _cell CELL.unhide
      if g2.typeAt _cell ≤ WALL ∨ g2.typeAt _cell = DOOR then some (g2, [g0, g1, g2])
      else
        (List.range 8).foldlM (floodNeighborLog
          (fun g _cellT => GridFloodVisibilityLog fuel g _cellT _depth _timeStamp)
          _cell _depth _timeStamp) (g2, [g0, g1, g2])

/-- From the grid `s` to the grid `t`, every cell that carries the pass id `ts`
keeps it, and its depth does not decrease. -/
def GRID.DepthKept (ts : Int) (s t : GRID) : Prop :=
  ∀ j, (s.cellAt j).timeStamp = ts →
    (t.cellAt j).timeStamp = ts ∧ (s.cellAt j).depth ≤ (t.cellAt j).depth

/-- The list `l` of grids leads from the grid `a` to the grid `b`, its last
one, and no step of it, the first from `a`, lowers the depth of a cell that
carries the pass id `ts`. -/
def GRID.KeptAlong (ts : Int) : GRID → List GRID → GRID → Prop
  | a, [], b => a = b
  | a, s :: l, b => GRID.DepthKept ts a s ∧ GRID.KeptAlong ts s l b

/-- The cell behind `j` is consistent with the cells around it, for the pass
`ts`: when its depth is not negative and the flood goes on from it, the eight
cells `j + ptrOffsets8[a]` carry the pass id and a depth of at least the one
of `j` less `5 - neighborCount / 2`. -/
def GRID.Consistent (g : GRID) (ts j : Int) : Prop :=
  0 ≤ (g.cellAt j).depth → g.Propagates j →
    ∀ a : Nat, a < 8 →
      g.Stamped ts (j + g.ptr8 a)
        ((g.cellAt j).depth - (5 - Int.tdiv (g.cellAt j).neighborCount 2))

/-- The grid `centerGrid` after the flood from (3, 3) with depth 10 and pass
id 1. -/
def centerFlooded : GRID :=
  (GridFloodVisibility 12 centerGrid (GETCELL centerGrid 3 3) 10 1).getD centerGrid

/-! ## More samples, and the path of the carve -/

/-- A grid of 7 by 7 unvisited cells in which the cells (3, 3) and (4, 3) are
open corridor cells with a neighbour count of 8. -/
def pairGrid : GRID :=
  ((GridCreate 7 7 (fun _ => 0)).modifyCell 24
    (fun c => { c with type := OPEN, neighborCount := 8 })).modifyCell 25
    (fun c => { c with type := OPEN, neighborCount := 8 })

/-- The grid `pairGrid` after the flood from (3, 3) with depth 1 and pass id 1. -/
def pairFlooded : GRID :=
  (GridFloodVisibility 3 pairGrid (GETCELL pairGrid 3 3) 1 1).getD pairGrid

/-- The pointer `_cell = gCell + gGrid->ptrOffsets4[_dir]` of `Move`, whose
type `Move` reads. -/
def moveCell (g : GRID) (gCell _dir : Int) : Int := gCell + g.ptr4 _dir

/-- The variables with which the `while (1)` loop ends on the grid
`GridCreate(9, 9)` with the draws `zeroDraws`. -/
def cornerCarve : Carve :=
  (carveLoop zeroDraws 100 (carveStart zeroDraws (GridCreate 9 9 (fun _ => 0)) 0)).getD
    (carveStart zeroDraws (GridCreate 9 9 (fun _ => 0)) 0)

/-- A stream of draws: the draw number `n` is `10 * n + 5`. -/
def tenDraws : Nat → Nat := fun n => 10 * n + 5

/-- The variables with which the `while (1)` loop starts on the grid
`GridCreate(9, 9)` with the draws `tenDraws`. -/
def pathStart : Carve := carveStart tenDraws (GridCreate 9 9 (fun _ => 0)) 0

/-- The iteration of the `while (1)` loop that starts with the variables `s`
takes the branch "not an end yet": the loop over `_attempts` ends with
`_attempts == 4` and `_cell` is neither `END` nor `END_TEMP`. -/
def GoesBack (rs : Nat → Nat) (s : Carve) : Prop :=
  (carveTry rs s).2 = true ∧ s.g.typeAt s.cell ≠ END ∧ s.g.typeAt s.cell ≠ END_TEMP

instance (rs : Nat → Nat) (s : Carve) : Decidable (GoesBack rs s) := by
  unfold GoesBack; infer_instance

/-- The path of the carve, kept beside the loop: the cells from `_cell` back to
the cell the current path started from, and the depth counter at that cell.
An iteration that makes a step puts the new `_cell` in front, the branch "not
an end yet" takes the first cell off, and a new path starts the list again. -/
def pathStep (rs : Nat → Nat) (s : Carve) (p : List Int × Int) : List Int × Int :=
  if (carveTry rs s).2 = false then ((carveNext rs s).1.cell :: p.1, p.2)
  else if s.g.typeAt s.cell ≠ END ∧ s.g.typeAt s.cell ≠ END_TEMP then (p.1.tail, p.2)
  else ([(carveNext rs s).1.cell], (carveNext rs s).1.cellsToEnd)

/-- The path of the carve after `n` iterations of the `while (1)` loop from the
variables `s` with the path `p`. -/
def carvePath (rs : Nat → Nat) : Nat → Carve → List Int × Int → List Int × Int
  | 0, _, p => p
  | n + 1, s, p => carvePath rs n (carveNext rs s).1 (pathStep rs s p)

/-- The path with which the `while (1)` loop starts: the ending cell alone. -/
def startPath (s : Carve) : List Int × Int := ([s.cell], s.cellsToEnd)

/-- Every cell that is unvisited in `g` is unvisited in `t`. -/
def GRID.UnvisitedKept (g t : GRID) : Prop :=
  ∀ i, g.typeAt i = UNVISITED → t.typeAt i = UNVISITED

/-- The unvisited cells of the grid lie at odd positions. -/
def GRID.OddUnvisited (g : GRID) : Prop :=
  ∀ x y, g.InGrid x y → g.ty x y = UNVISITED → x % 2 = 1 ∧ y % 2 = 1

/-! ## Dimensions of a created grid -/

theorem nat_lor_one (n : Nat) : n ||| 1 = if n % 2 = 0 then n + 1 else n := by
  apply Nat.eq_of_testBit_eq
  intro i
  rw [Nat.testBit_or]
  split
  · rename_i h
    cases i with
    | zero => simp [Nat.testBit_zero]; omega
    | succ j =>
      simp [Nat.testBit_succ]
      congr 1
      omega
  · rename_i h
    cases i with
    | zero => simp [Nat.testBit_zero]; omega
    | succ j =>
      simp [Nat.testBit_succ]

theorem MAKEODD_of_nonneg (x : Int) (h : 0 ≤ x) :
    MAKEODD x = if x % 2 = 0 then x + 1 else x := by
  obtain ⟨n, rfl⟩ := Int.eq_ofNat_of_zero_le h
  have : Int.lor (n : Int) 1 = ((n ||| 1 : Nat) : Int) := rfl
  rw [MAKEODD, this, nat_lor_one]
  split <;> split <;> first | rfl | omega

theorem cmax_eq_max (a b : Int) : cmax a b = max a b := by
  unfold cmax
  split <;> omega

/-- The dimension `MAKEODD(max(n, 7))` is the least odd integer above `max n 7`. -/
theorem MAKEODD_cmax_least (n : Int) :
    MAKEODD (cmax n 7) % 2 = 1 ∧ max n 7 ≤ MAKEODD (cmax n 7) ∧
      ∀ m : Int, m % 2 = 1 → max n 7 ≤ m → MAKEODD (cmax n 7) ≤ m := by
  rw [cmax_eq_max, MAKEODD_of_nonneg _ (by omega)]
  split <;> refine ⟨by omega, by omega, fun m h1 h2 => by omega⟩

@[simp] theorem GridCreate_width (w h : Int) (junk : Int → Int) :
    (GridCreate w h junk).width = MAKEODD (cmax w 7) := rfl

@[simp] theorem GridCreate_height (w h : Int) (junk : Int → Int) :
    (GridCreate w h junk).height = MAKEODD (cmax h 7) := rfl

/-- C1: `GridCreate(w, h)` yields the least odd width above `max(w, 7)` and the
least odd height above `max(h, 7)`; so both are odd and at least 7, a request of
(4, 4) gives (7, 7) and a request of (6, 10) gives (7, 11). -/
theorem C1_GridCreate_dimensions (w h : Int) (junk : Int → Int) :
    ((GridCreate w h junk).width % 2 = 1 ∧ max w 7 ≤ (GridCreate w h junk).width ∧
      ∀ m : Int, m % 2 = 1 → max w 7 ≤ m → (GridCreate w h junk).width ≤ m) ∧
    ((GridCreate w h junk).height % 2 = 1 ∧ max h 7 ≤ (GridCreate w h junk).height ∧
      ∀ m : Int, m % 2 = 1 → max h 7 ≤ m → (GridCreate w h junk).height ≤ m) ∧
    7 ≤ (GridCreate w h junk).width ∧ 7 ≤ (GridCreate w h junk).height ∧
    ((GridCreate 4 4 junk).width = 7 ∧ (GridCreate 4 4 junk).height = 7) ∧
    ((GridCreate 6 10 junk).width = 7 ∧ (GridCreate 6 10 junk).height = 11) := by
  have hw := MAKEODD_cmax_least w
  have hh := MAKEODD_cmax_least h
  refine ⟨by simpa using hw, by simpa using hh, ?_, ?_,
    ⟨by rw [GridCreate_width]; decide, by rw [GridCreate_height]; decide⟩,
    ⟨by rw [GridCreate_width]; decide, by rw [GridCreate_height]; decide⟩⟩
  · have := hw.2.1
    simp only [GridCreate_width]
    omega
  · have := hh.2.1
    simp only [GridCreate_height]
    omega

/-! ## Reading and writing cells -/

@[simp] theorem modifyCell_width (g : GRID) (i : Int) (f : CELL → CELL) :
    (g.modifyCell i f).width = g.width := by
  unfold GRID.modifyCell; split <;> rfl

@[simp] theorem modifyCell_height (g : GRID) (i : Int) (f : CELL → CELL) :
    (g.modifyCell i f).height = g.height := by
  unfold GRID.modifyCell; split <;> rfl

@[simp] theorem modifyCell_size (g : GRID) (i : Int) (f : CELL → CELL) :
    (g.modifyCell i f).size = g.size := by
  unfold GRID.modifyCell; split <;> rfl

@[simp] theorem modifyCell_bonus (g : GRID) (i : Int) (f : CELL → CELL) :
    (g.modifyCell i f).bonus = g.bonus := by
  unfold GRID.modifyCell; split <;> rfl

@[simp] theorem modifyCell_ptrOffsets4 (g : GRID) (i : Int) (f : CELL → CELL) :
    (g.modifyCell i f).ptrOffsets4 = g.ptrOffsets4 := by
  unfold GRID.modifyCell; split <;> rfl

@[simp] theorem modifyCell_ptrOffsets8 (g : GRID) (i : Int) (f : CELL → CELL) :
    (g.modifyCell i f).ptrOffsets8 = g.ptrOffsets8 := by
  unfold GRID.modifyCell; split <;> rfl

@[simp] theorem modifyCell_ptr4 (g : GRID) (i : Int) (f : CELL → CELL) (d : Int) :
    (g.modifyCell i f).ptr4 d = g.ptr4 d := by
  simp [GRID.ptr4]

@[simp] theorem modifyCell_ptr8 (g : GRID) (i : Int) (f : CELL → CELL) (d : Int) :
    (g.modifyCell i f).ptr8 d = g.ptr8 d := by
  simp [GRID.ptr8]

@[simp] theorem modifyCell_length (g : GRID) (i : Int) (f : CELL → CELL) :
    (g.modifyCell i f).cells.length = g.cells.length := by
  unfold GRID.modifyCell; split <;> simp

@[simp] theorem modifyCell_inb (g : GRID) (i : Int) (f : CELL → CELL) (j : Int) :
    (g.modifyCell i f).inb j ↔ g.inb j := by
  simp [GRID.inb]

theorem cellAt_of_not_inb (g : GRID) (i : Int) (h : ¬ g.inb i) : g.cellAt i = CELL.blank := by
  unfold GRID.cellAt
  split
  · rename_i h0
    have : g.cells.length ≤ i.toNat := by
      unfold GRID.inb at h
      omega
    simp [List.getD_eq_getElem?_getD, List.getElem?_eq_none this]
  · rfl

/-- Reading after a write. -/
theorem cellAt_modifyCell (g : GRID) (i : Int) (f : CELL → CELL) (j : Int) :
    (g.modifyCell i f).cellAt j = if j = i ∧ g.inb i then f (g.cellAt i) else g.cellAt j := by
  by_cases hi : 0 ≤ i
  · by_cases hj : 0 ≤ j
    · simp only [GRID.cellAt, GRID.modifyCell, hi, hj, if_true, GRID.inb,
        List.getD_eq_getElem?_getD, List.getElem?_set]
      by_cases hij : j = i
      · subst hij
        by_cases hlt : j.toNat < g.cells.length
        · have : j < (g.cells.length : Int) := by omega
          simp [hlt, this]
        · have : ¬ j < (g.cells.length : Int) := by omega
          have hn : g.cells[j.toNat]? = none := List.getElem?_eq_none (by omega)
          simp [hlt, this, hn]
      · have : i.toNat ≠ j.toNat := by omega
        simp [hij, this]
    · have hne : j ≠ i := by omega
      simp [GRID.cellAt, hj, hne]
  · have hm : g.modifyCell i f = g := by simp [GRID.modifyCell, hi]
    have : ¬ g.inb i := fun h => hi h.1
    simp [hm, this]

theorem cellAt_modifyCell_self (g : GRID) (i : Int) (f : CELL → CELL) (h : g.inb i) :
    (g.modifyCell i f).cellAt i = f (g.cellAt i) := by
  simp [cellAt_modifyCell, h]

theorem cellAt_modifyCell_ne (g : GRID) (i : Int) (f : CELL → CELL) (j : Int) (h : j ≠ i) :
    (g.modifyCell i f).cellAt j = g.cellAt j := by
  simp [cellAt_modifyCell, h]

theorem modifyCell_of_not_inb (g : GRID) (i : Int) (f : CELL → CELL) (h : ¬ g.inb i) :
    g.modifyCell i f = g := by
  unfold GRID.modifyCell
  split
  · rename_i h0
    have : g.cells.length ≤ i.toNat := by
      unfold GRID.inb at h
      omega
    have hs : g.cells.set i.toNat (f (g.cells.getD i.toNat CELL.blank)) = g.cells :=
      List.set_eq_of_length_le this
    rw [hs]
  · rfl

/-- Two grids with the same fields apart from the cells, and the same cell behind
every index, are equal. -/
theorem GRID.ext_cells (g g' : GRID) (hw : g.width = g'.width) (hh : g.height = g'.height)
    (hs : g.size = g'.size) (hb : g.bonus = g'.bonus) (h4 : g.ptrOffsets4 = g'.ptrOffsets4)
    (h8 : g.ptrOffsets8 = g'.ptrOffsets8) (hl : g.cells.length = g'.cells.length)
    (hc : ∀ i, g.cellAt i = g'.cellAt i) : g = g' := by
  cases g with
  | mk w h cells size bonus p4 p8 =>
  cases g' with
  | mk w' h' cells' size' bonus' p4' p8' =>
  simp only at hw hh hs hb h4 h8 hl
  subst hw hh hs hb h4 h8
  have : cells = cells' := by
    apply List.ext_getElem hl
    intro n h1 h2
    have := hc (n : Int)
    simp only [GRID.cellAt, Int.toNat_ofNat, List.getD_eq_getElem?_getD] at this
    simpa [List.getElem?_eq_getElem h1, List.getElem?_eq_getElem h2] using this
  rw [this]

@[simp] theorem setType_width (g : GRID) (i t : Int) : (g.setType i t).width = g.width := by
  simp [GRID.setType]

@[simp] theorem setType_height (g : GRID) (i t : Int) : (g.setType i t).height = g.height := by
  simp [GRID.setType]

@[simp] theorem setType_size (g : GRID) (i t : Int) : (g.setType i t).size = g.size := by
  simp [GRID.setType]

@[simp] theorem setType_bonus (g : GRID) (i t : Int) : (g.setType i t).bonus = g.bonus := by
  simp [GRID.setType]

@[simp] theorem setType_ptr4 (g : GRID) (i t : Int) (d : Int) :
    (g.setType i t).ptr4 d = g.ptr4 d := by
  simp [GRID.setType]

@[simp] theorem setType_ptr8 (g : GRID) (i t : Int) (d : Int) :
    (g.setType i t).ptr8 d = g.ptr8 d := by
  simp [GRID.setType]

@[simp] theorem setType_length (g : GRID) (i t : Int) :
    (g.setType i t).cells.length = g.cells.length := by
  simp [GRID.setType]

@[simp] theorem setType_inb (g : GRID) (i t : Int) (j : Int) :
    (g.setType i t).inb j ↔ g.inb j := by
  simp [GRID.setType]

theorem typeAt_setType (g : GRID) (i t j : Int) :
    (g.setType i t).typeAt j = if j = i ∧ g.inb i then t else g.typeAt j := by
  unfold GRID.typeAt GRID.setType
  rw [cellAt_modifyCell]
  split <;> simp_all

theorem typeAt_of_not_inb (g : GRID) (i : Int) (h : ¬ g.inb i) : g.typeAt i = 0 := by
  simp [GRID.typeAt, cellAt_of_not_inb g i h, CELL.blank]

theorem modifyCell_eq_self (g : GRID) (i : Int) (f : CELL → CELL)
    (h : f (g.cellAt i) = g.cellAt i) : g.modifyCell i f = g := by
  apply GRID.ext_cells <;> try simp
  intro j
  rw [cellAt_modifyCell]
  split
  · rename_i hj
    rw [hj.1, h]
  · rfl

/-! ## The invisible flag -/

theorem testBit_one_eq (i : Nat) : Nat.testBit 1 i = decide (i = 0) := by
  cases i with
  | zero => rfl
  | succ j => simp [Nat.testBit_succ]

theorem nat_or_one_or_one (n : Nat) : (n ||| 1) ||| 1 = n ||| 1 := by
  apply Nat.eq_of_testBit_eq; intro i; simp [testBit_one_eq]

theorem nat_ldiff_one_twice (n : Nat) : Nat.ldiff (Nat.ldiff n 1) 1 = Nat.ldiff n 1 := by
  apply Nat.eq_of_testBit_eq; intro i; simp [testBit_one_eq, Nat.testBit_ldiff]

theorem nat_ldiff_one_ldiff (n : Nat) : Nat.ldiff 1 (Nat.ldiff n 1) = 1 := by
  apply Nat.eq_of_testBit_eq; intro i; simp [testBit_one_eq, Nat.testBit_ldiff]; tauto

theorem nat_ldiff_one_or (n : Nat) : Nat.ldiff 1 (n ||| 1) = 0 := by
  apply Nat.eq_of_testBit_eq; intro i; simp [testBit_one_eq, Nat.testBit_ldiff]; tauto

theorem nat_or_one_and_one (n : Nat) : (n ||| 1) &&& 1 = 1 := by
  apply Nat.eq_of_testBit_eq; intro i; rw [Nat.testBit_and, Nat.testBit_or]; simp [testBit_one_eq]; tauto

theorem nat_ldiff_one_and_one (n : Nat) : (Nat.ldiff n 1) &&& 1 = 0 := by
  apply Nat.eq_of_testBit_eq; intro i; rw [Nat.testBit_and, Nat.testBit_ldiff]; simp [testBit_one_eq]

theorem land_lor_one (f : Int) : Int.land (Int.lor f 1) 1 = 1 := by
  cases f with
  | ofNat n => show ((((n ||| 1) &&& 1 : Nat)) : Int) = 1; rw [nat_or_one_and_one]; rfl
  | negSucc n => show ((Nat.ldiff 1 (Nat.ldiff n 1) : Nat) : Int) = 1; rw [nat_ldiff_one_ldiff]; rfl

theorem lor_lor_one (f : Int) : Int.lor (Int.lor f 1) 1 = Int.lor f 1 := by
  cases f with
  | ofNat n => show ((((n ||| 1) ||| 1 : Nat)) : Int) = ((n ||| 1 : Nat) : Int); rw [nat_or_one_or_one]
  | negSucc n => show Int.negSucc (Nat.ldiff (Nat.ldiff n 1) 1) = Int.negSucc (Nat.ldiff n 1); rw [nat_ldiff_one_twice]

theorem land_not_one_twice (f : Int) : Int.land (Int.land f (Int.not 1)) (Int.not 1) = Int.land f (Int.not 1) := by
  cases f with
  | ofNat n => show ((Nat.ldiff (Nat.ldiff n 1) 1 : Nat) : Int) = ((Nat.ldiff n 1 : Nat) : Int); rw [nat_ldiff_one_twice]
  | negSucc n => show Int.negSucc ((n ||| 1) ||| 1) = Int.negSucc (n ||| 1); rw [nat_or_one_or_one]

theorem land_not_one_land_one (f : Int) : Int.land (Int.land f (Int.not 1)) 1 = 0 := by
  cases f with
  | ofNat n => show (((Nat.ldiff n 1) &&& 1 : Nat) : Int) = 0; rw [nat_ldiff_one_and_one]; rfl
  | negSucc n => show ((Nat.ldiff 1 (n ||| 1) : Nat) : Int) = 0; rw [nat_ldiff_one_or]; rfl

/-! ## Loops in the option monad -/

theorem foldlM_option_inv {α σ : Type} (f : σ → α → Option σ) (P : σ → Prop)
    (Q : α → σ → Prop) :
    ∀ (l : List α) (s s' : σ),
      (∀ s a s', a ∈ l → P s → f s a = some s' → P s' ∧ Q a s' ∧ ∀ b, Q b s → Q b s') →
      P s → l.foldlM f s = some s' → P s' ∧ ∀ a ∈ l, Q a s'
  | [], s, s', _, hP, h => by
    simp only [List.foldlM, pure, Option.some.injEq] at h
    subst h
    exact ⟨hP, by simp⟩
  | a :: l, s, s', hstep, hP, h => by
    simp only [List.foldlM_cons, bind, Option.bind] at h
    cases hfa : f s a with
    | none => simp [hfa] at h
    | some s1 =>
      simp only [hfa] at h
      have h1 := hstep s a s1 (List.mem_cons_self a l) hP hfa
      have hrec := foldlM_option_inv f (fun s => P s ∧ Q a s) Q l s1 s'
        (fun t b t' hb hPt hfb => by
          have := hstep t b t' (List.mem_cons_of_mem a hb) hPt.1 hfb
          exact ⟨⟨this.1, this.2.2 a hPt.2⟩, this.2.1, this.2.2⟩)
        ⟨h1.1, h1.2.1⟩ h
      refine ⟨hrec.1.1, ?_⟩
      intro b hb
      rcases List.mem_cons.1 hb with rfl | hb
      · exact hrec.1.2
      · exact hrec.2 b hb

theorem foldlM_option_total {α σ : Type} (f : σ → α → Option σ) (P : σ → Prop) :
    ∀ (l : List α) (s : σ),
      (∀ s a, a ∈ l → P s → ∃ s', f s a = some s' ∧ P s') →
      P s → ∃ s', l.foldlM f s = some s' ∧ P s'
  | [], s, _, hP => ⟨s, rfl, hP⟩
  | a :: l, s, hstep, hP => by
    obtain ⟨s1, hfa, hP1⟩ := hstep s a (List.mem_cons_self a l) hP
    obtain ⟨s', hs', hP'⟩ := foldlM_option_total f P l s1
      (fun t b hb hPt => hstep t b (List.mem_cons_of_mem a hb) hPt) hP1
    refine ⟨s', ?_, hP'⟩
    simp only [List.foldlM_cons, bind, Option.bind, hfa]
    exact hs'

/-! ## What the flood leaves alone -/

theorem GRID.SameMaze.refl (g : GRID) : g.SameMaze g := by
  simp [GRID.SameMaze]

theorem GRID.SameMaze.trans {g g' g'' : GRID} (h1 : g.SameMaze g') (h2 : g'.SameMaze g'') :
    g.SameMaze g'' := by
  obtain ⟨a1, a2, a3, a4, a5, a6, a7, a8⟩ := h1
  obtain ⟨b1, b2, b3, b4, b5, b6, b7, b8⟩ := h2
  refine ⟨by rw [b1, a1], by rw [b2, a2], by rw [b3, a3], by rw [b4, a4], by rw [b5, a5],
    by rw [b6, a6], by rw [b7, a7], fun i => ?_⟩
  obtain ⟨c1, c2, c3, c4, c5⟩ := a8 i
  obtain ⟨d1, d2, d3, d4, d5⟩ := b8 i
  exact ⟨by rw [d1, c1], by rw [d2, c2], by rw [d3, c3], by rw [d4, c4], by rw [d5, c5]⟩

theorem GRID.SameMaze.modifyCell (g : GRID) (i : Int) (f : CELL → CELL)
    (hf : ∀ c, (f c).index = c.index ∧ (f c).posX = c.posX ∧ (f c).posY = c.posY ∧
      (f c).type = c.type ∧ (f c).neighborCount = c.neighborCount) :
    g.SameMaze (g.modifyCell i f) := by
  refine ⟨by simp, by simp, by simp, by simp, by simp, by simp, by simp, fun j => ?_⟩
  rw [cellAt_modifyCell]
  split
  · rename_i h
    rw [h.1]
    exact hf _
  · simp

theorem GRID.SameMaze.typeAt {g g' : GRID} (h : g.SameMaze g') (i : Int) :
    g'.typeAt i = g.typeAt i := (h.2.2.2.2.2.2.2 i).2.2.2.1

theorem GRID.SameMaze.ptr8 {g g' : GRID} (h : g.SameMaze g') (d : Int) : g'.ptr8 d = g.ptr8 d := by
  simp [GRID.ptr8, h.2.2.2.2.2.1]

theorem GRID.SameMaze.getcell {g g' : GRID} (h : g.SameMaze g') (x y : Int) :
    GETCELL g' x y = GETCELL g x y := by
  simp [GETCELL, h.1]

theorem GRID.SameMaze.inb {g g' : GRID} (h : g.SameMaze g') (i : Int) : g'.inb i ↔ g.inb i := by
  simp [GRID.inb, h.2.2.2.2.2.2.1]

theorem GRID.SameMaze.propagates {g g' : GRID} (h : g.SameMaze g') (i : Int) :
    g'.Propagates i ↔ g.Propagates i := by
  simp [GRID.Propagates, h.typeAt]

theorem GRID.SameMaze.inner {g g' : GRID} (h : g.SameMaze g') (x y : Int) :
    g'.Inner x y ↔ g.Inner x y := by
  simp [GRID.Inner, h.1, h.2.1]

theorem GRID.SameMaze.inGrid {g g' : GRID} (h : g.SameMaze g') (x y : Int) :
    g'.InGrid x y ↔ g.InGrid x y := by
  simp [GRID.InGrid, h.1, h.2.1]

theorem GRID.SameMaze.floodSafe {g g' : GRID} (h : g.SameMaze g') (hs : g.FloodSafe) :
    g'.FloodSafe := by
  intro x y hin hp
  rw [h.inner] at hin
  rw [h.getcell, h.propagates] at hp
  obtain ⟨h1, h2⟩ := hs x y hin hp
  refine ⟨?_, ?_⟩
  · rw [h.getcell, (h.2.2.2.2.2.2.2 _).2.2.2.2]
    exact h1
  · intro d hd hp'
    rw [h.getcell, h.propagates] at hp'
    rw [h.inner]
    exact h2 d hd hp'

theorem GRID.SameMaze.shaped {g g' : GRID} (h : g.SameMaze g') (hs : g.Shaped) : g'.Shaped := by
  obtain ⟨s1, s2, s3, s4, s5, s6, s7⟩ := hs
  obtain ⟨a1, a2, a3, a4, a5, a6, a7, a8⟩ := h
  refine ⟨by rw [a1]; exact s1, by rw [a2]; exact s2, by rw [a3, a1, a2]; exact s3,
    by rw [a7, a1, a2]; exact s4, by rw [a5, a1]; exact s5, by rw [a6, a1]; exact s6, ?_⟩
  intro x y hxy
  have hg : GETCELL g' x y = GETCELL g x y := by simp [GETCELL, a1]
  have hxy' : g.InGrid x y := by
    simpa [GRID.InGrid, a1, a2] using hxy
  obtain ⟨c1, c2, c3, -, -⟩ := a8 (GETCELL g x y)
  obtain ⟨t1, t2, t3⟩ := s7 x y hxy'
  rw [hg, c1, c2, c3]
  exact ⟨t1, t2, t3⟩

theorem flood_succ (fuel : Nat) (g : GRID) (c d ts : Int) :
    GridFloodVisibility (fuel + 1) g c d ts =
      if ((g.modifyCell c (CELL.stamp d ts)).cellAt c).depth < 0 then
        some ((g.modifyCell c (CELL.stamp d ts)).modifyCell c CELL.hide)
      else if ((g.modifyCell c (CELL.stamp d ts)).modifyCell c CELL.unhide).typeAt c ≤ WALL ∨
          ((g.modifyCell c (CELL.stamp d ts)).modifyCell c CELL.unhide).typeAt c = DOOR then
        some ((g.modifyCell c (CELL.stamp d ts)).modifyCell c CELL.unhide)
      else
        (List.range 8).foldlM (floodNeighbor
          (fun s t => GridFloodVisibility fuel s t
            (d - (5 - Int.tdiv ((g.modifyCell c (CELL.stamp d ts)).cellAt c).neighborCount 2)) ts)
          c (d - (5 - Int.tdiv ((g.modifyCell c (CELL.stamp d ts)).cellAt c).neighborCount 2)) ts)
          ((g.modifyCell c (CELL.stamp d ts)).modifyCell c CELL.unhide) := by
  rw [GridFloodVisibility]

theorem sameMaze_stamp (g : GRID) (c d ts : Int) :
    g.SameMaze (g.modifyCell c (CELL.stamp d ts)) :=
  GRID.SameMaze.modifyCell g c _ (fun _ => by simp [CELL.stamp])

theorem sameMaze_hide (g : GRID) (c : Int) : g.SameMaze (g.modifyCell c CELL.hide) :=
  GRID.SameMaze.modifyCell g c _ (fun _ => by simp [CELL.hide])

theorem sameMaze_unhide (g : GRID) (c : Int) : g.SameMaze (g.modifyCell c CELL.unhide) :=
  GRID.SameMaze.modifyCell g c _ (fun _ => by simp [CELL.unhide])

/-- The flood changes no dimension, table, counter, type or neighbour count. -/
theorem flood_sameMaze : ∀ (fuel : Nat) (g : GRID) (c d ts : Int) (g' : GRID),
    GridFloodVisibility fuel g c d ts = some g' → g.SameMaze g'
  | 0, g, c, d, ts, g', h => by simp [GridFloodVisibility] at h
  | fuel + 1, g, c, d, ts, g', h => by
    rw [flood_succ] at h
    have h1 := sameMaze_stamp g c d ts
    have h2 := h1.trans (sameMaze_unhide _ c)
    split at h
    · simp only [Option.some.injEq] at h
      subst h
      exact h1.trans (sameMaze_hide _ c)
    · split at h
      · simp only [Option.some.injEq] at h
        subst h
        exact h2
      · refine (foldlM_option_inv _ (fun s => g.SameMaze s) (fun _ _ => True) _ _ _ ?_ h2 h).1
        intro s a s' _ hs hstep
        refine ⟨?_, trivial, fun _ _ => trivial⟩
        simp only [floodNeighbor] at hstep
        split at hstep
        · exact hs.trans (flood_sameMaze fuel _ _ _ _ _ hstep)
        · simp only [Option.some.injEq] at hstep
          subst hstep
          exact hs

/-! ## Positions and neighbours -/

theorem off8_bounds (a : Nat) (h : a < 8) :
    -1 ≤ off8X a ∧ off8X a ≤ 1 ∧ -1 ≤ off8Y a ∧ off8Y a ≤ 1 := by
  interval_cases a <;> simp [off8X, off8Y, offsets8]

theorem shaped_ptr8 {g : GRID} (hs : g.Shaped) (a : Nat) (h : a < 8) :
    g.ptr8 a = off8X a + off8Y a * g.width := by
  unfold GRID.ptr8
  rw [hs.2.2.2.2.2.1]
  interval_cases a <;> simp [off8X, off8Y, offsets8, List.range, List.range.loop]

theorem shaped_neighbor {g : GRID} (hs : g.Shaped) (x y : Int) (a : Nat) (h : a < 8) :
    GETCELL g x y + g.ptr8 a = GETCELL g (x + off8X a) (y + off8Y a) := by
  rw [shaped_ptr8 hs a h]
  unfold GETCELL
  ring

theorem inner_inGrid {g : GRID} {x y : Int} (h : g.Inner x y) : g.InGrid x y := by
  unfold GRID.Inner at h
  unfold GRID.InGrid
  omega

theorem inner_neighbor {g : GRID} {x y : Int} (h : g.Inner x y) (a : Nat) (ha : a < 8) :
    g.InGrid (x + off8X a) (y + off8Y a) := by
  have := off8_bounds a ha
  unfold GRID.Inner at h
  unfold GRID.InGrid
  omega

theorem shaped_inb {g : GRID} (hs : g.Shaped) {x y : Int} (h : g.InGrid x y) :
    g.inb (GETCELL g x y) := by
  obtain ⟨hx0, hx1, hy0, hy1⟩ := h
  unfold GRID.inb GETCELL
  rw [hs.2.2.2.1]
  have h1 : 0 ≤ y * g.width := Int.mul_nonneg hy0 (by omega)
  have h2 : (y + 1) * g.width ≤ g.height * g.width :=
    Int.mul_le_mul_of_nonneg_right (by omega) (by omega)
  have h3 : (y + 1) * g.width = y * g.width + g.width := by ring
  have h4 : g.height * g.width = g.width * g.height := by ring
  omega

/-- Two positions of the grid with the same index are the same position. -/
theorem inGrid_unique {g : GRID} {x y x' y' : Int} (h : g.InGrid x y) (h' : g.InGrid x' y')
    (he : GETCELL g x y = GETCELL g x' y') : x = x' ∧ y = y' := by
  obtain ⟨hx0, hx1, hy0, hy1⟩ := h
  obtain ⟨hx0', hx1', hy0', hy1'⟩ := h'
  unfold GETCELL at he
  have hx : x = x' := by
    have e1 : (x + y * g.width) % g.width = x := by
      rw [Int.add_mul_emod_self]; exact Int.emod_eq_of_lt hx0 hx1
    have e2 : (x' + y' * g.width) % g.width = x' := by
      rw [Int.add_mul_emod_self]; exact Int.emod_eq_of_lt hx0' hx1'
    rw [← e1, ← e2, he]
  refine ⟨hx, ?_⟩
  subst hx
  have hw : g.width ≠ 0 := by omega
  have : y * g.width = y' * g.width := by omega
  exact Int.eq_of_mul_eq_mul_right hw this

/-! ## Stamps of one pass -/

theorem stamped_modifyCell_iff (g : GRID) (c : Int) (f : CELL → CELL) (ts j e : Int)
    (hf : ∀ x, (f x).timeStamp = x.timeStamp ∧ (f x).depth = x.depth) :
    (g.modifyCell c f).Stamped ts j e ↔ g.Stamped ts j e := by
  unfold GRID.Stamped
  rw [cellAt_modifyCell]
  split
  · rename_i h
    rw [(hf _).1, (hf _).2, h.1]
  · rfl

theorem stamped_hide_iff (g : GRID) (c ts j e : Int) :
    (g.modifyCell c CELL.hide).Stamped ts j e ↔ g.Stamped ts j e :=
  stamped_modifyCell_iff g c _ ts j e (fun _ => by simp [CELL.hide])

theorem stamped_unhide_iff (g : GRID) (c ts j e : Int) :
    (g.modifyCell c CELL.unhide).Stamped ts j e ↔ g.Stamped ts j e :=
  stamped_modifyCell_iff g c _ ts j e (fun _ => by simp [CELL.unhide])

theorem stamped_stamp (g : GRID) (c d ts j e : Int) (hn : ¬ g.Stamped ts c d)
    (h : g.Stamped ts j e) : (g.modifyCell c (CELL.stamp d ts)).Stamped ts j e := by
  unfold GRID.Stamped at *
  rw [cellAt_modifyCell]
  split
  · rename_i hj
    rw [hj.1] at h
    simp only [CELL.stamp, true_and]
    by_contra hlt
    exact hn ⟨h.1, by omega⟩
  · exact h

theorem stamped_stamp_self (g : GRID) (c d ts : Int) (h : g.inb c) :
    (g.modifyCell c (CELL.stamp d ts)).Stamped ts c d := by
  unfold GRID.Stamped
  rw [cellAt_modifyCell_self _ _ _ h]
  simp [CELL.stamp]

theorem floodNeighbor_cases {visit : GRID → Int → Option GRID} {c d ts : Int} {s s' : GRID}
    {a : Nat} (h : floodNeighbor visit c d ts s a = some s') :
    (¬ s.Stamped ts (c + s.ptr8 a) d ∧ visit s (c + s.ptr8 a) = some s') ∨
    (s.Stamped ts (c + s.ptr8 a) d ∧ s' = s) := by
  unfold floodNeighbor at h
  unfold GRID.Stamped
  split at h
  · rename_i hg
    left
    refine ⟨?_, h⟩
    rintro ⟨h1, h2⟩
    rcases hg with hg | hg
    · exact hg h1
    · omega
  · rename_i hg
    right
    simp only [Option.some.injEq] at h
    refine ⟨⟨?_, ?_⟩, h.symm⟩
    · by_contra hne
      exact hg (Or.inl hne)
    · by_contra hlt
      exact hg (Or.inr (by omega))

/-- A call of the flood that is not left out keeps every stamp of the pass: no
depth of the pass decreases. -/
theorem flood_mono : ∀ (fuel : Nat) (g : GRID) (c d ts : Int) (g' : GRID),
    GridFloodVisibility fuel g c d ts = some g' → ¬ g.Stamped ts c d →
    ∀ j e, g.Stamped ts j e → g'.Stamped ts j e
  | 0, g, c, d, ts, g', h, _ => by simp [GridFloodVisibility] at h
  | fuel + 1, g, c, d, ts, g', h, hn => by
    intro j e hj
    rw [flood_succ] at h
    have h1 := stamped_stamp g c d ts j e hn hj
    split at h
    · simp only [Option.some.injEq] at h
      subst h
      exact (stamped_hide_iff _ c ts j e).2 h1
    · have h2 := (stamped_unhide_iff _ c ts j e).2 h1
      split at h
      · simp only [Option.some.injEq] at h
        subst h
        exact h2
      · refine (foldlM_option_inv _ (fun s => s.Stamped ts j e) (fun _ _ => True) _ _ _ ?_ h2 h).1
        intro s a s' _ hs hstep
        refine ⟨?_, trivial, fun _ _ => trivial⟩
        rcases floodNeighbor_cases hstep with ⟨hg, hv⟩ | ⟨_, rfl⟩
        · exact flood_mono fuel s _ _ ts s' hv hg j e hs
        · exact hs

/-- After a call of the flood on a cell of the grid, that cell carries the pass
id and at least the depth of the call. -/
theorem flood_stamps (fuel : Nat) (g : GRID) (c d ts : Int) (g' : GRID)
    (h : GridFloodVisibility fuel g c d ts = some g') (hc : g.inb c) : g'.Stamped ts c d := by
  cases fuel with
  | zero => simp [GridFloodVisibility] at h
  | succ fuel =>
    rw [flood_succ] at h
    have h1 := stamped_stamp_self g c d ts hc
    split at h
    · simp only [Option.some.injEq] at h
      subst h
      exact (stamped_hide_iff _ c ts c d).2 h1
    · have h2 := (stamped_unhide_iff _ c ts c d).2 h1
      split at h
      · simp only [Option.some.injEq] at h
        subst h
        exact h2
      · refine (foldlM_option_inv _ (fun s => s.Stamped ts c d) (fun _ _ => True) _ _ _ ?_ h2 h).1
        intro s a s' _ hs hstep
        refine ⟨?_, trivial, fun _ _ => trivial⟩
        rcases floodNeighbor_cases hstep with ⟨hg, hv⟩ | ⟨_, rfl⟩
        · exact flood_mono fuel s _ _ ts s' hv hg c d hs
        · exact hs

/-! ## The flood inside the grid -/

theorem tdiv_two_le (n : Int) (h : n ≤ 8) : Int.tdiv n 2 ≤ 4 := by
  rcases Int.le_total 0 n with h0 | h0
  · rw [Int.tdiv_eq_ediv h0 (by omega)]
    omega
  · have h1 : Int.tdiv n 2 = -(Int.tdiv (-n) 2) := by
      rw [Int.neg_tdiv, neg_neg]
    have h2 : Int.tdiv (-n) 2 = (-n) / 2 := Int.tdiv_eq_ediv (by omega) (by omega)
    omega

theorem propagates_of_unhide_stamp {g : GRID} {c d ts : Int}
    (h : ¬ (((g.modifyCell c (CELL.stamp d ts)).modifyCell c CELL.unhide).typeAt c ≤ WALL ∨
      ((g.modifyCell c (CELL.stamp d ts)).modifyCell c CELL.unhide).typeAt c = DOOR)) :
    g.Propagates c := by
  have hs := (sameMaze_stamp g c d ts).trans (sameMaze_unhide _ c)
  rw [hs.typeAt] at h
  exact h

theorem neighborCount_stamp (g : GRID) (c d ts : Int) :
    ((g.modifyCell c (CELL.stamp d ts)).cellAt c).neighborCount = (g.cellAt c).neighborCount :=
  ((sameMaze_stamp g c d ts).2.2.2.2.2.2.2 c).2.2.2.2

/-- What a recursive call of the flood finds: the state `s` of the loop over the
neighbours of the interior cell `(x, y)`, from which the flood goes on, still
has the shape of the grid, and the neighbour in direction `a` lies in the grid. -/
theorem flood_step_context {g s : GRID} (hs : g.Shaped) (hf : g.FloodSafe) (hsm : g.SameMaze s)
    {x y : Int} (hin : g.Inner x y) (hp : g.Propagates (GETCELL g x y)) (a : Nat) (ha : a < 8) :
    s.Shaped ∧ s.FloodSafe ∧ s.InGrid (x + off8X a) (y + off8Y a) ∧
    (s.Propagates (GETCELL s (x + off8X a) (y + off8Y a)) →
      s.Inner (x + off8X a) (y + off8Y a)) ∧
    GETCELL g x y + s.ptr8 a = GETCELL s (x + off8X a) (y + off8Y a) ∧
    5 - Int.tdiv (g.cellAt (GETCELL g x y)).neighborCount 2 ≥ 1 := by
  have hs' := hsm.shaped hs
  refine ⟨hs', hsm.floodSafe hf, (hsm.inGrid _ _).2 (inner_neighbor hin a ha), ?_, ?_, ?_⟩
  · intro hp'
    rw [hsm.getcell, hsm.propagates] at hp'
    rw [hsm.inner]
    exact (hf x y hin hp).2 a ha hp'
  · rw [← shaped_neighbor hs' x y a ha, hsm.getcell]
  · have := tdiv_two_le _ (hf x y hin hp).1
    omega

/-- A call of the flood that is not left out changes no cell that already
carries the pass id with at least the depth of the call. -/
theorem flood_keeps : ∀ (fuel : Nat) (g : GRID) (x y d ts : Int) (g' : GRID),
    g.Shaped → g.FloodSafe → g.InGrid x y →
    (g.Propagates (GETCELL g x y) → g.Inner x y) →
    GridFloodVisibility fuel g (GETCELL g x y) d ts = some g' →
    ¬ g.Stamped ts (GETCELL g x y) d →
    ∀ j, g.Stamped ts j d → g'.cellAt j = g.cellAt j
  | 0, g, x, y, d, ts, g', _, _, _, _, h, _ => by simp [GridFloodVisibility] at h
  | fuel + 1, g, x, y, d, ts, g', hs, hf, hxy, hpi, h, hn => by
    intro j hj
    have hjc : j ≠ GETCELL g x y := by
      rintro rfl
      exact hn hj
    rw [flood_succ] at h
    have h1 : ((g.modifyCell (GETCELL g x y) (CELL.stamp d ts)).modifyCell (GETCELL g x y)
        CELL.hide).cellAt j = g.cellAt j := by
      rw [cellAt_modifyCell_ne _ _ _ _ hjc, cellAt_modifyCell_ne _ _ _ _ hjc]
    have h2 : ((g.modifyCell (GETCELL g x y) (CELL.stamp d ts)).modifyCell (GETCELL g x y)
        CELL.unhide).cellAt j = g.cellAt j := by
      rw [cellAt_modifyCell_ne _ _ _ _ hjc, cellAt_modifyCell_ne _ _ _ _ hjc]
    split at h
    · simp only [Option.some.injEq] at h
      subst h
      exact h1
    · split at h
      · simp only [Option.some.injEq] at h
        subst h
        exact h2
      · rename_i hblk
        have hp := propagates_of_unhide_stamp hblk
        have hin := hpi hp
        have hsm2 := (sameMaze_stamp g (GETCELL g x y) d ts).trans (sameMaze_unhide _ (GETCELL g x y))
        rw [neighborCount_stamp] at h
        refine (foldlM_option_inv _ (fun s => g.SameMaze s ∧ s.cellAt j = g.cellAt j)
          (fun _ _ => True) _ _ _ ?_ ⟨hsm2, h2⟩ h).1.2
        intro s a s' ha hP hstep
        have ha8 : a < 8 := List.mem_range.1 ha
        obtain ⟨c1, c2, c3, c4, c5, c6⟩ := flood_step_context hs hf hP.1 hin hp a ha8
        refine ⟨?_, trivial, fun _ _ => trivial⟩
        rcases floodNeighbor_cases hstep with ⟨hg, hv⟩ | ⟨_, rfl⟩
        · rw [c5] at hg hv
          refine ⟨hP.1.trans (flood_sameMaze _ _ _ _ _ _ hv), ?_⟩
          have hjs : s.Stamped ts j
              (d - (5 - Int.tdiv (g.cellAt (GETCELL g x y)).neighborCount 2)) := by
            unfold GRID.Stamped at hj ⊢
            rw [hP.2]
            exact ⟨hj.1, by omega⟩
          rw [flood_keeps fuel s _ _ _ ts s' c1 c2 c3 c4 hv hg j hjs]
          exact hP.2
        · exact hP

/-- The flood returns when the cells it goes on from are interior cells with a
neighbour count of at most 8: a depth of recursion of `d + 2` is enough. -/
theorem flood_returns : ∀ (fuel : Nat) (g : GRID) (x y d ts : Int),
    g.Shaped → g.FloodSafe → g.InGrid x y →
    (g.Propagates (GETCELL g x y) → g.Inner x y) →
    1 ≤ fuel → d + 2 ≤ fuel →
    ∃ g', GridFloodVisibility fuel g (GETCELL g x y) d ts = some g'
  | 0, g, x, y, d, ts, _, _, _, _, h1, _ => by omega
  | fuel + 1, g, x, y, d, ts, hs, hf, hxy, hpi, _, hfuel => by
    rw [flood_succ]
    split
    · exact ⟨_, rfl⟩
    · rename_i hd
      split
      · exact ⟨_, rfl⟩
      · rename_i hblk
        have hp := propagates_of_unhide_stamp hblk
        have hin := hpi hp
        have hsm2 := (sameMaze_stamp g (GETCELL g x y) d ts).trans (sameMaze_unhide _ (GETCELL g x y))
        have hd0 : 0 ≤ d := by
          rw [cellAt_modifyCell_self _ _ _ (shaped_inb hs hxy)] at hd
          simpa [CELL.stamp] using hd
        rw [neighborCount_stamp]
        obtain ⟨s', h', -⟩ := foldlM_option_total
          (floodNeighbor (fun s t => GridFloodVisibility fuel s t
            (d - (5 - Int.tdiv (g.cellAt (GETCELL g x y)).neighborCount 2)) ts) (GETCELL g x y)
            (d - (5 - Int.tdiv (g.cellAt (GETCELL g x y)).neighborCount 2)) ts)
          (fun s => g.SameMaze s) (List.range 8) _ (by
            intro s a ha hP
            have ha8 : a < 8 := List.mem_range.1 ha
            obtain ⟨c1, c2, c3, c4, c5, c6⟩ := flood_step_context hs hf hP hin hp a ha8
            unfold floodNeighbor
            split
            · rw [c5]
              obtain ⟨s', h'⟩ := flood_returns fuel s _ _
                (d - (5 - Int.tdiv (g.cellAt (GETCELL g x y)).neighborCount 2)) ts c1 c2 c3 c4
                (by omega) (by omega)
              exact ⟨s', h', hP.trans (flood_sameMaze _ _ _ _ _ _ h')⟩
            · exact ⟨s, rfl, hP⟩) hsm2
        exact ⟨s', h'⟩

theorem hide_invisible (c : CELL) : c.hide.invisible := by
  unfold CELL.invisible CELL.hide CFL_INVISIBLE
  exact land_lor_one c.flags

theorem chebyshev_self (x y : Int) : chebyshev x y x y = 0 := by
  simp [chebyshev, cabs]

theorem chebyshev_step (x y x' y' dx dy e : Int) (hx : -1 ≤ dx ∧ dx ≤ 1)
    (hy : -1 ≤ dy ∧ dy ≤ 1) (h : chebyshev (x + dx) (y + dy) x' y' ≤ e) :
    chebyshev x y x' y' ≤ e + 1 := by
  unfold chebyshev cabs at *
  rw [max_le_iff] at *
  obtain ⟨h1, h2⟩ := h
  constructor
  · split at h1 <;> split <;> omega
  · split at h2 <;> split <;> omega

/-- Every cell of the grid is, after a call of the flood at `(x, y)` with depth
`d`, as it was before, or invisible, or at a Chebyshev distance of at most `d`
from `(x, y)`. -/
theorem flood_reach : ∀ (fuel : Nat) (g : GRID) (x y d ts : Int) (g' : GRID),
    g.Shaped → g.FloodSafe → g.InGrid x y →
    (g.Propagates (GETCELL g x y) → g.Inner x y) →
    GridFloodVisibility fuel g (GETCELL g x y) d ts = some g' →
    ∀ x' y', g.InGrid x' y' →
      g'.cellAt (GETCELL g x' y') = g.cellAt (GETCELL g x' y') ∨
      (g'.cellAt (GETCELL g x' y')).invisible ∨ chebyshev x y x' y' ≤ d
  | 0, g, x, y, d, ts, g', _, _, _, _, h => by simp [GridFloodVisibility] at h
  | fuel + 1, g, x, y, d, ts, g', hs, hf, hxy, hpi, h => by
    intro x' y' hxy'
    rw [flood_succ] at h
    by_cases hjc : GETCELL g x' y' = GETCELL g x y
    · obtain ⟨rfl, rfl⟩ := inGrid_unique hxy' hxy hjc
      have hc := shaped_inb hs hxy
      split at h
      · simp only [Option.some.injEq] at h
        subst h
        right; left
        rw [cellAt_modifyCell_self _ _ _ (by simpa using hc)]
        exact hide_invisible _
      · rename_i hd
        rw [cellAt_modifyCell_self _ _ _ hc] at hd
        right; right
        rw [chebyshev_self]
        simpa [CELL.stamp] using hd
    · have h2 : ((g.modifyCell (GETCELL g x y) (CELL.stamp d ts)).modifyCell (GETCELL g x y)
          CELL.unhide).cellAt (GETCELL g x' y') = g.cellAt (GETCELL g x' y') := by
        rw [cellAt_modifyCell_ne _ _ _ _ hjc, cellAt_modifyCell_ne _ _ _ _ hjc]
      split at h
      · simp only [Option.some.injEq] at h
        subst h
        left
        rw [cellAt_modifyCell_ne _ _ _ _ hjc, cellAt_modifyCell_ne _ _ _ _ hjc]
      · split at h
        · simp only [Option.some.injEq] at h
          subst h
          exact Or.inl h2
        · rename_i hblk
          have hp := propagates_of_unhide_stamp hblk
          have hin := hpi hp
          have hsm2 := (sameMaze_stamp g (GETCELL g x y) d ts).trans
            (sameMaze_unhide _ (GETCELL g x y))
          rw [neighborCount_stamp] at h
          refine (foldlM_option_inv _ (fun s => g.SameMaze s ∧
            (s.cellAt (GETCELL g x' y') = g.cellAt (GETCELL g x' y') ∨
              (s.cellAt (GETCELL g x' y')).invisible ∨ chebyshev x y x' y' ≤ d))
            (fun _ _ => True) _ _ _ ?_ ⟨hsm2, Or.inl h2⟩ h).1.2
          intro s a s' ha hP hstep
          have ha8 : a < 8 := List.mem_range.1 ha
          obtain ⟨c1, c2, c3, c4, c5, c6⟩ := flood_step_context hs hf hP.1 hin hp a ha8
          refine ⟨?_, trivial, fun _ _ => trivial⟩
          rcases floodNeighbor_cases hstep with ⟨hg, hv⟩ | ⟨_, rfl⟩
          · rw [c5] at hv
            refine ⟨hP.1.trans (flood_sameMaze _ _ _ _ _ _ hv), ?_⟩
            have ih := flood_reach fuel s _ _ _ ts s' c1 c2 c3 c4 hv x' y'
              ((hP.1.inGrid _ _).2 hxy')
            rw [hP.1.getcell] at ih
            rcases ih with ih | ih | ih
            · rw [ih]
              exact hP.2
            · exact Or.inr (Or.inl ih)
            · right; right
              have hb := off8_bounds a ha8
              have := chebyshev_step x y x' y' (off8X a) (off8Y a) _ ⟨hb.1, hb.2.1⟩
                ⟨hb.2.2.1, hb.2.2.2⟩ ih
              omega
          · exact hP

theorem stamp_stamp (d ts : Int) (c : CELL) (f : CELL → CELL)
    (hf : ∀ x, (f x).depth = x.depth ∧ (f x).timeStamp = x.timeStamp) :
    CELL.stamp d ts (f (CELL.stamp d ts c)) = f (CELL.stamp d ts c) := by
  have := hf (CELL.stamp d ts c)
  cases hfc : f (CELL.stamp d ts c) with
  | mk i px py t n dp tst fl =>
    rw [hfc] at this
    simp only [CELL.stamp] at this ⊢
    rw [this.1, this.2]

theorem hide_hide (c : CELL) : c.hide.hide = c.hide := by
  simp [CELL.hide, CFL_INVISIBLE, lor_lor_one]

theorem unhide_unhide (c : CELL) : c.unhide.unhide = c.unhide := by
  simp [CELL.unhide, CFL_INVISIBLE, land_not_one_twice]

/-- The flood is idempotent within one pass: on a grid whose propagating
interior cells have a neighbour count of at most 8 and no propagating
neighbour on the border, a second call at the same interior cell with the
same depth and pass id returns the grid the first call returned. -/
theorem flood_idempotent (fuel : Nat) (g : GRID) (x y d ts : Int)
    (hs : g.Shaped) (hf : g.FloodSafe) (hin : g.Inner x y)
    (h1 : 1 ≤ fuel) (hfuel : d + 2 ≤ fuel) :
    ∃ g1, GridFloodVisibility fuel g (GETCELL g x y) d ts = some g1 ∧
      GridFloodVisibility fuel g1 (GETCELL g x y) d ts = some g1 := by
  have hxy := inner_inGrid hin
  obtain ⟨g1, hg1⟩ := flood_returns fuel g x y d ts hs hf hxy (fun _ => hin) h1 hfuel
  refine ⟨g1, hg1, ?_⟩
  have hsm := flood_sameMaze _ _ _ _ _ _ hg1
  have hc := shaped_inb hs hxy
  have hc1 : g1.inb (GETCELL g x y) := (hsm.inb _).2 hc
  cases fuel with
  | zero => omega
  | succ fuel =>
    rw [flood_succ] at hg1 ⊢
    have hdep : ((g.modifyCell (GETCELL g x y) (CELL.stamp d ts)).cellAt (GETCELL g x y)).depth
        = d := by
      rw [cellAt_modifyCell_self _ _ _ hc]
      rfl
    rw [hdep] at hg1
    by_cases hd : d < 0
    · rw [if_pos hd] at hg1
      simp only [Option.some.injEq] at hg1
      have hcell : g1.cellAt (GETCELL g x y) = (CELL.stamp d ts (g.cellAt (GETCELL g x y))).hide := by
        rw [← hg1, cellAt_modifyCell_self _ _ _ (by simpa using hc), cellAt_modifyCell_self _ _ _ hc]
      have e1 : g1.modifyCell (GETCELL g x y) (CELL.stamp d ts) = g1 := by
        apply modifyCell_eq_self
        rw [hcell]
        exact stamp_stamp d ts _ CELL.hide (fun _ => by simp [CELL.hide])
      rw [e1, hcell]
      have e2 : g1.modifyCell (GETCELL g x y) CELL.hide = g1 := by
        apply modifyCell_eq_self
        rw [hcell, hide_hide]
      have e3 : (CELL.stamp d ts (g.cellAt (GETCELL g x y))).hide.depth = d := rfl
      rw [e3, if_pos hd, e2]
    · rw [if_neg hd] at hg1
      have key : g1.cellAt (GETCELL g x y) = (CELL.stamp d ts (g.cellAt (GETCELL g x y))).unhide ∧
          (¬ (g.typeAt (GETCELL g x y) ≤ WALL ∨ g.typeAt (GETCELL g x y) = DOOR) →
            ∀ a ∈ List.range 8, g1.Stamped ts (GETCELL g x y + g1.ptr8 a)
              (d - (5 - Int.tdiv (g.cellAt (GETCELL g x y)).neighborCount 2))) := by
        have hsm2 := (sameMaze_stamp g (GETCELL g x y) d ts).trans
          (sameMaze_unhide _ (GETCELL g x y))
        have hcell2 : ((g.modifyCell (GETCELL g x y) (CELL.stamp d ts)).modifyCell (GETCELL g x y)
            CELL.unhide).cellAt (GETCELL g x y) =
            (CELL.stamp d ts (g.cellAt (GETCELL g x y))).unhide := by
          rw [cellAt_modifyCell_self _ _ _ (by simpa using hc), cellAt_modifyCell_self _ _ _ hc]
        rw [hsm2.typeAt] at hg1
        split at hg1
        · rename_i hblk
          simp only [Option.some.injEq] at hg1
          subst hg1
          exact ⟨hcell2, fun hn => absurd hblk hn⟩
        · rename_i hblk
          have hp : g.Propagates (GETCELL g x y) := hblk
          rw [neighborCount_stamp] at hg1
          have := foldlM_option_inv _ (fun s => g.SameMaze s ∧
              s.cellAt (GETCELL g x y) = (CELL.stamp d ts (g.cellAt (GETCELL g x y))).unhide)
            (fun (a : Nat) s => s.Stamped ts (GETCELL g x y + s.ptr8 a)
              (d - (5 - Int.tdiv (g.cellAt (GETCELL g x y)).neighborCount 2)))
            _ _ _ ?_ ⟨hsm2, hcell2⟩ hg1
          · exact ⟨this.1.2, fun _ => this.2⟩
          · intro s a s' ha hP hstep
            have ha8 : a < 8 := List.mem_range.1 ha
            obtain ⟨c1, c2, c3, c4, c5, c6⟩ := flood_step_context hs hf hP.1 hin hp a ha8
            rcases floodNeighbor_cases hstep with ⟨hg, hv⟩ | ⟨hst, rfl⟩
            · have hsm' := flood_sameMaze _ _ _ _ _ _ hv
              have hmono := flood_mono _ _ _ _ _ _ hv hg
              refine ⟨⟨hP.1.trans hsm', ?_⟩, ?_, ?_⟩
              · rw [c5] at hg hv
                have hjs : s.Stamped ts (GETCELL g x y)
                    (d - (5 - Int.tdiv (g.cellAt (GETCELL g x y)).neighborCount 2)) := by
                  unfold GRID.Stamped
                  rw [hP.2]
                  simp only [CELL.unhide, CELL.stamp, true_and]
                  omega
                rw [flood_keeps fuel s _ _ _ ts s' c1 c2 c3 c4 hv hg _ hjs]
                exact hP.2
              · beta_reduce
                rw [hsm'.ptr8]
                exact flood_stamps _ _ _ _ _ _ hv (by rw [c5]; exact shaped_inb c1 c3)
              · intro b hb
                rw [hsm'.ptr8]
                exact hmono _ _ hb
            · exact ⟨hP, hst, fun _ hb => hb⟩
      obtain ⟨hcell, hnb⟩ := key
      have e1 : g1.modifyCell (GETCELL g x y) (CELL.stamp d ts) = g1 := by
        apply modifyCell_eq_self
        rw [hcell]
        exact stamp_stamp d ts _ CELL.unhide (fun _ => by simp [CELL.unhide])
      have e2 : g1.modifyCell (GETCELL g x y) CELL.unhide = g1 := by
        apply modifyCell_eq_self
        rw [hcell, unhide_unhide]
      have e3 : (CELL.stamp d ts (g.cellAt (GETCELL g x y))).unhide.depth = d := rfl
      have e4 : (CELL.stamp d ts (g.cellAt (GETCELL g x y))).unhide.neighborCount =
          (g.cellAt (GETCELL g x y)).neighborCount := rfl
      rw [e1, hcell, e3, if_neg hd, ← hcell, e2, hsm.typeAt, hcell, e4]
      split
      · rfl
      · rename_i hblk
        obtain ⟨s', h', hs'⟩ := foldlM_option_total
          (floodNeighbor (fun s t => GridFloodVisibility fuel s t
            (d - (5 - Int.tdiv (g.cellAt (GETCELL g x y)).neighborCount 2)) ts) (GETCELL g x y)
            (d - (5 - Int.tdiv (g.cellAt (GETCELL g x y)).neighborCount 2)) ts)
          (fun s => s = g1) (List.range 8) g1 (by
            intro s a ha hP
            subst hP
            refine ⟨s, ?_, rfl⟩
            have hst := hnb hblk a ha
            unfold floodNeighbor
            rw [if_neg]
            unfold GRID.Stamped at hst
            rintro (hne | hlt)
            · exact hne hst.1
            · omega) rfl
        rw [h', hs']

/-! ## Created grids have the shape the flood relies on -/

theorem GridCreate_shaped (w h : Int) (junk : Int → Int) : (GridCreate w h junk).Shaped := by
  have hw := (MAKEODD_cmax_least w).2.1
  have hh := (MAKEODD_cmax_least h).2.1
  have hw7 : 7 ≤ MAKEODD (cmax w 7) := by omega
  have hh7 : 7 ≤ MAKEODD (cmax h 7) := by omega
  have hsz : 0 ≤ MAKEODD (cmax w 7) * MAKEODD (cmax h 7) :=
    Int.mul_nonneg (by omega) (by omega)
  refine ⟨by simp only [GridCreate_width]; omega, by simp only [GridCreate_height]; omega,
    rfl, ?_, rfl, rfl, ?_⟩
  · simp only [GridCreate, List.length_map, List.length_range]
    exact Int.toNat_of_nonneg hsz
  · intro x y hxy
    obtain ⟨hx0, hx1, hy0, hy1⟩ := hxy
    simp only [GridCreate_width, GridCreate_height] at hx1 hy1
    have hlen : (GridCreate w h junk).cells.length =
        (MAKEODD (cmax w 7) * MAKEODD (cmax h 7)).toNat := by
      simp [GridCreate]
    have hn0 : 0 ≤ x + y * MAKEODD (cmax w 7) := by
      have := Int.mul_nonneg hy0 (by omega : (0 : Int) ≤ MAKEODD (cmax w 7))
      omega
    have hlt : x + y * MAKEODD (cmax w 7) < MAKEODD (cmax w 7) * MAKEODD (cmax h 7) := by
      have h2 : (y + 1) * MAKEODD (cmax w 7) ≤ MAKEODD (cmax h 7) * MAKEODD (cmax w 7) :=
        Int.mul_le_mul_of_nonneg_right (by omega) (by omega)
      have h3 : (y + 1) * MAKEODD (cmax w 7) = y * MAKEODD (cmax w 7) + MAKEODD (cmax w 7) := by
        ring
      have h4 : MAKEODD (cmax h 7) * MAKEODD (cmax w 7)
          = MAKEODD (cmax w 7) * MAKEODD (cmax h 7) := by ring
      omega
    have hcell : (GridCreate w h junk).cellAt (x + y * MAKEODD (cmax w 7)) =
        { index := x + y * MAKEODD (cmax w 7)
          posX := Int.tmod (x + y * MAKEODD (cmax w 7)) (MAKEODD (cmax w 7))
          posY := Int.tdiv (x + y * MAKEODD (cmax w 7)) (MAKEODD (cmax w 7))
          type := UNVISITED
          neighborCount := junk (x + y * MAKEODD (cmax w 7))
          depth := 0
          timeStamp := 0
          flags := CFL_INVISIBLE } := by
      have hnat : (x + y * MAKEODD (cmax w 7)).toNat <
          (MAKEODD (cmax w 7) * MAKEODD (cmax h 7)).toNat := by omega
      simp only [GRID.cellAt, hn0, if_true, GridCreate, List.getD_eq_getElem?_getD]
      rw [List.getElem?_map, List.getElem?_range hnat]
      simp only [Option.map_some', Option.getD_some, Int.toNat_of_nonneg hn0]
    simp only [GETCELL, GridCreate_width]
    rw [hcell]
    refine ⟨rfl, ?_, ?_⟩
    · show Int.tmod (x + y * MAKEODD (cmax w 7)) (MAKEODD (cmax w 7)) = x
      rw [Int.tmod_eq_emod hn0 (by omega), Int.add_mul_emod_self]
      exact Int.emod_eq_of_lt hx0 hx1
    · show Int.tdiv (x + y * MAKEODD (cmax w 7)) (MAKEODD (cmax w 7)) = y
      rw [Int.tdiv_eq_ediv hn0 (by omega), Int.add_mul_ediv_right _ _ (by omega),
        Int.ediv_eq_zero_of_lt hx0 hx1]
      omega

theorem shaped_modifyCell (g : GRID) (i : Int) (f : CELL → CELL) (hs : g.Shaped)
    (hf : ∀ c, (f c).index = c.index ∧ (f c).posX = c.posX ∧ (f c).posY = c.posY) :
    (g.modifyCell i f).Shaped := by
  obtain ⟨s1, s2, s3, s4, s5, s6, s7⟩ := hs
  refine ⟨by simpa using s1, by simpa using s2, by simpa using s3, by simpa using s4,
    by simpa using s5, by simpa using s6, ?_⟩
  intro x y hxy
  have hxy' : g.InGrid x y := by simpa [GRID.InGrid] using hxy
  have hg : GETCELL (g.modifyCell i f) x y = GETCELL g x y := by simp [GETCELL]
  rw [hg, cellAt_modifyCell]
  split
  · rename_i h
    obtain ⟨t1, t2, t3⟩ := s7 x y hxy'
    rw [(hf _).1, (hf _).2.1, (hf _).2.2, ← h.1]
    exact ⟨t1, t2, t3⟩
  · exact s7 x y hxy'

theorem shaped_setType (g : GRID) (i t : Int) (hs : g.Shaped) : (g.setType i t).Shaped :=
  shaped_modifyCell g i _ hs (fun _ => by simp)

/-! ## The claims about the flood -/

/-- C10: on a cell `c` of type `WALL` or `DOOR` and with a depth `d ≥ 0`,
`GridFloodVisibility(c, d, passId)` returns, stores `d` and `passId` in `c`,
clears the invisible flag of `c` and changes no other cell, nor any type,
neighbour count or field of the grid. -/
theorem C10_flood_blocked_cell (fuel : Nat) (g : GRID) (c d ts : Int)
    (hty : g.typeAt c = WALL ∨ g.typeAt c = DOOR) (hd : 0 ≤ d) :
    ∃ g', GridFloodVisibility (fuel + 1) g c d ts = some g' ∧
      (g'.cellAt c).depth = d ∧ (g'.cellAt c).timeStamp = ts ∧ ¬ (g'.cellAt c).invisible ∧
      (∀ j, j ≠ c → g'.cellAt j = g.cellAt j) ∧ g.SameMaze g' := by
  have hc : g.inb c := by
    by_contra hn
    rw [typeAt_of_not_inb g c hn] at hty
    rcases hty with h | h <;> simp [WALL, DOOR] at h
  have hsm := (sameMaze_stamp g c d ts).trans (sameMaze_unhide _ c)
  have hcell : ((g.modifyCell c (CELL.stamp d ts)).modifyCell c CELL.unhide).cellAt c =
      (CELL.stamp d ts (g.cellAt c)).unhide := by
    rw [cellAt_modifyCell_self _ _ _ (by simpa using hc), cellAt_modifyCell_self _ _ _ hc]
  refine ⟨(g.modifyCell c (CELL.stamp d ts)).modifyCell c CELL.unhide, ?_, ?_, ?_, ?_, ?_, hsm⟩
  · rw [flood_succ, cellAt_modifyCell_self _ _ _ hc, hsm.typeAt]
    have : ¬ (CELL.stamp d ts (g.cellAt c)).depth < 0 := by
      simp only [CELL.stamp]; omega
    rw [if_neg this, if_pos]
    rcases hty with h | h
    · exact Or.inl (by rw [h])
    · exact Or.inr h
  · rw [hcell]; rfl
  · rw [hcell]; rfl
  · rw [hcell]
    unfold CELL.invisible CELL.unhide CFL_INVISIBLE
    simp only
    rw [land_not_one_land_one]
    decide
  · intro j hj
    rw [cellAt_modifyCell_ne _ _ _ _ hj, cellAt_modifyCell_ne _ _ _ _ hj]

theorem C10_flood_blocked_cell_witness :
    (cornerGrid.typeAt 0 = WALL ∨ cornerGrid.typeAt 0 = DOOR) ∧ (0 : Int) ≤ 30 ∧
    ∃ g', GridFloodVisibility (0 + 1) cornerGrid 0 30 1 = some g' ∧
      (g'.cellAt 0).depth = 30 ∧ (g'.cellAt 0).timeStamp = 1 ∧ ¬ (g'.cellAt 0).invisible ∧
      (∀ j, j ≠ 0 → g'.cellAt j = cornerGrid.cellAt j) ∧ cornerGrid.SameMaze g' :=
  ⟨Or.inl (by decide), by decide,
    C10_flood_blocked_cell 0 cornerGrid 0 30 1 (Or.inl (by decide)) (by decide)⟩

theorem floodSafe_of_interior {g : GRID}
    (hp : ∀ x y, g.InGrid x y → g.Propagates (GETCELL g x y) →
      g.Inner x y ∧ 0 ≤ (g.cellAt (GETCELL g x y)).neighborCount ∧
        (g.cellAt (GETCELL g x y)).neighborCount ≤ 8) : g.FloodSafe := by
  intro x y hin hpr
  refine ⟨(hp x y (inner_inGrid hin) hpr).2.2, ?_⟩
  intro d hd hpr'
  exact (hp _ _ (inner_neighbor hin d hd) hpr').1

/-- C9, as the claim states it, fails: in `borderGrid` the only cell from which
the flood goes on, (6, 3), has a neighbour count of 0, and the flood from it
with depth 5 clears the invisible flag of the cell (0, 4), whose Chebyshev
distance from (6, 3) is 6: the unchecked neighbour `_cell + 1` of a cell of the
right border is the first cell of the next row. -/
theorem C9_counterexample :
    borderGrid.Shaped ∧
    (∀ n : Nat, n < 49 → borderGrid.Propagates n →
      0 ≤ (borderGrid.cellAt n).neighborCount ∧ (borderGrid.cellAt n).neighborCount ≤ 8) ∧
    borderGrid.InGrid 6 3 ∧ borderGrid.InGrid 0 4 ∧ (5 : Int) < chebyshev 6 3 0 4 ∧
    ∃ g', GridFloodVisibility 2 borderGrid (GETCELL borderGrid 6 3) 5 1 = some g' ∧
      g'.cellAt (GETCELL borderGrid 0 4) ≠ borderGrid.cellAt (GETCELL borderGrid 0 4) ∧
      ¬ (g'.cellAt (GETCELL borderGrid 0 4)).invisible := by
  exact ⟨shaped_setType _ _ _ (GridCreate_shaped 7 7 _), by decide, by decide, by decide,
    by decide, borderFlooded, by decide!, by decide, by decide!⟩

/-- C9, amended: on a grid in which the flood goes on only from interior cells,
each with a neighbour count between 0 and 8, `GridFloodVisibility(origin,
maxDepth, passId)` returns and leaves every cell whose Chebyshev distance
from the origin exceeds `maxDepth` as it was or invisible. -/
theorem C9_flood_within_distance (fuel : Nat) (g : GRID) (x y d ts : Int)
    (hs : g.Shaped)
    (hp : ∀ x y, g.InGrid x y → g.Propagates (GETCELL g x y) →
      g.Inner x y ∧ 0 ≤ (g.cellAt (GETCELL g x y)).neighborCount ∧
        (g.cellAt (GETCELL g x y)).neighborCount ≤ 8)
    (hxy : g.InGrid x y) (h1 : 1 ≤ fuel) (hfuel : d + 2 ≤ fuel) :
    ∃ g', GridFloodVisibility fuel g (GETCELL g x y) d ts = some g' ∧
      ∀ x' y', g.InGrid x' y' → d < chebyshev x y x' y' →
        g'.cellAt (GETCELL g x' y') = g.cellAt (GETCELL g x' y') ∨
        (g'.cellAt (GETCELL g x' y')).invisible := by
  have hf := floodSafe_of_interior hp
  have hpi : g.Propagates (GETCELL g x y) → g.Inner x y := fun h => (hp x y hxy h).1
  obtain ⟨g', hg'⟩ := flood_returns fuel g x y d ts hs hf hxy hpi h1 hfuel
  refine ⟨g', hg', ?_⟩
  intro x' y' hxy' hd
  rcases flood_reach fuel g x y d ts g' hs hf hxy hpi hg' x' y' hxy' with h | h | h
  · exact Or.inl h
  · exact Or.inr h
  · omega

theorem centerGrid_propagates (x y : Int) (hxy : centerGrid.InGrid x y)
    (hp : centerGrid.Propagates (GETCELL centerGrid x y)) :
    centerGrid.Inner x y ∧ 0 ≤ (centerGrid.cellAt (GETCELL centerGrid x y)).neighborCount ∧
      (centerGrid.cellAt (GETCELL centerGrid x y)).neighborCount ≤ 8 := by
  obtain ⟨hx0, hx1, hy0, hy1⟩ := hxy
  have hw : centerGrid.width = 7 := by decide
  have hh : centerGrid.height = 7 := by decide
  rw [hw] at hx1
  rw [hh] at hy1
  interval_cases x <;> interval_cases y <;> revert hp <;> decide

theorem pairGrid_shaped : pairGrid.Shaped :=
  shaped_modifyCell _ _ _ (shaped_modifyCell _ _ _ (GridCreate_shaped 7 7 _)
    (fun _ => ⟨rfl, rfl, rfl⟩)) (fun _ => ⟨rfl, rfl, rfl⟩)

theorem pairGrid_propagates (x y : Int) (hxy : pairGrid.InGrid x y)
    (hp : pairGrid.Propagates (GETCELL pairGrid x y)) :
    pairGrid.Inner x y ∧ 0 ≤ (pairGrid.cellAt (GETCELL pairGrid x y)).neighborCount ∧
      (pairGrid.cellAt (GETCELL pairGrid x y)).neighborCount ≤ 8 := by
  obtain ⟨hx0, hx1, hy0, hy1⟩ := hxy
  have hw : pairGrid.width = 7 := by decide
  have hh : pairGrid.height = 7 := by decide
  rw [hw] at hx1
  rw [hh] at hy1
  interval_cases x <;> interval_cases y <;> revert hp <;> decide

/-- The flood of `pairGrid` from (3, 3) with `maxDepth` 1: the flood goes on
from (3, 3) and from (4, 3), each with an attenuation of 1, and the grid has
cells farther than 1 from (3, 3), such as (5, 3) and (6, 6). -/
theorem C9_flood_within_distance_witness :
    pairGrid.Shaped ∧ pairGrid.InGrid 3 3 ∧ 1 ≤ 3 ∧ (1 : Int) + 2 ≤ (3 : Nat) ∧
    pairGrid.InGrid 5 3 ∧ (1 : Int) < chebyshev 3 3 5 3 ∧
    pairGrid.InGrid 6 6 ∧ (1 : Int) < chebyshev 3 3 6 6 ∧
    ∃ g', GridFloodVisibility 3 pairGrid (GETCELL pairGrid 3 3) 1 1 = some g' ∧
      ∀ x' y', pairGrid.InGrid x' y' → 1 < chebyshev 3 3 x' y' →
        g'.cellAt (GETCELL pairGrid x' y') = pairGrid.cellAt (GETCELL pairGrid x' y') ∨
        (g'.cellAt (GETCELL pairGrid x' y')).invisible :=
  ⟨pairGrid_shaped, by decide, by decide, by decide, by decide, by decide, by decide, by decide,
    C9_flood_within_distance 3 pairGrid 3 3 1 1 pairGrid_shaped pairGrid_propagates
      (by decide) (by decide) (by decide)⟩

/-- The flood of `pairGrid` from (3, 3) with `maxDepth` 1, evaluated: the cell
(4, 3), next to the origin, is written with the depth 0 and made visible; the
cell (5, 3), two cells from the origin, is written, with the depth -1, and
left invisible; the cell (6, 6) is not written. -/
theorem pairFlooded_sample :
    GridFloodVisibility 3 pairGrid (GETCELL pairGrid 3 3) 1 1 = some pairFlooded ∧
    (pairFlooded.cellAt (GETCELL pairGrid 4 3)).depth = 0 ∧
    ¬ (pairFlooded.cellAt (GETCELL pairGrid 4 3)).invisible ∧
    (pairFlooded.cellAt (GETCELL pairGrid 5 3)).timeStamp = 1 ∧
    (pairFlooded.cellAt (GETCELL pairGrid 5 3)).depth = -1 ∧
    pairFlooded.cellAt (GETCELL pairGrid 5 3) ≠ pairGrid.cellAt (GETCELL pairGrid 5 3) ∧
    (pairFlooded.cellAt (GETCELL pairGrid 5 3)).invisible ∧
    pairFlooded.cellAt (GETCELL pairGrid 6 6) = pairGrid.cellAt (GETCELL pairGrid 6 6) := by
  refine ⟨?_, by decide!, by decide!, by decide!, by decide!, by decide!, by decide!, by decide!⟩
  unfold pairFlooded
  cases h : GridFloodVisibility 3 pairGrid (GETCELL pairGrid 3 3) 1 1 with
  | none => exact absurd h (by decide!)
  | some g' => rfl

/-! ## Loops -/

theorem forUp_eq_foldl {σ : Type} (body : σ → Int → σ) :
    ∀ (fuel : Nat) (i limit step : Int) (s : σ),
      forUp fuel i limit step body s = (loopIndices fuel i limit step).foldl body s
  | 0, _, _, _, _ => rfl
  | fuel + 1, i, limit, step, s => by
    unfold forUp loopIndices
    split
    · rw [List.foldl_cons, forUp_eq_foldl body fuel]
    · rfl

theorem forLoop_eq_foldl {σ : Type} (body : σ → Int → σ) (start limit step : Int) (s : σ) :
    forLoop start limit step body s =
      (loopIndices (limit - start).toNat start limit step).foldl body s :=
  forUp_eq_foldl body _ _ _ _ _

theorem mem_loopIndices_imp : ∀ (fuel : Nat) (i limit step j : Int), 0 < step →
    j ∈ loopIndices fuel i limit step → i ≤ j ∧ j < limit ∧ ∃ n : Nat, j = i + n * step
  | 0, _, _, _, _, _, h => by simp [loopIndices] at h
  | fuel + 1, i, limit, step, j, hs, h => by
    unfold loopIndices at h
    split at h
    · rename_i hlt
      rcases List.mem_cons.1 h with rfl | h'
      · exact ⟨le_refl _, hlt, 0, by simp⟩
      · obtain ⟨h1, h2, n, hn⟩ := mem_loopIndices_imp fuel _ _ _ _ hs h'
        refine ⟨by omega, h2, n + 1, ?_⟩
        rw [hn]
        push_cast
        ring
    · simp at h

theorem mem_loopIndices_of : ∀ (fuel : Nat) (i limit step : Int) (n : Nat), 0 < step →
    limit - i ≤ fuel → i + n * step < limit → i + n * step ∈ loopIndices fuel i limit step
  | 0, i, limit, step, n, hs, hf, hlt => by
    have : 0 ≤ (n : Int) * step := Int.mul_nonneg (by omega) (by omega)
    omega
  | fuel + 1, i, limit, step, n, hs, hf, hlt => by
    have hnn : 0 ≤ (n : Int) * step := Int.mul_nonneg (by omega) (by omega)
    unfold loopIndices
    rw [if_pos (by omega)]
    cases n with
    | zero => simp
    | succ m =>
      refine List.mem_cons_of_mem _ ?_
      have e : i + ((m + 1 : Nat) : Int) * step = (i + step) + (m : Int) * step := by
        push_cast
        ring
      rw [e] at hlt ⊢
      exact mem_loopIndices_of fuel (i + step) limit step m hs (by push_cast at hf; omega) hlt

/-- The values of the loop variable of `for (i = start; i < limit; i += step)`. -/
theorem mem_forLoop_indices (start limit step j : Int) (hs : 0 < step) :
    j ∈ loopIndices (limit - start).toNat start limit step ↔
      start ≤ j ∧ j < limit ∧ ∃ n : Nat, j = start + n * step := by
  constructor
  · exact mem_loopIndices_imp _ _ _ _ _ hs
  · rintro ⟨h1, h2, n, rfl⟩
    exact mem_loopIndices_of _ _ _ _ n hs (by omega) h2

/-- Invariants of a loop: `P` is kept by every iteration, and `Q a`, once the
iteration for `a` has established it, is kept by every later one. -/
theorem foldl_inv {α σ : Type} (f : σ → α → σ) (P : σ → Prop) (Q : α → σ → Prop) :
    ∀ (l : List α) (s : σ),
      (∀ s a, a ∈ l → P s → P (f s a) ∧ Q a (f s a) ∧ ∀ b, Q b s → Q b (f s a)) →
      P s → P (l.foldl f s) ∧ ∀ a ∈ l, Q a (l.foldl f s)
  | [], s, _, hP => ⟨hP, by simp⟩
  | a :: l, s, hstep, hP => by
    have h1 := hstep s a (List.mem_cons_self a l) hP
    have hrec := foldl_inv f (fun s => P s ∧ Q a s) Q l (f s a)
      (fun t b hb hPt => by
        have := hstep t b (List.mem_cons_of_mem a hb) hPt.1
        exact ⟨⟨this.1, this.2.2 a hPt.2⟩, this.2.1, this.2.2⟩)
      ⟨h1.1, h1.2.1⟩
    rw [List.foldl_cons]
    refine ⟨hrec.1.1, ?_⟩
    intro b hb
    rcases List.mem_cons.1 hb with rfl | hb
    · exact hrec.1.2
    · exact hrec.2 b hb

/-- An invariant of the loop `for (i = start; i < limit; i += step)`. -/
theorem forLoop_inv {σ : Type} (body : σ → Int → σ) (P : σ → Prop) (start limit step : Int)
    (s : σ) (hs : 0 < step)
    (hbody : ∀ s i, start ≤ i → i < limit → (∃ n : Nat, i = start + n * step) → P s →
      P (body s i))
    (h : P s) : P (forLoop start limit step body s) := by
  rw [forLoop_eq_foldl]
  refine (foldl_inv body P (fun _ _ => True) _ s ?_ h).1
  intro s a ha hP
  obtain ⟨h1, h2, h3⟩ := (mem_forLoop_indices start limit step a hs).1 ha
  exact ⟨hbody s a h1 h2 h3 hP, trivial, fun _ _ => trivial⟩

/-- Invariants of the loop `for (i = start; i < limit; i += step)`, with a
property `Q i` that the iteration for `i` establishes and later ones keep. -/
theorem forLoop_inv_each {σ : Type} (body : σ → Int → σ) (P : σ → Prop) (Q : Int → σ → Prop)
    (start limit step : Int) (s : σ) (hs : 0 < step)
    (hbody : ∀ s i, start ≤ i → i < limit → (∃ n : Nat, i = start + n * step) → P s →
      P (body s i) ∧ Q i (body s i) ∧ ∀ j, Q j s → Q j (body s i))
    (h : P s) :
    P (forLoop start limit step body s) ∧
      ∀ i, start ≤ i → i < limit → (∃ n : Nat, i = start + n * step) →
        Q i (forLoop start limit step body s) := by
  rw [forLoop_eq_foldl]
  have := foldl_inv body P Q _ s (fun s a ha hP => by
    obtain ⟨h1, h2, h3⟩ := (mem_forLoop_indices start limit step a hs).1 ha
    exact hbody s a h1 h2 h3 hP) h
  refine ⟨this.1, fun i h1 h2 h3 => this.2 i ?_⟩
  exact (mem_forLoop_indices start limit step i hs).2 ⟨h1, h2, h3⟩

/-! ## Positions, directions and type-only changes -/

theorem frame_shaped {g : GRID} (h : g.Frame) : g.Shaped := h.1

theorem off4_cases (d : Int) (h0 : 0 ≤ d) (h3 : d ≤ 3) :
    (d = 0 ∧ off4X d = 1 ∧ off4Y d = 0) ∨ (d = 1 ∧ off4X d = 0 ∧ off4Y d = -1) ∨
    (d = 2 ∧ off4X d = -1 ∧ off4Y d = 0) ∨ (d = 3 ∧ off4X d = 0 ∧ off4Y d = 1) := by
  interval_cases d <;> simp [off4X, off4Y, offsets4]

theorem shaped_ptr4 {g : GRID} (hs : g.Shaped) (d : Int) (h0 : 0 ≤ d) (h3 : d ≤ 3) :
    g.ptr4 d = off4X d + off4Y d * g.width := by
  unfold GRID.ptr4
  rw [hs.2.2.2.2.1]
  interval_cases d <;> simp [off4X, off4Y, offsets4, List.range, List.range.loop]

theorem shaped_step4 {g : GRID} (hs : g.Shaped) (x y d n : Int) (h0 : 0 ≤ d) (h3 : d ≤ 3) :
    GETCELL g x y + g.ptr4 d * n = GETCELL g (x + off4X d * n) (y + off4Y d * n) := by
  rw [shaped_ptr4 hs d h0 h3]
  unfold GETCELL
  ring

theorem shaped_step4_one {g : GRID} (hs : g.Shaped) (x y d : Int) (h0 : 0 ≤ d) (h3 : d ≤ 3) :
    GETCELL g x y + g.ptr4 d = GETCELL g (x + off4X d) (y + off4Y d) := by
  have := shaped_step4 hs x y d 1 h0 h3
  simpa using this

theorem sameButTypes_refl (g : GRID) : g.SameButTypes g :=
  ⟨rfl, rfl, rfl, rfl, rfl, rfl, rfl, fun _ => rfl⟩

theorem sameButTypes_trans {g g' g'' : GRID} (h1 : g.SameButTypes g') (h2 : g'.SameButTypes g'') :
    g.SameButTypes g'' := by
  obtain ⟨a1, a2, a3, a4, a5, a6, a7, a8⟩ := h1
  obtain ⟨b1, b2, b3, b4, b5, b6, b7, b8⟩ := h2
  refine ⟨by rw [b1, a1], by rw [b2, a2], by rw [b3, a3], by rw [b4, a4], by rw [b5, a5],
    by rw [b6, a6], by rw [b7, a7], fun i => ?_⟩
  rw [b8 i, a8 i]

theorem sameButTypes_setType (g : GRID) (i v : Int) : g.SameButTypes (g.setType i v) := by
  refine ⟨by simp, by simp, by simp, by simp, by simp [GRID.setType], by simp [GRID.setType],
    by simp, fun j => ?_⟩
  unfold GRID.setType
  rw [cellAt_modifyCell]
  split
  · rename_i h
    rw [h.1]
  · rfl

theorem GRID.SameButTypes.cellIndex {g g' : GRID} (h : g.SameButTypes g') (x y : Int) :
    GETCELL g' x y = GETCELL g x y := by
  simp [GETCELL, h.1]

theorem GRID.SameButTypes.inGridIff {g g' : GRID} (h : g.SameButTypes g') (x y : Int) :
    g'.InGrid x y ↔ g.InGrid x y := by
  simp [GRID.InGrid, h.1, h.2.1]

theorem GRID.SameButTypes.innerIff {g g' : GRID} (h : g.SameButTypes g') (x y : Int) :
    g'.Inner x y ↔ g.Inner x y := by
  simp [GRID.Inner, h.1, h.2.1]

theorem GRID.SameButTypes.ptr4Eq {g g' : GRID} (h : g.SameButTypes g') (d : Int) :
    g'.ptr4 d = g.ptr4 d := by
  simp [GRID.ptr4, h.2.2.2.2.1]

theorem GRID.SameButTypes.ptr8Eq {g g' : GRID} (h : g.SameButTypes g') (d : Int) :
    g'.ptr8 d = g.ptr8 d := by
  simp [GRID.ptr8, h.2.2.2.2.2.1]

theorem GRID.SameButTypes.keepsShape {g g' : GRID} (h : g.SameButTypes g') (hs : g.Shaped) :
    g'.Shaped := by
  obtain ⟨s1, s2, s3, s4, s5, s6, s7⟩ := hs
  obtain ⟨a1, a2, a3, a4, a5, a6, a7, a8⟩ := h
  refine ⟨by rw [a1]; exact s1, by rw [a2]; exact s2, by rw [a3, a1, a2]; exact s3,
    by rw [a7, a1, a2]; exact s4, by rw [a5, a1]; exact s5, by rw [a6, a1]; exact s6, ?_⟩
  intro x y hxy
  have hg : GETCELL g' x y = GETCELL g x y := by simp [GETCELL, a1]
  have hxy' : g.InGrid x y := by
    simpa [GRID.InGrid, a1, a2] using hxy
  obtain ⟨t1, t2, t3⟩ := s7 x y hxy'
  rw [hg, a8]
  exact ⟨t1, t2, t3⟩

theorem GRID.SameButTypes.keepsFrame {g g' : GRID} (h : g.SameButTypes g') (hf : g.Frame) : g'.Frame := by
  obtain ⟨f1, f2, f3, f4, f5⟩ := hf
  refine ⟨h.keepsShape f1, ?_, ?_, ?_, ?_⟩
  · rw [h.1]; exact f2
  · rw [h.2.1]; exact f3
  · rw [h.1]; exact f4
  · rw [h.2.1]; exact f5

theorem GRID.SameButTypes.posXEq {g g' : GRID} (h : g.SameButTypes g') (i : Int) :
    (g'.cellAt i).posX = (g.cellAt i).posX := by
  rw [h.2.2.2.2.2.2.2 i]

theorem GRID.SameButTypes.posYEq {g g' : GRID} (h : g.SameButTypes g') (i : Int) :
    (g'.cellAt i).posY = (g.cellAt i).posY := by
  rw [h.2.2.2.2.2.2.2 i]

theorem GRID.SameButTypes.countEq {g g' : GRID} (h : g.SameButTypes g') (i : Int) :
    (g'.cellAt i).neighborCount = (g.cellAt i).neighborCount := by
  rw [h.2.2.2.2.2.2.2 i]

/-- The type at a position after a write at a position. -/
theorem ty_setType {g : GRID} (hs : g.Shaped) {x y x' y' : Int} (h : g.InGrid x y)
    (h' : g.InGrid x' y') (v : Int) :
    (g.setType (GETCELL g x y) v).ty x' y' = if x' = x ∧ y' = y then v else g.ty x' y' := by
  unfold GRID.ty
  have hg : GETCELL (g.setType (GETCELL g x y) v) x' y' = GETCELL g x' y' := by simp [GETCELL]
  rw [hg, typeAt_setType]
  by_cases he : GETCELL g x' y' = GETCELL g x y
  · obtain ⟨rfl, rfl⟩ := inGrid_unique h' h he
    simp [shaped_inb hs h]
  · have : ¬ (x' = x ∧ y' = y) := by
      rintro ⟨rfl, rfl⟩
      exact he rfl
    simp [he, this]

theorem ty_setType_self {g : GRID} (hs : g.Shaped) {x y : Int} (h : g.InGrid x y) (v : Int) :
    (g.setType (GETCELL g x y) v).ty x y = v := by
  rw [ty_setType hs h h]
  simp

theorem ty_setType_ne {g : GRID} (hs : g.Shaped) {x y x' y' : Int} (h : g.InGrid x y)
    (h' : g.InGrid x' y') (v : Int) (hne : ¬ (x' = x ∧ y' = y)) :
    (g.setType (GETCELL g x y) v).ty x' y' = g.ty x' y' := by
  rw [ty_setType hs h h']
  simp [hne]

theorem typeAt_eq_ty_or_zero {g : GRID} (hs : g.Shaped) (i : Int) :
    g.typeAt i = 0 ∨ ∃ x y, g.InGrid x y ∧ i = GETCELL g x y := by
  by_cases hi : g.inb i
  · right
    obtain ⟨h0, h1⟩ := hi
    rw [hs.2.2.2.1] at h1
    have hw : 0 < g.width := by have := hs.1; omega
    refine ⟨i % g.width, i / g.width, ⟨Int.emod_nonneg _ (by omega), Int.emod_lt_of_pos _ hw,
      Int.ediv_nonneg h0 (by omega), ?_⟩, ?_⟩
    · apply Int.ediv_lt_of_lt_mul hw
      rw [Int.mul_comm]
      exact h1
    · unfold GETCELL
      have := Int.emod_add_ediv i g.width
      rw [Int.mul_comm] at this
      omega
  · exact Or.inl (typeAt_of_not_inb g i hi)

/-! ## Random draws and directions -/

theorem GetRandomValue_bounds (rs : Nat → Nat) (k : Nat) (lo hi : Int) (h : lo ≤ hi) :
    lo ≤ GetRandomValue rs k lo hi ∧ GetRandomValue rs k lo hi ≤ hi := by
  unfold GetRandomValue cabs
  rw [if_neg (by omega)]
  have h1 := Int.tmod_nonneg (hi - lo + 1) (Int.ofNat_nonneg (rs k))
  have h2 := Int.tmod_lt_of_pos (rs k : Int) (by omega : 0 < hi - lo + 1)
  omega

theorem turn_dir_bounds (d t : Int) (h0 : 0 ≤ d) (ht : 0 ≤ t) :
    0 ≤ Int.tmod (d + t) 4 ∧ Int.tmod (d + t) 4 ≤ 3 := by
  have h1 := Int.tmod_nonneg 4 (by omega : 0 ≤ d + t)
  have h2 := Int.tmod_lt_of_pos (d + t) (by omega : (0 : Int) < 4)
  omega

/-- The two directions an attempt of `GridMazeRoom` combines are perpendicular:
the diagonal step has both coordinates 1 or -1. -/
theorem turn_perpendicular (d t : Int) (h0 : 0 ≤ d) (h3 : d ≤ 3) (ht : t = 1 ∨ t = 3) :
    (off4X d + off4X (Int.tmod (d + t) 4) = 1 ∨ off4X d + off4X (Int.tmod (d + t) 4) = -1) ∧
    (off4Y d + off4Y (Int.tmod (d + t) 4) = 1 ∨ off4Y d + off4Y (Int.tmod (d + t) 4) = -1) := by
  rcases ht with rfl | rfl <;> interval_cases d <;> decide

/-! ## What a room changes -/

theorem retagged_refl (g : GRID) : g.Retagged g :=
  ⟨sameButTypes_refl g, fun _ => Or.inl rfl⟩

theorem retagged_trans {g g' g'' : GRID} (h1 : g.Retagged g') (h2 : g'.Retagged g'') :
    g.Retagged g'' := by
  refine ⟨sameButTypes_trans h1.1 h2.1, fun i => ?_⟩
  rcases h2.2 i with e2 | ⟨v2, c2⟩
  · rcases h1.2 i with e1 | ⟨v1, c1⟩
    · left; rw [e2, e1]
    · right; rw [e2]; exact ⟨v1, c1⟩
  · right
    refine ⟨v2, ?_⟩
    rcases h1.2 i with e1 | ⟨v1, c1⟩
    · rw [e1] at c2
      rcases c2 with c2 | ⟨c2, x, y, hin, hi⟩
      · exact Or.inl c2
      · refine Or.inr ⟨c2, x, y, (h1.1.innerIff x y).1 hin, ?_⟩
        rw [hi, h1.1.cellIndex]
    · exact c1

theorem retagged_setType (g : GRID) (i v : Int) (hv : 14 ≤ v)
    (hc : 12 ≤ g.typeAt i ∨ (g.typeAt i ≤ START ∧ ∃ x y, g.Inner x y ∧ i = GETCELL g x y)) :
    g.Retagged (g.setType i v) := by
  refine ⟨sameButTypes_setType g i v, fun j => ?_⟩
  rw [typeAt_setType]
  split
  · rename_i h
    right
    rw [h.1]
    exact ⟨hv, hc⟩
  · left; rfl

theorem forNe_inv {σ : Type} (body : σ → Int → σ) (P : σ → Prop) :
    ∀ (n : Nat) (a last step : Int) (s : σ),
      (∀ s (m : Nat), m < n → P s → P (body s (a + m * step))) → P s →
      P (forNe n a last step body s)
  | 0, _, _, _, _, _, h => h
  | n + 1, a, last, step, s, hbody, h => by
    unfold forNe
    split
    · apply forNe_inv body P n
      · intro t m hm ht
        have := hbody t (m + 1) (by omega) ht
        have e : a + ((m + 1 : Nat) : Int) * step = a + step + (m : Int) * step := by
          push_cast; ring
        rw [e] at this
        exact this
      · have := hbody s 0 (by omega) h
        simpa using this
    · exact h

theorem roomStitch_retagged (g0 g : GRID) (x y c : Int) (hc : 14 ≤ c) (h : g0.Retagged g) :
    g0.Retagged (roomStitch x y c g) := by
  unfold roomStitch
  refine forLoop_inv _ (fun s => g0.Retagged s) 0 4 1 g (by omega) ?_ h
  intro s d _ _ _ hs
  simp only
  split_ifs with h1
  · refine retagged_trans hs (retagged_setType _ _ _ hc (Or.inl ?_))
    have h5 := h1.2
    unfold cabs at h5
    split at h5 <;> omega
  · exact hs

theorem roomFill_retagged (g : GRID) (_hf : g.Frame) (px py sx sy xl yl c : Int) (hc : 14 ≤ c)
    (hx : (1 ≤ px ∧ px + 2 * sx ≤ g.width - 2 ∧ sx = 1) ∨
      (1 ≤ px + 2 * sx ∧ px ≤ g.width - 2 ∧ sx = -1))
    (hy : (1 ≤ py ∧ py + 2 * sy ≤ g.height - 2 ∧ sy = 1) ∨
      (1 ≤ py + 2 * sy ∧ py ≤ g.height - 2 ∧ sy = -1)) :
    g.Retagged (roomFill px py xl yl sx sy c g) := by
  unfold roomFill
  refine forNe_inv _ (fun s => g.Retagged s) 3 px xl sx g ?_ (retagged_refl g)
  intro s m hm hs
  refine forNe_inv _ (fun s => g.Retagged s) 3 py yl sy s ?_ hs
  intro t n hn ht
  simp only
  split_ifs with h1
  · exact ht
  · apply roomStitch_retagged _ _ _ _ _ hc
    refine retagged_trans ht (retagged_setType _ _ _ hc (Or.inr ⟨by omega, px + m * sx,
      py + n * sy, ?_, rfl⟩))
    rw [ht.1.innerIff]
    unfold GRID.Inner
    have hm' : (m : Int) = 0 ∨ (m : Int) = 1 ∨ (m : Int) = 2 := by omega
    have hn' : (n : Int) = 0 ∨ (n : Int) = 1 ∨ (n : Int) = 2 := by omega
    rcases hx with ⟨a1, a2, rfl⟩ | ⟨a1, a2, rfl⟩ <;> rcases hy with ⟨b1, b2, rfl⟩ | ⟨b1, b2, rfl⟩ <;>
      rcases hm' with e | e | e <;> rcases hn' with e' | e' | e' <;> rw [e, e'] <;> omega

theorem odd_inGrid_inner {g : GRID} (hf : g.Frame) {x y : Int} (hx : x % 2 = 1) (hy : y % 2 = 1)
    (h : g.InGrid x y) : g.Inner x y := by
  obtain ⟨-, f2, f3, -, -⟩ := hf
  unfold GRID.InGrid at h
  unfold GRID.Inner
  omega

theorem tdiv_cabs_sign (a : Int) (ha : a = 1 ∨ a = -1) :
    Int.tdiv (a * 2) (cabs (a * 2)) = a := by
  rcases ha with rfl | rfl <;> decide

theorem roomAttempts_retagged (rs : Nat → Nat)
    (deeper : Option (GRID → Nat → Int → Int → Int → GRID × Nat))
    (hdeep : ∀ room, deeper = some room → ∀ (g : GRID) (k : Nat) (x y c : Int), g.Frame →
      x % 2 = 1 → y % 2 = 1 →
      g.InGrid x y → 14 ≤ c → g.Retagged (room g k x y c).1) :
    ∀ (n : Nat) (g : GRID) (k : Nat) (px py c dir turn : Int), g.Frame → px % 2 = 1 →
      py % 2 = 1 → g.InGrid px py → 14 ≤ c → 0 ≤ dir → dir ≤ 3 → (turn = 1 ∨ turn = 3) →
      g.Retagged (roomAttempts rs deeper n g k px py c dir turn).1
  | 0, g, k, px, py, c, dir, turn, _, _, _, _, _, _, _, _ => by
    simp only [roomAttempts]
    exact retagged_refl g
  | n + 1, g, k, px, py, c, dir, turn, hf, hpx, hpy, hin, hc, hd0, hd3, ht => by
    have hd' := turn_dir_bounds dir turn hd0 (by omega)
    have ih := roomAttempts_retagged rs deeper hdeep n g k px py c (Int.tmod (dir + turn) 4) turn
      hf hpx hpy hin hc hd'.1 hd'.2 ht
    have hperp := turn_perpendicular dir turn hd0 hd3 ht
    rw [roomAttempts]
    simp only
    split
    swap
    · exact ih
    rename_i hcond
    obtain ⟨⟨b1, -⟩, ⟨b2, -⟩, ⟨b3, -⟩⟩ := hcond
    unfold GRID.inBounds at b1 b2 b3
    have ex : px + (off4X dir + off4X (Int.tmod (dir + turn) 4)) * 2 - px =
        (off4X dir + off4X (Int.tmod (dir + turn) 4)) * 2 := by ring
    have ey : py + (off4Y dir + off4Y (Int.tmod (dir + turn) 4)) * 2 - py =
        (off4Y dir + off4Y (Int.tmod (dir + turn) 4)) * 2 := by ring
    rw [ex, ey, tdiv_cabs_sign _ hperp.1, tdiv_cabs_sign _ hperp.2]
    have hinner := odd_inGrid_inner hf hpx hpy hin
    have hfill : g.Retagged (roomFill px py
        (px + (off4X dir + off4X (Int.tmod (dir + turn) 4)) * 3)
        (py + (off4Y dir + off4Y (Int.tmod (dir + turn) 4)) * 3)
        (off4X dir + off4X (Int.tmod (dir + turn) 4))
        (off4Y dir + off4Y (Int.tmod (dir + turn) 4)) c g) := by
      apply roomFill_retagged g hf _ _ _ _ _ _ _ hc
      · unfold GRID.Inner at hinner
        obtain ⟨-, f2, f3, -, -⟩ := hf
        rcases hperp.1 with e | e <;> rw [e] at b3 ⊢ <;> omega
      · unfold GRID.Inner at hinner
        obtain ⟨-, f2, f3, -, -⟩ := hf
        rcases hperp.2 with e | e <;> rw [e] at b3 ⊢ <;> omega
    have hf1 := hfill.1.keepsFrame hf
    obtain ⟨-, f2, f3, -, -⟩ := hf
    have hoff := off4_cases dir hd0 hd3
    have hoff2 := off4_cases (Int.tmod (dir + turn) 4) hd'.1 hd'.2
    cases hdp : deeper with
    | none => exact hfill
    | some room =>
      simp only
      have hroom := hdeep room hdp
      split_ifs with r0 r1 r2
      · refine retagged_trans hfill (hroom _ _ _ _ _ hf1 ?_ ?_ ?_ (by omega))
        · rcases hoff with ⟨-, a, -⟩ | ⟨-, a, -⟩ | ⟨-, a, -⟩ | ⟨-, a, -⟩ <;> rw [a] <;> omega
        · rcases hoff with ⟨-, -, a⟩ | ⟨-, -, a⟩ | ⟨-, -, a⟩ | ⟨-, -, a⟩ <;> rw [a] <;> omega
        · rw [hfill.1.inGridIff]
          unfold GRID.InGrid
          omega
      · refine retagged_trans hfill (hroom _ _ _ _ _ hf1 ?_ ?_ ?_ (by omega))
        · rcases hoff2 with ⟨-, a, -⟩ | ⟨-, a, -⟩ | ⟨-, a, -⟩ | ⟨-, a, -⟩ <;> rw [a] <;> omega
        · rcases hoff2 with ⟨-, -, a⟩ | ⟨-, -, a⟩ | ⟨-, -, a⟩ | ⟨-, -, a⟩ <;> rw [a] <;> omega
        · rw [hfill.1.inGridIff]
          unfold GRID.InGrid
          omega
      · refine retagged_trans hfill (hroom _ _ _ _ _ hf1 ?_ ?_ ?_ (by omega))
        · rcases hperp.1 with e | e <;> rw [e] <;> omega
        · rcases hperp.2 with e | e <;> rw [e] <;> omega
        · rw [hfill.1.inGridIff]
          unfold GRID.InGrid
          omega
      · exact hfill

theorem roomBody_retagged (rs : Nat → Nat)
    (deeper : Option (GRID → Nat → Int → Int → Int → GRID × Nat))
    (hdeep : ∀ room, deeper = some room → ∀ (g : GRID) (k : Nat) (x y c : Int), g.Frame →
      x % 2 = 1 → y % 2 = 1 →
      g.InGrid x y → 14 ≤ c → g.Retagged (room g k x y c).1)
    (g : GRID) (k : Nat) (px py c : Int) (hf : g.Frame) (hpx : px % 2 = 1) (hpy : py % 2 = 1)
    (hin : g.InGrid px py) (hc : g.ty px py ≠ END → g.ty px py ≠ END_TEMP → 14 ≤ c) :
    g.Retagged (roomBody rs deeper g k px py c).1 := by
  unfold roomBody
  simp only
  split_ifs with h1 h2
  · exact retagged_refl g
  · exact retagged_refl g
  · have hd := GetRandomValue_bounds rs k 0 3 (by omega)
    have ht := GetRandomValue_bounds rs (k + 1) 0 1 (by omega)
    exact roomAttempts_retagged rs deeper hdeep 4 g (k + 2) px py c _ _ hf hpx hpy hin
      (hc h1 h2) hd.1 hd.2 (by omega)

/-- `GridMazeRoom` at an odd position of the grid, with a depth tag of at least
14 unless that position holds an end marker, changes types only: it gives
depth tags of at least 14 to interior cells that were unvisited or walls and
to cells that had a depth tag of at least 12. -/
theorem GridMazeRoom_retagged (rs : Nat → Nat) :
    ∀ (count : Nat) (g : GRID) (k : Nat) (px py c : Int), g.Frame → px % 2 = 1 → py % 2 = 1 →
      g.InGrid px py → (g.ty px py ≠ END → g.ty px py ≠ END_TEMP → 14 ≤ c) →
      g.Retagged (GridMazeRoom rs count g k px py c).1
  | 0, g, k, px, py, c, hf, hpx, hpy, hin, hc => by
    rw [GridMazeRoom]
    exact roomBody_retagged rs none (fun _ h => by simp at h) g k px py c hf hpx hpy hin hc
  | n + 1, g, k, px, py, c, hf, hpx, hpy, hin, hc => by
    rw [GridMazeRoom]
    refine roomBody_retagged rs _ ?_ g k px py c hf hpx hpy hin hc
    intro room hroom g' k' x y c' hf' hx hy hin' hc'
    simp only [Option.some.injEq] at hroom
    subst hroom
    exact GridMazeRoom_retagged rs n g' k' x y c' hf' hx hy hin' (fun _ _ => hc')

/-! ## Paths of the carve -/

theorem twoApart_symm {p q : Int × Int} (h : TwoApart p q) : TwoApart q p := by
  unfold TwoApart at *
  omega

/-- Two steps in the direction `d` lead to a position two cells apart, with the
cell one step away between them. -/
theorem twoApart_step (p : Int × Int) (d : Int) (h0 : 0 ≤ d) (h3 : d ≤ 3) :
    TwoApart (p.1 + off4X d * 2, p.2 + off4Y d * 2) p ∧
    midPos (p.1 + off4X d * 2, p.2 + off4Y d * 2) p = (p.1 + off4X d, p.2 + off4Y d) ∧
    midPos p (p.1 + off4X d * 2, p.2 + off4Y d * 2) = (p.1 + off4X d, p.2 + off4Y d) := by
  unfold TwoApart midPos
  rcases off4_cases d h0 h3 with ⟨-, a, b⟩ | ⟨-, a, b⟩ | ⟨-, a, b⟩ | ⟨-, a, b⟩ <;>
    rw [a, b] <;> simp only [Prod.mk.injEq] <;> omega

/-- A position two cells apart is reached by two steps in one of the four
directions. -/
theorem twoApart_dir {p q : Int × Int} (h : TwoApart p q) :
    ∃ d : Int, 0 ≤ d ∧ d ≤ 3 ∧ q = (p.1 + off4X d * 2, p.2 + off4Y d * 2) := by
  unfold TwoApart at h
  rcases h with ⟨h1, h2 | h2⟩ | ⟨h1, h2 | h2⟩
  · exact ⟨2, by omega, by omega, by ext <;> simp [off4X, off4Y, offsets4] <;> omega⟩
  · exact ⟨0, by omega, by omega, by ext <;> simp [off4X, off4Y, offsets4] <;> omega⟩
  · exact ⟨1, by omega, by omega, by ext <;> simp [off4X, off4Y, offsets4] <;> omega⟩
  · exact ⟨3, by omega, by omega, by ext <;> simp [off4X, off4Y, offsets4] <;> omega⟩

/-- The cell between two odd positions determines the two positions. -/
theorem midPos_inj {a b p q : Int × Int} (ha : OddPos a) (hb : OddPos b) (hp : OddPos p)
    (hq : OddPos q) (hab : TwoApart a b) (hpq : TwoApart p q) (h : midPos a b = midPos p q) :
    (a = p ∧ b = q) ∨ (a = q ∧ b = p) := by
  unfold OddPos at *
  unfold TwoApart at *
  unfold midPos at h
  simp only [Prod.mk.injEq] at h
  simp only [Prod.ext_iff]
  omega

/-- The cell between two odd positions is next to these two only. -/
theorem midPos_adjacent {a b p : Int × Int} (ha : OddPos a) (hb : OddPos b) (hp : OddPos p)
    (hab : TwoApart a b) (d : Int) (h0 : 0 ≤ d) (h3 : d ≤ 3)
    (h : midPos a b = (p.1 + off4X d, p.2 + off4Y d)) : p = a ∨ p = b := by
  unfold OddPos at *
  unfold TwoApart at *
  unfold midPos at h
  simp only [Prod.mk.injEq] at h
  simp only [Prod.ext_iff]
  rcases off4_cases d h0 h3 with ⟨-, e1, e2⟩ | ⟨-, e1, e2⟩ | ⟨-, e1, e2⟩ | ⟨-, e1, e2⟩ <;>
    rw [e1, e2] at h <;> omega

theorem midPos_not_odd {a b : Int × Int} (ha : OddPos a) (hb : OddPos b) (hab : TwoApart a b) :
    ¬ OddPos (midPos a b) := by
  unfold OddPos at *
  unfold TwoApart at *
  unfold midPos
  simp only
  omega

theorem chainOK_ne_nil {g : GRID} {chain : List (Int × Int)} (h : g.ChainOK chain) :
    chain ≠ [] := by
  intro e
  rw [e] at h
  exact h

/-- Every cell of a path has odd coordinates, lies in the interior and is `OPEN`
or an end marker. -/
theorem chainOK_mem {g : GRID} : ∀ {chain : List (Int × Int)}, g.ChainOK chain →
    ∀ a ∈ chain, OddPos a ∧ g.Inner a.1 a.2 ∧
      (g.ty a.1 a.2 = OPEN ∨ g.ty a.1 a.2 = END ∨ g.ty a.1 a.2 = END_TEMP)
  | [], h, _, _ => h.elim
  | [r], h, a, ha => by
    simp only [List.mem_singleton] at ha
    subst ha
    exact ⟨h.1, h.2.1, Or.inr h.2.2⟩
  | p :: q :: rest, h, a, ha => by
    rcases List.mem_cons.1 ha with rfl | ha
    · exact ⟨h.1, h.2.1, Or.inl h.2.2.1⟩
    · exact chainOK_mem h.2.2.2.2.2 a ha

/-- The root of a path is an end marker. -/
theorem chainOK_root {g : GRID} : ∀ {chain : List (Int × Int)}, g.ChainOK chain →
    ∃ r, chain.getLast? = some r ∧ r ∈ chain ∧ (g.ty r.1 r.2 = END ∨ g.ty r.1 r.2 = END_TEMP)
  | [], h => h.elim
  | [r], h => ⟨r, rfl, List.mem_singleton_self r, h.2.2⟩
  | p :: q :: rest, h => by
    obtain ⟨r, h1, h2, h3⟩ := chainOK_root h.2.2.2.2.2
    refine ⟨r, ?_, List.mem_cons_of_mem _ h2, h3⟩
    rw [List.getLast?_cons_cons]
    exact h1

/-- The `OPEN` cells of a path are its cells and the cells between two of them
that follow each other. -/
theorem mem_chainOpen {g : GRID} : ∀ {chain : List (Int × Int)}, g.ChainOK chain →
    ∀ m ∈ chainOpen chain, m ∈ chain ∨
      ∃ a b, a ∈ chain ∧ b ∈ chain ∧ TwoApart a b ∧ m = midPos a b
  | [], h, _, _ => h.elim
  | [r], _, m, hm => by simp [chainOpen] at hm
  | p :: q :: rest, h, m, hm => by
    simp only [chainOpen, List.mem_cons] at hm
    rcases hm with rfl | rfl | hm
    · exact Or.inl (List.mem_cons_self _ _)
    · exact Or.inr ⟨p, q, List.mem_cons_self _ _, List.mem_cons_of_mem _ (List.mem_cons_self _ _),
        h.2.2.2.1, rfl⟩
    · rcases mem_chainOpen h.2.2.2.2.2 m hm with h1 | ⟨a, b, ha, hb, hab, e⟩
      · exact Or.inl (List.mem_cons_of_mem _ h1)
      · exact Or.inr ⟨a, b, List.mem_cons_of_mem _ ha, List.mem_cons_of_mem _ hb, hab, e⟩

/-- A path stays a path when the grid keeps its dimensions and the types of the
cells of the path and of the cells between them. -/
theorem chainOK_congr {g g' : GRID} (hw : g'.width = g.width) (hh : g'.height = g.height) :
    ∀ {chain : List (Int × Int)}, g.ChainOK chain →
      (∀ a ∈ chain, g'.ty a.1 a.2 = g.ty a.1 a.2) →
      (∀ a b, a ∈ chain → b ∈ chain → TwoApart a b →
        g'.ty (midPos a b).1 (midPos a b).2 = g.ty (midPos a b).1 (midPos a b).2) →
      g'.ChainOK chain
  | [], h, _, _ => h.elim
  | [r], h, hc, _ => by
    refine ⟨h.1, ?_, ?_⟩
    · have := h.2.1
      unfold GRID.Inner at *
      rw [hw, hh]
      exact this
    · rw [hc r (List.mem_singleton_self r)]
      exact h.2.2
  | p :: q :: rest, h, hc, hm => by
    have hp : p ∈ p :: q :: rest := List.mem_cons_self _ _
    have hq : q ∈ p :: q :: rest := List.mem_cons_of_mem _ (List.mem_cons_self _ _)
    refine ⟨h.1, ?_, ?_, h.2.2.2.1, ?_, ?_⟩
    · have := h.2.1
      unfold GRID.Inner at *
      rw [hw, hh]
      exact this
    · rw [hc p hp]
      exact h.2.2.1
    · rw [hm p q hp hq h.2.2.2.1]
      exact h.2.2.2.2.1
    · exact chainOK_congr hw hh h.2.2.2.2.2 (fun a ha => hc a (List.mem_cons_of_mem _ ha))
        (fun a b ha hb => hm a b (List.mem_cons_of_mem _ ha) (List.mem_cons_of_mem _ hb))

/-- A path stays a path when the grid keeps its dimensions and the type of every
cell that is `OPEN` or an end marker. -/
theorem chainOK_of_agree {g g' : GRID} (hw : g'.width = g.width) (hh : g'.height = g.height)
    {chain : List (Int × Int)} (h : g.ChainOK chain)
    (hag : ∀ x y, g.InGrid x y → (g.ty x y = OPEN ∨ g.ty x y = END ∨ g.ty x y = END_TEMP) →
      g'.ty x y = g.ty x y) : g'.ChainOK chain := by
  have hall : ∀ {l : List (Int × Int)}, g.ChainOK l → g'.ChainOK l := by
    intro l
    induction l with
    | nil => exact fun h => h.elim
    | cons p t ih =>
      cases t with
      | nil =>
        intro h
        refine ⟨h.1, ?_, ?_⟩
        · have := h.2.1
          unfold GRID.Inner at *
          rw [hw, hh]
          exact this
        · rw [hag p.1 p.2 (by have := h.2.1; unfold GRID.Inner at this; unfold GRID.InGrid; omega)
            (Or.inr h.2.2)]
          exact h.2.2
      | cons q rest =>
        intro h
        have hq := chainOK_mem h.2.2.2.2.2 q (List.mem_cons_self _ _)
        have hpI := h.2.1
        have hqI := hq.2.1
        have hab := h.2.2.2.1
        refine ⟨h.1, ?_, ?_, h.2.2.2.1, ?_, ih h.2.2.2.2.2⟩
        · unfold GRID.Inner at *
          rw [hw, hh]
          exact hpI
        · rw [hag p.1 p.2 (by unfold GRID.Inner at hpI; unfold GRID.InGrid; omega)
            (Or.inl h.2.2.1)]
          exact h.2.2.1
        · rw [hag _ _ ?_ (Or.inl h.2.2.2.2.1)]
          · exact h.2.2.2.2.1
          · unfold GRID.Inner at hpI hqI
            unfold TwoApart at hab
            unfold GRID.InGrid midPos
            simp only
            omega
  exact hall h

/-! ## The invariant of the carve -/

theorem setType_width2 (g : GRID) (i j u v : Int) :
    ((g.setType i u).setType j v).width = g.width ∧
    ((g.setType i u).setType j v).height = g.height := by
  simp

/-- The type at a position after a write at an index. -/
theorem ty_setType_pos {g : GRID} (hs : g.Shaped) {a : Int × Int} (ha : g.InGrid a.1 a.2) (v : Int)
    {x y : Int} (hxy : g.InGrid x y) :
    (g.setType (GETCELL g a.1 a.2) v).ty x y = if (x, y) = a then v else g.ty x y := by
  rw [ty_setType hs ha hxy]
  simp only [Prod.ext_iff]

/-- The type at a position after two writes. -/
theorem ty_setType2 {g : GRID} (hs : g.Shaped) {a b : Int × Int} (ha : g.InGrid a.1 a.2)
    (hb : g.InGrid b.1 b.2) (u v : Int) {x y : Int} (hxy : g.InGrid x y) :
    ((g.setType (GETCELL g a.1 a.2) u).setType (GETCELL g b.1 b.2) v).ty x y =
      if (x, y) = b then v else if (x, y) = a then u else g.ty x y := by
  have h1 := (sameButTypes_setType g (GETCELL g a.1 a.2) u)
  have e : GETCELL g b.1 b.2 = GETCELL (g.setType (GETCELL g a.1 a.2) u) b.1 b.2 :=
    (h1.cellIndex _ _).symm
  rw [e, ty_setType_pos (h1.keepsShape hs) ((h1.inGridIff _ _).2 hb) v ((h1.inGridIff _ _).2 hxy),
    ty_setType_pos hs ha u hxy]

theorem typeAt_setType2 (g : GRID) (i j u v k : Int) :
    ((g.setType i u).setType j v).typeAt k = g.typeAt k ∨
      ((g.setType i u).setType j v).typeAt k = u ∨ ((g.setType i u).setType j v).typeAt k = v := by
  rw [typeAt_setType, typeAt_setType]
  split
  · right; right; rfl
  · split
    · right; left; rfl
    · left; rfl

theorem sameButTypes_setType2 (g : GRID) (i j u v : Int) :
    g.SameButTypes ((g.setType i u).setType j v) :=
  sameButTypes_trans (sameButTypes_setType g i u) (sameButTypes_setType _ j v)

theorem getLast_cons_of_ne_nil {α : Type} (a : α) {l : List α} (h : l ≠ []) :
    (a :: l).getLast? = l.getLast? := by
  cases l with
  | nil => exact (h rfl).elim
  | cons b t => exact List.getLast?_cons_cons

/-- The invariant does not look at the position in the stream of draws. -/
theorem carveInv_of_eq {s s' : Carve} {chain : List (Int × Int)} {e : Int × Int} {c0 : Int}
    (h : CarveInv s chain e c0) (hg : s'.g = s.g) (hc : s'.cell = s.cell)
    (hn : s'.cellsToEnd = s.cellsToEnd) : CarveInv s' chain e c0 := by
  obtain ⟨g, k, cell, c⟩ := s
  obtain ⟨g', k', cell', c'⟩ := s'
  simp only at hg hc hn
  subst hg hc hn
  exact ⟨h.frame, h.border, h.census, h.cursor, h.chainOK, h.nodup, h.opens, h.temp, h.ending,
    h.counter, h.bonus⟩

/-- A room leaves alone the types from `END_TEMP` to 11. -/
theorem retagged_typeAt {g g' : GRID} (h : g.Retagged g') (i t : Int) (h3 : 3 ≤ t) (h11 : t ≤ 11) :
    g'.typeAt i = t ↔ g.typeAt i = t := by
  have hS : START = 2 := rfl
  rcases h.2 i with e | ⟨h1, h2 | ⟨h2, -⟩⟩
  · rw [e]
  · constructor <;> intro h' <;> omega
  · constructor <;> intro h' <;> omega

theorem retagged_ty {g g' : GRID} (h : g.Retagged g') (x y t : Int) (h3 : 3 ≤ t) (h11 : t ≤ 11) :
    g'.ty x y = t ↔ g.ty x y = t := by
  unfold GRID.ty
  rw [h.1.cellIndex]
  exact retagged_typeAt h _ t h3 h11

/-- The rooms keep the invariant of the carve. -/
theorem retagged_carveInv {s s' : Carve} {chain : List (Int × Int)} {e : Int × Int} {c0 : Int}
    (h : CarveInv s chain e c0) (hg : s.g.Retagged s'.g) (hc : s'.cell = s.cell)
    (hn : s'.cellsToEnd = s.cellsToEnd) : CarveInv s' chain e c0 := by
  have hO : OPEN = 10 := rfl
  have hE : END = 4 := rfl
  have hT : END_TEMP = 3 := rfl
  have hW : WALL = 1 := rfl
  have hU : UNVISITED = 0 := rfl
  have hS : START = 2 := rfl
  have hs := h.frame.1
  refine ⟨hg.1.keepsFrame h.frame, ?_, ?_, ?_, ?_, h.nodup, ?_, ?_, ?_, ?_,
    by rw [hg.1.2.2.2.1]; exact h.bonus⟩
  · intro x y hxy hni
    rw [hg.1.inGridIff] at hxy
    rw [hg.1.innerIff] at hni
    have hb := h.border x y hxy hni
    unfold GRID.ty at hb ⊢
    rw [hg.1.cellIndex]
    rcases hg.2 (GETCELL s.g x y) with e1 | ⟨-, h2 | ⟨-, x', y', hin', he⟩⟩
    · rw [e1]; exact hb
    · omega
    · obtain ⟨rfl, rfl⟩ := inGrid_unique hxy (inner_inGrid hin') he
      exact (hni hin').elim
  · intro i
    rcases hg.2 i with e1 | ⟨h1, -⟩
    · rw [e1]; exact h.census i
    · right; right; right; right; omega
  · obtain ⟨p, hp, hcell⟩ := h.cursor
    exact ⟨p, hp, by rw [hc, hcell, hg.1.cellIndex]⟩
  · refine chainOK_of_agree hg.1.1 hg.1.2.1 h.chainOK ?_
    intro x y _ hty
    rcases hty with e1 | e1 | e1
    · rw [e1]; exact (retagged_ty hg x y _ (by omega) (by omega)).2 e1
    · rw [e1]; exact (retagged_ty hg x y _ (by omega) (by omega)).2 e1
    · rw [e1]; exact (retagged_ty hg x y _ (by omega) (by omega)).2 e1
  · intro x y hxy hty
    rw [hg.1.inGridIff] at hxy
    exact h.opens x y hxy ((retagged_ty hg x y _ (by omega) (by omega)).1 hty)
  · intro x y hxy hty
    rw [hg.1.inGridIff] at hxy
    exact h.temp x y hxy ((retagged_ty hg x y _ (by omega) (by omega)).1 hty)
  · obtain ⟨e1, e2, e3, e4, e5, e6⟩ := h.ending
    refine ⟨e1, e2, by rw [hg.1.1]; exact e3, e4, by rw [hg.1.2.1]; exact e5, ?_⟩
    intro x y hxy
    rw [hg.1.inGridIff] at hxy
    rw [retagged_ty hg x y _ (by omega) (by omega)]
    exact e6 x y hxy
  · rw [hn]
    exact h.counter

/-- The coordinates stored in the cell at a position of the grid. -/
theorem shaped_pos {g : GRID} (hs : g.Shaped) {x y : Int} (h : g.InGrid x y) :
    (g.cellAt (GETCELL g x y)).posX = x ∧ (g.cellAt (GETCELL g x y)).posY = y :=
  (hs.2.2.2.2.2.2 x y h).2

/-- The writes of a step of the carve, to the unvisited cell `n` two cells from
the head `p` of the path and to the cell `m` between them, keep the invariant,
with `n` at the head of the path. -/
theorem carve_step_aux {s : Carve} {chain : List (Int × Int)} {e : Int × Int} {c0 : Int}
    (h : CarveInv s chain e c0) (p n m : Int × Int) (k : Nat) (hp : chain.head? = some p)
    (hta : TwoApart n p) (htm1 : midPos n p = m) (hnodd : OddPos n)
    (hninner : s.g.Inner n.1 n.2) (hminner : s.g.Inner m.1 m.2)
    (hnty : s.g.ty n.1 n.2 = UNVISITED) :
    CarveInv { g := (s.g.setType (GETCELL s.g n.1 n.2) OPEN).setType (GETCELL s.g m.1 m.2) OPEN
               k := k
               cell := GETCELL s.g n.1 n.2
               cellsToEnd := s.cellsToEnd + 2 } (n :: chain) e c0 := by
  have hO : OPEN = 10 := rfl
  have hE : END = 4 := rfl
  have hT : END_TEMP = 3 := rfl
  have hW : WALL = 1 := rfl
  have hU : UNVISITED = 0 := rfl
  have hf := h.frame
  have hs := hf.1
  have hne := chainOK_ne_nil h.chainOK
  have hmem : p ∈ chain := List.mem_of_mem_head? hp
  obtain ⟨hodd, hinner, hty⟩ := chainOK_mem h.chainOK p hmem
  have hnin := inner_inGrid hninner
  have hmin := inner_inGrid hminner
  have hmnodd : ¬ OddPos m := by
    rw [← htm1]
    exact midPos_not_odd hnodd hodd hta
  have hsb := sameButTypes_setType2 s.g (GETCELL s.g n.1 n.2) (GETCELL s.g m.1 m.2) OPEN OPEN
  have hty2 : ∀ x y, s.g.InGrid x y →
      ((s.g.setType (GETCELL s.g n.1 n.2) OPEN).setType (GETCELL s.g m.1 m.2) OPEN).ty x y =
        if (x, y) = m then OPEN else if (x, y) = n then OPEN else s.g.ty x y :=
    fun x y hxy => ty_setType2 hs hnin hmin OPEN OPEN hxy
  have hroot := chainOK_root h.chainOK
  have hem : e ≠ m := by
    intro he
    rw [← he] at hmnodd
    exact hmnodd h.ending.1
  have hen : e ≠ n := by
    intro he
    have := (h.ending.2.2.2.2.2 n.1 n.2 hnin).2 (by rw [← he])
    omega
  refine ⟨hsb.keepsFrame hf, ?_, ?_, ?_, ?_, ?_, ?_, ?_, ?_, ?_,
    by rw [hsb.2.2.2.1]; exact h.bonus⟩
  · intro x y hxy hni
    simp only at hxy hni ⊢
    rw [hsb.inGridIff] at hxy
    rw [hsb.innerIff] at hni
    rw [hty2 x y hxy, if_neg, if_neg]
    · exact h.border x y hxy hni
    · rintro rfl; exact hni hninner
    · rintro rfl; exact hni hminner
  · intro i
    simp only
    rcases typeAt_setType2 s.g (GETCELL s.g n.1 n.2) (GETCELL s.g m.1 m.2) OPEN OPEN i with
      c | c | c
    · rw [c]; exact h.census i
    · right; right; right; right; omega
    · right; right; right; right; omega
  · exact ⟨n, rfl, (hsb.cellIndex _ _).symm⟩
  · simp only
    obtain ⟨q, rest, rfl⟩ : ∃ q rest, chain = q :: rest := List.exists_cons_of_ne_nil hne
    simp only [List.head?_cons, Option.some.injEq] at hp
    subst hp
    refine ⟨hnodd, (hsb.innerIff _ _).2 hninner, ?_, hta, ?_, ?_⟩
    · rw [hty2 _ _ hnin]
      split_ifs with c1 c2
      · rfl
      · rfl
      · exact (c2 rfl).elim
    · rw [htm1, hty2 _ _ hmin, if_pos rfl]
    · refine chainOK_of_agree hsb.1 hsb.2.1 h.chainOK ?_
      intro x y hxy hc
      rw [hty2 x y hxy]
      split_ifs with c1 c2
      · rw [← c1] at hmnodd
        rcases hc with c | c | c
        · exact c.symm
        · have he := (h.ending.2.2.2.2.2 x y hxy).1 c
          exact (hem (he.symm.trans c1)).elim
        · have hl := h.temp x y hxy c
          obtain ⟨r, hr1, hr2, -⟩ := hroot
          rw [hl] at hr1
          simp only [Option.some.injEq] at hr1
          rw [← hr1] at hr2
          exact (hmnodd (chainOK_mem h.chainOK _ hr2).1).elim
      · have e1 : x = n.1 := by rw [← c2]
        have e2 : y = n.2 := by rw [← c2]
        rw [e1, e2, hnty] at hc
        omega
      · rfl
  · refine List.nodup_cons.2 ⟨?_, h.nodup⟩
    intro hmem2
    have := (chainOK_mem h.chainOK n hmem2).2.2
    omega
  · intro x y hxy hopen
    simp only at hxy hopen
    rw [hsb.inGridIff] at hxy
    rw [hty2 x y hxy] at hopen
    obtain ⟨q, rest, rfl⟩ : ∃ q rest, chain = q :: rest := List.exists_cons_of_ne_nil hne
    simp only [List.head?_cons, Option.some.injEq] at hp
    subst hp
    simp only [chainOpen, List.mem_cons]
    by_cases c1 : (x, y) = m
    · right; left; rw [htm1]; exact c1
    · by_cases c2 : (x, y) = n
      · left; exact c2
      · rw [if_neg c1, if_neg c2] at hopen
        right; right
        exact h.opens x y hxy hopen
  · intro x y hxy htemp
    simp only at hxy htemp
    rw [hsb.inGridIff] at hxy
    rw [hty2 x y hxy] at htemp
    rw [getLast_cons_of_ne_nil _ hne]
    split_ifs at htemp
    · omega
    · omega
    · exact h.temp x y hxy htemp
  · obtain ⟨e1, e2, e3, e4, e5, e6⟩ := h.ending
    refine ⟨e1, e2, by rw [hsb.1]; exact e3, e4, by rw [hsb.2.1]; exact e5, ?_⟩
    intro x y hxy
    simp only at hxy ⊢
    rw [hsb.inGridIff] at hxy
    rw [hty2 x y hxy]
    constructor
    · intro hend
      split_ifs at hend
      · omega
      · omega
      · exact (e6 x y hxy).1 hend
    · intro he
      rw [if_neg (by rw [he]; exact hem), if_neg (by rw [he]; exact hen)]
      exact (e6 x y hxy).2 he
  · obtain ⟨c1, c2, c3⟩ := h.counter
    refine ⟨?_, c2, ?_⟩
    · simp only [List.length_cons]
      push_cast
      omega
    · rw [getLast_cons_of_ne_nil _ hne]
      exact c3

/-- A step of the carve to an unvisited cell two cells away keeps the
invariant, with the new cell at the head of the path. -/
theorem carve_step {s : Carve} {chain : List (Int × Int)} {e : Int × Int} {c0 : Int}
    (h : CarveInv s chain e c0) (d : Int) (hd0 : 0 ≤ d) (hd3 : d ≤ 3) (k : Nat)
    (hb : s.g.inBounds ((s.g.cellAt s.cell).posX + off4X d * 2)
      ((s.g.cellAt s.cell).posY + off4Y d * 2))
    (hu : ¬ s.g.typeAt (s.cell + s.g.ptr4 d * 2) > UNVISITED) :
    ∃ p : Int × Int, chain.head? = some p ∧ s.cell = GETCELL s.g p.1 p.2 ∧
      s.cell + s.g.ptr4 d * 2 = GETCELL s.g (p.1 + off4X d * 2) (p.2 + off4Y d * 2) ∧
      s.g.InGrid (p.1 + off4X d * 2) (p.2 + off4Y d * 2) ∧
      CarveInv { g := (s.g.setType (s.cell + s.g.ptr4 d * 2) OPEN).setType (s.cell + s.g.ptr4 d) OPEN
                 k := k
                 cell := s.cell + s.g.ptr4 d * 2
                 cellsToEnd := s.cellsToEnd + 2 }
        ((p.1 + off4X d * 2, p.2 + off4Y d * 2) :: chain) e c0 := by
  have hU : UNVISITED = 0 := rfl
  have hO : OPEN = 10 := rfl
  have hE : END = 4 := rfl
  have hT : END_TEMP = 3 := rfl
  have hW : WALL = 1 := rfl
  have hf := h.frame
  have hs := hf.1
  obtain ⟨p, hp, hcell⟩ := h.cursor
  have hmem : p ∈ chain := List.mem_of_mem_head? hp
  obtain ⟨hodd, hinner, hty⟩ := chainOK_mem h.chainOK p hmem
  have hpin := inner_inGrid hinner
  have hpos := shaped_pos hs hpin
  rw [hcell] at hb hu ⊢
  rw [hpos.1, hpos.2] at hb
  have hN := shaped_step4 hs p.1 p.2 d 2 hd0 hd3
  have hM := shaped_step4_one hs p.1 p.2 d hd0 hd3
  rw [hN] at hu ⊢
  rw [hM]
  have hoff := off4_cases d hd0 hd3
  obtain ⟨hta, htm1, htm2⟩ := twoApart_step p d hd0 hd3
  have hnin : s.g.InGrid (p.1 + off4X d * 2) (p.2 + off4Y d * 2) := by
    unfold GRID.inBounds at hb
    unfold GRID.InGrid
    omega
  have hnodd : OddPos (p.1 + off4X d * 2, p.2 + off4Y d * 2) := by
    unfold OddPos at hodd ⊢
    simp only
    rcases hoff with ⟨-, a, b⟩ | ⟨-, a, b⟩ | ⟨-, a, b⟩ | ⟨-, a, b⟩ <;> rw [a, b] <;> omega
  have hninner := odd_inGrid_inner hf hnodd.1 hnodd.2 hnin
  have hminner : s.g.Inner (p.1 + off4X d) (p.2 + off4Y d) := by
    unfold GRID.Inner at hinner hninner ⊢
    rcases hoff with ⟨-, a, b⟩ | ⟨-, a, b⟩ | ⟨-, a, b⟩ | ⟨-, a, b⟩ <;> rw [a, b] at hninner ⊢ <;>
      omega
  have hnty : s.g.ty (p.1 + off4X d * 2) (p.2 + off4Y d * 2) = UNVISITED := by
    unfold GRID.ty
    rcases h.census (GETCELL s.g (p.1 + off4X d * 2) (p.2 + off4Y d * 2)) with c | c | c | c | c <;>
      omega
  exact ⟨p, hp, rfl, rfl, hnin, carve_step_aux h p (p.1 + off4X d * 2, p.2 + off4Y d * 2)
    (p.1 + off4X d, p.2 + off4Y d) k hp hta htm1 hnodd hninner hminner hnty⟩

/-- The room set up after a step of the carve keeps the invariant. -/
theorem carve_room {st : Carve} {chain : List (Int × Int)} {e : Int × Int} {c0 : Int}
    (rs : Nat → Nat) (n p : Int × Int) (k : Nat)
    (h : CarveInv st (n :: chain) e c0) (hp : chain.head? = some p) (px py : Int)
    (hpx : px = p.1) (hpy : py = p.2) :
    CarveInv { g := (GridMazeRoom rs 1 st.g k px py st.cellsToEnd).1
               k := (GridMazeRoom rs 1 st.g k px py st.cellsToEnd).2
               cell := st.cell
               cellsToEnd := st.cellsToEnd } (n :: chain) e c0 := by
  have hO : OPEN = 10 := rfl
  subst hpx hpy
  obtain ⟨q, rest, rfl⟩ : ∃ q rest, chain = q :: rest :=
    List.exists_cons_of_ne_nil (by intro e1; rw [e1] at hp; simp at hp)
  simp only [List.head?_cons, Option.some.injEq] at hp
  subst hp
  have hq := chainOK_mem h.chainOK q (List.mem_cons_of_mem _ (List.mem_cons_self _ _))
  refine retagged_carveInv h ?_ rfl rfl
  refine GridMazeRoom_retagged rs 1 st.g k q.1 q.2 st.cellsToEnd h.frame hq.1.1 hq.1.2
    (inner_inGrid hq.2.1) ?_
  intro h1 h2
  have hc := h.counter
  cases rest with
  | nil =>
    have := h.chainOK.2.2.2.2.2.2.2
    rcases this with c | c
    · exact (h1 c).elim
    · exact (h2 c).elim
  | cons r rest2 =>
    simp only [List.length_cons] at hc
    push_cast at hc
    omega

/-- The loop over `_attempts` keeps the invariant: either it ends with
`_attempts == 4` and the grid, the cell and the counter are as before, or it
has made one step. -/
theorem carveAttempts_inv (rs : Nat → Nat) {chain : List (Int × Int)} {e : Int × Int} {c0 : Int} :
    ∀ (n : Nat) (s : Carve) (dir turn : Int), CarveInv s chain e c0 → 0 ≤ dir → dir ≤ 3 →
      (turn = 1 ∨ turn = 3) →
      ((carveAttempts rs n s dir turn).2 = true →
        CarveInv (carveAttempts rs n s dir turn).1 chain e c0) ∧
      ((carveAttempts rs n s dir turn).2 = false →
        ∃ p, CarveInv (carveAttempts rs n s dir turn).1 (p :: chain) e c0)
  | 0, s, dir, turn, h, _, _, _ => by
    simp only [carveAttempts]
    exact ⟨fun _ => h, fun hc => by simp at hc⟩
  | n + 1, s, dir, turn, h, hd0, hd3, ht => by
    rw [carveAttempts]
    split
    · exact ⟨fun _ => carveInv_of_eq h rfl rfl rfl, fun hc => by simp at hc⟩
    · simp only
      generalize hs1 : (if s.cellsToEnd > OPEN + 6 then { s with k := s.k + 1 } else s) = s1
      have e1 : s1.g = s.g := by rw [← hs1]; split <;> rfl
      have e2 : s1.cell = s.cell := by rw [← hs1]; split <;> rfl
      have e3 : s1.cellsToEnd = s.cellsToEnd := by rw [← hs1]; split <;> rfl
      have h1 : CarveInv s1 chain e c0 := carveInv_of_eq h e1 e2 e3
      split
      · rename_i hcond
        obtain ⟨p, hp, hcell, hN, hnin, hstep⟩ := carve_step h1 dir hd0 hd3 (s1.k + 1) hcond.1 hcond.2
        split
        · refine ⟨fun hc => by simp at hc,
            fun _ => ⟨(p.1 + off4X dir * 2, p.2 + off4Y dir * 2), ?_⟩⟩
          have hsh := hstep.frame.1
          have hpos := shaped_pos hsh
            (((sameButTypes_setType2 s1.g (s1.cell + s1.g.ptr4 dir * 2) (s1.cell + s1.g.ptr4 dir)
              OPEN OPEN).inGridIff _ _).2 hnin)
          have hgc : GETCELL ((s1.g.setType (s1.cell + s1.g.ptr4 dir * 2) OPEN).setType
              (s1.cell + s1.g.ptr4 dir) OPEN) (p.1 + off4X dir * 2) (p.2 + off4Y dir * 2) =
              s1.cell + s1.g.ptr4 dir * 2 := by
            rw [hN]
            exact (sameButTypes_setType2 s1.g _ _ OPEN OPEN).cellIndex _ _
          rw [hgc] at hpos
          exact carve_room rs _ p (s1.k + 1) hstep hp _ _ (by rw [hpos.1]; ring)
            (by rw [hpos.2]; ring)
        · exact ⟨fun hc => by simp at hc,
            fun _ => ⟨(p.1 + off4X dir * 2, p.2 + off4Y dir * 2), hstep⟩⟩
      · have hd := turn_dir_bounds dir turn hd0 (by omega)
        exact carveAttempts_inv rs n s1 _ turn h1 hd.1 hd.2 ht

theorem mid_inner {g : GRID} {a b : Int × Int} (ha : g.Inner a.1 a.2) (hb : g.Inner b.1 b.2) :
    g.Inner (midPos a b).1 (midPos a b).2 := by
  unfold GRID.Inner at *
  unfold midPos
  simp only
  omega

/-- The loop that goes back to an open cell finds the cell between the head of
the path and the cell before it. -/
theorem backtrackScan_finds {g : GRID} (hs : g.Shaped) (p q : Int × Int) (c : Int) (k : Nat)
    (dstar : Int) (hd0 : 0 ≤ dstar) (hd3 : dstar ≤ 3)
    (hq : q = (p.1 + off4X dstar * 2, p.2 + off4Y dstar * 2))
    (hopen : g.ty (p.1 + off4X dstar) (p.2 + off4Y dstar) = OPEN)
    (honly : ∀ d : Int, 0 ≤ d → d ≤ 3 → g.ty (p.1 + off4X d) (p.2 + off4Y d) = OPEN →
      off4X d = off4X dstar ∧ off4Y d = off4Y dstar) :
    ∀ (n : Nat) (dir2 : Int), 0 ≤ dir2 → dir2 + n = 4 → dir2 ≤ dstar →
      backtrackScan n { g := g, k := k, cell := GETCELL g p.1 p.2, cellsToEnd := c } dir2 =
        { g := g.setType (GETCELL g (p.1 + off4X dstar) (p.2 + off4Y dstar)) c
          k := k
          cell := GETCELL g q.1 q.2
          cellsToEnd := c - 1 }
  | 0, dir2, _, h4, hle => by omega
  | n + 1, dir2, h0, h4, hle => by
    rw [backtrackScan]
    simp only
    have hM := shaped_step4_one hs p.1 p.2 dir2 h0 (by omega)
    rw [hM]
    split
    · rename_i hne
      have hlt : dir2 ≠ dstar := by
        rintro rfl
        exact hne hopen
      exact backtrackScan_finds hs p q c k dstar hd0 hd3 hq hopen honly n (dir2 + 1) (by omega)
        (by omega) (by omega)
    · rename_i heq
      have heq2 : g.ty (p.1 + off4X dir2) (p.2 + off4Y dir2) = OPEN := by
        by_contra hc
        exact heq hc
      obtain ⟨ex, ey⟩ := honly dir2 h0 (by omega) heq2
      rw [ex, ey]
      have hptr : (g.setType (GETCELL g (p.1 + off4X dstar) (p.2 + off4Y dstar)) c).ptr4 dir2 =
          g.ptr4 dir2 := (sameButTypes_setType g _ c).ptr4Eq dir2
      rw [hptr, shaped_step4_one hs _ _ dir2 h0 (by omega), ex, ey, hq]
      have e1 : p.1 + off4X dstar + off4X dstar = p.1 + off4X dstar * 2 := by ring
      have e2 : p.2 + off4Y dstar + off4Y dstar = p.2 + off4Y dstar * 2 := by ring
      rw [e1, e2]

/-- Going back one cell, in full: the path has a cell `q` before its head `p`,
two cells away in a direction `d`; the cell between them is `OPEN`, and the
branch writes the counter into `p`, the counter less 1 into the cell between
and moves to `q` with the counter less 2. -/
theorem backtrack_explicit {s : Carve} {chain : List (Int × Int)} {e : Int × Int} {c0 : Int}
    (h : CarveInv s chain e c0) (h1 : s.g.typeAt s.cell ≠ END) (h2 : s.g.typeAt s.cell ≠ END_TEMP) :
    ∃ (p q : Int × Int) (rest : List (Int × Int)) (d : Int), chain = p :: q :: rest ∧
      0 ≤ d ∧ d ≤ 3 ∧ q = (p.1 + off4X d * 2, p.2 + off4Y d * 2) ∧
      midPos p q = (p.1 + off4X d, p.2 + off4Y d) ∧ s.cell = GETCELL s.g p.1 p.2 ∧
      s.g.ty (p.1 + off4X d) (p.2 + off4Y d) = OPEN ∧
      backtrack s =
        { g := (s.g.setType (GETCELL s.g p.1 p.2) s.cellsToEnd).setType
            (GETCELL s.g (midPos p q).1 (midPos p q).2) (s.cellsToEnd - 1)
          k := s.k
          cell := GETCELL s.g q.1 q.2
          cellsToEnd := s.cellsToEnd - 1 - 1 } := by
  have hO : OPEN = 10 := rfl
  have hE : END = 4 := rfl
  have hT : END_TEMP = 3 := rfl
  have hW : WALL = 1 := rfl
  have hU : UNVISITED = 0 := rfl
  have hf := h.frame
  have hs := hf.1
  obtain ⟨p, hp, hcell⟩ := h.cursor
  obtain ⟨p', t, rfl⟩ : ∃ q rest, chain = q :: rest :=
    List.exists_cons_of_ne_nil (chainOK_ne_nil h.chainOK)
  simp only [List.head?_cons, Option.some.injEq] at hp
  subst hp
  have hck := h.chainOK
  cases t with
  | nil =>
    have := hck.2.2
    unfold GRID.ty at this
    rw [← hcell] at this
    rcases this with c | c
    · exact (h1 c).elim
    · exact (h2 c).elim
  | cons q rest =>
  obtain ⟨hpodd, hpinner, hpty, hta, hmty, hck2⟩ := hck
  have hpin := inner_inGrid hpinner
  have hqm := chainOK_mem hck2 q (List.mem_cons_self _ _)
  have hnd := List.nodup_cons.1 h.nodup
  obtain ⟨d, hd0, hd3, hq⟩ := twoApart_dir hta
  obtain ⟨-, -, hmid⟩ := twoApart_step p' d hd0 hd3
  rw [← hq] at hmid
  have hm1 : (midPos p' q).1 = p'.1 + off4X d := by rw [hmid]
  have hm2 : (midPos p' q).2 = p'.2 + off4Y d := by rw [hmid]
  have hminner := mid_inner hpinner hqm.2.1 (g := s.g)
  have hmin := inner_inGrid hminner
  have hmnodd := midPos_not_odd hpodd hqm.1 hta
  have hcnt := h.counter
  simp only [List.length_cons] at hcnt
  push_cast at hcnt
  have hc12 : 12 ≤ s.cellsToEnd := by omega
  -- the grid after the first write
  have hsb1 := sameButTypes_setType s.g (GETCELL s.g p'.1 p'.2) s.cellsToEnd
  have hs1 := hsb1.keepsShape hs
  have hty1 : ∀ x y, s.g.InGrid x y →
      (s.g.setType (GETCELL s.g p'.1 p'.2) s.cellsToEnd).ty x y =
        if (x, y) = p' then s.cellsToEnd else s.g.ty x y :=
    fun x y hxy => ty_setType_pos hs hpin _ hxy
  have hscan := backtrackScan_finds hs1 p' q (s.cellsToEnd - 1) s.k d hd0 hd3 hq
    (by
      rw [← hm1, ← hm2, hty1 _ _ hmin, if_neg]
      · exact hmty
      · intro hc
        rw [← hc] at hpodd
        exact hmnodd hpodd)
    (by
      intro d' hd0' hd3' hop
      have hoff' := off4_cases d' hd0' hd3'
      have hoff := off4_cases d hd0 hd3
      have hin' : s.g.InGrid (p'.1 + off4X d') (p'.2 + off4Y d') := by
        unfold GRID.Inner at hpinner
        unfold GRID.InGrid
        rcases hoff' with ⟨-, a, b⟩ | ⟨-, a, b⟩ | ⟨-, a, b⟩ | ⟨-, a, b⟩ <;> rw [a, b] <;> omega
      rw [hty1 _ _ hin', if_neg] at hop
      swap
      · intro hc
        simp only [Prod.ext_iff] at hc
        rcases hoff' with ⟨-, a, b⟩ | ⟨-, a, b⟩ | ⟨-, a, b⟩ | ⟨-, a, b⟩ <;> rw [a, b] at hc <;> omega
      have hmem := h.opens _ _ hin' hop
      simp only [chainOpen, List.mem_cons] at hmem
      rcases hmem with c | c | c
      · simp only [Prod.ext_iff] at c
        rcases hoff' with ⟨-, a, b⟩ | ⟨-, a, b⟩ | ⟨-, a, b⟩ | ⟨-, a, b⟩ <;> rw [a, b] at c <;> omega
      · rw [hmid] at c
        simp only [Prod.mk.injEq] at c
        omega
      · exfalso
        rcases mem_chainOpen hck2 _ c with c' | ⟨a, b, ha, hb, hab, hmab⟩
        · have := (chainOK_mem hck2 _ c').1
          unfold OddPos at this hpodd
          simp only at this
          rcases hoff' with ⟨-, a, b⟩ | ⟨-, a, b⟩ | ⟨-, a, b⟩ | ⟨-, a, b⟩ <;> rw [a, b] at this <;>
            omega
        · have hao := (chainOK_mem hck2 a ha).1
          have hbo := (chainOK_mem hck2 b hb).1
          rcases midPos_adjacent hao hbo hpodd hab d' hd0' hd3' hmab.symm with r | r
          · rw [r] at hnd; exact hnd.1 ha
          · rw [r] at hnd; exact hnd.1 hb)
    4 0 (by omega) (by omega) hd0
  have hg1 : GETCELL (s.g.setType (GETCELL s.g p'.1 p'.2) s.cellsToEnd) p'.1 p'.2 =
      GETCELL s.g p'.1 p'.2 := hsb1.cellIndex _ _
  have hbt : backtrack s =
      { g := (s.g.setType (GETCELL s.g p'.1 p'.2) s.cellsToEnd).setType
          (GETCELL s.g (midPos p' q).1 (midPos p' q).2) (s.cellsToEnd - 1)
        k := s.k
        cell := GETCELL s.g q.1 q.2
        cellsToEnd := s.cellsToEnd - 1 - 1 } := by
    unfold backtrack
    rw [hcell]
    rw [hg1] at hscan
    rw [hscan, hm1, hm2, hsb1.cellIndex, hsb1.cellIndex]
  exact ⟨p', q, rest, d, rfl, hd0, hd3, hq, hmid, hcell, by rw [← hm1, ← hm2]; exact hmty, hbt⟩

/-- Going back one cell keeps the invariant, with the path but its head. -/
theorem backtrack_inv {s : Carve} {chain : List (Int × Int)} {e : Int × Int} {c0 : Int}
    (h : CarveInv s chain e c0) (h1 : s.g.typeAt s.cell ≠ END) (h2 : s.g.typeAt s.cell ≠ END_TEMP) :
    ∃ p rest, chain = p :: rest ∧ CarveInv (backtrack s) rest e c0 := by
  have hO : OPEN = 10 := rfl
  have hE : END = 4 := rfl
  have hT : END_TEMP = 3 := rfl
  have hW : WALL = 1 := rfl
  have hU : UNVISITED = 0 := rfl
  have hf := h.frame
  have hs := hf.1
  obtain ⟨p, hp, hcell⟩ := h.cursor
  obtain ⟨p', t, rfl⟩ : ∃ q rest, chain = q :: rest :=
    List.exists_cons_of_ne_nil (chainOK_ne_nil h.chainOK)
  simp only [List.head?_cons, Option.some.injEq] at hp
  subst hp
  have hck := h.chainOK
  cases t with
  | nil =>
    have := hck.2.2
    unfold GRID.ty at this
    rw [← hcell] at this
    rcases this with c | c
    · exact (h1 c).elim
    · exact (h2 c).elim
  | cons q rest =>
  refine ⟨p', q :: rest, rfl, ?_⟩
  obtain ⟨hpodd, hpinner, hpty, hta, hmty, hck2⟩ := hck
  have hpin := inner_inGrid hpinner
  have hqm := chainOK_mem hck2 q (List.mem_cons_self _ _)
  have hnd := List.nodup_cons.1 h.nodup
  obtain ⟨d, hd0, hd3, hq⟩ := twoApart_dir hta
  obtain ⟨-, -, hmid⟩ := twoApart_step p' d hd0 hd3
  rw [← hq] at hmid
  have hm1 : (midPos p' q).1 = p'.1 + off4X d := by rw [hmid]
  have hm2 : (midPos p' q).2 = p'.2 + off4Y d := by rw [hmid]
  have hminner := mid_inner hpinner hqm.2.1 (g := s.g)
  have hmin := inner_inGrid hminner
  have hmnodd := midPos_not_odd hpodd hqm.1 hta
  have hcnt := h.counter
  simp only [List.length_cons] at hcnt
  push_cast at hcnt
  have hc12 : 12 ≤ s.cellsToEnd := by omega
  -- the grid after the first write
  have hsb1 := sameButTypes_setType s.g (GETCELL s.g p'.1 p'.2) s.cellsToEnd
  have hs1 := hsb1.keepsShape hs
  have hty1 : ∀ x y, s.g.InGrid x y →
      (s.g.setType (GETCELL s.g p'.1 p'.2) s.cellsToEnd).ty x y =
        if (x, y) = p' then s.cellsToEnd else s.g.ty x y :=
    fun x y hxy => ty_setType_pos hs hpin _ hxy
  have hbt : backtrack s =
      { g := (s.g.setType (GETCELL s.g p'.1 p'.2) s.cellsToEnd).setType
          (GETCELL s.g (midPos p' q).1 (midPos p' q).2) (s.cellsToEnd - 1)
        k := s.k
        cell := GETCELL s.g q.1 q.2
        cellsToEnd := s.cellsToEnd - 1 - 1 } := by
    obtain ⟨p2, q2, rest2, -, hch, -, -, -, -, -, -, hb⟩ := backtrack_explicit h h1 h2
    simp only [List.cons.injEq] at hch
    obtain ⟨rfl, rfl, rfl⟩ := hch
    exact hb
  rw [hbt]
  have hsb := sameButTypes_setType2 s.g (GETCELL s.g p'.1 p'.2)
    (GETCELL s.g (midPos p' q).1 (midPos p' q).2) s.cellsToEnd (s.cellsToEnd - 1)
  have hty2 : ∀ x y, s.g.InGrid x y →
      ((s.g.setType (GETCELL s.g p'.1 p'.2) s.cellsToEnd).setType
        (GETCELL s.g (midPos p' q).1 (midPos p' q).2) (s.cellsToEnd - 1)).ty x y =
        if (x, y) = midPos p' q then s.cellsToEnd - 1
        else if (x, y) = p' then s.cellsToEnd else s.g.ty x y :=
    fun x y hxy => ty_setType2 hs hpin hmin _ _ hxy
  have hem : e ≠ midPos p' q := by
    intro he
    rw [← he] at hmnodd
    exact hmnodd h.ending.1
  have hep : e ≠ p' := by
    intro he
    have := (h.ending.2.2.2.2.2 p'.1 p'.2 hpin).2 (by rw [← he])
    omega
  refine ⟨hsb.keepsFrame hf, ?_, ?_, ?_, ?_, hnd.2, ?_, ?_, ?_, ?_,
    by rw [hsb.2.2.2.1]; exact h.bonus⟩
  · intro x y hxy hni
    simp only at hxy hni ⊢
    rw [hsb.inGridIff] at hxy
    rw [hsb.innerIff] at hni
    rw [hty2 x y hxy, if_neg, if_neg]
    · exact h.border x y hxy hni
    · rintro rfl; exact hni hpinner
    · intro hc
      rw [← hc] at hminner
      exact hni hminner
  · intro i
    simp only
    rcases typeAt_setType2 s.g (GETCELL s.g p'.1 p'.2)
      (GETCELL s.g (midPos p' q).1 (midPos p' q).2) s.cellsToEnd (s.cellsToEnd - 1) i with c | c | c
    · rw [c]; exact h.census i
    · right; right; right; right; omega
    · right; right; right; right; omega
  · exact ⟨q, rfl, (hsb.cellIndex _ _).symm⟩
  · simp only
    refine chainOK_congr hsb.1 hsb.2.1 hck2 ?_ ?_
    · intro a ha
      have ham := chainOK_mem hck2 a ha
      rw [hty2 _ _ (inner_inGrid ham.2.1), if_neg, if_neg]
      · intro hc
        have : a = p' := hc
        rw [this] at ha
        exact hnd.1 ha
      · intro hc
        have : a = midPos p' q := hc
        rw [this] at ham
        exact hmnodd ham.1
    · intro a b ha hb hab
      have ham := chainOK_mem hck2 a ha
      have hbm := chainOK_mem hck2 b hb
      rw [hty2 _ _ (inner_inGrid (mid_inner ham.2.1 hbm.2.1)), if_neg, if_neg]
      · intro hc
        have : midPos a b = p' := hc
        have hno := midPos_not_odd ham.1 hbm.1 hab
        rw [this] at hno
        exact hno hpodd
      · intro hc
        have : midPos a b = midPos p' q := hc
        rcases midPos_inj ham.1 hbm.1 hpodd hqm.1 hab hta this with ⟨r, -⟩ | ⟨-, r⟩
        · rw [r] at ha; exact hnd.1 ha
        · rw [r] at hb; exact hnd.1 hb
  · intro x y hxy hopen
    simp only at hxy hopen
    rw [hsb.inGridIff] at hxy
    rw [hty2 x y hxy] at hopen
    by_cases c1 : (x, y) = midPos p' q
    · rw [if_pos c1] at hopen; omega
    · by_cases c2 : (x, y) = p'
      · rw [if_neg c1, if_pos c2] at hopen; omega
      · rw [if_neg c1, if_neg c2] at hopen
        have := h.opens x y hxy hopen
        simp only [chainOpen, List.mem_cons] at this
        rcases this with c | c | c
        · exact (c2 c).elim
        · exact (c1 c).elim
        · exact c
  · intro x y hxy htemp
    simp only at hxy htemp
    rw [hsb.inGridIff] at hxy
    rw [hty2 x y hxy] at htemp
    have hl : (p' :: q :: rest).getLast? = (q :: rest).getLast? := List.getLast?_cons_cons
    rw [← hl]
    split_ifs at htemp
    · omega
    · omega
    · exact h.temp x y hxy htemp
  · obtain ⟨e1, e2, e3, e4, e5, e6⟩ := h.ending
    refine ⟨e1, e2, by rw [hsb.1]; exact e3, e4, by rw [hsb.2.1]; exact e5, ?_⟩
    intro x y hxy
    simp only at hxy ⊢
    rw [hsb.inGridIff] at hxy
    rw [hty2 x y hxy]
    constructor
    · intro hend
      split_ifs at hend
      · omega
      · omega
      · exact (e6 x y hxy).1 hend
    · intro he
      rw [if_neg (by rw [he]; exact hem), if_neg (by rw [he]; exact hep)]
      exact (e6 x y hxy).2 he
  · obtain ⟨c1, c2, c3⟩ := h.counter
    have hl : (p' :: q :: rest).getLast? = (q :: rest).getLast? := List.getLast?_cons_cons
    refine ⟨?_, c2, ?_⟩
    · simp only [List.length_cons]
      push_cast
      omega
    · rw [← hl]
      exact c3

/-! ## The end of a path and the start of the next one -/

theorem visitedNeighbor_some (g : GRID) (cellT : Int) :
    ∀ (n : Nat) (d0 : Int) (d cN : Int), 0 ≤ d0 → d0 + n = 4 →
      visitedNeighbor g cellT n d0 = some (d, cN) →
      0 ≤ d ∧ d ≤ 3 ∧
        g.inBounds ((g.cellAt cellT).posX + off4X d * 2) ((g.cellAt cellT).posY + off4Y d * 2) ∧
        cN = GETCELL g ((g.cellAt cellT).posX + off4X d * 2) ((g.cellAt cellT).posY + off4Y d * 2) ∧
        g.typeAt cN > OPEN
  | 0, _, _, _, _, _, h => by simp [visitedNeighbor] at h
  | n + 1, d0, d, cN, h0, h4, h => by
    rw [visitedNeighbor] at h
    split at h
    · rename_i hc
      simp only [Option.some.injEq, Prod.mk.injEq] at h
      obtain ⟨rfl, rfl⟩ := h
      exact ⟨h0, by omega, hc.1, rfl, hc.2⟩
    · have := visitedNeighbor_some g cellT n (d0 + 1) d cN (by omega) (by omega) h
      exact this

theorem unvisitedInRow_some (g : GRID) (y : Int) :
    ∀ (fuel : Nat) (x0 : Int) (cT d cN : Int), 1 ≤ x0 → x0 % 2 = 1 →
      unvisitedInRow g y fuel x0 = some (cT, d, cN) →
      ∃ x, 1 ≤ x ∧ x % 2 = 1 ∧ x < g.width ∧ cT = GETCELL g x y ∧ g.typeAt cT = UNVISITED ∧
        visitedNeighbor g cT 4 0 = some (d, cN)
  | 0, _, _, _, _, _, _, h => by simp [unvisitedInRow] at h
  | fuel + 1, x0, cT, d, cN, h1, hodd, h => by
    rw [unvisitedInRow] at h
    split at h
    · rename_i hlt
      simp only at h
      split at h
      · exact unvisitedInRow_some g y fuel (x0 + 2) cT d cN (by omega) (by omega) h
      · rename_i hty
        split at h
        · rename_i d' cN' hv
          simp only [Option.some.injEq, Prod.mk.injEq] at h
          obtain ⟨rfl, rfl, rfl⟩ := h
          refine ⟨x0, h1, hodd, hlt, rfl, ?_, hv⟩
          by_contra hc
          exact hty hc
        · exact unvisitedInRow_some g y fuel (x0 + 2) cT d cN (by omega) (by omega) h
    · simp at h

theorem unvisitedInGrid_some (g : GRID) :
    ∀ (fuel : Nat) (y0 : Int) (cT d cN : Int), 1 ≤ y0 → y0 % 2 = 1 →
      unvisitedInGrid g fuel y0 = some (cT, d, cN) →
      ∃ x y, 1 ≤ x ∧ x % 2 = 1 ∧ x < g.width ∧ 1 ≤ y ∧ y % 2 = 1 ∧ y < g.height ∧
        cT = GETCELL g x y ∧ g.typeAt cT = UNVISITED ∧ visitedNeighbor g cT 4 0 = some (d, cN)
  | 0, _, _, _, _, _, _, h => by simp [unvisitedInGrid] at h
  | fuel + 1, y0, cT, d, cN, h1, hodd, h => by
    rw [unvisitedInGrid] at h
    split at h
    · rename_i hlt
      split at h
      · rename_i r hr
        simp only [Option.some.injEq] at h
        subst h
        obtain ⟨x, a1, a2, a3, a4, a5, a6⟩ := unvisitedInRow_some g y0 _ 1 cT d cN (by omega)
          (by omega) hr
        exact ⟨x, y0, a1, a2, a3, h1, hodd, hlt, a4, a5, a6⟩
      · exact unvisitedInGrid_some g fuel (y0 + 2) cT d cN (by omega) (by omega) h
    · simp at h

/-- When a path is back at its root, the grid holds no `OPEN` cell and, once
the temporary end marker is replaced, no temporary end marker. -/
theorem endReached_carved {s : Carve} {chain : List (Int × Int)} {e : Int × Int} {c0 : Int}
    (h : CarveInv s chain e c0)
    (hend : ¬ (s.g.typeAt s.cell ≠ END ∧ s.g.typeAt s.cell ≠ END_TEMP)) :
    Carved (if s.g.typeAt s.cell = END_TEMP then s.g.setType s.cell s.cellsToEnd else s.g) e := by
  have hO : OPEN = 10 := rfl
  have hE : END = 4 := rfl
  have hT : END_TEMP = 3 := rfl
  have hW : WALL = 1 := rfl
  have hU : UNVISITED = 0 := rfl
  have hf := h.frame
  have hs := hf.1
  obtain ⟨p, hp, hcell⟩ := h.cursor
  obtain ⟨p', t, rfl⟩ : ∃ q rest, chain = q :: rest :=
    List.exists_cons_of_ne_nil (chainOK_ne_nil h.chainOK)
  simp only [List.head?_cons, Option.some.injEq] at hp
  subst hp
  have hck := h.chainOK
  have hpty : s.g.ty p'.1 p'.2 = s.g.typeAt s.cell := by rw [hcell]; rfl
  cases t with
  | cons q rest =>
    have := hck.2.2.1
    rw [hpty] at this
    exact (hend ⟨by omega, by omega⟩).elim
  | nil =>
  obtain ⟨hpodd, hpinner, hroot⟩ := hck
  have hpin := inner_inGrid hpinner
  have hnoopen : ∀ x y, s.g.InGrid x y → s.g.ty x y ≠ OPEN := by
    intro x y hxy hc
    have := h.opens x y hxy hc
    simp [chainOpen] at this
  have htemp : ∀ x y, s.g.InGrid x y → s.g.ty x y = END_TEMP → (x, y) = p' := by
    intro x y hxy hc
    have := h.temp x y hxy hc
    simp only [List.getLast?_singleton, Option.some.injEq] at this
    exact this.symm
  split
  · rename_i hct
    have hpe : p' ≠ e := by
      intro hc
      have := (h.ending.2.2.2.2.2 p'.1 p'.2 hpin).2 (by rw [hc])
      rw [hpty] at this
      omega
    have hc13 : 13 ≤ s.cellsToEnd := by
      obtain ⟨c1, c2, c3⟩ := h.counter
      simp only [List.length_singleton, List.getLast?_singleton] at c1 c3
      have := c3 (by
        intro hc
        simp only [Option.some.injEq] at hc
        exact hpe hc)
      push_cast at c1
      omega
    rw [hcell]
    have hsb := sameButTypes_setType s.g (GETCELL s.g p'.1 p'.2) s.cellsToEnd
    have hty1 : ∀ x y, s.g.InGrid x y →
        (s.g.setType (GETCELL s.g p'.1 p'.2) s.cellsToEnd).ty x y =
          if (x, y) = p' then s.cellsToEnd else s.g.ty x y :=
      fun x y hxy => ty_setType_pos hs hpin _ hxy
    refine ⟨hsb.keepsFrame hf, ?_, ?_, ?_, by rw [hsb.2.2.2.1]; exact h.bonus⟩
    · intro x y hxy hni
      rw [hsb.inGridIff] at hxy
      rw [hsb.innerIff] at hni
      rw [hty1 x y hxy, if_neg]
      · exact h.border x y hxy hni
      · rintro rfl; exact hni hpinner
    · intro i
      rw [typeAt_setType]
      split
      · right; right; right; omega
      · rename_i hne
        rcases typeAt_eq_ty_or_zero hs i with c | ⟨x, y, hxy, rfl⟩
        · left; rw [c]; rfl
        · have h1 := hnoopen x y hxy
          have h2 := htemp x y hxy
          unfold GRID.ty at h1 h2
          rcases h.census (GETCELL s.g x y) with c | c | c | c | c
          · left; exact c
          · right; left; exact c
          · have := h2 c
            have e1 : x = p'.1 := by rw [← this]
            have e2 : y = p'.2 := by rw [← this]
            rw [e1, e2] at hne
            exact (hne ⟨rfl, shaped_inb hs hpin⟩).elim
          · right; right; left; exact c
          · right; right; right; omega
    · obtain ⟨e1, e2, e3, e4, e5, e6⟩ := h.ending
      refine ⟨e1, e2, by rw [hsb.1]; exact e3, e4, by rw [hsb.2.1]; exact e5, ?_⟩
      intro x y hxy
      rw [hsb.inGridIff] at hxy
      rw [hty1 x y hxy]
      constructor
      · intro hc
        split_ifs at hc
        · omega
        · exact (e6 x y hxy).1 hc
      · intro he
        rw [if_neg (by rw [he]; exact fun hc => hpe hc.symm)]
        exact (e6 x y hxy).2 he
  · rename_i hct
    refine ⟨hf, h.border, ?_, h.ending, h.bonus⟩
    intro i
    rcases typeAt_eq_ty_or_zero hs i with c | ⟨x, y, hxy, rfl⟩
    · left; rw [c]; rfl
    · have h1 := hnoopen x y hxy
      have h2 := htemp x y hxy
      unfold GRID.ty at h1 h2
      rcases h.census (GETCELL s.g x y) with c | c | c | c | c
      · left; exact c
      · right; left; exact c
      · have := h2 c
        have e1 : x = p'.1 := by rw [← this]
        have e2 : y = p'.2 := by rw [← this]
        rw [e1, e2, ← hcell] at c
        exact (hct c).elim
      · right; right; left; exact c
      · right; right; right; omega

/-- The start of a new path, at an unvisited cell with a visited neighbour,
sets up the invariant for the path of that one cell. -/
theorem newPath_inv {g : GRID} {e : Int × Int} (h : Carved g e) (fuel : Nat) (k : Nat)
    (cT d cN : Int) (hu : unvisitedInGrid g fuel 1 = some (cT, d, cN)) :
    ∃ T : Int × Int,
      CarveInv { g := (g.setType (cT + g.ptr4 d) (g.typeAt cN + 1)).setType cT END_TEMP
                 k := k
                 cell := cT
                 cellsToEnd := ((g.setType (cT + g.ptr4 d) (g.typeAt cN + 1)).setType cT
                   END_TEMP).typeAt (cT + g.ptr4 d) + 1 } [T] e (g.typeAt cN + 2) := by
  have hO : OPEN = 10 := rfl
  have hE : END = 4 := rfl
  have hT : END_TEMP = 3 := rfl
  have hW : WALL = 1 := rfl
  have hU : UNVISITED = 0 := rfl
  have hf := h.frame
  have hs := hf.1
  obtain ⟨x, y, x1, x2, x3, y1, y2, y3, rfl, hty, hv⟩ := unvisitedInGrid_some g fuel 1 cT d cN
    (by omega) (by omega) hu
  have hTin : g.InGrid x y := by unfold GRID.InGrid; omega
  have hTinner := odd_inGrid_inner hf x2 y2 hTin
  have hpos := shaped_pos hs hTin
  obtain ⟨hd0, hd3, hb, rfl, hgt⟩ := visitedNeighbor_some g _ 4 0 d cN (by omega) (by omega) hv
  rw [hpos.1, hpos.2] at hb hgt ⊢
  have hoff := off4_cases d hd0 hd3
  have hNin : g.InGrid (x + off4X d * 2) (y + off4Y d * 2) := by
    unfold GRID.inBounds at hb
    unfold GRID.InGrid
    omega
  have hNinner : g.Inner (x + off4X d * 2) (y + off4Y d * 2) := by
    apply odd_inGrid_inner hf _ _ hNin
    · rcases hoff with ⟨-, a, b⟩ | ⟨-, a, b⟩ | ⟨-, a, b⟩ | ⟨-, a, b⟩ <;> rw [a] <;> omega
    · rcases hoff with ⟨-, a, b⟩ | ⟨-, a, b⟩ | ⟨-, a, b⟩ | ⟨-, a, b⟩ <;> rw [b] <;> omega
  have hMinner : g.Inner (x + off4X d) (y + off4Y d) := by
    unfold GRID.Inner at hTinner hNinner ⊢
    rcases hoff with ⟨-, a, b⟩ | ⟨-, a, b⟩ | ⟨-, a, b⟩ | ⟨-, a, b⟩ <;> rw [a, b] at hNinner ⊢ <;>
      omega
  have hMin := inner_inGrid hMinner
  have hMnodd : ¬ OddPos (x + off4X d, y + off4Y d) := by
    unfold OddPos
    simp only
    rcases hoff with ⟨-, a, b⟩ | ⟨-, a, b⟩ | ⟨-, a, b⟩ | ⟨-, a, b⟩ <;> rw [a, b] <;> omega
  have hM := shaped_step4_one hs x y d hd0 hd3
  rw [hM]
  generalize ht : g.typeAt (GETCELL g (x + off4X d * 2) (y + off4Y d * 2)) = t at hgt ⊢
  have hsb := sameButTypes_setType2 g (GETCELL g (x + off4X d) (y + off4Y d)) (GETCELL g x y)
    (t + 1) END_TEMP
  have hty2 : ∀ x' y', g.InGrid x' y' →
      ((g.setType (GETCELL g (x + off4X d) (y + off4Y d)) (t + 1)).setType (GETCELL g x y)
        END_TEMP).ty x' y' =
        if (x', y') = (x, y) then END_TEMP
        else if (x', y') = (x + off4X d, y + off4Y d) then t + 1 else g.ty x' y' :=
    fun x' y' hxy => ty_setType2 hs (a := (x + off4X d, y + off4Y d)) (b := (x, y)) hMin hTin
      _ _ hxy
  have hTM : (x + off4X d, y + off4Y d) ≠ (x, y) := by
    intro hc
    simp only [Prod.mk.injEq] at hc
    rcases hoff with ⟨-, a, b⟩ | ⟨-, a, b⟩ | ⟨-, a, b⟩ | ⟨-, a, b⟩ <;> rw [a, b] at hc <;> omega
  have hcnt : ((g.setType (GETCELL g (x + off4X d) (y + off4Y d)) (t + 1)).setType (GETCELL g x y)
      END_TEMP).typeAt (GETCELL g (x + off4X d) (y + off4Y d)) = t + 1 := by
    have := hty2 _ _ hMin
    rw [if_neg hTM, if_pos rfl] at this
    unfold GRID.ty at this
    rw [hsb.cellIndex] at this
    exact this
  rw [hcnt]
  have heT : e ≠ (x, y) := by
    intro hc
    have := (h.ending.2.2.2.2.2 x y hTin).2 hc.symm
    unfold GRID.ty at this
    omega
  have heM : e ≠ (x + off4X d, y + off4Y d) := by
    intro hc
    rw [← hc] at hMnodd
    exact hMnodd h.ending.1
  have hcen : ∀ x' y', g.ty x' y' ≠ OPEN ∧ g.ty x' y' ≠ END_TEMP := by
    intro x' y'
    unfold GRID.ty
    rcases h.census (GETCELL g x' y') with c | c | c | c <;> constructor <;> omega
  refine ⟨(x, y), hsb.keepsFrame hf, ?_, ?_, ?_, ?_, ?_, ?_, ?_, ?_, ?_,
    by rw [hsb.2.2.2.1]; exact h.bonus⟩
  · intro x' y' hxy hni
    simp only at hxy hni ⊢
    rw [hsb.inGridIff] at hxy
    rw [hsb.innerIff] at hni
    rw [hty2 x' y' hxy, if_neg, if_neg]
    · exact h.border x' y' hxy hni
    · intro hc
      simp only [Prod.mk.injEq] at hc
      rw [hc.1, hc.2] at hni
      exact hni hMinner
    · intro hc
      simp only [Prod.mk.injEq] at hc
      rw [hc.1, hc.2] at hni
      exact hni hTinner
  · intro i
    simp only
    rcases typeAt_setType2 g (GETCELL g (x + off4X d) (y + off4Y d)) (GETCELL g x y) (t + 1)
      END_TEMP i with c | c | c
    · rw [c]
      rcases h.census i with c' | c' | c' | c'
      · left; exact c'
      · right; left; exact c'
      · right; right; right; left; exact c'
      · right; right; right; right; omega
    · right; right; right; right; omega
    · right; right; left; exact c
  · exact ⟨(x, y), rfl, (hsb.cellIndex _ _).symm⟩
  · refine ⟨⟨x2, y2⟩, (hsb.innerIff _ _).2 hTinner, Or.inr ?_⟩
    simp only
    rw [hty2 _ _ hTin, if_pos rfl]
  · simp
  · intro x' y' hxy hopen
    simp only at hxy hopen
    rw [hsb.inGridIff] at hxy
    rw [hty2 x' y' hxy] at hopen
    split_ifs at hopen
    · omega
    · omega
    · exact ((hcen x' y').1 hopen).elim
  · intro x' y' hxy htemp
    simp only at hxy htemp
    rw [hsb.inGridIff] at hxy
    rw [hty2 x' y' hxy] at htemp
    split_ifs at htemp with c1 c2
    · simp only [List.getLast?_singleton]
      rw [c1]
    · omega
    · exact ((hcen x' y').2 htemp).elim
  · obtain ⟨e1, e2, e3, e4, e5, e6⟩ := h.ending
    refine ⟨e1, e2, by rw [hsb.1]; exact e3, e4, by rw [hsb.2.1]; exact e5, ?_⟩
    intro x' y' hxy
    simp only at hxy ⊢
    rw [hsb.inGridIff] at hxy
    rw [hty2 x' y' hxy]
    constructor
    · intro hend
      split_ifs at hend
      · omega
      · omega
      · exact (e6 x' y' hxy).1 hend
    · intro he
      rw [if_neg (by rw [he]; exact heT), if_neg (by rw [he]; exact heM)]
      exact (e6 x' y' hxy).2 he
  · refine ⟨?_, by omega, fun _ => by omega⟩
    simp only [List.length_singleton]
    push_cast
    omega

/-- When the `while (1)` loop of `GridMaze` ends, the grid holds walls on the
border, one ending cell, and otherwise unvisited cells, walls and depth tags
above `OPEN`. -/
theorem carveLoop_carved (rs : Nat → Nat) {e : Int × Int} :
    ∀ (fuel : Nat) (s : Carve) (chain : List (Int × Int)) (c0 : Int) (s' : Carve),
      CarveInv s chain e c0 → carveLoop rs fuel s = some s' → Carved s'.g e
  | 0, _, _, _, _, _, h => by simp [carveLoop] at h
  | fuel + 1, s, chain, c0, s', hinv, h => by
    rw [carveLoop] at h
    simp only at h
    have hd := GetRandomValue_bounds rs s.k 0 3 (by omega)
    have ht := GetRandomValue_bounds rs (s.k + 1) 0 1 (by omega)
    have hatt := carveAttempts_inv rs 4 { s with k := s.k + 2 } (GetRandomValue rs s.k 0 3)
      (1 + GetRandomValue rs (s.k + 1) 0 1 * 2) (carveInv_of_eq hinv rfl rfl rfl) hd.1 hd.2
      (by omega)
    generalize carveAttempts rs 4 { s with k := s.k + 2 } (GetRandomValue rs s.k 0 3)
      (1 + GetRandomValue rs (s.k + 1) 0 1 * 2) = r at h hatt
    split at h
    · rename_i hflag
      have h1 := hatt.1 hflag
      split at h
      · rename_i hne
        obtain ⟨p, rest, -, hb⟩ := backtrack_inv h1 hne.1 hne.2
        exact carveLoop_carved rs fuel _ rest c0 s' hb h
      · rename_i hend
        have hc := endReached_carved h1 hend
        split at h
        · rename_i cT d cN hu
          obtain ⟨T, hT⟩ := newPath_inv hc _ r.1.k cT d cN hu
          exact carveLoop_carved rs fuel _ [T] _ s' hT h
        · simp only [Option.some.injEq] at h
          rw [← h]
          exact hc
    · rename_i hflag
      obtain ⟨p, hp⟩ := hatt.2 (by simpa using hflag)
      exact carveLoop_carved rs fuel _ (p :: chain) c0 s' hp h

/-! ## The wall pattern and the ending cell -/

theorem sameLayout_refl (g : GRID) : g.SameLayout g :=
  ⟨rfl, rfl, rfl, rfl, rfl, rfl, fun _ => ⟨rfl, rfl, rfl⟩⟩

theorem sameLayout_trans {g g' g'' : GRID} (h1 : g.SameLayout g') (h2 : g'.SameLayout g'') :
    g.SameLayout g'' := by
  obtain ⟨a1, a2, a3, a4, a5, a6, a7⟩ := h1
  obtain ⟨b1, b2, b3, b4, b5, b6, b7⟩ := h2
  refine ⟨by rw [b1, a1], by rw [b2, a2], by rw [b3, a3], by rw [b4, a4], by rw [b5, a5],
    by rw [b6, a6], fun i => ?_⟩
  rw [(b7 i).1, (b7 i).2.1, (b7 i).2.2]
  exact a7 i

theorem sameLayout_of_sameButTypes {g g' : GRID} (h : g.SameButTypes g') : g.SameLayout g' := by
  obtain ⟨a1, a2, a3, a4, a5, a6, a7, a8⟩ := h
  refine ⟨a1, a2, a3, a5, a6, a7, fun i => ?_⟩
  rw [a8 i]
  exact ⟨rfl, rfl, rfl⟩

theorem sameLayout_modifyCell (g : GRID) (i : Int) (f : CELL → CELL)
    (hf : ∀ c, (f c).index = c.index ∧ (f c).posX = c.posX ∧ (f c).posY = c.posY) :
    g.SameLayout (g.modifyCell i f) := by
  refine ⟨by simp, by simp, by simp, by simp, by simp, by simp, fun j => ?_⟩
  rw [cellAt_modifyCell]
  split
  · rename_i h
    rw [h.1]
    exact hf _
  · exact ⟨rfl, rfl, rfl⟩

theorem sameLayout_bonus (g : GRID) (b : Int) : g.SameLayout { g with bonus := b } :=
  ⟨rfl, rfl, rfl, rfl, rfl, rfl, fun _ => ⟨rfl, rfl, rfl⟩⟩

theorem GRID.SameLayout.sameIndex {g g' : GRID} (h : g.SameLayout g') (x y : Int) :
    GETCELL g' x y = GETCELL g x y := by
  simp [GETCELL, h.1]

theorem GRID.SameLayout.sameInGrid {g g' : GRID} (h : g.SameLayout g') (x y : Int) :
    g'.InGrid x y ↔ g.InGrid x y := by
  simp [GRID.InGrid, h.1, h.2.1]

theorem GRID.SameLayout.sameInner {g g' : GRID} (h : g.SameLayout g') (x y : Int) :
    g'.Inner x y ↔ g.Inner x y := by
  simp [GRID.Inner, h.1, h.2.1]

theorem GRID.SameLayout.sameInb {g g' : GRID} (h : g.SameLayout g') (i : Int) :
    g'.inb i ↔ g.inb i := by
  simp [GRID.inb, h.2.2.2.2.2.1]

theorem GRID.SameLayout.samePtr4 {g g' : GRID} (h : g.SameLayout g') (d : Int) :
    g'.ptr4 d = g.ptr4 d := by
  simp [GRID.ptr4, h.2.2.2.1]

theorem GRID.SameLayout.samePtr8 {g g' : GRID} (h : g.SameLayout g') (d : Int) :
    g'.ptr8 d = g.ptr8 d := by
  simp [GRID.ptr8, h.2.2.2.2.1]

theorem GRID.SameLayout.sameShape {g g' : GRID} (h : g.SameLayout g') (hs : g.Shaped) :
    g'.Shaped := by
  obtain ⟨s1, s2, s3, s4, s5, s6, s7⟩ := hs
  obtain ⟨a1, a2, a3, a5, a6, a7, a8⟩ := h
  refine ⟨by rw [a1]; exact s1, by rw [a2]; exact s2, by rw [a3, a1, a2]; exact s3,
    by rw [a7, a1, a2]; exact s4, by rw [a5, a1]; exact s5, by rw [a6, a1]; exact s6, ?_⟩
  intro x y hxy
  have hg : GETCELL g' x y = GETCELL g x y := by simp [GETCELL, a1]
  have hxy' : g.InGrid x y := by
    unfold GRID.InGrid at hxy ⊢
    rw [a1, a2] at hxy
    exact hxy
  rw [hg, (a8 _).1, (a8 _).2.1, (a8 _).2.2]
  exact s7 x y hxy'

theorem GRID.SameLayout.sameFrame {g g' : GRID} (h : g.SameLayout g') (hf : g.Frame) :
    g'.Frame := by
  obtain ⟨f1, f2, f3, f4, f5⟩ := hf
  refine ⟨h.sameShape f1, ?_, ?_, ?_, ?_⟩
  · rw [h.1]; exact f2
  · rw [h.2.1]; exact f3
  · rw [h.1]; exact f4
  · rw [h.2.1]; exact f5

theorem typeAt_modifyCell (g : GRID) (i : Int) (f : CELL → CELL) (j : Int) :
    (g.modifyCell i f).typeAt j = if j = i ∧ g.inb i then (f (g.cellAt i)).type else g.typeAt j := by
  unfold GRID.typeAt
  rw [cellAt_modifyCell]
  split <;> rfl

theorem forUp_ind {σ : Type} (body : σ → Int → σ) (P : Int → σ → Prop) (limit : Int)
    (hstep : ∀ i s, i < limit → P i s → P (i + 1) (body s i)) :
    ∀ (fuel : Nat) (i : Int) (s : σ), i ≤ limit → limit - i ≤ fuel → P i s →
      P limit (forUp fuel i limit 1 body s)
  | 0, i, s, h1, h2, h => by
    have : i = limit := by omega
    subst this
    exact h
  | fuel + 1, i, s, h1, h2, h => by
    unfold forUp
    split
    · rename_i hlt
      exact forUp_ind body P limit hstep fuel (i + 1) _ (by omega) (by omega) (hstep i s hlt h)
    · have : i = limit := by omega
      subst this
      exact h

/-- A loop `for (i = start; i < limit; i += 1)` with an invariant that refers
to the loop variable. -/
theorem forLoop_ind {σ : Type} (body : σ → Int → σ) (P : Int → σ → Prop) (start limit : Int)
    (s : σ) (hle : start ≤ limit) (h0 : P start s)
    (hstep : ∀ i s, start ≤ i → i < limit → P i s → P (i + 1) (body s i)) :
    P limit (forLoop start limit 1 body s) := by
  have := forUp_ind body (fun i s => start ≤ i ∧ P i s) limit
    (fun i s hlt hp => ⟨by omega, hstep i s hp.1 hlt hp.2⟩) (limit - start).toNat start s hle
    (by omega) ⟨by omega, h0⟩
  exact this.2

/-- A cell of the row that starts at the index `y' * w` lies in the row `y'`. -/
theorem row_unique (w x y y' : Int) (hx0 : 0 ≤ x) (hxw : x < w)
    (h1 : y' * w ≤ x + y * w) (h2 : x + y * w < y' * w + w) : y = y' := by
  have hw : 0 < w := by omega
  by_contra hne
  rcases Int.lt_or_gt_of_ne hne with hlt | hgt
  · have : (y + 1) * w ≤ y' * w := Int.mul_le_mul_of_nonneg_right (by omega) (by omega)
    have e : (y + 1) * w = y * w + w := by ring
    omega
  · have : (y' + 1) * w ≤ y * w := Int.mul_le_mul_of_nonneg_right (by omega) (by omega)
    have e : (y' + 1) * w = y' * w + w := by ring
    omega

/-- The inner loop over an even row: each cell of the row becomes a wall. -/
theorem evenRow_spec (g : GRID) (sY w : Int) (hw : 0 ≤ w) :
    g.SameLayout (forLoop sY (sY + w) 1 (fun (g : GRID) (_sX : Int) =>
      g.modifyCell _sX (fun c => { c with type := WALL, flags := CFL_INVISIBLE, depth := 0 })) g) ∧
    ∀ j, (forLoop sY (sY + w) 1 (fun (g : GRID) (_sX : Int) =>
      g.modifyCell _sX (fun c => { c with type := WALL, flags := CFL_INVISIBLE, depth := 0 }))
        g).typeAt j = if sY ≤ j ∧ j < sY + w ∧ g.inb j then WALL else g.typeAt j := by
  refine forLoop_ind _ (fun i s => g.SameLayout s ∧
    ∀ j, s.typeAt j = if sY ≤ j ∧ j < i ∧ g.inb j then WALL else g.typeAt j) sY (sY + w) g
    (by omega) ⟨sameLayout_refl g, fun j => ?_⟩ ?_
  · rw [if_neg (by omega)]
  · intro i s h1 h2 ⟨hl, ht⟩
    refine ⟨sameLayout_trans hl (sameLayout_modifyCell s i _ (fun c => ⟨rfl, rfl, rfl⟩)),
      fun j => ?_⟩
    rw [typeAt_modifyCell, ht j]
    by_cases hj : j = i
    · subst hj
      by_cases hb : g.inb j
      · rw [if_pos ⟨rfl, (hl.sameInb j).2 hb⟩, if_pos ⟨h1, by omega, hb⟩]
      · rw [if_neg (fun hc => hb ((hl.sameInb j).1 hc.2)), if_neg (fun hc => hb hc.2.2),
          if_neg (fun hc => hb hc.2.2)]
    · rw [if_neg (fun hc => hj hc.1)]
      have hiff : (sY ≤ j ∧ j < i + 1 ∧ g.inb j) ↔ (sY ≤ j ∧ j < i ∧ g.inb j) := by
        constructor <;> rintro ⟨a, b, c⟩ <;> exact ⟨a, by omega, c⟩
      simp only [hiff]

/-- The inner loop over an odd row: the cells become walls and unvisited cells
in turn, from a wall. -/
theorem oddRow_spec (g : GRID) (sY w : Int) (hw : 0 ≤ w) :
    g.SameLayout (forLoop sY (sY + w) 1 (fun (s : GRID × Int) (_sX : Int) =>
      (s.1.modifyCell _sX (fun c => { c with type := s.2, flags := CFL_INVISIBLE, depth := 0 }),
        Int.xor s.2 WALL)) (g, WALL)).1 ∧
    ∀ j, (forLoop sY (sY + w) 1 (fun (s : GRID × Int) (_sX : Int) =>
      (s.1.modifyCell _sX (fun c => { c with type := s.2, flags := CFL_INVISIBLE, depth := 0 }),
        Int.xor s.2 WALL)) (g, WALL)).1.typeAt j =
      if sY ≤ j ∧ j < sY + w ∧ g.inb j then (if (j - sY) % 2 = 0 then WALL else UNVISITED)
      else g.typeAt j := by
  have := forLoop_ind (fun (s : GRID × Int) (_sX : Int) =>
      (s.1.modifyCell _sX (fun c => { c with type := s.2, flags := CFL_INVISIBLE, depth := 0 }),
        Int.xor s.2 WALL)) (fun i s => g.SameLayout s.1 ∧
      s.2 = (if (i - sY) % 2 = 0 then WALL else UNVISITED) ∧
      ∀ j, s.1.typeAt j = if sY ≤ j ∧ j < i ∧ g.inb j then
        (if (j - sY) % 2 = 0 then WALL else UNVISITED) else g.typeAt j) sY (sY + w) (g, WALL)
    (by omega) ⟨sameLayout_refl g, by simp, fun j => by rw [if_neg (by omega)]⟩ ?_
  · exact ⟨this.1, this.2.2⟩
  · intro i s h1 h2 ⟨hl, hv, ht⟩
    refine ⟨sameLayout_trans hl (sameLayout_modifyCell s.1 i _ (fun c => ⟨rfl, rfl, rfl⟩)),
      ?_, fun j => ?_⟩
    · simp only
      rw [hv]
      by_cases hp : (i - sY) % 2 = 0
      · rw [if_pos hp, if_neg (by omega)]; decide
      · rw [if_neg hp, if_pos (by omega)]; decide
    · simp only
      rw [typeAt_modifyCell, ht j]
      by_cases hj : j = i
      · subst hj
        by_cases hb : g.inb j
        · rw [if_pos ⟨rfl, (hl.sameInb j).2 hb⟩, if_pos ⟨h1, by omega, hb⟩, hv]
        · rw [if_neg (fun hc => hb ((hl.sameInb j).1 hc.2)), if_neg (fun hc => hb hc.2.2),
            if_neg (fun hc => hb hc.2.2)]
      · rw [if_neg (fun hc => hj hc.1)]
        have hiff : (sY ≤ j ∧ j < i + 1 ∧ g.inb j) ↔ (sY ≤ j ∧ j < i ∧ g.inb j) := by
          constructor <;> rintro ⟨a, b, c⟩ <;> exact ⟨a, by omega, c⟩
        simp only [hiff]

theorem row_index_lt {g : GRID} (hs : g.Shaped) {y : Int} (h0 : 0 ≤ y) (h1 : y < g.height) :
    0 ≤ y * g.width ∧ y * g.width < g.size := by
  have hw : 0 < g.width := by have := hs.1; omega
  rw [hs.2.2.1]
  constructor
  · exact Int.mul_nonneg h0 (by omega)
  · have : (y + 1) * g.width ≤ g.height * g.width :=
      Int.mul_le_mul_of_nonneg_right (by omega) (by omega)
    have e : (y + 1) * g.width = y * g.width + g.width := by ring
    have e2 : g.height * g.width = g.width * g.height := by ring
    omega

/-- The first loop of `GridMaze` makes every cell of the even rows a wall and
leaves the types of the odd rows. -/
theorem initEvenRows_spec (g : GRID) (hf : g.Frame) :
    g.SameLayout (initEvenRows g) ∧
    ∀ x y, g.InGrid x y →
      (initEvenRows g).typeAt (GETCELL g x y) =
        if y % 2 = 0 then WALL else g.typeAt (GETCELL g x y) := by
  have hs := hf.1
  have hw : 0 < g.width := by have := hs.1; omega
  have key := forLoop_inv_each (fun (g : GRID) (_sY : Int) =>
      forLoop _sY (_sY + g.width) 1 (fun (g : GRID) (_sX : Int) =>
        g.modifyCell _sX (fun c => { c with type := WALL, flags := CFL_INVISIBLE, depth := 0 })) g)
    (fun s => g.SameLayout s ∧ ∀ x y, g.InGrid x y → y % 2 = 1 →
      s.typeAt (GETCELL g x y) = g.typeAt (GETCELL g x y))
    (fun sY s => ∀ x y, g.InGrid x y → sY = y * g.width → s.typeAt (GETCELL g x y) = WALL)
    0 g.size (g.width * 2) g (by omega) ?_ ⟨sameLayout_refl g, fun _ _ _ _ => rfl⟩
  · unfold initEvenRows
    refine ⟨key.1.1, fun x y hxy => ?_⟩
    split
    · rename_i hy
      have hr := row_index_lt hs hxy.2.2.1 hxy.2.2.2
      refine key.2 (y * g.width) hr.1 hr.2 ⟨(y / 2).toNat, ?_⟩ x y hxy rfl
      have e : (((y / 2).toNat : Nat) : Int) = y / 2 := Int.toNat_of_nonneg (by have := hxy.2.2.1; omega)
      rw [e]
      have e2 : y = y / 2 * 2 := by omega
      calc y * g.width = (y / 2 * 2) * g.width := by rw [← e2]
        _ = 0 + y / 2 * (g.width * 2) := by ring
    · rename_i hy
      exact key.1.2 x y hxy (by omega)
  · intro s i h1 h2 ⟨n, hn⟩ ⟨hl, hodd⟩
    simp only
    have hrow := evenRow_spec s i s.width (by rw [hl.1]; omega)
    refine ⟨⟨sameLayout_trans hl hrow.1, ?_⟩, ?_, ?_⟩
    · intro x y hxy hy
      rw [hrow.2, if_neg, hodd x y hxy hy]
      rintro ⟨c1, c2, -⟩
      rw [hl.1] at c2
      have e : i = (n * 2 : Int) * g.width := by rw [hn]; ring
      rw [e] at c1 c2
      unfold GETCELL at c1 c2
      have := row_unique g.width x y (n * 2) hxy.1 hxy.2.1 c1 c2
      omega
    · intro x y hxy hi
      rw [hrow.2, if_pos]
      refine ⟨?_, ?_, (hl.sameInb _).2 (shaped_inb hs hxy)⟩
      · unfold GETCELL; have := hxy.1; omega
      · rw [hl.1]; unfold GETCELL; have := hxy.2.1; omega
    · intro j hq x y hxy hj
      rw [hrow.2]
      split
      · rfl
      · exact hq x y hxy hj

/-- The second loop of `GridMaze` makes the cells of the odd rows walls and
unvisited cells in turn and leaves the types of the even rows. -/
theorem initOddRows_spec (g : GRID) (hf : g.Frame) :
    g.SameLayout (initOddRows g) ∧
    ∀ x y, g.InGrid x y →
      (initOddRows g).typeAt (GETCELL g x y) =
        if y % 2 = 1 then (if x % 2 = 0 then WALL else UNVISITED)
        else g.typeAt (GETCELL g x y) := by
  have hs := hf.1
  have hw : 0 < g.width := by have := hs.1; omega
  have key := forLoop_inv_each (fun (g : GRID) (_sY : Int) =>
      (forLoop _sY (_sY + g.width) 1 (fun (s : GRID × Int) (_sX : Int) =>
        (s.1.modifyCell _sX (fun c => { c with type := s.2, flags := CFL_INVISIBLE, depth := 0 }),
          Int.xor s.2 WALL)) (g, WALL)).1)
    (fun s => g.SameLayout s ∧ ∀ x y, g.InGrid x y → y % 2 = 0 →
      s.typeAt (GETCELL g x y) = g.typeAt (GETCELL g x y))
    (fun sY s => ∀ x y, g.InGrid x y → sY = y * g.width →
      s.typeAt (GETCELL g x y) = if x % 2 = 0 then WALL else UNVISITED)
    g.width g.size (g.width * 2) g (by omega) ?_ ⟨sameLayout_refl g, fun _ _ _ _ => rfl⟩
  · unfold initOddRows
    refine ⟨key.1.1, fun x y hxy => ?_⟩
    split
    · rename_i hy
      have hr := row_index_lt hs hxy.2.2.1 hxy.2.2.2
      have hy1 : 1 ≤ y := by have := hxy.2.2.1; omega
      have hge : g.width ≤ y * g.width := by
        have := Int.mul_le_mul_of_nonneg_right hy1 (by omega : 0 ≤ g.width)
        omega
      refine key.2 (y * g.width) hge hr.2 ⟨(y / 2).toNat, ?_⟩ x y hxy rfl
      have e : (((y / 2).toNat : Nat) : Int) = y / 2 := Int.toNat_of_nonneg (by omega)
      rw [e]
      have e2 : y = y / 2 * 2 + 1 := by omega
      calc y * g.width = (y / 2 * 2 + 1) * g.width := by rw [← e2]
        _ = g.width + y / 2 * (g.width * 2) := by ring
    · rename_i hy
      exact key.1.2 x y hxy (by have := hxy.2.2.1; omega)
  · intro s i h1 h2 ⟨n, hn⟩ ⟨hl, heven⟩
    simp only
    have hrow := oddRow_spec s i s.width (by rw [hl.1]; omega)
    have e : i = (n * 2 + 1 : Int) * g.width := by rw [hn]; ring
    refine ⟨⟨sameLayout_trans hl hrow.1, ?_⟩, ?_, ?_⟩
    · intro x y hxy hy
      rw [hrow.2, if_neg, heven x y hxy hy]
      rintro ⟨c1, c2, -⟩
      rw [hl.1] at c2
      rw [e] at c1 c2
      unfold GETCELL at c1 c2
      have := row_unique g.width x y (n * 2 + 1) hxy.1 hxy.2.1 c1 c2
      omega
    · intro x y hxy hi
      rw [hrow.2, if_pos]
      · have e3 : GETCELL g x y - i = x := by unfold GETCELL; omega
        rw [e3]
      · refine ⟨?_, ?_, (hl.sameInb _).2 (shaped_inb hs hxy)⟩
        · unfold GETCELL; have := hxy.1; omega
        · rw [hl.1]; unfold GETCELL; have := hxy.2.1; omega
    · intro j hq x y hxy hj
      rw [hrow.2]
      split
      · rename_i hc
        obtain ⟨c1, c2, -⟩ := hc
        rw [hl.1] at c2
        rw [e] at c1 c2
        unfold GETCELL at c1 c2
        have hy := row_unique g.width x y (n * 2 + 1) hxy.1 hxy.2.1 c1 c2
        have e3 : GETCELL g x y - i = x := by
          unfold GETCELL
          rw [e, hy]
          ring
        rw [e3]
      · exact hq x y hxy hj

/-- The two loops at the start of `GridMaze` give the wall pattern. -/
theorem init_pattern (g : GRID) (hf : g.Frame) :
    g.SameLayout (initOddRows (initEvenRows g)) ∧ (initOddRows (initEvenRows g)).Pattern := by
  obtain ⟨l1, t1⟩ := initEvenRows_spec g hf
  obtain ⟨l2, t2⟩ := initOddRows_spec (initEvenRows g) (l1.sameFrame hf)
  refine ⟨sameLayout_trans l1 l2, fun x y hxy => ?_⟩
  have hl := sameLayout_trans l1 l2
  rw [hl.sameInGrid] at hxy
  unfold GRID.ty
  rw [hl.sameIndex, ← l1.sameIndex, t2 x y ((l1.sameInGrid x y).2 hxy), l1.sameIndex, t1 x y hxy]
  have := hxy.1
  have := hxy.2.2.1
  split_ifs <;> first | rfl | omega

/-- The loops that disable cells beside the border only turn cells into walls. -/
theorem breakBorder_spec (rs : Nat → Nat) (g : GRID) (k : Nat) (hw : 7 ≤ g.width)
    (hh : 7 ≤ g.height) :
    g.SameButTypes (breakBorder rs (g, k)).1 ∧
    ∀ i, (breakBorder rs (g, k)).1.typeAt i = g.typeAt i ∨
      (breakBorder rs (g, k)).1.typeAt i = WALL := by
  have hcell : ∀ (s : GRID × Nat) (x y : Int),
      (g.SameButTypes s.1 ∧ ∀ i, s.1.typeAt i = g.typeAt i ∨ s.1.typeAt i = WALL) →
      (g.SameButTypes (if GetRandomValue rs s.2 0 1 > 0 then (s.1, s.2 + 1)
          else (s.1.setType (x + y * s.1.width) WALL, s.2 + 1)).1 ∧
        ∀ i, (if GetRandomValue rs s.2 0 1 > 0 then (s.1, s.2 + 1)
          else (s.1.setType (x + y * s.1.width) WALL, s.2 + 1)).1.typeAt i = g.typeAt i ∨
          (if GetRandomValue rs s.2 0 1 > 0 then (s.1, s.2 + 1)
          else (s.1.setType (x + y * s.1.width) WALL, s.2 + 1)).1.typeAt i = WALL) := by
    intro s x y ⟨h1, h2⟩
    split
    · exact ⟨h1, h2⟩
    · refine ⟨sameButTypes_trans h1 (sameButTypes_setType _ _ _), fun i => ?_⟩
      simp only
      rw [typeAt_setType]
      split
      · right; rfl
      · exact h2 i
  unfold breakBorder
  simp only
  refine forLoop_inv _ (fun (s : GRID × Nat) => g.SameButTypes s.1 ∧
    ∀ i, s.1.typeAt i = g.typeAt i ∨ s.1.typeAt i = WALL) _ _ _ _ ?_ ?_ ?_
  · have e : (forLoop 1 g.width (g.width - 3) (fun (s : GRID × Nat) (_x : Int) =>
        forLoop 1 s.1.height 2 (fun (s : GRID × Nat) (_y : Int) =>
          if GetRandomValue rs s.2 0 1 > 0 then (s.1, s.2 + 1)
          else (s.1.setType (_x + _y * s.1.width) WALL, s.2 + 1)) s) (g, k)).1.height = g.height := by
      have := forLoop_inv (fun (s : GRID × Nat) (_x : Int) =>
        forLoop 1 s.1.height 2 (fun (s : GRID × Nat) (_y : Int) =>
          if GetRandomValue rs s.2 0 1 > 0 then (s.1, s.2 + 1)
          else (s.1.setType (_x + _y * s.1.width) WALL, s.2 + 1)) s)
        (fun (s : GRID × Nat) => s.1.height = g.height) 1 g.width (g.width - 3) (g, k) (by omega) ?_ rfl
      · exact this
      · intro s i _ _ _ hs
        refine forLoop_inv _ (fun (s : GRID × Nat) => s.1.height = g.height) _ _ _ _ (by omega)
          ?_ hs
        intro t j _ _ _ ht
        split
        · exact ht
        · simpa using ht
    rw [e]
    omega
  · intro s i _ _ _ hs
    exact forLoop_inv _ (fun (s : GRID × Nat) => g.SameButTypes s.1 ∧
      ∀ i, s.1.typeAt i = g.typeAt i ∨ s.1.typeAt i = WALL) _ _ _ _ (by omega)
      (fun t j _ _ _ ht => hcell t j i ht) hs
  · refine forLoop_inv _ (fun (s : GRID × Nat) => g.SameButTypes s.1 ∧
      ∀ i, s.1.typeAt i = g.typeAt i ∨ s.1.typeAt i = WALL) _ _ _ _ (by omega) ?_
      ⟨sameButTypes_refl g, fun _ => Or.inl rfl⟩
    intro s i _ _ _ hs
    exact forLoop_inv _ (fun (s : GRID × Nat) => g.SameButTypes s.1 ∧
      ∀ i, s.1.typeAt i = g.typeAt i ∨ s.1.typeAt i = WALL) _ _ _ _ (by omega)
      (fun t j _ _ _ ht => hcell t i j ht) hs

theorem MAKEODD_range (r hi : Int) (h3 : 3 ≤ r) (hr : r ≤ hi) (hodd : hi % 2 = 1) :
    MAKEODD r % 2 = 1 ∧ 3 ≤ MAKEODD r ∧ MAKEODD r ≤ hi := by
  rw [MAKEODD_of_nonneg r (by omega)]
  split <;> omega

/-- The state in which the `while (1)` loop of `GridMaze` starts satisfies the
invariant of the carve, for the path made of the ending cell. -/
theorem carveStart_inv (rs : Nat → Nat) (g : GRID) (k : Nat) (hf : g.Frame) :
    ∃ e, CarveInv (carveStart rs g k) [e] e OPEN := by
  have hO : OPEN = 10 := rfl
  have hE : END = 4 := rfl
  have hT : END_TEMP = 3 := rfl
  have hW : WALL = 1 := rfl
  have hU : UNVISITED = 0 := rfl
  obtain ⟨l1, p1⟩ := init_pattern g hf
  have hl2 : g.SameLayout { initOddRows (initEvenRows g) with bonus := 0 } :=
    sameLayout_trans l1 (sameLayout_bonus _ 0)
  have hp2 : GRID.Pattern { initOddRows (initEvenRows g) with bonus := 0 } := p1
  have hf2 := hl2.sameFrame hf
  have hb2 : ({ initOddRows (initEvenRows g) with bonus := 0 } : GRID).bonus = 0 := rfl
  unfold carveStart
  simp only
  generalize ({ initOddRows (initEvenRows g) with bonus := 0 } : GRID) = g2 at hl2 hp2 hf2 hb2 ⊢
  obtain ⟨hsb, hbb⟩ := breakBorder_spec rs g2 k hf2.2.2.2.1 hf2.2.2.2.2
  generalize breakBorder rs (g2, k) = s at hsb hbb ⊢
  have hfb := hsb.keepsFrame hf2
  have hsh := hfb.1
  obtain ⟨-, fw, fh, fw7, fh7⟩ := hfb
  have hx := GetRandomValue_bounds rs s.2 3 (s.1.width - 4) (by omega)
  have hy := GetRandomValue_bounds rs (s.2 + 1) 3 (s.1.height - 4) (by omega)
  obtain ⟨x1, x2, x3⟩ := MAKEODD_range _ (s.1.width - 4) hx.1 hx.2 (by omega)
  obtain ⟨y1, y2, y3⟩ := MAKEODD_range _ (s.1.height - 4) hy.1 hy.2 (by omega)
  generalize MAKEODD (GetRandomValue rs s.2 3 (s.1.width - 4)) = ex at x1 x2 x3 ⊢
  generalize MAKEODD (GetRandomValue rs (s.2 + 1) 3 (s.1.height - 4)) = ey at y1 y2 y3 ⊢
  have hein : s.1.InGrid ex ey := by unfold GRID.InGrid; omega
  have heinner : s.1.Inner ex ey := by unfold GRID.Inner; omega
  have hpat : ∀ x y, s.1.InGrid x y →
      (s.1.ty x y = WALL ∨ (s.1.ty x y = UNVISITED ∧ x % 2 = 1 ∧ y % 2 = 1)) := by
    intro x y hxy
    have h1 := hp2 x y ((hsb.inGridIff x y).1 hxy)
    unfold GRID.ty at h1 ⊢
    rw [hsb.cellIndex]
    rcases hbb (GETCELL g2 x y) with c | c
    · rw [c, h1]
      split
      · rename_i hc
        exact Or.inr ⟨rfl, hc⟩
      · exact Or.inl rfl
    · exact Or.inl c
  have hsb3 := sameButTypes_setType s.1 (GETCELL s.1 ex ey) END
  have hty3 : ∀ x y, s.1.InGrid x y →
      (s.1.setType (GETCELL s.1 ex ey) END).ty x y = if (x, y) = (ex, ey) then END else s.1.ty x y :=
    fun x y hxy => ty_setType_pos hsh (a := (ex, ey)) hein END hxy
  refine ⟨(ex, ey), hsb3.keepsFrame (hsb.keepsFrame hf2), ?_, ?_, ?_, ?_, ?_, ?_, ?_, ?_, ?_,
    by rw [hsb3.2.2.2.1, hsb.2.2.2.1]; exact hb2⟩
  · intro x y hxy hni
    simp only at hxy hni ⊢
    rw [hsb3.inGridIff] at hxy
    rw [hsb3.innerIff] at hni
    rw [hty3 x y hxy, if_neg]
    · rcases hpat x y hxy with c | ⟨-, c1, c2⟩
      · exact c
      · exfalso
        apply hni
        have := hxy
        unfold GRID.InGrid at this
        unfold GRID.Inner
        omega
    · intro hc
      simp only [Prod.mk.injEq] at hc
      rw [hc.1, hc.2] at hni
      exact hni heinner
  · intro i
    simp only
    rw [typeAt_setType]
    split
    · right; right; right; left; rfl
    · rcases typeAt_eq_ty_or_zero hsh i with c | ⟨x, y, hxy, rfl⟩
      · left; rw [c]; rfl
      · rcases hpat x y hxy with c | ⟨c, -⟩
        · right; left; exact c
        · left; exact c
  · exact ⟨(ex, ey), rfl, (hsb3.cellIndex _ _).symm⟩
  · refine ⟨⟨x1, y1⟩, (hsb3.innerIff _ _).2 heinner, Or.inl ?_⟩
    simp only
    rw [hty3 _ _ hein, if_pos rfl]
  · simp
  · intro x y hxy hopen
    simp only at hxy hopen
    rw [hsb3.inGridIff] at hxy
    rw [hty3 x y hxy] at hopen
    split_ifs at hopen
    · omega
    · rcases hpat x y hxy with c | ⟨c, -⟩ <;> omega
  · intro x y hxy htemp
    simp only at hxy htemp
    rw [hsb3.inGridIff] at hxy
    rw [hty3 x y hxy] at htemp
    split_ifs at htemp
    · omega
    · rcases hpat x y hxy with c | ⟨c, -⟩ <;> omega
  · refine ⟨⟨x1, y1⟩, x2, by simpa using x3, y2, by simpa using y3, ?_⟩
    intro x y hxy
    simp only at hxy ⊢
    rw [hsb3.inGridIff] at hxy
    rw [hty3 x y hxy]
    constructor
    · intro hend
      split_ifs at hend with c1
      · exact c1
      · rcases hpat x y hxy with c | ⟨c, -⟩ <;> omega
    · intro he
      rw [if_pos he]
  · refine ⟨by simp, by omega, fun hc => ?_⟩
    simp at hc

/-! ## Counting the cells of a type -/

theorem countP_set {α : Type} (p : α → Bool) (d : α) :
    ∀ (l : List α) (n : Nat) (a : α), n < l.length →
      (l.set n a).countP p + (if p (l.getD n d) then 1 else 0) =
        l.countP p + (if p a then 1 else 0)
  | [], n, a, h => by simp at h
  | b :: l, 0, a, _ => by
    simp only [List.set_cons_zero, List.countP_cons, List.getD_cons_zero]
    omega
  | b :: l, n + 1, a, h => by
    have ih := countP_set p d l n a (by simpa using h)
    simp only [List.set_cons_succ, List.countP_cons, List.getD_cons_succ]
    omega

theorem countType_eq_countP (g : GRID) (t : Int) :
    g.countType t = g.cells.countP (fun c => c.type = t) := by
  unfold GRID.countType
  rw [List.countP_eq_length_filter]

/-- A write to a cell of the grid moves the count of a type by the type the
cell loses and the type it gets. -/
theorem countType_modifyCell (g : GRID) (i : Int) (f : CELL → CELL) (t : Int) (hi : g.inb i) :
    (g.modifyCell i f).countType t + (if g.typeAt i = t then 1 else 0) =
      g.countType t + (if (f (g.cellAt i)).type = t then 1 else 0) := by
  obtain ⟨h0, h1⟩ := hi
  have hlt : i.toNat < g.cells.length := by omega
  rw [countType_eq_countP, countType_eq_countP]
  unfold GRID.modifyCell GRID.typeAt GRID.cellAt
  rw [if_pos h0, if_pos h0]
  have := countP_set (fun c => decide (c.type = t)) CELL.blank g.cells i.toNat
    (f (g.cells.getD i.toNat CELL.blank)) hlt
  simpa using this

theorem countType_modifyCell_same (g : GRID) (i : Int) (f : CELL → CELL) (t : Int)
    (hf : (f (g.cellAt i)).type = (g.cellAt i).type) :
    (g.modifyCell i f).countType t = g.countType t := by
  by_cases hi : g.inb i
  · have := countType_modifyCell g i f t hi
    rw [hf] at this
    unfold GRID.typeAt at this
    omega
  · rw [modifyCell_of_not_inb g i f hi]

theorem countType_setType (g : GRID) (i v t : Int) (hi : g.inb i) :
    (g.setType i v).countType t + (if g.typeAt i = t then 1 else 0) =
      g.countType t + (if v = t then 1 else 0) :=
  countType_modifyCell g i _ t hi

/-- A write that neither takes the type `t` from a cell nor gives it leaves the
count of `t`. -/
theorem countType_setType_other (g : GRID) (i v t : Int) (h1 : g.typeAt i ≠ t) (h2 : v ≠ t) :
    (g.setType i v).countType t = g.countType t := by
  by_cases hi : g.inb i
  · have := countType_setType g i v t hi
    rw [if_neg h1, if_neg h2] at this
    omega
  · unfold GRID.setType
    rw [modifyCell_of_not_inb g i _ hi]

theorem countType_eq_zero (g : GRID) (t : Int) (h : ∀ i, g.typeAt i ≠ t) : g.countType t = 0 := by
  unfold GRID.countType
  rw [List.length_eq_zero, List.filter_eq_nil_iff]
  intro c hc
  obtain ⟨n, hn, rfl⟩ := List.getElem_of_mem hc
  have := h (n : Int)
  unfold GRID.typeAt GRID.cellAt at this
  rw [if_pos (by omega)] at this
  simp only [Int.toNat_ofNat] at this
  rw [List.getD_eq_getElem _ _ hn] at this
  simpa using this

theorem countType_pos_of_typeAt (g : GRID) (t i : Int) (hi : g.inb i) (h : g.typeAt i = t) :
    0 < g.countType t := by
  unfold GRID.countType
  rw [List.length_pos_iff_exists_mem]
  obtain ⟨h0, h1⟩ := hi
  have hlt : i.toNat < g.cells.length := by omega
  refine ⟨g.cells[i.toNat], ?_⟩
  rw [List.mem_filter]
  refine ⟨List.getElem_mem _, ?_⟩
  unfold GRID.typeAt GRID.cellAt at h
  rw [if_pos h0, List.getD_eq_getElem _ _ hlt] at h
  simpa using h

/-! ## The passes between the carve and the choice of the start -/

theorem off8_cases (d : Int) (h0 : 0 ≤ d) (h8 : d < 8) :
    -1 ≤ off8X d ∧ off8X d ≤ 1 ∧ -1 ≤ off8Y d ∧ off8Y d ≤ 1 ∧
      (off8X d ≠ 0 ∨ off8Y d ≠ 0) := by
  interval_cases d <;> simp [off8X, off8Y, offsets8]

theorem off8_inj (d d' : Int) (h0 : 0 ≤ d) (h8 : d < 8) (h0' : 0 ≤ d') (h8' : d' < 8)
    (hx : off8X d = off8X d') (hy : off8Y d = off8Y d') : d = d' := by
  interval_cases d <;> interval_cases d' <;> simp [off8X, off8Y, offsets8] at hx hy ⊢

theorem off8_opposite (d : Int) (h0 : 0 ≤ d) (h8 : d < 8) :
    ∃ d' : Int, 0 ≤ d' ∧ d' < 8 ∧ off8X d' = -off8X d ∧ off8Y d' = -off8Y d := by
  interval_cases d
  · exact ⟨4, by omega, by omega, by simp [off8X, off8Y, offsets8]⟩
  · exact ⟨5, by omega, by omega, by simp [off8X, off8Y, offsets8]⟩
  · exact ⟨6, by omega, by omega, by simp [off8X, off8Y, offsets8]⟩
  · exact ⟨7, by omega, by omega, by simp [off8X, off8Y, offsets8]⟩
  · exact ⟨0, by omega, by omega, by simp [off8X, off8Y, offsets8]⟩
  · exact ⟨1, by omega, by omega, by simp [off8X, off8Y, offsets8]⟩
  · exact ⟨2, by omega, by omega, by simp [off8X, off8Y, offsets8]⟩
  · exact ⟨3, by omega, by omega, by simp [off8X, off8Y, offsets8]⟩

theorem shaped_step8 {g : GRID} (hs : g.Shaped) (x y d : Int) (h0 : 0 ≤ d) (h8 : d < 8) :
    GETCELL g x y + g.ptr8 d = GETCELL g (x + off8X d) (y + off8Y d) := by
  obtain ⟨n, rfl⟩ := Int.eq_ofNat_of_zero_le h0
  exact shaped_neighbor hs x y n (by omega)

theorem inner_step8 {g : GRID} {x y : Int} (h : g.Inner x y) (d : Int) (h0 : 0 ≤ d) (h8 : d < 8) :
    g.InGrid (x + off8X d) (y + off8Y d) := by
  have := off8_cases d h0 h8
  unfold GRID.Inner at h
  unfold GRID.InGrid
  omega

theorem carved_settled {g : GRID} {e : Int × Int} (h : Carved g e) : Settled g e := by
  have hO : OPEN = 10 := rfl
  refine ⟨h.frame, h.border, ?_, ?_, h.ending, h.bonus⟩
  · intro i
    rcases h.census i with c | c | c | c
    · exact Or.inl c
    · exact Or.inr (Or.inl c)
    · exact Or.inr (Or.inr (Or.inl c))
    · exact Or.inr (Or.inr (Or.inr (by omega)))
  · intro x y _ hty
    exfalso
    have hU : UNVISITED = 0 := rfl
    have hW : WALL = 1 := rfl
    have hE : END = 4 := rfl
    unfold GRID.ty at hty
    rcases h.census (GETCELL g x y) with c | c | c | c <;> omega

/-- A write of a depth tag to an interior cell other than the ending cell keeps
the state of the grid between the carve and the choice of the start. -/
theorem settled_setType {g : GRID} {e : Int × Int} (h : Settled g e) (x y v : Int)
    (hin : g.Inner x y) (hne : (x, y) ≠ e) (hv : OPEN ≤ v)
    (hlow : v = OPEN → ∀ d : Int, 0 ≤ d → d < 8 → g.ty (x + off8X d) (y + off8Y d) ≠ WALL) :
    Settled (g.setType (GETCELL g x y) v) e := by
  have hO : OPEN = 10 := rfl
  have hE : END = 4 := rfl
  have hW : WALL = 1 := rfl
  have hf := h.frame
  have hs := hf.1
  have hxy := inner_inGrid hin
  have hsb := sameButTypes_setType g (GETCELL g x y) v
  have hty1 : ∀ x' y', g.InGrid x' y' →
      (g.setType (GETCELL g x y) v).ty x' y' = if (x', y') = (x, y) then v else g.ty x' y' :=
    fun x' y' h' => ty_setType_pos hs (a := (x, y)) hxy v h'
  refine ⟨hsb.keepsFrame hf, ?_, ?_, ?_, ?_, by rw [hsb.2.2.2.1]; exact h.bonus⟩
  · intro x' y' h' hni
    rw [hsb.inGridIff] at h'
    rw [hsb.innerIff] at hni
    rw [hty1 x' y' h', if_neg]
    · exact h.border x' y' h' hni
    · intro hc
      simp only [Prod.mk.injEq] at hc
      rw [hc.1, hc.2] at hni
      exact hni hin
  · intro i
    rw [typeAt_setType]
    split
    · exact Or.inr (Or.inr (Or.inr hv))
    · exact h.census i
  · intro x' y' h' hty d hd0 hd8
    rw [hsb.inGridIff] at h'
    have hinner' : g.Inner x' y' := by
      by_contra hni
      have hb := (hsb.innerIff x' y').not.2 hni
      have := hty1 x' y' h'
      rw [hty] at this
      split_ifs at this with c1
      · simp only [Prod.mk.injEq] at c1
        rw [c1.1, c1.2] at hni
        exact hni hin
      · have hw := h.border x' y' h' hni
        omega
    have hnb := inner_step8 hinner' d hd0 hd8
    rw [hty1 _ _ hnb]
    split_ifs with c1
    · omega
    · rw [hty1 x' y' h'] at hty
      split_ifs at hty with c2
      · simp only [Prod.mk.injEq] at c2
        rw [c2.1, c2.2]
        exact hlow hty d hd0 hd8
      · exact h.low x' y' h' hty d hd0 hd8
  · obtain ⟨e1, e2, e3, e4, e5, e6⟩ := h.ending
    refine ⟨e1, e2, by rw [hsb.1]; exact e3, e4, by rw [hsb.2.1]; exact e5, ?_⟩
    intro x' y' h'
    rw [hsb.inGridIff] at h'
    rw [hty1 x' y' h']
    constructor
    · intro hend
      split_ifs at hend
      · omega
      · exact (e6 x' y' h').1 hend
    · intro he
      rw [if_neg (by rw [he]; exact fun hc => hne hc.symm)]
      exact (e6 x' y' h').2 he

theorem tdiv_ge_of_mul_le (a b c : Int) (hb : 0 ≤ b) (hc : 0 < c) (h : a * c ≤ b) :
    a ≤ Int.tdiv b c := by
  rw [Int.tdiv_eq_ediv hb (by omega)]
  exact Int.le_ediv_of_mul_le hc h

/-- The pass "Connect depth near" keeps the state of the grid: it gives cells
between two odd positions depth tags of at least 15. -/
theorem connectNear_settled (rs : Nat → Nat) (g : GRID) (k : Nat) {e : Int × Int}
    (h : Settled g e) :
    Settled (connectNear rs (g, k)).1 e ∧ (connectNear rs (g, k)).1.height = g.height := by
  have hO : OPEN = 10 := rfl
  unfold connectNear
  simp only
  refine forLoop_inv _ (fun (s : GRID × Nat) => Settled s.1 e ∧ s.1.height = g.height) _ _ _ _
    (by omega) ?_ ⟨h, rfl⟩
  intro s y hy3 hyl ⟨ny, hny⟩ hs
  refine (forLoop_inv _ (fun (t : GRID × Nat) => (Settled t.1 e ∧ t.1.height = g.height) ∧
    t.1.width = s.1.width) _ _ _ _ (by omega) ?_ ⟨hs, rfl⟩).1
  intro t x hx3 hxl ⟨nx, hnx⟩ ⟨⟨ht, hth⟩, htw⟩
  split
  · exact ⟨⟨ht, hth⟩, htw⟩
  · rename_i hopen
    refine (forLoop_inv _ (fun (u : GRID × Nat) => ((Settled u.1 e ∧ u.1.height = g.height) ∧
        u.1.width = s.1.width) ∧ OPEN ≤ u.1.typeAt (GETCELL t.1 x y)) 0 4 1 t (by omega) ?_
      ⟨⟨⟨ht, hth⟩, htw⟩, by omega⟩).1
    intro u d hd0 hd4 _ ⟨⟨⟨hu, huh⟩, huw⟩, huo⟩
    split
    · exact ⟨⟨⟨hu, huh⟩, huw⟩, huo⟩
    · rename_i hn
      split
      · exact ⟨⟨⟨hu, huh⟩, huw⟩, huo⟩
      · split
        · simp only
          have hsu := hu.frame.1
          have hgc : GETCELL t.1 x y = GETCELL u.1 x y := by simp [GETCELL, huw, htw]
          rw [hgc] at huo hn ⊢
          have hM := shaped_step4_one hsu x y d hd0 (by omega)
          rw [hM]
          have hoff := off4_cases d hd0 (by omega)
          obtain ⟨-, fw, fh, fw7, fh7⟩ := hu.frame
          have hxw : x < u.1.width - 3 := by rw [huw]; exact hxl
          have hinner : u.1.Inner (x + off4X d) (y + off4Y d) := by
            unfold GRID.Inner
            rcases hoff with ⟨-, a, b⟩ | ⟨-, a, b⟩ | ⟨-, a, b⟩ | ⟨-, a, b⟩ <;> rw [a, b] <;>
              omega
          have hne : (x + off4X d, y + off4Y d) ≠ e := by
            intro hc
            have ho := hu.ending.1
            rw [← hc] at ho
            unfold OddPos at ho
            simp only at ho
            rcases hoff with ⟨-, a, b⟩ | ⟨-, a, b⟩ | ⟨-, a, b⟩ | ⟨-, a, b⟩ <;>
              rw [a, b] at ho <;> omega
          have hv : 5 ≤ Int.tdiv (u.1.typeAt (GETCELL u.1 x y + u.1.ptr4 d * 2)) 2 :=
            tdiv_ge_of_mul_le _ _ _ (by omega) (by omega) (by omega)
          refine ⟨⟨⟨settled_setType hu _ _ _ hinner hne (by omega) (fun hc => by omega), ?_⟩,
            ?_⟩, ?_⟩
          · simpa using huh
          · simpa using huw
          · rw [typeAt_setType, if_neg]
            · exact huo
            · intro hc
              have hxy : u.1.InGrid x y := by unfold GRID.InGrid; omega
              have := inGrid_unique hxy (inner_inGrid hinner) hc.1
              rcases hoff with ⟨-, a, b⟩ | ⟨-, a, b⟩ | ⟨-, a, b⟩ | ⟨-, a, b⟩ <;>
                rw [a, b] at this <;> omega
        · exact ⟨⟨⟨hu, huh⟩, huw⟩, huo⟩

/-- When the loop over the eight neighbours runs to its end, each of them is
navigable. -/
theorem isolatedScan_all (g : GRID) (cell : Int) :
    ∀ (n : Nat) (c dir : Int), dir + n = 8 → (isolatedScan g cell n c dir).2 = 8 →
      ∀ d, dir ≤ d → d < 8 → START ≤ g.typeAt (cell + g.ptr8 d)
  | 0, c, dir, h8, _, d, hd, hd8 => by omega
  | n + 1, c, dir, h8, h, d, hd, hd8 => by
    rw [isolatedScan] at h
    split at h
    · simp only at h
      omega
    · rename_i hlt
      have ih : ∀ c', (isolatedScan g cell n c' (dir + 1)).2 = 8 →
          START ≤ g.typeAt (cell + g.ptr8 d) := by
        intro c' hc'
        by_cases hdd : d = dir
        · rw [hdd]; omega
        · exact isolatedScan_all g cell n c' (dir + 1) (by omega) hc' d (by omega) hd8
      split at h
      · split at h
        · exact ih _ h
        · exact ih _ h
      · exact ih _ h

/-- The sum the loop over the eight neighbours ends with, when each neighbour is
the ending cell or has a depth tag of at least 11, and at most one of them is
the ending cell. -/
theorem isolatedScan_bound (g : GRID) (cell : Int)
    (ht : ∀ d : Int, 0 ≤ d → d < 8 →
      g.typeAt (cell + g.ptr8 d) = END ∨ 11 ≤ g.typeAt (cell + g.ptr8 d))
    (huniq : ∀ d d' : Int, 0 ≤ d → d < 8 → 0 ≤ d' → d' < 8 →
      g.typeAt (cell + g.ptr8 d) = END → g.typeAt (cell + g.ptr8 d') = END → d = d') :
    ∀ (n : Nat) (c dir : Int), 0 ≤ dir → dir + n = 8 →
      ((∀ d, 0 ≤ d → d < dir → g.typeAt (cell + g.ptr8 d) ≠ END) → 11 * dir ≤ c) →
      ((∃ d, 0 ≤ d ∧ d < dir ∧ g.typeAt (cell + g.ptr8 d) = END) → 11 * dir - 6 ≤ c) →
      82 ≤ (isolatedScan g cell n c dir).1
  | 0, c, dir, h0, h8, h1, h2 => by
    simp only [isolatedScan]
    by_cases hex : ∃ d, 0 ≤ d ∧ d < dir ∧ g.typeAt (cell + g.ptr8 d) = END
    · have := h2 hex
      omega
    · have := h1 (fun d hd0 hd hc => hex ⟨d, hd0, hd, hc⟩)
      omega
  | n + 1, c, dir, h0, h8, h1, h2 => by
    have hS : START = 2 := rfl
    have hE : END = 4 := rfl
    have hO : OPEN = 10 := rfl
    rw [isolatedScan]
    have htd := ht dir h0 (by omega)
    rw [if_neg (by omega)]
    rcases htd with hend | hbig
    · have hno : ∀ d, 0 ≤ d → d < dir → g.typeAt (cell + g.ptr8 d) ≠ END := by
        intro d hd0 hd hc
        have := huniq d dir hd0 (by omega) h0 (by omega) hc hend
        omega
      have hc := h1 hno
      rw [if_pos ⟨by omega, by omega⟩]
      split
      · rename_i hlow
        refine isolatedScan_bound g cell ht huniq n _ (dir + 1) (by omega) (by omega) ?_ ?_
        · intro hall
          exact (hall dir h0 (by omega) hend).elim
        · intro _
          omega
      · rename_i hhigh
        have hdiv : 5 ≤ Int.tdiv c (dir + 1) :=
          tdiv_ge_of_mul_le _ _ _ (by omega) (by omega) (by omega)
        refine isolatedScan_bound g cell ht huniq n _ (dir + 1) (by omega) (by omega) ?_ ?_
        · intro hall
          exact (hall dir h0 (by omega) hend).elim
        · intro _
          omega
    · rw [if_neg (by omega)]
      refine isolatedScan_bound g cell ht huniq n _ (dir + 1) (by omega) (by omega) ?_ ?_
      · intro hall
        have := h1 (fun d hd0 hd => hall d hd0 (by omega))
        omega
      · rintro ⟨d, hd0, hd, hc⟩
        have hne : d ≠ dir := by
          rintro rfl
          omega
        have := h2 ⟨d, hd0, by omega, hc⟩
        omega

/-- The pass "Remove isolated wall cells" keeps the state of the grid: a wall
with eight navigable neighbours gets a depth tag of at least `OPEN`. -/
theorem removeIsolated_settled (g : GRID) {e : Int × Int} (h : Settled g e) :
    Settled (removeIsolated g) e ∧ (removeIsolated g).height = g.height := by
  have hO : OPEN = 10 := rfl
  have hE : END = 4 := rfl
  have hW : WALL = 1 := rfl
  have hS : START = 2 := rfl
  have hU : UNVISITED = 0 := rfl
  unfold removeIsolated
  refine forLoop_inv _ (fun (s : GRID) => Settled s e ∧ s.height = g.height) _ _ _ _
    (by omega) ?_ ⟨h, rfl⟩
  intro s y hy2 hyl _ hs
  refine (forLoop_inv _ (fun (t : GRID) => (Settled t e ∧ t.height = g.height) ∧
    t.width = s.width) _ _ _ _ (by omega) ?_ ⟨hs, rfl⟩).1
  intro t x hx2 hxl _ ⟨⟨ht, hth⟩, htw⟩
  simp only
  split
  · exact ⟨⟨ht, hth⟩, htw⟩
  · rename_i hwall
    have hwall2 : t.typeAt (GETCELL t x y) = WALL := by
      by_contra hc
      exact hwall hc
    split
    swap
    · exact ⟨⟨ht, hth⟩, htw⟩
    rename_i hr8
    have hst := ht.frame.1
    have hinner : t.Inner x y := by unfold GRID.Inner; omega
    have hxy := inner_inGrid hinner
    have hall := isolatedScan_all t (GETCELL t x y) 8 0 0 (by omega) hr8
    have hnb : ∀ d : Int, 0 ≤ d → d < 8 →
        t.typeAt (GETCELL t x y + t.ptr8 d) = t.ty (x + off8X d) (y + off8Y d) := by
      intro d hd0 hd8
      rw [shaped_step8 hst x y d hd0 hd8]
      rfl
    have htd : ∀ d : Int, 0 ≤ d → d < 8 → t.typeAt (GETCELL t x y + t.ptr8 d) = END ∨
        11 ≤ t.typeAt (GETCELL t x y + t.ptr8 d) := by
      intro d hd0 hd8
      have h2 := hall d hd0 hd8
      rcases ht.census (GETCELL t x y + t.ptr8 d) with c | c | c | c
      · omega
      · omega
      · exact Or.inl c
      · by_cases h10 : t.typeAt (GETCELL t x y + t.ptr8 d) = OPEN
        · exfalso
          rw [hnb d hd0 hd8] at h10
          obtain ⟨d', hd0', hd8', ox, oy⟩ := off8_opposite d hd0 hd8
          have := ht.low _ _ (inner_step8 hinner d hd0 hd8) h10 d' hd0' hd8'
          rw [ox, oy] at this
          have e1 : x + off8X d + -off8X d = x := by ring
          have e2 : y + off8Y d + -off8Y d = y := by ring
          rw [e1, e2] at this
          exact this hwall2
        · right; omega
    have huniq : ∀ d d' : Int, 0 ≤ d → d < 8 → 0 ≤ d' → d' < 8 →
        t.typeAt (GETCELL t x y + t.ptr8 d) = END → t.typeAt (GETCELL t x y + t.ptr8 d') = END →
        d = d' := by
      intro d d' hd0 hd8 hd0' hd8' c c'
      rw [hnb d hd0 hd8] at c
      rw [hnb d' hd0' hd8'] at c'
      have e1 := (ht.ending.2.2.2.2.2 _ _ (inner_step8 hinner d hd0 hd8)).1 c
      have e2 := (ht.ending.2.2.2.2.2 _ _ (inner_step8 hinner d' hd0' hd8')).1 c'
      rw [← e2] at e1
      simp only [Prod.mk.injEq] at e1
      exact off8_inj d d' hd0 hd8 hd0' hd8' (by omega) (by omega)
    have hbound := isolatedScan_bound t (GETCELL t x y) htd huniq 8 0 0 (by omega) (by omega)
      (fun _ => by omega) (fun ⟨d, hd0, hd, _⟩ => by omega)
    have hv : 10 ≤ Int.tdiv (isolatedScan t (GETCELL t x y) 8 0 0).1 8 :=
      tdiv_ge_of_mul_le _ _ _ (by omega) (by omega) (by omega)
    have hne : (x, y) ≠ e := by
      intro hc
      have := (ht.ending.2.2.2.2.2 x y hxy).2 hc
      unfold GRID.ty at this
      omega
    refine ⟨⟨settled_setType ht x y _ hinner hne (by omega) ?_, by simpa using hth⟩,
      by simpa using htw⟩
    intro _ d hd0 hd8
    rw [← hnb d hd0 hd8]
    have := hall d hd0 hd8
    omega

/-! ## The choice of the start -/

/-- A loop that keeps the cell of the highest type among the cells it scans and
the cell it starts from, the first one winning ties. -/
theorem scanMax_spec (g : GRID) (cell : Int → Int) (a lim step cs0 : Int) (hs : 0 < step) :
    g.typeAt cs0 ≤ g.typeAt (forLoop a lim step (fun (cs : Int) (j : Int) =>
        if g.typeAt (cell j) > g.typeAt cs then cell j else cs) cs0) ∧
    (forLoop a lim step (fun (cs : Int) (j : Int) =>
        if g.typeAt (cell j) > g.typeAt cs then cell j else cs) cs0 = cs0 ∨
      ∃ j, (a ≤ j ∧ j < lim ∧ ∃ n : Nat, j = a + n * step) ∧
        forLoop a lim step (fun (cs : Int) (j : Int) =>
          if g.typeAt (cell j) > g.typeAt cs then cell j else cs) cs0 = cell j ∧
        g.typeAt cs0 < g.typeAt (cell j)) ∧
    ∀ j, a ≤ j → j < lim → (∃ n : Nat, j = a + n * step) →
      g.typeAt (cell j) ≤ g.typeAt (forLoop a lim step (fun (cs : Int) (j : Int) =>
        if g.typeAt (cell j) > g.typeAt cs then cell j else cs) cs0) := by
  have key := forLoop_inv_each (fun (cs : Int) (j : Int) =>
      if g.typeAt (cell j) > g.typeAt cs then cell j else cs)
    (fun cs => g.typeAt cs0 ≤ g.typeAt cs ∧ (cs = cs0 ∨
      ∃ j, (a ≤ j ∧ j < lim ∧ ∃ n : Nat, j = a + n * step) ∧ cs = cell j ∧
        g.typeAt cs0 < g.typeAt (cell j)))
    (fun j cs => g.typeAt (cell j) ≤ g.typeAt cs) a lim step cs0 hs ?_
    ⟨le_refl _, Or.inl rfl⟩
  · exact ⟨key.1.1, key.1.2, key.2⟩
  · intro cs i h1 h2 h3 ⟨p1, p2⟩
    simp only
    split
    · rename_i hgt
      refine ⟨⟨by omega, Or.inr ⟨i, ⟨h1, h2, h3⟩, rfl, by omega⟩⟩, le_refl _, fun j hj => by omega⟩
    · rename_i hle
      exact ⟨⟨p1, p2⟩, by omega, fun j hj => hj⟩

theorem ring_index (w x : Int) (n : Nat) (hw : 7 ≤ w) (hx : x = 1 + n * (w - 3)) (hlt : x < w) :
    x = 1 ∨ x = w - 2 := by
  rcases Nat.lt_or_ge n 2 with h2 | h2
  · have : n = 0 ∨ n = 1 := by omega
    rcases this with rfl | rfl
    · left; simpa using hx
    · right; rw [hx]; push_cast; ring
  · exfalso
    have h2' : (2 : Int) ≤ (n : Int) := by exact_mod_cast h2
    have : 2 * (w - 3) ≤ (n : Int) * (w - 3) :=
      Int.mul_le_mul_of_nonneg_right h2' (by omega)
    omega

/-- The cell "Look for start point" ends with: the first cell of the grid, when
no odd cell one off the border has a higher type, or else such a cell of a
higher type than the first cell. -/
theorem lookForStart_spec (g : GRID) (hf : g.Frame) :
    (lookForStart g = 0 ∧ g.typeAt (GETCELL g 1 1) ≤ g.typeAt 0) ∨
    ∃ x y, g.Inner x y ∧ (x = 1 ∨ x = g.width - 2 ∨ y = 1 ∨ y = g.height - 2) ∧
      lookForStart g = GETCELL g x y ∧ g.typeAt 0 < g.typeAt (GETCELL g x y) := by
  obtain ⟨hs, fw, fh, fw7, fh7⟩ := hf
  have hdiv : 1 < Int.tdiv g.width 2 := by
    have := tdiv_ge_of_mul_le 3 g.width 2 (by omega) (by omega) (by omega)
    omega
  unfold lookForStart
  simp only
  rw [if_pos hdiv]
  unfold startRing
  simp only
  -- the two columns
  have col := forLoop_inv_each (fun (_cellStart : Int) (_x : Int) =>
      forLoop 1 g.height 2 (fun (_cellStart : Int) (_y : Int) =>
        if g.typeAt (GETCELL g _x _y) > g.typeAt _cellStart then GETCELL g _x _y
        else _cellStart) _cellStart)
    (fun cs => g.typeAt 0 ≤ g.typeAt cs ∧ (cs = 0 ∨
      ∃ x y, g.Inner x y ∧ (x = 1 ∨ x = g.width - 2 ∨ y = 1 ∨ y = g.height - 2) ∧
        cs = GETCELL g x y ∧ g.typeAt 0 < g.typeAt (GETCELL g x y)))
    (fun x cs => x = 1 → g.typeAt (GETCELL g 1 1) ≤ g.typeAt cs)
    1 g.width (g.width - (1 + 2)) 0 (by omega) ?_ ⟨le_refl _, Or.inl rfl⟩
  swap
  · intro cs x hx1 hxl ⟨n, hn⟩ ⟨p1, p2⟩
    beta_reduce
    obtain ⟨q1, q2, q3⟩ := scanMax_spec g (fun y => GETCELL g x y) 1 g.height 2 cs (by omega)
    refine ⟨⟨by omega, ?_⟩, ?_, ?_⟩
    · rcases q2 with c | ⟨y, ⟨hy1, hyl, m, hm⟩, c1, c2⟩
      · rw [c]; exact p2
      · right
        have hx := ring_index g.width x n fw7 (by rw [hn]; ring) hxl
        refine ⟨x, y, ?_, ?_, c1, by omega⟩
        · unfold GRID.Inner; omega
        · rcases hx with c | c
          · left; exact c
          · right; left; exact c
    · intro hx
      subst hx
      exact q3 1 (by omega) (by omega) ⟨0, by simp⟩
    · intro j hq hj
      have := hq hj
      omega
  -- the two rows
  have row := forLoop_inv (fun (_cellStart : Int) (_y : Int) =>
      forLoop 1 g.width 2 (fun (_cellStart : Int) (_x : Int) =>
        if g.typeAt (GETCELL g _x _y) > g.typeAt _cellStart then GETCELL g _x _y
        else _cellStart) _cellStart)
    (fun cs => g.typeAt (GETCELL g 1 1) ≤ g.typeAt cs ∧ g.typeAt 0 ≤ g.typeAt cs ∧ (cs = 0 ∨
      ∃ x y, g.Inner x y ∧ (x = 1 ∨ x = g.width - 2 ∨ y = 1 ∨ y = g.height - 2) ∧
        cs = GETCELL g x y ∧ g.typeAt 0 < g.typeAt (GETCELL g x y)))
    1 g.height (g.height - (1 + 2)) _ (by omega) ?_
    ⟨col.2 1 (by omega) (by omega) ⟨0, by simp⟩ rfl, col.1.1, col.1.2⟩
  swap
  · intro cs y hy1 hyl ⟨n, hn⟩ ⟨p0, p1, p2⟩
    beta_reduce
    obtain ⟨q1, q2, q3⟩ := scanMax_spec g (fun x => GETCELL g x y) 1 g.width 2 cs (by omega)
    refine ⟨by omega, by omega, ?_⟩
    rcases q2 with c | ⟨x, ⟨hx1, hxl, m, hm⟩, c1, c2⟩
    · rw [c]; exact p2
    · right
      have hy := ring_index g.height y n fh7 (by rw [hn]; ring) hyl
      refine ⟨x, y, ?_, ?_, c1, by omega⟩
      · unfold GRID.Inner; omega
      · rcases hy with c | c
        · right; right; left; exact c
        · right; right; right; exact c
  obtain ⟨r0, r1, r2⟩ := row
  rcases r2 with c | ⟨x, y, c1, c2, c3, c4⟩
  · left
    refine ⟨c, ?_⟩
    rw [c] at r0
    exact r0
  · right
    exact ⟨x, y, c1, c2, c3, c4⟩

/-- The assignment `_cellStart->type = START` gives the grid its one cell of
type `START`. -/
theorem started_of_settled {g : GRID} {e : Int × Int} (h : Settled g e) :
    Started (g.setType (lookForStart g) START) (lookForStart g) := by
  have hO : OPEN = 10 := rfl
  have hE : END = 4 := rfl
  have hW : WALL = 1 := rfl
  have hS : START = 2 := rfl
  have hU : UNVISITED = 0 := rfl
  have hT : END_TEMP = 3 := rfl
  have hB : BONUS = 8 := rfl
  have hf := h.frame
  have hs := hf.1
  obtain ⟨-, fw, fh, fw7, fh7⟩ := hf
  have h00 : g.InGrid 0 0 := by unfold GRID.InGrid; omega
  have hg0 : GETCELL g 0 0 = 0 := by simp [GETCELL]
  have ht0 : g.typeAt 0 = WALL := by
    have := h.border 0 0 h00 (by unfold GRID.Inner; omega)
    unfold GRID.ty at this
    rw [hg0] at this
    exact this
  have hsb := sameButTypes_setType g (lookForStart g) START
  have hcen : ∀ i, g.typeAt i ≠ START ∧ g.typeAt i ≠ BONUS ∧ g.typeAt i ≠ END_TEMP := by
    intro i
    rcases h.census i with c | c | c | c <;> refine ⟨?_, ?_, ?_⟩ <;> omega
  have hpos : ∃ a : Int × Int, g.InGrid a.1 a.2 ∧ lookForStart g = GETCELL g a.1 a.2 ∧
      ((a = (0, 0) ∧ lookForStart g = 0 ∧ g.ty 1 1 ≤ WALL) ∨
        (g.Inner a.1 a.2 ∧ (a.1 = 1 ∨ a.1 = g.width - 2 ∨ a.2 = 1 ∨ a.2 = g.height - 2))) := by
    rcases lookForStart_spec g h.frame with ⟨c1, c2⟩ | ⟨x, y, c1, c2, c3, c4⟩
    · refine ⟨(0, 0), h00, by rw [c1, hg0], Or.inl ⟨rfl, c1, ?_⟩⟩
      unfold GRID.ty
      omega
    · exact ⟨(x, y), inner_inGrid c1, c3, Or.inr ⟨c1, c2⟩⟩
  obtain ⟨a, hain, hst, hcase⟩ := hpos
  have hinb : g.inb (lookForStart g) := by rw [hst]; exact shaped_inb hs hain
  have hty1 : ∀ x y, g.InGrid x y →
      (g.setType (lookForStart g) START).ty x y = if (x, y) = a then START else g.ty x y := by
    intro x y hxy
    rw [hst]
    exact ty_setType_pos hs hain START hxy
  refine ⟨hsb.keepsFrame h.frame, ?_, ?_, ?_, ?_, ?_, ⟨?_, by rw [hsb.2.2.2.1]; exact h.bonus⟩, ?_⟩
  · intro x y hxy hni
    rw [hsb.inGridIff] at hxy
    rw [hsb.innerIff] at hni
    rw [hty1 x y hxy]
    rcases hcase with ⟨c1, c2, c3⟩ | ⟨c1, -⟩
    · split
      · rename_i hc
        right
        rw [c1] at hc
        simp only [Prod.mk.injEq] at hc
        refine ⟨hc.1, hc.2, c2, ?_⟩
        rw [hty1 1 1 (by unfold GRID.InGrid; omega), if_neg (by rw [c1]; simp)]
        exact c3
      · left; exact h.border x y hxy hni
    · left
      rw [if_neg]
      · exact h.border x y hxy hni
      · intro hc
        rw [← hc] at c1
        exact hni c1
  · rcases hcase with ⟨c1, c2, c3⟩ | ⟨c1, c2⟩
    · left; exact c2
    · right
      refine ⟨a.1, a.2, (hsb.innerIff _ _).2 c1, ?_, by rw [hsb.cellIndex]; exact hst⟩
      rw [hsb.1, hsb.2.1]
      exact c2
  · rw [typeAt_setType, if_pos ⟨rfl, hinb⟩]
  · intro i hi
    rw [typeAt_setType] at hi
    split at hi
    · rename_i hc
      exact hc.1
    · exact ((hcen i).1 hi).elim
  · have := countType_setType g (lookForStart g) START START hinb
    rw [if_neg (hcen _).1, if_pos rfl, countType_eq_zero g START (fun i => (hcen i).1)] at this
    omega
  · rw [countType_setType_other g _ START BONUS (hcen _).2.1 (by omega)]
    exact countType_eq_zero g BONUS (fun i => (hcen i).2.1)
  · intro i
    rw [typeAt_setType]
    split
    · omega
    · exact (hcen i).2.2

/-! ## The passes after the choice of the start -/

theorem countType_zero_typeAt (g : GRID) (t i : Int) (h : g.countType t = 0) (ht : t ≠ 0) :
    g.typeAt i ≠ t := by
  intro hc
  by_cases hi : g.inb i
  · have := countType_pos_of_typeAt g t i hi hc
    omega
  · rw [typeAt_of_not_inb g i hi] at hc
    exact ht hc.symm

theorem ty_setType_index (g : GRID) (i v x y : Int) :
    (g.setType i v).ty x y = if GETCELL g x y = i ∧ g.inb i then v else g.ty x y := by
  unfold GRID.ty
  have : GETCELL (g.setType i v) x y = GETCELL g x y := by simp [GETCELL]
  rw [this, typeAt_setType]

/-- A write to a cell of a type of at least `END` keeps the border. -/
theorem bordered_setType {g : GRID} {start : Int} (i v : Int) (h : g.Bordered start)
    (hold : END ≤ g.typeAt i) : (g.setType i v).Bordered start := by
  have hE : END = 4 := rfl
  have hW : WALL = 1 := rfl
  have hsb := sameButTypes_setType g i v
  intro x y hxy hni
  rw [hsb.inGridIff] at hxy
  rw [hsb.innerIff] at hni
  have h11 : g.ty 1 1 ≤ WALL → (g.setType i v).ty 1 1 ≤ WALL := by
    intro hle
    rw [ty_setType_index, if_neg]
    · exact hle
    · rintro ⟨hc, -⟩
      unfold GRID.ty at hle
      rw [hc] at hle
      omega
  rcases h x y hxy hni with c | ⟨c1, c2, c3, c4⟩
  · left
    rw [ty_setType_index, if_neg]
    · exact c
    · rintro ⟨hc, -⟩
      unfold GRID.ty at c
      rw [hc] at c
      omega
  · exact Or.inr ⟨c1, c2, c3, h11 c4⟩

/-- A write of a room or door type to a cell of a type of at least `END` keeps
the state of the grid after the choice of the start. -/
theorem started_setType {g : GRID} {start : Int} (h : Started g start) (i v : Int)
    (hold : END ≤ g.typeAt i) (hv : v = ROOMCENTER ∨ v = ROOMBORDER ∨ v = DOOR) :
    Started (g.setType i v) start := by
  have hE : END = 4 := rfl
  have hS : START = 2 := rfl
  have hT : END_TEMP = 3 := rfl
  have hB : BONUS = 8 := rfl
  have hRC : ROOMCENTER = 5 := rfl
  have hRB : ROOMBORDER = 6 := rfl
  have hD : DOOR = 7 := rfl
  have hsb := sameButTypes_setType g i v
  have hnb := countType_zero_typeAt g BONUS i h.noBonus.1 (by omega)
  refine ⟨hsb.keepsFrame h.frame, bordered_setType i v h.border hold, ?_, ?_, ?_, ?_, ⟨?_, ?_⟩, ?_⟩
  · rcases h.place with c | ⟨x, y, c1, c2, c3⟩
    · exact Or.inl c
    · refine Or.inr ⟨x, y, (hsb.innerIff _ _).2 c1, ?_, by rw [hsb.cellIndex]; exact c3⟩
      rw [hsb.1, hsb.2.1]
      exact c2
  · rw [typeAt_setType, if_neg]
    · exact h.isStart
    · rintro ⟨hc, -⟩
      have := h.isStart
      rw [hc] at this
      omega
  · intro j hj
    rw [typeAt_setType] at hj
    split at hj
    · omega
    · exact h.only j hj
  · rw [countType_setType_other g i v START (by omega) (by omega)]
    exact h.oneStart
  · rw [countType_setType_other g i v BONUS hnb (by omega)]
    exact h.noBonus.1
  · rw [hsb.2.2.2.1]
    exact h.noBonus.2
  · intro j
    rw [typeAt_setType]
    split
    · omega
    · exact h.noTemp j

/-- A write that leaves the index, the coordinates and the type of a cell keeps
the state of the grid after the choice of the start. -/
theorem started_modifyCell {g : GRID} {start : Int} (h : Started g start) (i : Int)
    (f : CELL → CELL)
    (hf : ∀ c, (f c).index = c.index ∧ (f c).posX = c.posX ∧ (f c).posY = c.posY ∧
      (f c).type = c.type) :
    Started (g.modifyCell i f) start ∧ g.SameLayout (g.modifyCell i f) ∧
      ∀ j, (g.modifyCell i f).typeAt j = g.typeAt j := by
  have hl := sameLayout_modifyCell g i f (fun c => ⟨(hf c).1, (hf c).2.1, (hf c).2.2.1⟩)
  have hty : ∀ j, (g.modifyCell i f).typeAt j = g.typeAt j := by
    intro j
    rw [typeAt_modifyCell]
    split
    · rename_i hc
      rw [(hf _).2.2.2, hc.1]
      rfl
    · rfl
  have htyxy : ∀ x y, (g.modifyCell i f).ty x y = g.ty x y := by
    intro x y
    unfold GRID.ty
    rw [hl.sameIndex, hty]
  refine ⟨⟨hl.sameFrame h.frame, ?_, ?_, ?_, ?_, ?_, ⟨?_, ?_⟩, ?_⟩, hl, hty⟩
  · intro x y hxy hni
    rw [hl.sameInGrid] at hxy
    rw [hl.sameInner] at hni
    rw [htyxy, htyxy]
    exact h.border x y hxy hni
  · rcases h.place with c | ⟨x, y, c1, c2, c3⟩
    · exact Or.inl c
    · refine Or.inr ⟨x, y, (hl.sameInner _ _).2 c1, ?_, by rw [hl.sameIndex]; exact c3⟩
      rw [hl.1, hl.2.1]
      exact c2
  · rw [hty]; exact h.isStart
  · intro j hj
    rw [hty] at hj
    exact h.only j hj
  · rw [countType_modifyCell_same g i f START (hf _).2.2.2]
    exact h.oneStart
  · rw [countType_modifyCell_same g i f BONUS (hf _).2.2.2]
    exact h.noBonus.1
  · have : (g.modifyCell i f).bonus = g.bonus := by simp
    rw [this]
    exact h.noBonus.2
  · intro j
    rw [hty]
    exact h.noTemp j

theorem counted_setType {g : GRID} (i v : Int) (h : g.Counted) : (g.setType i v).Counted := by
  have hsb := sameButTypes_setType g i v
  intro x y hxy
  rw [hsb.innerIff] at hxy
  rw [hsb.cellIndex, hsb.countEq]
  exact h x y hxy

/-- The loop that counts the navigable neighbours of a cell: the count grows by
at most 8, and by 8 only when each of the eight neighbours is navigable. -/
theorem countDirs_spec {g1 : GRID} {start : Int} (h : Started g1 start) (cell : Int) :
    Started (forLoop 0 8 1 (fun (g : GRID) (_dir : Int) =>
        if g.typeAt (cell + g.ptr8 _dir) < START then g
        else g.modifyCell cell (fun c => { c with neighborCount := c.neighborCount + 1 })) g1)
      start ∧
    g1.SameLayout (forLoop 0 8 1 (fun (g : GRID) (_dir : Int) =>
        if g.typeAt (cell + g.ptr8 _dir) < START then g
        else g.modifyCell cell (fun c => { c with neighborCount := c.neighborCount + 1 })) g1) ∧
    (∀ j, (forLoop 0 8 1 (fun (g : GRID) (_dir : Int) =>
        if g.typeAt (cell + g.ptr8 _dir) < START then g
        else g.modifyCell cell (fun c => { c with neighborCount := c.neighborCount + 1 }))
          g1).typeAt j = g1.typeAt j) ∧
    (∀ j, j ≠ cell → (forLoop 0 8 1 (fun (g : GRID) (_dir : Int) =>
        if g.typeAt (cell + g.ptr8 _dir) < START then g
        else g.modifyCell cell (fun c => { c with neighborCount := c.neighborCount + 1 }))
          g1).cellAt j = g1.cellAt j) ∧
    ((forLoop 0 8 1 (fun (g : GRID) (_dir : Int) =>
        if g.typeAt (cell + g.ptr8 _dir) < START then g
        else g.modifyCell cell (fun c => { c with neighborCount := c.neighborCount + 1 }))
          g1).cellAt cell).neighborCount ≤ (g1.cellAt cell).neighborCount + 8 ∧
    (((forLoop 0 8 1 (fun (g : GRID) (_dir : Int) =>
        if g.typeAt (cell + g.ptr8 _dir) < START then g
        else g.modifyCell cell (fun c => { c with neighborCount := c.neighborCount + 1 }))
          g1).cellAt cell).neighborCount = (g1.cellAt cell).neighborCount + 8 →
      ∀ d : Int, 0 ≤ d → d < 8 → START ≤ g1.typeAt (cell + g1.ptr8 d)) := by
  have key := forLoop_ind (fun (g : GRID) (_dir : Int) =>
        if g.typeAt (cell + g.ptr8 _dir) < START then g
        else g.modifyCell cell (fun c => { c with neighborCount := c.neighborCount + 1 }))
    (fun i s => Started s start ∧ g1.SameLayout s ∧ (∀ j, s.typeAt j = g1.typeAt j) ∧
      (∀ j, j ≠ cell → s.cellAt j = g1.cellAt j) ∧
      (s.cellAt cell).neighborCount ≤ (g1.cellAt cell).neighborCount + i ∧
      ((s.cellAt cell).neighborCount = (g1.cellAt cell).neighborCount + i →
        ∀ d : Int, 0 ≤ d → d < i → START ≤ g1.typeAt (cell + g1.ptr8 d)))
    0 8 g1 (by omega)
    ⟨h, sameLayout_refl g1, fun _ => rfl, fun _ _ => rfl, by omega, fun _ d h0 hd => by omega⟩ ?_
  · exact key
  · intro i s hi0 hi8 ⟨p1, p2, p3, p4, p5, p6⟩
    beta_reduce
    split
    · rename_i hlt
      refine ⟨p1, p2, p3, p4, by omega, fun hc => ?_⟩
      omega
    · rename_i hge
      obtain ⟨q1, q2, q3⟩ := started_modifyCell p1 cell
        (fun c => { c with neighborCount := c.neighborCount + 1 }) (fun c => ⟨rfl, rfl, rfl, rfl⟩)
      have hnc : ((s.modifyCell cell
          (fun c => { c with neighborCount := c.neighborCount + 1 })).cellAt cell).neighborCount ≤
          (s.cellAt cell).neighborCount + 1 ∧
          ((s.cellAt cell).neighborCount ≤ ((s.modifyCell cell
          (fun c => { c with neighborCount := c.neighborCount + 1 })).cellAt cell).neighborCount) := by
        rw [cellAt_modifyCell]
        split
        · simp only
          omega
        · omega
      refine ⟨q1, sameLayout_trans p2 q2, fun j => by rw [q3, p3], fun j hj => ?_, by omega,
        fun hc d hd0 hd => ?_⟩
      · rw [cellAt_modifyCell_ne _ _ _ _ hj]
        exact p4 j hj
      · by_cases hdi : d = i
        · subst hdi
          rw [p3, p2.samePtr8] at hge
          omega
        · exact p6 (by omega) d hd0 (by omega)

theorem getcell_pos {g : GRID} (hs : g.Shaped) {x y : Int} (h : g.Inner x y) :
    0 < GETCELL g x y := by
  have hw := hs.1
  unfold GRID.Inner at h
  unfold GETCELL
  have : 1 * g.width ≤ y * g.width := Int.mul_le_mul_of_nonneg_right (by omega) (by omega)
  omega

/-- A cell one off the border has a wall of the border among its neighbours. -/
theorem ring_has_wall {g : GRID} {start : Int} (h : Started g start) {x y : Int}
    (hin : g.Inner x y) (hring : x = 1 ∨ x = g.width - 2 ∨ y = 1 ∨ y = g.height - 2)
    (hst : start ≠ 0) :
    ∃ d : Int, 0 ≤ d ∧ d < 8 ∧ g.typeAt (GETCELL g x y + g.ptr8 d) = WALL := by
  have hs := h.frame.1
  have hwall : ∀ d : Int, 0 ≤ d → d < 8 → ¬ g.Inner (x + off8X d) (y + off8Y d) →
      g.typeAt (GETCELL g x y + g.ptr8 d) = WALL := by
    intro d hd0 hd8 hni
    rw [shaped_step8 hs x y d hd0 hd8]
    rcases h.border _ _ (inner_step8 hin d hd0 hd8) hni with c | ⟨-, -, c, -⟩
    · exact c
    · exact (hst c).elim
  unfold GRID.Inner at hin
  rcases hring with c | c | c | c
  · exact ⟨4, by omega, by omega, hwall 4 (by omega) (by omega)
      (by simp [GRID.Inner, off8X, off8Y, offsets8]; omega)⟩
  · exact ⟨0, by omega, by omega, hwall 0 (by omega) (by omega)
      (by simp [GRID.Inner, off8X, off8Y, offsets8]; omega)⟩
  · exact ⟨2, by omega, by omega, hwall 2 (by omega) (by omega)
      (by simp [GRID.Inner, off8X, off8Y, offsets8]; omega)⟩
  · exact ⟨6, by omega, by omega, hwall 6 (by omega) (by omega)
      (by simp [GRID.Inner, off8X, off8Y, offsets8]; omega)⟩

/-- The body of "count neighbors and identify room centers" keeps the state of
the grid, gives its cell a count of at most 8 and leaves the other counts. -/
theorem countCell_spec {g : GRID} {start : Int} (h : Started g start) (x y : Int)
    (hin : g.Inner x y) :
    Started (countCell g x y) start ∧ g.SameLayout (countCell g x y) ∧
    ((countCell g x y).cellAt (GETCELL g x y)).neighborCount ≤ 8 ∧
    ∀ j, j ≠ GETCELL g x y →
      ((countCell g x y).cellAt j).neighborCount = (g.cellAt j).neighborCount := by
  have hE : END = 4 := rfl
  have hS : START = 2 := rfl
  have hT : END_TEMP = 3 := rfl
  have hW : WALL = 1 := rfl
  have hs := h.frame.1
  have hinb := shaped_inb hs (inner_inGrid hin)
  obtain ⟨hs1, hl1, hty1⟩ := started_modifyCell h (GETCELL g x y)
    (fun c => { c with neighborCount := 0 }) (fun c => ⟨rfl, rfl, rfl, rfl⟩)
  have hnc1 : ((g.modifyCell (GETCELL g x y)
      (fun c => { c with neighborCount := 0 })).cellAt (GETCELL g x y)).neighborCount = 0 := by
    rw [cellAt_modifyCell_self _ _ _ hinb]
  have hoth1 : ∀ j, j ≠ GETCELL g x y → (g.modifyCell (GETCELL g x y)
      (fun c => { c with neighborCount := 0 })).cellAt j = g.cellAt j :=
    fun j hj => cellAt_modifyCell_ne _ _ _ _ hj
  unfold countCell
  simp only
  generalize g.modifyCell (GETCELL g x y) (fun c => { c with neighborCount := 0 }) = g1
    at hs1 hl1 hty1 hnc1 hoth1 ⊢
  split
  · refine ⟨hs1, hl1, by omega, fun j hj => by rw [hoth1 j hj]⟩
  · rename_i hge
    obtain ⟨q1, q2, q3, q4, q5, q6⟩ := countDirs_spec hs1 (GETCELL g x y)
    generalize forLoop 0 8 1 (fun (g_1 : GRID) (_dir : Int) =>
        if g_1.typeAt (GETCELL g x y + g_1.ptr8 _dir) < START then g_1
        else g_1.modifyCell (GETCELL g x y)
          (fun c => { c with neighborCount := c.neighborCount + 1 })) g1 = g2
      at q1 q2 q3 q4 q5 q6 ⊢
    split
    · rename_i h8
      have hall := q6 (by omega)
      have hold : END ≤ g2.typeAt (GETCELL g x y) := by
        rw [q3]
        have hne : g1.typeAt (GETCELL g x y) ≠ START := by
          intro hc
          have hst := hs1.only _ hc
          have hpos := getcell_pos hs hin
          rcases hs1.place with c | ⟨x', y', c1, c2, c3⟩
          · omega
          · rw [hl1.sameInner] at c1
            rw [hl1.sameIndex, ← hst] at c3
            obtain ⟨rfl, rfl⟩ := inGrid_unique (inner_inGrid hin) (inner_inGrid c1) c3
            rw [hl1.1, hl1.2.1] at c2
            obtain ⟨d, hd0, hd8, hw⟩ := ring_has_wall h hin c2 (by omega)
            have := hall d hd0 hd8
            rw [hty1, hl1.samePtr8, hw] at this
            omega
        have := hs1.noTemp (GETCELL g x y)
        omega
      have hsb := sameButTypes_setType g2 (GETCELL g x y) ROOMCENTER
      refine ⟨started_setType q1 _ _ hold (Or.inl rfl),
        sameLayout_trans (sameLayout_trans hl1 q2) (sameLayout_of_sameButTypes hsb), ?_, ?_⟩
      · rw [hsb.countEq]; omega
      · intro j hj
        rw [hsb.countEq, q4 j hj, hoth1 j hj]
    · refine ⟨q1, sameLayout_trans hl1 q2, by omega, fun j hj => by rw [q4 j hj, hoth1 j hj]⟩

/-- The pass "count neighbors and identify room centers" keeps the state of the
grid and leaves every interior cell with a count of at most 8. -/
theorem countNeighbors_started {g : GRID} {start : Int} (h : Started g start) :
    Started (countNeighbors g) start ∧ (countNeighbors g).Counted := by
  unfold countNeighbors
  have key := forLoop_inv_each (fun (g : GRID) (_y : Int) =>
      forLoop 1 (g.width - 1) 1 (fun (g : GRID) (_x : Int) => countCell g _x _y) g)
    (fun s => Started s start ∧ g.SameLayout s)
    (fun y s => ∀ x, 1 ≤ x → x < g.width - 1 → (s.cellAt (GETCELL g x y)).neighborCount ≤ 8)
    1 (g.height - 1) 1 g (by omega) ?_ ⟨h, sameLayout_refl g⟩
  · refine ⟨key.1.1, fun x y hxy => ?_⟩
    rw [key.1.2.sameInner] at hxy
    rw [key.1.2.sameIndex]
    have hxy2 := hxy
    unfold GRID.Inner at hxy2
    exact key.2 y (by omega) (by omega) ⟨(y - 1).toNat, by omega⟩ x (by omega) (by omega)
  · intro s y hy1 hyl _ ⟨hs, hls⟩
    beta_reduce
    have row := forLoop_inv_each (fun (g : GRID) (_x : Int) => countCell g _x y)
      (fun t => (Started t start ∧ g.SameLayout t) ∧
        ∀ j, (s.cellAt j).neighborCount ≤ 8 → (t.cellAt j).neighborCount ≤ 8)
      (fun x t => (t.cellAt (GETCELL g x y)).neighborCount ≤ 8)
      1 (s.width - 1) 1 s (by omega) ?_ ⟨⟨hs, hls⟩, fun _ hj => hj⟩
    · refine ⟨row.1.1, fun x hx1 hxl => ?_, fun j hq x hx1 hxl => row.1.2 _ (hq x hx1 hxl)⟩
      exact row.2 x hx1 (by rw [hls.1]; exact hxl) ⟨(x - 1).toNat, by omega⟩
    · intro t x hx1 hxl _ ⟨⟨ht, hlt⟩, hmono⟩
      beta_reduce
      have hin : t.Inner x y := by
        rw [hlt.sameInner]
        rw [hls.1] at hxl
        unfold GRID.Inner
        omega
      obtain ⟨c1, c2, c3, c4⟩ := countCell_spec ht x y hin
      have hgc : GETCELL t x y = GETCELL g x y := hlt.sameIndex x y
      rw [hgc] at c3 c4
      have hstep : ∀ j, (t.cellAt j).neighborCount ≤ 8 →
          ((countCell t x y).cellAt j).neighborCount ≤ 8 := by
        intro j hj
        by_cases hjc : j = GETCELL g x y
        · rw [hjc]; exact c3
        · rw [c4 j hjc]; exact hj
      exact ⟨⟨⟨c1, sameLayout_trans hlt c2⟩, fun j hj => hstep j (hmono j hj)⟩, c3,
        fun j hq => hstep _ hq⟩

theorem roomBorders_started {g : GRID} {start : Int} (h : Started g start) (hc : g.Counted) :
    Started (roomBorders g) start ∧ (roomBorders g).Counted := by
  have hO : OPEN = 10 := rfl
  have hE : END = 4 := rfl
  unfold roomBorders
  refine forLoop_inv _ (fun (s : GRID) => Started s start ∧ s.Counted) _ _ _ _ (by omega) ?_
    ⟨h, hc⟩
  intro s y _ _ _ hs
  refine forLoop_inv _ (fun (s : GRID) => Started s start ∧ s.Counted) _ _ _ _ (by omega) ?_ hs
  intro t x _ _ _ ⟨ht, htc⟩
  simp only
  split
  · exact ⟨ht, htc⟩
  · split
    · exact ⟨started_setType ht _ _ (by omega) (Or.inr (Or.inl rfl)), counted_setType _ _ htc⟩
    · exact ⟨ht, htc⟩

theorem roomDoors_started {g : GRID} {start : Int} (h : Started g start) (hc : g.Counted) :
    Started (roomDoors g) start ∧ (roomDoors g).Counted := by
  have hO : OPEN = 10 := rfl
  have hE : END = 4 := rfl
  unfold roomDoors
  refine forLoop_inv _ (fun (s : GRID) => Started s start ∧ s.Counted) _ _ _ _ (by omega) ?_
    ⟨h, hc⟩
  intro s y _ _ _ hs
  refine forLoop_inv _ (fun (s : GRID) => Started s start ∧ s.Counted) _ _ _ _ (by omega) ?_ hs
  intro t x _ _ _ ⟨ht, htc⟩
  simp only
  split
  · exact ⟨ht, htc⟩
  · split
    · exact ⟨started_setType ht _ _ (by omega) (Or.inr (Or.inr rfl)), counted_setType _ _ htc⟩
    · exact ⟨ht, htc⟩

theorem crossDoors_started {g : GRID} {start : Int} (h : Started g start) (hc : g.Counted) :
    Started (crossDoors g) start ∧ (crossDoors g).Counted := by
  have hO : OPEN = 10 := rfl
  have hE : END = 4 := rfl
  unfold crossDoors
  refine forLoop_inv _ (fun (s : GRID) => Started s start ∧ s.Counted) _ _ _ _ (by omega) ?_
    ⟨h, hc⟩
  intro s y _ _ _ hs
  refine forLoop_inv _ (fun (s : GRID) => Started s start ∧ s.Counted) _ _ _ _ (by omega) ?_ hs
  intro t x _ _ _ ⟨ht, htc⟩
  simp only
  split
  · exact ⟨ht, htc⟩
  · rename_i hopen
    have hr := forLoop_inv (fun (r : Int × Int) (_dir : Int) =>
        if t.typeAt (GETCELL t x y + t.ptr4 _dir) < OPEN then r
        else if t.typeAt (GETCELL t x y + t.ptr4 _dir) ≥ t.typeAt r.2 then (r.1 + 1, r.2)
        else (r.1 + 1, GETCELL t x y + t.ptr4 _dir))
      (fun (r : Int × Int) => OPEN ≤ t.typeAt r.2) 0 4 1 ((0 : Int), GETCELL t x y) (by omega)
      ?_ (by simp only; omega)
    swap
    · intro r d _ _ _ hr
      beta_reduce
      split
      · exact hr
      · split
        · exact hr
        · simp only; omega
    split
    · split
      · exact ⟨started_setType ht _ _ (by omega) (Or.inr (Or.inr rfl)), counted_setType _ _ htc⟩
      · exact ⟨ht, htc⟩
    · exact ⟨ht, htc⟩

theorem finished_of_started {g : GRID} {start : Int} (h : Started g start) (hc : g.Counted) :
    Finished g start :=
  ⟨h.frame, h.border, h.isStart, h.only, h.oneStart, by rw [h.noBonus.1, h.noBonus.2]; rfl,
    h.noTemp, hc⟩

/-- Placing a treasure on a cell of a type of at least `END` that is not a
`BONUS` keeps the bonus counter equal to the number of `BONUS` cells. -/
theorem finished_treasure {g : GRID} {start : Int} (h : Finished g start) (i : Int)
    (hold : END ≤ g.typeAt i) (hnb : g.typeAt i ≠ BONUS) :
    Finished { g.setType i BONUS with bonus := (g.setType i BONUS).bonus + 1 } start := by
  have hE : END = 4 := rfl
  have hS : START = 2 := rfl
  have hT : END_TEMP = 3 := rfl
  have hB : BONUS = 8 := rfl
  have hsb := sameButTypes_setType g i BONUS
  have hl := sameLayout_trans (sameLayout_of_sameButTypes hsb)
    (sameLayout_bonus (g.setType i BONUS) ((g.setType i BONUS).bonus + 1))
  have hinb : g.inb i := by
    by_contra hc
    rw [typeAt_of_not_inb g i hc] at hold
    omega
  have hty : ∀ j, GRID.typeAt { g.setType i BONUS with bonus := (g.setType i BONUS).bonus + 1 } j =
      (g.setType i BONUS).typeAt j := fun _ => rfl
  have hct : ∀ t, GRID.countType { g.setType i BONUS with bonus := (g.setType i BONUS).bonus + 1 } t =
      (g.setType i BONUS).countType t := fun _ => rfl
  refine ⟨hl.sameFrame h.frame, ?_, ?_, ?_, ?_, ?_, ?_, ?_⟩
  · exact bordered_setType i BONUS h.border hold
  · rw [hty, typeAt_setType, if_neg]
    · exact h.isStart
    · rintro ⟨hc, -⟩
      have := h.isStart
      rw [hc] at this
      omega
  · intro j hj
    rw [hty, typeAt_setType] at hj
    split at hj
    · omega
    · exact h.only j hj
  · rw [hct, countType_setType_other g i BONUS START (by omega) (by omega)]
    exact h.oneStart
  · rw [hct]
    have := countType_setType g i BONUS BONUS hinb
    rw [if_neg hnb, if_pos rfl] at this
    have hb := h.bonus
    have hbe : (g.setType i BONUS).bonus = g.bonus := by simp
    simp only [hbe]
    omega
  · intro j
    rw [hty, typeAt_setType]
    split
    · omega
    · exact h.noTemp j
  · exact counted_setType i BONUS h.counts

theorem corridorTreasures_finished (rs : Nat → Nat) {g : GRID} {start : Int} (k : Nat)
    (h : Finished g start) : Finished (corridorTreasures rs (g, k)).1 start := by
  have hO : OPEN = 10 := rfl
  have hE : END = 4 := rfl
  have hB : BONUS = 8 := rfl
  unfold corridorTreasures
  refine forLoop_inv _ (fun (s : GRID × Nat) => Finished s.1 start) _ _ _ _ (by omega) ?_ h
  intro s y _ _ _ hs
  refine forLoop_inv _ (fun (s : GRID × Nat) => Finished s.1 start) _ _ _ _ (by omega) ?_ hs
  intro t x _ _ _ ht
  simp only
  split
  · exact ht
  · split
    · exact ht
    · split
      · exact ht
      · exact finished_treasure ht _ (by omega) (by omega)

theorem roomTreasures_finished (rs : Nat → Nat) {g : GRID} {start : Int} (k : Nat)
    (h : Finished g start) : Finished (roomTreasures rs (g, k)).1 start := by
  have hRC : ROOMCENTER = 5 := rfl
  have hRB : ROOMBORDER = 6 := rfl
  have hE : END = 4 := rfl
  have hB : BONUS = 8 := rfl
  unfold roomTreasures
  refine forLoop_inv _ (fun (s : GRID × Nat) => Finished s.1 start) _ _ _ _ (by omega) ?_ h
  intro s x _ _ _ hs
  refine forLoop_inv _ (fun (s : GRID × Nat) => Finished s.1 start) _ _ _ _ (by omega) ?_ hs
  intro t y _ _ _ ht
  simp only
  split
  · exact ht
  · split
    · exact ht
    · split
      · exact ht
      · exact finished_treasure ht _ (by omega) (by omega)

/-! ## The generator as a whole -/

theorem GridCreate_frame (w h : Int) (junk : Int → Int) : (GridCreate w h junk).Frame := by
  have hw := MAKEODD_cmax_least w
  have hh := MAKEODD_cmax_least h
  refine ⟨GridCreate_shaped w h junk, ?_, ?_, ?_, ?_⟩
  · rw [GridCreate_width]; exact hw.1
  · rw [GridCreate_height]; exact hh.1
  · rw [GridCreate_width]; have := hw.2.1; omega
  · rw [GridCreate_height]; have := hh.2.1; omega

/-- The passes of `GridMaze` after the carve leave the grid with one start, the
cell they return, no temporary end marker, a bonus counter equal to the
number of `BONUS` cells and neighbour counts of at most 8. -/
theorem finishMaze_finished (rs : Nat → Nat) {g : GRID} {e : Int × Int} (k : Nat)
    (h : Carved g e) : Finished (finishMaze rs g k).1 (finishMaze rs g k).2.1 := by
  unfold finishMaze
  simp only
  have h1 := (connectNear_settled rs g k (carved_settled h)).1
  have h2 := (removeIsolated_settled _ h1).1
  have h3 := started_of_settled h2
  obtain ⟨h4, c4⟩ := countNeighbors_started h3
  obtain ⟨h5, c5⟩ := roomBorders_started h4 c4
  obtain ⟨h6, c6⟩ := roomDoors_started h5 c5
  obtain ⟨h7, c7⟩ := crossDoors_started h6 c6
  have h8 := corridorTreasures_finished rs (connectNear rs (g, k)).2 (finished_of_started h7 c7)
  exact roomTreasures_finished rs _ h8

theorem mazeAttempt_finished (rs : Nat → Nat) (fuel : Nat) {g : GRID} (k : Nat)
    (hf : g.Frame) {r : GRID × Int × Nat} (h : mazeAttempt rs fuel g k = some r) :
    Finished r.1 r.2.1 := by
  unfold mazeAttempt at h
  split at h
  · simp at h
  · rename_i s hs
    simp only [Option.some.injEq] at h
    obtain ⟨e, he⟩ := carveStart_inv rs g k hf
    have hc := carveLoop_carved rs fuel _ [e] OPEN s he hs
    rw [← h]
    exact finishMaze_finished rs s.k hc

theorem GridMaze_zero (rs : Nat → Nat) (g : GRID) (k : Nat) : GridMaze rs 0 g k = none := rfl

theorem GridMaze_succ (rs : Nat → Nat) (fuel : Nat) (g : GRID) (k : Nat) :
    GridMaze rs (fuel + 1) g k =
      match mazeAttempt rs (fuel + 1) g k with
      | none => none
      | some r => if r.1.bonus = 0 then GridMaze rs fuel r.1 r.2.2 else some r := rfl

/-- What holds of the grid and of the cell `GridMaze` returns. -/
theorem GridMaze_finished (rs : Nat → Nat) :
    ∀ (fuel : Nat) (g : GRID) (k : Nat) (r : GRID × Int × Nat), g.Frame →
      GridMaze rs fuel g k = some r → Finished r.1 r.2.1 ∧ r.1.bonus ≠ 0
  | 0, g, k, r, _, h => by
    rw [GridMaze_zero] at h
    exact absurd h (by simp)
  | fuel + 1, g, k, r, hf, h => by
    rw [GridMaze_succ] at h
    split at h
    · exact absurd h (by simp)
    · rename_i r1 hr1
      have hfin := mazeAttempt_finished rs (fuel + 1) k hf hr1
      split at h
      · exact GridMaze_finished rs fuel r1.1 r1.2.2 r hfin.frame h
      · rename_i hb
        simp only [Option.some.injEq] at h
        rw [← h]
        exact ⟨hfin, hb⟩

/-- On a grid `GridMaze` has finished, the flood stays in the interior. -/
theorem finished_floodSafe {g : GRID} {start : Int} (h : Finished g start) : g.FloodSafe := by
  have hW : WALL = 1 := rfl
  intro x y hin hpr
  refine ⟨h.counts x y hin, fun d hd hpr2 => ?_⟩
  by_contra hni
  have hd0 : (0 : Int) ≤ (d : Int) := by omega
  have hd8 : (d : Int) < 8 := by omega
  have hnb := inner_step8 hin d hd0 hd8
  have hoff := off8_cases d hd0 hd8
  unfold GRID.Propagates at hpr hpr2
  rcases h.border _ _ hnb hni with c | ⟨c1, c2, -, c4⟩
  · apply hpr2
    left
    unfold GRID.ty at c
    omega
  · apply hpr
    left
    have hx : x = 1 := by unfold GRID.Inner at hin; omega
    have hy : y = 1 := by unfold GRID.Inner at hin; omega
    rw [hx, hy]
    exact c4

/-! ## The claims about the generator -/

theorem eq_some_getD {α : Type} (o : Option α) (d : α) (h : o.isSome = true) :
    o = some (o.getD d) := by
  cases o with
  | none => simp at h
  | some a => rfl

/-- The run of `GridMaze` on `GridCreate(7, 7)` with the draws `countingDraws`
returns. -/
theorem sampleMaze_run :
    GridMaze countingDraws 100 (GridCreate 7 7 (fun _ => 0)) 0 = some sampleMaze :=
  eq_some_getD _ _ (by decide!)

/-- The run of `GridMaze` on `GridCreate(9, 9)` with the draws `zeroDraws`
returns. -/
theorem cornerMaze_run :
    GridMaze zeroDraws 100 (GridCreate 9 9 (fun _ => 0)) 0 = some cornerMaze :=
  eq_some_getD _ _ (by decide!)

/-- C2: when `GridMaze` returns on a grid created by `GridCreate`, exactly one
cell of the grid has the type `START`: the count of `START` cells is 1, the
cell returned has the type `START`, and every index that reads `START` is
the cell returned. -/
theorem C2_one_start_returned (rs : Nat → Nat) (fuel : Nat) (w h : Int) (junk : Int → Int)
    (k : Nat) (r : GRID × Int × Nat)
    (hrun : GridMaze rs fuel (GridCreate w h junk) k = some r) :
    r.1.countType START = 1 ∧ r.1.typeAt r.2.1 = START ∧
      ∀ i, r.1.typeAt i = START → i = r.2.1 := by
  have hfin := (GridMaze_finished rs fuel _ k r (GridCreate_frame w h junk) hrun).1
  exact ⟨hfin.oneStart, hfin.isStart, hfin.only⟩

theorem C2_one_start_returned_witness :
    GridMaze countingDraws 100 (GridCreate 7 7 (fun _ => 0)) 0 = some sampleMaze ∧
    sampleMaze.1.countType START = 1 ∧ sampleMaze.1.typeAt sampleMaze.2.1 = START ∧
      ∀ i, sampleMaze.1.typeAt i = START → i = sampleMaze.2.1 :=
  ⟨sampleMaze_run,
    C2_one_start_returned countingDraws 100 7 7 (fun _ => 0) 0 sampleMaze sampleMaze_run⟩

/-- C4: when `GridMaze` returns on a grid created by `GridCreate`, the bonus
counter of the grid equals the number of cells of type `BONUS`. -/
theorem C4_bonus_counter_counts (rs : Nat → Nat) (fuel : Nat) (w h : Int) (junk : Int → Int)
    (k : Nat) (r : GRID × Int × Nat)
    (hrun : GridMaze rs fuel (GridCreate w h junk) k = some r) :
    r.1.bonus = (r.1.countType BONUS : Int) := by
  have hfin := (GridMaze_finished rs fuel _ k r (GridCreate_frame w h junk) hrun).1
  exact hfin.bonus.symm

theorem C4_bonus_counter_counts_witness :
    GridMaze countingDraws 100 (GridCreate 7 7 (fun _ => 0)) 0 = some sampleMaze ∧
    sampleMaze.1.bonus = (sampleMaze.1.countType BONUS : Int) :=
  ⟨sampleMaze_run,
    C4_bonus_counter_counts countingDraws 100 7 7 (fun _ => 0) 0 sampleMaze sampleMaze_run⟩

/-- C5: when `GridMaze` returns on a grid created by `GridCreate`, the bonus
counter of the grid is at least 1, and the division `gBonus * 30 /
gGrid->bonus` of `GameLoop` is no division by zero. -/
theorem C5_bonus_at_least_one (rs : Nat → Nat) (fuel : Nat) (w h : Int) (junk : Int → Int)
    (k : Nat) (r : GRID × Int × Nat)
    (hrun : GridMaze rs fuel (GridCreate w h junk) k = some r) :
    1 ≤ r.1.bonus ∧
      ∀ gBonus : Int, bonusBar gBonus r.1 = some (Int.tdiv (gBonus * 30) r.1.bonus) := by
  obtain ⟨hfin, hb⟩ := GridMaze_finished rs fuel _ k r (GridCreate_frame w h junk) hrun
  have := hfin.bonus
  refine ⟨by omega, fun gBonus => ?_⟩
  unfold bonusBar
  rw [if_neg hb]

theorem C5_bonus_at_least_one_witness :
    GridMaze countingDraws 100 (GridCreate 7 7 (fun _ => 0)) 0 = some sampleMaze ∧
    1 ≤ sampleMaze.1.bonus ∧
      ∀ gBonus : Int,
        bonusBar gBonus sampleMaze.1 = some (Int.tdiv (gBonus * 30) sampleMaze.1.bonus) :=
  ⟨sampleMaze_run,
    C5_bonus_at_least_one countingDraws 100 7 7 (fun _ => 0) 0 sampleMaze sampleMaze_run⟩

/-- C7: when `GridMaze` returns on a grid created by `GridCreate`, no cell of
the grid has the type `END_TEMP`. -/
theorem C7_no_temporary_end (rs : Nat → Nat) (fuel : Nat) (w h : Int) (junk : Int → Int)
    (k : Nat) (r : GRID × Int × Nat)
    (hrun : GridMaze rs fuel (GridCreate w h junk) k = some r) :
    r.1.countType END_TEMP = 0 ∧ ∀ i, r.1.typeAt i ≠ END_TEMP := by
  have hfin := (GridMaze_finished rs fuel _ k r (GridCreate_frame w h junk) hrun).1
  exact ⟨countType_eq_zero _ _ hfin.noTemp, hfin.noTemp⟩

theorem C7_no_temporary_end_witness :
    GridMaze countingDraws 100 (GridCreate 7 7 (fun _ => 0)) 0 = some sampleMaze ∧
    sampleMaze.1.countType END_TEMP = 0 ∧ ∀ i, sampleMaze.1.typeAt i ≠ END_TEMP :=
  ⟨sampleMaze_run,
    C7_no_temporary_end countingDraws 100 7 7 (fun _ => 0) 0 sampleMaze sampleMaze_run⟩

/-- C8: on a grid `GridMaze` returns, from a cell of the interior, with a
recursion bound of at least `maxDepth + 2`, `GridFloodVisibility(origin,
maxDepth, passId)` returns, and a second call right after it returns the
grid the first call left: no depth, time stamp or flag changes. -/
theorem C8_flood_twice (rs : Nat → Nat) (fuel : Nat) (w h : Int) (junk : Int → Int)
    (k : Nat) (r : GRID × Int × Nat)
    (hrun : GridMaze rs fuel (GridCreate w h junk) k = some r)
    (x y : Int) (hin : r.1.Inner x y) (maxDepth passId : Int) (bound : Nat)
    (h1 : 1 ≤ bound) (hbound : maxDepth + 2 ≤ bound) :
    ∃ g1, GridFloodVisibility bound r.1 (GETCELL r.1 x y) maxDepth passId = some g1 ∧
      GridFloodVisibility bound g1 (GETCELL r.1 x y) maxDepth passId = some g1 := by
  have hfin := (GridMaze_finished rs fuel _ k r (GridCreate_frame w h junk) hrun).1
  exact flood_idempotent bound r.1 x y maxDepth passId hfin.frame.1 (finished_floodSafe hfin) hin
    h1 hbound

theorem sampleMaze_inner : sampleMaze.1.Inner 1 3 := by
  have hf := (GridMaze_finished countingDraws 100 _ 0 sampleMaze (GridCreate_frame 7 7 _)
    sampleMaze_run).1.frame
  obtain ⟨-, -, -, h1, h2⟩ := hf
  unfold GRID.Inner
  omega

theorem C8_flood_twice_witness :
    GridMaze countingDraws 100 (GridCreate 7 7 (fun _ => 0)) 0 = some sampleMaze ∧
    sampleMaze.1.Inner 1 3 ∧ 1 ≤ 32 ∧ (30 : Int) + 2 ≤ (32 : Nat) ∧
    ∃ g1, GridFloodVisibility 32 sampleMaze.1 (GETCELL sampleMaze.1 1 3) 30 1 = some g1 ∧
      GridFloodVisibility 32 g1 (GETCELL sampleMaze.1 1 3) 30 1 = some g1 :=
  ⟨sampleMaze_run, sampleMaze_inner, by decide, by decide,
    C8_flood_twice countingDraws 100 7 7 (fun _ => 0) 0 sampleMaze sampleMaze_run 1 3
      sampleMaze_inner 30 1 32 (by decide) (by decide)⟩

/-- C6, the failing run: on `GridCreate(9, 9)` with the draws `zeroDraws`, every
odd cell one off the border is turned into a wall, the carve makes a corridor
through (3, 3), (5, 3), (5, 5) and (3, 5), and `GridMaze` returns the first
cell of the grid, the corner (0, 0) of the border, with the type `START`. -/
theorem C6_start_in_corner :
    GridMaze zeroDraws 100 (GridCreate 9 9 (fun _ => 0)) 0 = some cornerMaze ∧
    cornerMaze.2.1 = GETCELL cornerMaze.1 0 0 ∧
    cornerMaze.1.cells.map (fun c => c.type) =
      [2, 1, 1, 1, 1, 1, 1, 1, 1,
       1, 1, 1, 1, 1, 1, 1, 1, 1,
       1, 1, 1, 1, 1, 1, 1, 1, 1,
       1, 1, 1, 4, 11, 12, 1, 1, 1,
       1, 1, 1, 1, 1, 13, 1, 1, 1,
       1, 1, 1, 8, 15, 14, 1, 1, 1,
       1, 1, 1, 1, 1, 1, 1, 1, 1,
       1, 1, 1, 1, 1, 1, 1, 1, 1,
       1, 1, 1, 1, 1, 1, 1, 1, 1] :=
  ⟨cornerMaze_run, by decide!⟩

/-! ## The stitch of a room -/

/-- The loop over `_dir2` of `GridMazeRoom` writes cells two steps from
`(x, y)` only: every other cell of the grid keeps its type, also the cells
one step away. -/
theorem roomStitch_keeps (g : GRID) (hs : g.Shaped) (x y c x1 y1 : Int) (h1 : g.InGrid x1 y1)
    (hfar : ∀ d : Int, 0 ≤ d → d < 4 → ¬ (x1 = x + off4X d * 2 ∧ y1 = y + off4Y d * 2)) :
    (roomStitch x y c g).ty x1 y1 = g.ty x1 y1 := by
  unfold roomStitch
  refine (forLoop_inv _ (fun (s : GRID) => g.SameButTypes s ∧ s.ty x1 y1 = g.ty x1 y1) 0 4 1 g
    (by omega) ?_ ⟨sameButTypes_refl g, rfl⟩).2
  intro s d hd0 hd4 _ hP
  simp only
  split_ifs with hc
  · refine ⟨sameButTypes_trans hP.1 (sameButTypes_setType _ _ _), ?_⟩
    have hss : s.Shaped := hP.1.keepsShape hs
    have hin : s.InGrid (x + off4X d * 2) (y + off4Y d * 2) := by
      have := hc.1
      unfold GRID.inBounds at this
      unfold GRID.InGrid
      omega
    rw [ty_setType_ne hss hin ((hP.1.inGridIff _ _).2 h1) _ (hfar d hd0 hd4)]
    exact hP.2
  · exact hP

/-- C17, as the code has it: on the grid `stitchGrid` the call
`GridMazeRoom(grid, 3, 3, 14, 0)` fills the cell (3, 5), which was a wall; the
cell (1, 5), two steps to its left, lies in the grid and has a type within 3
of the depth tag 14; after the call that cell carries the tag 14, and the
cell (2, 5) between the two is still a wall, which is not navigable. -/
theorem C17_stitch_far_cell :
    stitchGrid.ty 3 5 ≤ START ∧ stitchedRoom.ty 3 5 = 14 ∧
    stitchGrid.InGrid 1 5 ∧ cabs (stitchGrid.ty 1 5 - 14) < 3 ∧
    stitchGrid.ty 2 5 = WALL ∧
    stitchedRoom.ty 1 5 = 14 ∧ stitchedRoom.ty 2 5 = WALL ∧ ¬ START ≤ stitchedRoom.ty 2 5 := by
  decide!

/-! ## The pass "Connect depth near" -/

/-- The pass "Connect depth near" runs `connectStep` for the four directions
around every cell it does not skip. -/
theorem connectNear_eq (rs : Nat → Nat) (s : GRID × Nat) :
    connectNear rs s =
      forLoop 3 (s.1.height - 3) 2 (fun (s : GRID × Nat) (_y : Int) =>
        forLoop 3 (s.1.width - 3) 2 (fun (s : GRID × Nat) (_x : Int) =>
          if s.1.typeAt (GETCELL s.1 _x _y) < OPEN then s
          else forLoop 0 4 1 (connectStep rs (GETCELL s.1 _x _y)) s) s) s := rfl

/-- C18, as the code has it: when "Connect depth near" opens the cell between
a cell with the tag `a` and a cell with the tag `b` (both at least `OPEN`,
less than 6 apart, the draw above `MAZE_NEAR_PERCENT`), the tag it writes is
`a + b / 2`; that value is above both `a` and `b`, and above their average
`(a + b) / 2`. -/
theorem C18_connect_near_value (rs : Nat → Nat) (s : GRID × Nat) (cell d : Int)
    (hmid : s.1.inb (cell + s.1.ptr4 d))
    (ha : OPEN ≤ s.1.typeAt cell) (hb : OPEN ≤ s.1.typeAt (cell + s.1.ptr4 d * 2))
    (hdraw : MAZE_NEAR_PERCENT < GetRandomValue rs s.2 1 100)
    (hnear : cabs (s.1.typeAt (cell + s.1.ptr4 d * 2) - s.1.typeAt cell) < 6) :
    (connectStep rs cell s d).1.typeAt (cell + s.1.ptr4 d) =
        s.1.typeAt cell + Int.tdiv (s.1.typeAt (cell + s.1.ptr4 d * 2)) 2 ∧
      max (s.1.typeAt cell) (s.1.typeAt (cell + s.1.ptr4 d * 2)) <
        (connectStep rs cell s d).1.typeAt (cell + s.1.ptr4 d) ∧
      (s.1.typeAt cell + s.1.typeAt (cell + s.1.ptr4 d * 2)) / 2 <
        (connectStep rs cell s d).1.typeAt (cell + s.1.ptr4 d) := by
  have hO : OPEN = 10 := rfl
  have e : (connectStep rs cell s d).1.typeAt (cell + s.1.ptr4 d) =
      s.1.typeAt cell + Int.tdiv (s.1.typeAt (cell + s.1.ptr4 d * 2)) 2 := by
    unfold connectStep
    simp only
    rw [if_neg (by omega), if_neg (by omega), if_pos hnear, typeAt_setType,
      if_pos ⟨rfl, hmid⟩]
  rw [e, Int.tdiv_eq_ediv (by omega) (by omega)]
  unfold cabs at hnear
  refine ⟨rfl, ?_, ?_⟩
  · split at hnear <;> omega
  · split at hnear <;> omega

/-- The cell (4, 3) of `nearGrid`, between the tags 11 and 13, gets the tag 17. -/
theorem C18_connect_near_value_witness :
    (connectStep fiftyDraws 24 (nearGrid, 0) 0).1.typeAt (24 + (nearGrid, 0).1.ptr4 0) =
        (nearGrid, 0).1.typeAt 24 + Int.tdiv ((nearGrid, 0).1.typeAt (24 + (nearGrid, 0).1.ptr4 0 * 2)) 2 ∧
      max ((nearGrid, 0).1.typeAt 24) ((nearGrid, 0).1.typeAt (24 + (nearGrid, 0).1.ptr4 0 * 2)) <
        (connectStep fiftyDraws 24 (nearGrid, 0) 0).1.typeAt (24 + (nearGrid, 0).1.ptr4 0) ∧
      ((nearGrid, 0).1.typeAt 24 + (nearGrid, 0).1.typeAt (24 + (nearGrid, 0).1.ptr4 0 * 2)) / 2 <
        (connectStep fiftyDraws 24 (nearGrid, 0) 0).1.typeAt (24 + (nearGrid, 0).1.ptr4 0) :=
  C18_connect_near_value fiftyDraws (nearGrid, 0) 24 0 (by decide!) (by decide!) (by decide!)
    (by decide!) (by decide!)

/-- The whole pass on `nearGrid`, with draws of 51: the cells (3, 3) and (5, 3)
carry the tags 11 and 13, and the cell (4, 3) between them gets the tag 17. -/
theorem connectNear_sample :
    nearGrid.ty 3 3 = 11 ∧ nearGrid.ty 5 3 = 13 ∧ nearGrid.ty 4 3 = WALL ∧
      (connectNear fiftyDraws (nearGrid, 0)).1.ty 4 3 = 17 := by
  decide!

/-! ## The pass "Remove isolated wall cells" -/

/-- The pass "Remove isolated wall cells" runs `isolatedCell` for every cell
from (2, 2) to (width - 3, height - 3), row by row. -/
theorem removeIsolated_eq (g : GRID) :
    removeIsolated g =
      forLoop 2 (g.height - 2) 1 (fun (g : GRID) (_y : Int) =>
        forLoop 2 (g.width - 2) 1 (fun (g : GRID) (_x : Int) => isolatedCell g _x _y) g) g := rfl

/-- When each of the neighbours from `dir` on is navigable, the loop over the
eight neighbours runs to its end. -/
theorem isolatedScan_full (g : GRID) (cell : Int) :
    ∀ (n : Nat) (c dir : Int), dir + n = 8 →
      (∀ d, dir ≤ d → d < 8 → START ≤ g.typeAt (cell + g.ptr8 d)) →
      (isolatedScan g cell n c dir).2 = 8
  | 0, c, dir, h8, _ => by
    simp only [isolatedScan]
    omega
  | n + 1, c, dir, h8, h => by
    have hd := h dir (le_refl _) (by omega)
    have ih : ∀ c', (isolatedScan g cell n c' (dir + 1)).2 = 8 := fun c' =>
      isolatedScan_full g cell n c' (dir + 1) (by omega) (fun d h1 h2 => h d (by omega) h2)
    rw [isolatedScan]
    rw [if_neg (by omega)]
    split
    · split
      · exact ih _
      · exact ih _
    · exact ih _

/-- The sum the loop over the eight neighbours ends with is at least 16 when
each neighbour is navigable. -/
theorem isolatedScan_low (g : GRID) (cell : Int) :
    ∀ (n : Nat) (c dir : Int), 0 ≤ dir → dir + n = 8 →
      (∀ d, dir ≤ d → d < 8 → START ≤ g.typeAt (cell + g.ptr8 d)) →
      (5 * dir ≤ c ∨ (10 ≤ c ∧ 8 + dir ≤ c)) →
      16 ≤ (isolatedScan g cell n c dir).1
  | 0, c, dir, _, h8, _, hc => by
    simp only [isolatedScan]
    omega
  | n + 1, c, dir, h0, h8, h, hc => by
    have hS : START = 2 := rfl
    have hE : END = 4 := rfl
    have hO : OPEN = 10 := rfl
    have hd := h dir (le_refl _) (by omega)
    have ih : ∀ c', (5 * (dir + 1) ≤ c' ∨ (10 ≤ c' ∧ 8 + (dir + 1) ≤ c')) →
        16 ≤ (isolatedScan g cell n c' (dir + 1)).1 := fun c' hc' =>
      isolatedScan_low g cell n c' (dir + 1) (by omega) (by omega)
        (fun d h1 h2 => h d (by omega) h2) hc'
    rw [isolatedScan]
    rw [if_neg (by omega)]
    split
    · split
      · exact ih _ (by omega)
      · have h1 : 1 ≤ Int.tdiv c (dir + 1) :=
          tdiv_ge_of_mul_le 1 c (dir + 1) (by omega) (by omega) (by omega)
        exact ih _ (by omega)
    · rename_i hnot
      have : END < g.typeAt (cell + g.ptr8 dir) := by
        by_contra hle
        exact hnot ⟨by omega, by omega⟩
      exact ih _ (by omega)

/-- When each of the neighbours the loop looks at has a depth tag, the loop adds
up their types. -/
theorem isolatedScan_sum (g : GRID) (cell : Int) :
    ∀ (n : Nat) (c dir : Int),
      (∀ i : Nat, i < n → END < g.typeAt (cell + g.ptr8 (dir + i))) →
      isolatedScan g cell n c dir =
        (c + ((List.range n).map (fun (i : Nat) => g.typeAt (cell + g.ptr8 (dir + i)))).sum,
          dir + n)
  | 0, c, dir, _ => by simp [isolatedScan]
  | n + 1, c, dir, h => by
    have hS : START = 2 := rfl
    have hE : END = 4 := rfl
    have hd := h 0 (by omega)
    simp only [Nat.cast_zero, add_zero] at hd
    rw [isolatedScan]
    rw [if_neg (by omega), if_neg (by omega),
      isolatedScan_sum g cell n _ (dir + 1) (fun i hi => by
        have := h (i + 1) (by omega)
        have e : dir + ((i + 1 : Nat) : Int) = dir + 1 + (i : Int) := by push_cast; ring
        rw [e] at this
        exact this)]
    rw [List.range_succ_eq_map, List.map_cons, List.sum_cons, List.map_map]
    have e : ((fun (i : Nat) => g.typeAt (cell + g.ptr8 (dir + (i : Int)))) ∘ Nat.succ) =
        (fun (i : Nat) => g.typeAt (cell + g.ptr8 (dir + 1 + (i : Int)))) := by
      funext i
      simp only [Function.comp, Nat.succ_eq_add_one]
      congr 3
      push_cast
      ring
    rw [e]
    simp only [Nat.cast_zero, add_zero]
    congr 1
    · ring
    · push_cast; ring

/-- A sum of `n` numbers between `lo` and `hi` lies between `n * lo` and `n * hi`. -/
theorem list_sum_bounds (lo hi : Int) :
    ∀ l : List Int, (∀ t ∈ l, lo ≤ t ∧ t ≤ hi) → l.length * lo ≤ l.sum ∧ l.sum ≤ l.length * hi
  | [], _ => by simp
  | a :: l, h => by
    have ih := list_sum_bounds lo hi l (fun t ht => h t (List.mem_cons_of_mem a ht))
    have ha := h a (List.mem_cons_self a l)
    rw [List.sum_cons, List.length_cons]
    push_cast
    constructor
    · nlinarith [ih.1]
    · nlinarith [ih.2]

/-- The types around a cell of a shaped grid, read through the pointer offsets. -/
theorem around8_eq {g : GRID} (hs : g.Shaped) (x y : Int) :
    (List.range 8).map (fun (i : Nat) => g.typeAt (GETCELL g x y + g.ptr8 (0 + (i : Int)))) =
      g.around8 x y 8 := by
  unfold GRID.around8
  apply List.map_congr_left
  intro i hi
  have hi8 : i < 8 := List.mem_range.1 hi
  rw [zero_add, shaped_step8 hs x y i (by omega) (by omega)]
  rfl

theorem mem_around8 (g : GRID) (x y : Int) (d : Int) (h0 : 0 ≤ d) (h8 : d < 8) :
    g.ty (x + off8X d) (y + off8Y d) ∈ g.around8 x y 8 := by
  obtain ⟨n, rfl⟩ := Int.eq_ofNat_of_zero_le h0
  unfold GRID.around8
  exact List.mem_map.2 ⟨n, List.mem_range.2 (by omega), rfl⟩

theorem around8_mem {g : GRID} {x y t : Int} (h : t ∈ g.around8 x y 8) :
    ∃ d : Int, 0 ≤ d ∧ d < 8 ∧ t = g.ty (x + off8X d) (y + off8Y d) := by
  unfold GRID.around8 at h
  obtain ⟨n, hn, rfl⟩ := List.mem_map.1 h
  exact ⟨n, by omega, by have := List.mem_range.1 hn; omega, rfl⟩

/-- What `isolatedCell` does to a wall: the type it has afterwards. -/
theorem isolatedCell_wall {g : GRID} (hs : g.Shaped) {x y : Int} (hin : g.InGrid x y)
    (hw : g.ty x y = WALL) :
    (isolatedCell g x y).ty x y =
      if (isolatedScan g (GETCELL g x y) 8 0 0).2 = 8 then
        Int.tdiv (isolatedScan g (GETCELL g x y) 8 0 0).1 8
      else WALL := by
  unfold isolatedCell
  simp only
  rw [if_neg (by intro h; exact h hw)]
  split
  · exact ty_setType_self hs hin _
  · exact hw

/-- C19: in "Remove isolated wall cells", a wall at `(x, y)` with
`2 ≤ x ≤ width - 3` and `2 ≤ y ≤ height - 3` gets another type if and only if
each of its 8 neighbours has a type of at least `START`; when each of the 8
neighbours has a depth tag (a type above `END`), the new type is the sum of
the 8 types divided by 8, rounded down, and it lies between any two bounds
of the 8 types, so between the smallest and the largest of them. -/
theorem C19_isolated_wall (g : GRID) (hs : g.Shaped) (x y : Int)
    (hx : 2 ≤ x ∧ x ≤ g.width - 3) (hy : 2 ≤ y ∧ y ≤ g.height - 3) (hw : g.ty x y = WALL) :
    ((isolatedCell g x y).ty x y ≠ WALL ↔ ∀ t ∈ g.around8 x y 8, START ≤ t) ∧
    ((∀ t ∈ g.around8 x y 8, END < t) →
      (isolatedCell g x y).ty x y = Int.tdiv (g.around8 x y 8).sum 8 ∧
      (isolatedCell g x y).ty x y = (g.around8 x y 8).sum / 8 ∧
      ∀ lo hi : Int, (∀ t ∈ g.around8 x y 8, lo ≤ t ∧ t ≤ hi) →
        lo ≤ (isolatedCell g x y).ty x y ∧ (isolatedCell g x y).ty x y ≤ hi) := by
  have hS : START = 2 := rfl
  have hE : END = 4 := rfl
  have hW : WALL = 1 := rfl
  have hin : g.InGrid x y := by unfold GRID.InGrid; omega
  have hnb : ∀ d : Int, 0 ≤ d → d < 8 →
      g.typeAt (GETCELL g x y + g.ptr8 d) = g.ty (x + off8X d) (y + off8Y d) := by
    intro d h0 h8
    rw [shaped_step8 hs x y d h0 h8]
    rfl
  have hcell := isolatedCell_wall hs hin hw
  constructor
  · constructor
    · intro hne t ht
      obtain ⟨d, h0, h8, rfl⟩ := around8_mem ht
      rw [← hnb d h0 h8]
      by_cases h : (isolatedScan g (GETCELL g x y) 8 0 0).2 = 8
      · exact isolatedScan_all g (GETCELL g x y) 8 0 0 (by omega) h d h0 h8
      · rw [hcell, if_neg h] at hne
        exact (hne rfl).elim
    · intro hall
      have hnav : ∀ d, (0 : Int) ≤ d → d < 8 → START ≤ g.typeAt (GETCELL g x y + g.ptr8 d) := by
        intro d h0 h8
        rw [hnb d h0 h8]
        exact hall _ (mem_around8 g x y d h0 h8)
      have h8 := isolatedScan_full g (GETCELL g x y) 8 0 0 (by omega) hnav
      have hlow := isolatedScan_low g (GETCELL g x y) 8 0 0 (by omega) (by omega) hnav
        (Or.inl (by omega))
      rw [hcell, if_pos h8]
      have := tdiv_ge_of_mul_le 2 (isolatedScan g (GETCELL g x y) 8 0 0).1 8 (by omega)
        (by omega) (by omega)
      omega
  · intro hall
    have hsum := isolatedScan_sum g (GETCELL g x y) 8 0 0 (fun i hi => by
      rw [hnb _ (by omega) (by omega)]
      exact hall _ (mem_around8 g x y _ (by omega) (by omega)))
    rw [around8_eq hs x y, zero_add] at hsum
    have hlen : (g.around8 x y 8).length = 8 := by simp [GRID.around8]
    have hpos := (list_sum_bounds 5 (g.around8 x y 8).sum (g.around8 x y 8) (fun t ht =>
      ⟨by have := hall t ht; omega, by
        have hb := list_sum_bounds 0 t [] (by simp)
        exact List.single_le_sum (fun u hu => by have := hall u hu; omega) t ht⟩)).1
    rw [hlen] at hpos
    have e : (isolatedCell g x y).ty x y = Int.tdiv (g.around8 x y 8).sum 8 := by
      rw [hcell, hsum]
      simp
    have e2 : Int.tdiv (g.around8 x y 8).sum 8 = (g.around8 x y 8).sum / 8 :=
      Int.tdiv_eq_ediv (by push_cast at hpos; omega) (by omega)
    refine ⟨e, e.trans e2, fun lo hi hb => ?_⟩
    have hbs := list_sum_bounds lo hi (g.around8 x y 8) hb
    rw [hlen] at hbs
    rw [e, e2]
    push_cast at hbs
    omega

/-- The grid `isolatedGrid` has the shape `GridCreate` gives it. -/
theorem isolatedGrid_shaped : isolatedGrid.Shaped := by
  unfold isolatedGrid
  repeat apply shaped_setType
  exact (GridCreate_frame 7 7 _).1

/-- The wall at (2, 2) of `isolatedGrid`, with the tags 11, 12, 13, 14, 15, 16,
17 and 19 around it, gets the tag 14. -/
theorem C19_isolated_wall_witness :
    ((isolatedCell isolatedGrid 2 2).ty 2 2 ≠ WALL ↔
        ∀ t ∈ isolatedGrid.around8 2 2 8, START ≤ t) ∧
    ((∀ t ∈ isolatedGrid.around8 2 2 8, END < t) →
      (isolatedCell isolatedGrid 2 2).ty 2 2 = Int.tdiv (isolatedGrid.around8 2 2 8).sum 8 ∧
      (isolatedCell isolatedGrid 2 2).ty 2 2 = (isolatedGrid.around8 2 2 8).sum / 8 ∧
      ∀ lo hi : Int, (∀ t ∈ isolatedGrid.around8 2 2 8, lo ≤ t ∧ t ≤ hi) →
        lo ≤ (isolatedCell isolatedGrid 2 2).ty 2 2 ∧
          (isolatedCell isolatedGrid 2 2).ty 2 2 ≤ hi) :=
  C19_isolated_wall isolatedGrid isolatedGrid_shaped 2 2 (by decide!) (by decide!) (by decide!)

/-- The pass on `isolatedGrid`: the eight types around (2, 2), and the tag the
wall gets, 117 / 8 = 14. -/
theorem isolatedGrid_sample :
    isolatedGrid.around8 2 2 8 = [11, 12, 13, 14, 15, 16, 17, 19] ∧
      (removeIsolated isolatedGrid).ty 2 2 = 14 := by
  decide!

/-! ## The pass "doors on corridor crosses" -/

/-- The pass "doors on corridor crosses" runs `crossCell` for every interior
cell, row by row. -/
theorem crossDoors_eq (g : GRID) :
    crossDoors g =
      forLoop 1 (g.height - 1) 1 (fun (g : GRID) (_y : Int) =>
        forLoop 1 (g.width - 1) 1 (fun (g : GRID) (_x : Int) => crossCell g _x _y) g) g := rfl

theorem around4_succ (g : GRID) (x y : Int) (n : Nat) :
    g.around4 x y (n + 1) = g.around4 x y n ++ [g.ty (x + off4X n) (y + off4Y n)] := by
  unfold GRID.around4
  rw [List.range_succ, List.map_append]
  rfl

theorem mem_around4 (g : GRID) (x y : Int) (d : Int) (h0 : 0 ≤ d) (h4 : d < 4) :
    g.ty (x + off4X d) (y + off4Y d) ∈ g.around4 x y 4 := by
  obtain ⟨n, rfl⟩ := Int.eq_ofNat_of_zero_le h0
  unfold GRID.around4
  exact List.mem_map.2 ⟨n, List.mem_range.2 (by omega), rfl⟩

theorem around4_mem {g : GRID} {x y t : Int} (h : t ∈ g.around4 x y 4) :
    ∃ d : Int, 0 ≤ d ∧ d < 4 ∧ t = g.ty (x + off4X d) (y + off4Y d) := by
  unfold GRID.around4 at h
  obtain ⟨n, hn, rfl⟩ := List.mem_map.1 h
  exact ⟨n, by omega, by have := List.mem_range.1 hn; omega, rfl⟩

/-- Two positions of a shaped grid with the same index are the same. -/
theorem getcell_inj {g : GRID} (hs : g.Shaped) {x y x' y' : Int} (h : g.InGrid x y)
    (h' : g.InGrid x' y') (e : GETCELL g x y = GETCELL g x' y') : x = x' ∧ y = y' := by
  have p := shaped_pos hs h
  have p' := shaped_pos hs h'
  rw [e] at p
  exact ⟨p.1.symm.trans p'.1, p.2.symm.trans p'.2⟩

theorem inner_step4 {g : GRID} {x y : Int} (h : g.Inner x y) (d : Int) (h0 : 0 ≤ d) (h4 : d < 4) :
    g.InGrid (x + off4X d) (y + off4Y d) := by
  have := off4_cases d h0 (by omega)
  unfold GRID.Inner at h
  unfold GRID.InGrid
  omega

/-- What the loop over the four directions of "doors on corridor crosses" ends
with: the number of neighbours of type `OPEN` or more and, as the cheapest
cell, either the cell itself, when none of those neighbours has a lower type,
or one of those neighbours with a type below the type of the cell and at
most the type of each of them. -/
theorem crossScan_spec {g : GRID} (hs : g.Shaped) (x y : Int) :
    (crossScan g (GETCELL g x y)).1 =
        (((g.around4 x y 4).filter (fun t => OPEN ≤ t)).length : Int) ∧
      (((crossScan g (GETCELL g x y)).2 = GETCELL g x y ∧
          ∀ d : Int, 0 ≤ d → d < 4 → OPEN ≤ g.ty (x + off4X d) (y + off4Y d) →
            g.ty x y ≤ g.ty (x + off4X d) (y + off4Y d)) ∨
        ∃ d : Int, 0 ≤ d ∧ d < 4 ∧
          (crossScan g (GETCELL g x y)).2 = GETCELL g (x + off4X d) (y + off4Y d) ∧
          OPEN ≤ g.ty (x + off4X d) (y + off4Y d) ∧
          g.ty (x + off4X d) (y + off4Y d) < g.ty x y ∧
          ∀ d' : Int, 0 ≤ d' → d' < 4 → OPEN ≤ g.ty (x + off4X d') (y + off4Y d') →
            g.ty (x + off4X d) (y + off4Y d) ≤ g.ty (x + off4X d') (y + off4Y d')) := by
  have key := forLoop_ind (fun (r : Int × Int) (_dir : Int) =>
      let _cellN := GETCELL g x y + g.ptr4 _dir
      if g.typeAt _cellN < OPEN then r
      else if g.typeAt _cellN ≥ g.typeAt r.2 then (r.1 + 1, r.2)
      else (r.1 + 1, _cellN))
    (fun (i : Int) (r : Int × Int) =>
      r.1 = (((g.around4 x y i.toNat).filter (fun t => OPEN ≤ t)).length : Int) ∧
      ((r.2 = GETCELL g x y ∧
          ∀ d : Int, 0 ≤ d → d < i → OPEN ≤ g.ty (x + off4X d) (y + off4Y d) →
            g.ty x y ≤ g.ty (x + off4X d) (y + off4Y d)) ∨
        ∃ d : Int, 0 ≤ d ∧ d < i ∧ r.2 = GETCELL g (x + off4X d) (y + off4Y d) ∧
          OPEN ≤ g.ty (x + off4X d) (y + off4Y d) ∧
          g.ty (x + off4X d) (y + off4Y d) < g.ty x y ∧
          ∀ d' : Int, 0 ≤ d' → d' < i → OPEN ≤ g.ty (x + off4X d') (y + off4Y d') →
            g.ty (x + off4X d) (y + off4Y d) ≤ g.ty (x + off4X d') (y + off4Y d')))
    0 4 ((0 : Int), GETCELL g x y) (by omega)
    ⟨by simp [GRID.around4], Or.inl ⟨rfl, fun d h0 h1 => by omega⟩⟩ ?_
  · exact key
  · intro i r hi0 hi4 ⟨hcnt, hch⟩
    obtain ⟨n, rfl⟩ := Int.eq_ofNat_of_zero_le hi0
    have hn : ((n : Int) + 1).toNat = n + 1 := by omega
    have hn0 : ((n : Int)).toNat = n := by omega
    rw [hn0] at hcnt
    have hstep : GETCELL g x y + g.ptr4 (n : Int) =
        GETCELL g (x + off4X (n : Int)) (y + off4Y (n : Int)) :=
      shaped_step4_one hs x y n hi0 (by omega)
    have hty : g.typeAt (GETCELL g x y + g.ptr4 (n : Int)) =
        g.ty (x + off4X (n : Int)) (y + off4Y (n : Int)) := by rw [hstep]; rfl
    have hr2 : g.typeAt r.2 ≤ g.ty x y ∧
        ∀ d' : Int, 0 ≤ d' → d' < (n : Int) → OPEN ≤ g.ty (x + off4X d') (y + off4Y d') →
          g.typeAt r.2 ≤ g.ty (x + off4X d') (y + off4Y d') := by
      rcases hch with ⟨e, h⟩ | ⟨d, h0, h1, e, h2, h3, h4⟩
      · rw [e]; exact ⟨le_refl _, h⟩
      · rw [e]; exact ⟨le_of_lt h3, h4⟩
    simp only
    rw [hn, around4_succ, List.filter_append, List.length_append, hty]
    by_cases c1 : g.ty (x + off4X (n : Int)) (y + off4Y (n : Int)) < OPEN
    · rw [if_pos c1]
      refine ⟨?_, ?_⟩
      · rw [hcnt]
        have : ¬ OPEN ≤ g.ty (x + off4X (n : Int)) (y + off4Y (n : Int)) := by omega
        simp [this]
      · rcases hch with ⟨e, h⟩ | ⟨d, h0, h1, e, h2, h3, h4⟩
        · refine Or.inl ⟨e, fun d h0 h1 hd => ?_⟩
          by_cases hdn : d = (n : Int)
          · subst hdn; omega
          · exact h d h0 (by omega) hd
        · refine Or.inr ⟨d, h0, by omega, e, h2, h3, fun d' h0' h1' hd' => ?_⟩
          by_cases hdn : d' = (n : Int)
          · subst hdn; omega
          · exact h4 d' h0' (by omega) hd'
    · rw [if_neg c1]
      have c1' : OPEN ≤ g.ty (x + off4X (n : Int)) (y + off4Y (n : Int)) := by omega
      have hlen : (List.filter (fun t => decide (OPEN ≤ t))
          [g.ty (x + off4X (n : Int)) (y + off4Y (n : Int))]).length = 1 := by
        simp [c1']
      by_cases c2 : g.ty (x + off4X (n : Int)) (y + off4Y (n : Int)) ≥ g.typeAt r.2
      · rw [if_pos c2]
        refine ⟨by simp only [hcnt, hlen]; push_cast; rfl, ?_⟩
        rcases hch with ⟨e, h⟩ | ⟨d, h0, h1, e, h2, h3, h4⟩
        · refine Or.inl ⟨e, fun d h0 h1 hd => ?_⟩
          by_cases hdn : d = (n : Int)
          · subst hdn
            rw [e] at c2
            exact c2
          · exact h d h0 (by omega) hd
        · refine Or.inr ⟨d, h0, by omega, e, h2, h3, fun d' h0' h1' hd' => ?_⟩
          by_cases hdn : d' = (n : Int)
          · subst hdn
            rw [e] at c2
            exact c2
          · exact h4 d' h0' (by omega) hd'
      · rw [if_neg c2]
        refine ⟨by simp only [hcnt, hlen]; push_cast; rfl, ?_⟩
        refine Or.inr ⟨n, hi0, by omega, hstep, c1', by omega, fun d' h0' h1' hd' => ?_⟩
        by_cases hdn : d' = (n : Int)
        · subst hdn; exact le_refl _
        · have := hr2.2 d' h0' (by omega) hd'
          omega

/-- C20, amended: in "doors on corridor crosses", take an interior cell of type
`OPEN` or more with more than 2 of its 4 neighbours of type `OPEN` or more.
When one of those neighbours has a type below the type of the cell, a
neighbour whose type is the lowest among them has the type `DOOR` once the
cell is processed; when none has, the grid is left as it is. -/
theorem C20_cross_door (g : GRID) (hs : g.Shaped) (x y : Int) (hin : g.Inner x y)
    (hopen : OPEN ≤ g.ty x y)
    (hcount : 2 < ((g.around4 x y 4).filter (fun t => OPEN ≤ t)).length) :
    ((∃ t ∈ g.around4 x y 4, OPEN ≤ t ∧ t < g.ty x y) →
      ∃ d : Int, 0 ≤ d ∧ d < 4 ∧ OPEN ≤ g.ty (x + off4X d) (y + off4Y d) ∧
        (∀ t ∈ g.around4 x y 4, OPEN ≤ t → g.ty (x + off4X d) (y + off4Y d) ≤ t) ∧
        (crossCell g x y).ty (x + off4X d) (y + off4Y d) = DOOR) ∧
    ((∀ t ∈ g.around4 x y 4, OPEN ≤ t → g.ty x y ≤ t) → crossCell g x y = g) := by
  obtain ⟨hcnt, hch⟩ := crossScan_spec hs x y
  have hgt : (crossScan g (GETCELL g x y)).1 > 2 := by
    rw [hcnt]
    exact_mod_cast hcount
  have hcell : crossCell g x y =
      if GETCELL g x y ≠ (crossScan g (GETCELL g x y)).2 then
        g.setType (crossScan g (GETCELL g x y)).2 DOOR
      else g := by
    unfold crossCell
    simp only
    rw [if_neg (by unfold GRID.ty at hopen; omega)]
    split
    · rfl
    · rfl
  constructor
  · rintro ⟨t, ht, hto, htlt⟩
    obtain ⟨d0, h0, h4, rfl⟩ := around4_mem ht
    rcases hch with ⟨_, h⟩ | ⟨d, hd0, hd4, e, h2, h3, h5⟩
    · have := h d0 h0 h4 hto
      omega
    · refine ⟨d, hd0, hd4, h2, fun t ht hto => ?_, ?_⟩
      · obtain ⟨d', h0', h4', rfl⟩ := around4_mem ht
        exact h5 d' h0' h4' hto
      · have hne : GETCELL g x y ≠ (crossScan g (GETCELL g x y)).2 := by
          rw [e]
          intro heq
          have := getcell_inj hs (inner_inGrid hin) (inner_step4 hin d hd0 hd4) heq
          have := off4_cases d hd0 (by omega)
          omega
        rw [hcell, if_pos hne, e]
        exact ty_setType_self hs (inner_step4 hin d hd0 hd4) _
  · intro hall
    rcases hch with ⟨e, _⟩ | ⟨d, hd0, hd4, e, h2, h3, h5⟩
    · rw [hcell, if_neg (by rw [e]; simp)]
    · have := hall _ (mem_around4 g x y d hd0 hd4) h2
      omega

/-- The wall pattern on a grid of `GridCreate` has the shape of that grid. -/
theorem pattern_shaped (w h : Int) (junk : Int → Int) :
    (initOddRows (initEvenRows (GridCreate w h junk))).Shaped :=
  (init_pattern _ (GridCreate_frame w h junk)).1.sameShape (GridCreate_frame w h junk).1

theorem doorGrid_shaped : doorGrid.Shaped :=
  shaped_setType _ _ _ (shaped_setType _ _ _ (shaped_setType _ _ _ (shaped_setType _ _ _
    (pattern_shaped 7 7 _))))

/-- The cell (3, 3) of `doorGrid`, with the tag 13, has the tags 12, 14 and 14
beside it: the cell (4, 3), with the tag 12, becomes a door. -/
theorem C20_cross_door_witness :
    ((∃ t ∈ doorGrid.around4 3 3 4, OPEN ≤ t ∧ t < doorGrid.ty 3 3) →
      ∃ d : Int, 0 ≤ d ∧ d < 4 ∧ OPEN ≤ doorGrid.ty (3 + off4X d) (3 + off4Y d) ∧
        (∀ t ∈ doorGrid.around4 3 3 4, OPEN ≤ t → doorGrid.ty (3 + off4X d) (3 + off4Y d) ≤ t) ∧
        (crossCell doorGrid 3 3).ty (3 + off4X d) (3 + off4Y d) = DOOR) ∧
    ((∀ t ∈ doorGrid.around4 3 3 4, OPEN ≤ t → doorGrid.ty 3 3 ≤ t) →
      crossCell doorGrid 3 3 = doorGrid) :=
  C20_cross_door doorGrid doorGrid_shaped 3 3 (by decide!) (by decide!) (by decide!)

/-- The pass on `doorGrid`: the types around (3, 3), and the door at (4, 3). -/
theorem doorGrid_sample :
    doorGrid.ty 3 3 = 13 ∧ doorGrid.around4 3 3 4 = [12, 14, 14, 1] ∧
      (crossDoors doorGrid).ty 4 3 = DOOR := by
  decide!

/-- C20, as stated, fails on `crossGrid`: the cell (3, 3) is an interior cell
with the tag 11, three of its four neighbours carry the tag 12, and the pass
leaves the grid as it is, so that none of those neighbours is a door, neither
when the cell has been processed nor when the pass has ended. -/
theorem C20_counterexample :
    crossGrid.Inner 3 3 ∧ OPEN ≤ crossGrid.ty 3 3 ∧
    crossGrid.around4 3 3 4 = [12, 12, 12, 1] ∧
    2 < ((crossGrid.around4 3 3 4).filter (fun t => OPEN ≤ t)).length ∧
    crossCell crossGrid 3 3 = crossGrid ∧ crossDoors crossGrid = crossGrid ∧
    (crossCell crossGrid 3 3).around4 3 3 4 = [12, 12, 12, 1] ∧
    DOOR ∉ (crossDoors crossGrid).around4 3 3 4 := by
  decide!

/-! ## The `while (1)` loop, iteration by iteration -/

/-- The `while (1)` loop runs `carveNext` until an iteration leaves it. -/
theorem carveLoop_succ (rs : Nat → Nat) (fuel : Nat) (s : Carve) :
    carveLoop rs (fuel + 1) s =
      if (carveNext rs s).2 then some (carveNext rs s).1
      else carveLoop rs fuel (carveNext rs s).1 := by
  rw [carveLoop]
  unfold carveNext carveTry endGrid
  simp only
  generalize carveAttempts rs 4 { s with k := s.k + 2 } (GetRandomValue rs s.k 0 3)
    (1 + GetRandomValue rs (s.k + 1) 0 1 * 2) = r
  by_cases h1 : r.2 = true
  · simp only [h1, if_true]
    by_cases h2 : r.1.g.typeAt r.1.cell ≠ END ∧ r.1.g.typeAt r.1.cell ≠ END_TEMP
    · simp only [if_pos h2]
      simp
    · simp only [if_neg h2]
      generalize (if r.1.g.typeAt r.1.cell = END_TEMP then
        r.1.g.setType r.1.cell r.1.cellsToEnd else r.1.g) = g1
      cases hu : unvisitedInGrid g1 g1.height.toNat 1 with
      | none => simp
      | some t =>
        obtain ⟨a, b, c⟩ := t
        simp
  · simp [h1]

/-- When the loop over `_attempts` ends with `_attempts == 4`, it has changed
neither the grid nor `_cell` nor `_cellsToEnd`. -/
theorem carveAttempts_true (rs : Nat → Nat) :
    ∀ (n : Nat) (s : Carve) (dir turn : Int), (carveAttempts rs n s dir turn).2 = true →
      (carveAttempts rs n s dir turn).1.g = s.g ∧ (carveAttempts rs n s dir turn).1.cell = s.cell ∧
        (carveAttempts rs n s dir turn).1.cellsToEnd = s.cellsToEnd
  | 0, s, _, _ => by
    simp [carveAttempts]
  | n + 1, s, dir, turn => by
    rw [carveAttempts]
    split
    · exact fun _ => ⟨rfl, rfl, rfl⟩
    · simp only
      generalize hs1 : (if s.cellsToEnd > OPEN + 6 then { s with k := s.k + 1 } else s) = s1
      have e1 : s1.g = s.g := by rw [← hs1]; split <;> rfl
      have e2 : s1.cell = s.cell := by rw [← hs1]; split <;> rfl
      have e3 : s1.cellsToEnd = s.cellsToEnd := by rw [← hs1]; split <;> rfl
      split
      · split
        · intro hc; simp at hc
        · intro hc; simp at hc
      · intro hc
        have := carveAttempts_true rs n s1 _ turn hc
        rw [e1, e2, e3] at this
        exact this

/-- The room set up after a step of the carve changes types only, as
`GridMazeRoom_retagged` has it. -/
theorem carve_room_retagged {st : Carve} {chain : List (Int × Int)} {e : Int × Int} {c0 : Int}
    (rs : Nat → Nat) (n p : Int × Int) (k : Nat)
    (h : CarveInv st (n :: chain) e c0) (hp : chain.head? = some p) (px py : Int)
    (hpx : px = p.1) (hpy : py = p.2) :
    st.g.Retagged (GridMazeRoom rs 1 st.g k px py st.cellsToEnd).1 := by
  have hO : OPEN = 10 := rfl
  subst hpx hpy
  obtain ⟨q, rest, rfl⟩ : ∃ q rest, chain = q :: rest :=
    List.exists_cons_of_ne_nil (by intro e1; rw [e1] at hp; simp at hp)
  simp only [List.head?_cons, Option.some.injEq] at hp
  subst hp
  have hq := chainOK_mem h.chainOK q (List.mem_cons_of_mem _ (List.mem_cons_self _ _))
  refine GridMazeRoom_retagged rs 1 st.g k q.1 q.2 st.cellsToEnd h.frame hq.1.1 hq.1.2
    (inner_inGrid hq.2.1) ?_
  intro h1 h2
  have hc := h.counter
  cases rest with
  | nil =>
    have := h.chainOK.2.2.2.2.2.2.2
    rcases this with c | c
    · exact (h1 c).elim
    · exact (h2 c).elim
  | cons r rest2 =>
    simp only [List.length_cons] at hc
    push_cast at hc
    omega

/-- When the loop over `_attempts` makes a step, it is to an unvisited cell two
cells from `_cell` in one of the four directions; the counter grows by 2, and
the grid is the one with the two cells opened, up to the tags of a room. -/
theorem carveAttempts_step (rs : Nat → Nat) {chain : List (Int × Int)} {e : Int × Int}
    {c0 : Int} :
    ∀ (n : Nat) (s : Carve) (dir turn : Int), CarveInv s chain e c0 → 0 ≤ dir → dir ≤ 3 →
      (turn = 1 ∨ turn = 3) → (carveAttempts rs n s dir turn).2 = false →
      ∃ d : Int, 0 ≤ d ∧ d ≤ 3 ∧
        (carveAttempts rs n s dir turn).1.cell = s.cell + s.g.ptr4 d * 2 ∧
        (carveAttempts rs n s dir turn).1.cellsToEnd = s.cellsToEnd + 2 ∧
        s.g.inb (s.cell + s.g.ptr4 d * 2) ∧
        s.g.typeAt (s.cell + s.g.ptr4 d * 2) = UNVISITED ∧
        ((s.g.setType (s.cell + s.g.ptr4 d * 2) OPEN).setType (s.cell + s.g.ptr4 d) OPEN).Retagged
          (carveAttempts rs n s dir turn).1.g
  | 0, s, dir, turn, _, _, _, _ => by
    simp only [carveAttempts]
    intro hc
    simp at hc
  | n + 1, s, dir, turn, h, hd0, hd3, ht => by
    have hU : UNVISITED = 0 := rfl
    have hO : OPEN = 10 := rfl
    have hE : END = 4 := rfl
    have hT : END_TEMP = 3 := rfl
    have hW : WALL = 1 := rfl
    rw [carveAttempts]
    split
    · intro hc; simp at hc
    · simp only
      generalize hs1 : (if s.cellsToEnd > OPEN + 6 then { s with k := s.k + 1 } else s) = s1
      have e1 : s1.g = s.g := by rw [← hs1]; split <;> rfl
      have e2 : s1.cell = s.cell := by rw [← hs1]; split <;> rfl
      have e3 : s1.cellsToEnd = s.cellsToEnd := by rw [← hs1]; split <;> rfl
      have h1 : CarveInv s1 chain e c0 := carveInv_of_eq h e1 e2 e3
      rw [← e1, ← e2, ← e3]
      split
      · rename_i hcond
        obtain ⟨p, hp, hcell, hN, hnin, hstep⟩ :=
          carve_step h1 dir hd0 hd3 (s1.k + 1) hcond.1 hcond.2
        have hinb : s1.g.inb (s1.cell + s1.g.ptr4 dir * 2) := by
          rw [hN]
          exact shaped_inb h1.frame.1 hnin
        have hty : s1.g.typeAt (s1.cell + s1.g.ptr4 dir * 2) = UNVISITED := by
          have := hcond.2
          rcases h1.census (s1.cell + s1.g.ptr4 dir * 2) with c | c | c | c | c <;> omega
        split
        · intro _
          refine ⟨dir, hd0, hd3, rfl, rfl, hinb, hty, ?_⟩
          have hsh := hstep.frame.1
          have hpos := shaped_pos hsh
            (((sameButTypes_setType2 s1.g (s1.cell + s1.g.ptr4 dir * 2) (s1.cell + s1.g.ptr4 dir)
              OPEN OPEN).inGridIff _ _).2 hnin)
          have hgc : GETCELL ((s1.g.setType (s1.cell + s1.g.ptr4 dir * 2) OPEN).setType
              (s1.cell + s1.g.ptr4 dir) OPEN) (p.1 + off4X dir * 2) (p.2 + off4Y dir * 2) =
              s1.cell + s1.g.ptr4 dir * 2 := by
            rw [hN]
            exact (sameButTypes_setType2 s1.g _ _ OPEN OPEN).cellIndex _ _
          rw [hgc] at hpos
          exact carve_room_retagged rs _ p (s1.k + 1) hstep hp _ _ (by rw [hpos.1]; ring)
            (by rw [hpos.2]; ring)
        · intro _
          exact ⟨dir, hd0, hd3, rfl, rfl, hinb, hty, retagged_refl _⟩
      · have hd := turn_dir_bounds dir turn hd0 (by omega)
        exact carveAttempts_step rs n s1 _ turn h1 hd.1 hd.2 ht

/-! ## The number of unvisited cells -/

theorem countP_le_pointwise {α : Type} (p : α → Bool) (d : α) :
    ∀ (l l' : List α), l.length = l'.length →
      (∀ n, n < l.length → p (l'.getD n d) = true → p (l.getD n d) = true) →
      l'.countP p ≤ l.countP p
  | [], [], _, _ => by simp
  | [], _ :: _, h, _ => by simp at h
  | _ :: _, [], h, _ => by simp at h
  | a :: l, b :: l', hlen, h => by
    have ih := countP_le_pointwise p d l l' (by simpa using hlen) (fun n hn hp => by
      have := h (n + 1) (by simp; omega)
      simpa using this hp)
    have h0 := h 0 (by simp)
    simp only [List.getD_cons_zero] at h0
    rw [List.countP_cons, List.countP_cons]
    by_cases hb : p b = true
    · rw [if_pos hb, if_pos (h0 hb)]
      omega
    · rw [if_neg hb]
      split <;> omega

/-- A grid with no more cells of the type `t`, cell by cell, has no more of them
in all. -/
theorem countType_le {g g' : GRID} (t : Int) (hlen : g'.cells.length = g.cells.length)
    (h : ∀ i, g'.typeAt i = t → g.typeAt i = t) : g'.countType t ≤ g.countType t := by
  rw [countType_eq_countP, countType_eq_countP]
  refine countP_le_pointwise _ CELL.blank _ _ hlen.symm (fun n _ hp => ?_)
  have := h (n : Int)
  unfold GRID.typeAt GRID.cellAt at this
  simp only [Int.ofNat_zero_le, if_true, Int.toNat_ofNat] at this
  simpa using this (by simpa using hp)

theorem retagged_unvisited {g g' : GRID} (h : g.Retagged g') :
    g'.countType UNVISITED ≤ g.countType UNVISITED := by
  have hU : UNVISITED = 0 := rfl
  refine countType_le _ h.1.2.2.2.2.2.2.1 (fun i hi => ?_)
  rcases h.2 i with c | c
  · rw [← c]; exact hi
  · omega

theorem countType_setType_le (g : GRID) (i v t : Int) (hv : v ≠ t) :
    (g.setType i v).countType t ≤ g.countType t := by
  by_cases hi : g.inb i
  · have := countType_setType g i v t hi
    rw [if_neg hv] at this
    omega
  · unfold GRID.setType
    rw [modifyCell_of_not_inb g i _ hi]

theorem countType_setType_lt (g : GRID) (i v t : Int) (hv : v ≠ t) (hi : g.inb i)
    (ht : g.typeAt i = t) : (g.setType i v).countType t < g.countType t := by
  have := countType_setType g i v t hi
  rw [if_neg hv, if_pos ht] at this
  omega

/-! ## One iteration and the invariant -/

/-- The loop over `_attempts` of an iteration: either it ends with
`_attempts == 4` and has changed neither the grid nor `_cell` nor
`_cellsToEnd`, or it has made a step to an unvisited cell. -/
theorem carveTry_inv (rs : Nat → Nat) {s : Carve} {chain : List (Int × Int)} {e : Int × Int}
    {c0 : Int} (h : CarveInv s chain e c0) :
    ((carveTry rs s).2 = true →
      CarveInv (carveTry rs s).1 chain e c0 ∧ (carveTry rs s).1.g = s.g ∧
        (carveTry rs s).1.cell = s.cell ∧ (carveTry rs s).1.cellsToEnd = s.cellsToEnd) ∧
    ((carveTry rs s).2 = false →
      (∃ p, CarveInv (carveTry rs s).1 (p :: chain) e c0) ∧
      ∃ d : Int, 0 ≤ d ∧ d ≤ 3 ∧ (carveTry rs s).1.cell = s.cell + s.g.ptr4 d * 2 ∧
        (carveTry rs s).1.cellsToEnd = s.cellsToEnd + 2 ∧
        s.g.inb (s.cell + s.g.ptr4 d * 2) ∧ s.g.typeAt (s.cell + s.g.ptr4 d * 2) = UNVISITED ∧
        ((s.g.setType (s.cell + s.g.ptr4 d * 2) OPEN).setType (s.cell + s.g.ptr4 d) OPEN).Retagged
          (carveTry rs s).1.g) := by
  have hd := GetRandomValue_bounds rs s.k 0 3 (by omega)
  have ht := GetRandomValue_bounds rs (s.k + 1) 0 1 (by omega)
  have h0 : CarveInv { s with k := s.k + 2 } chain e c0 := carveInv_of_eq h rfl rfl rfl
  have hatt := carveAttempts_inv rs 4 { s with k := s.k + 2 } (GetRandomValue rs s.k 0 3)
    (1 + GetRandomValue rs (s.k + 1) 0 1 * 2) h0 hd.1 hd.2 (by omega)
  constructor
  · intro hflag
    exact ⟨hatt.1 hflag, carveAttempts_true rs 4 _ _ _ hflag⟩
  · intro hflag
    exact ⟨hatt.2 hflag, carveAttempts_step rs 4 { s with k := s.k + 2 } _ _ h0 hd.1 hd.2
      (by omega) hflag⟩

theorem carveNext_forward (rs : Nat → Nat) (s : Carve) (h : (carveTry rs s).2 = false) :
    carveNext rs s = ((carveTry rs s).1, false) := by
  unfold carveNext
  simp [h]

theorem carveNext_back (rs : Nat → Nat) (s : Carve) (h : (carveTry rs s).2 = true)
    (hne : (carveTry rs s).1.g.typeAt (carveTry rs s).1.cell ≠ END ∧
      (carveTry rs s).1.g.typeAt (carveTry rs s).1.cell ≠ END_TEMP) :
    carveNext rs s = (backtrack (carveTry rs s).1, false) := by
  unfold carveNext
  simp only [h, if_true]
  rw [if_pos hne]

theorem carveNext_path (rs : Nat → Nat) (s : Carve) (h : (carveTry rs s).2 = true)
    (hend : ¬ ((carveTry rs s).1.g.typeAt (carveTry rs s).1.cell ≠ END ∧
      (carveTry rs s).1.g.typeAt (carveTry rs s).1.cell ≠ END_TEMP))
    (cT d cN : Int)
    (hu : unvisitedInGrid (endGrid (carveTry rs s).1)
      (endGrid (carveTry rs s).1).height.toNat 1 = some (cT, d, cN)) :
    carveNext rs s =
      ({ g := ((endGrid (carveTry rs s).1).setType (cT + (endGrid (carveTry rs s).1).ptr4 d)
              ((endGrid (carveTry rs s).1).typeAt cN + 1)).setType cT END_TEMP
         k := (carveTry rs s).1.k
         cell := cT
         cellsToEnd := (((endGrid (carveTry rs s).1).setType
              (cT + (endGrid (carveTry rs s).1).ptr4 d)
              ((endGrid (carveTry rs s).1).typeAt cN + 1)).setType cT END_TEMP).typeAt
                (cT + (endGrid (carveTry rs s).1).ptr4 d) + 1 }, false) := by
  unfold carveNext
  simp only [h, if_true]
  rw [if_neg hend]
  simp only [hu]

theorem carveNext_done (rs : Nat → Nat) (s : Carve) (h : (carveTry rs s).2 = true)
    (hend : ¬ ((carveTry rs s).1.g.typeAt (carveTry rs s).1.cell ≠ END ∧
      (carveTry rs s).1.g.typeAt (carveTry rs s).1.cell ≠ END_TEMP))
    (hu : unvisitedInGrid (endGrid (carveTry rs s).1)
      (endGrid (carveTry rs s).1).height.toNat 1 = none) :
    carveNext rs s = ({ (carveTry rs s).1 with g := endGrid (carveTry rs s).1 }, true) := by
  unfold carveNext
  simp only [h, if_true]
  rw [if_neg hend]
  simp only [hu]

theorem shaped_ptr4_ne {g : GRID} (hs : g.Shaped) (d : Int) (h0 : 0 ≤ d) (h3 : d ≤ 3) :
    g.ptr4 d ≠ 0 := by
  rw [shaped_ptr4 hs d h0 h3]
  have hw := hs.1
  rcases off4_cases d h0 h3 with ⟨-, a, b⟩ | ⟨-, a, b⟩ | ⟨-, a, b⟩ | ⟨-, a, b⟩ <;> rw [a, b] <;> omega

/-- An iteration of the `while (1)` loop that does not leave the loop keeps
the invariant, and twice the number of unvisited cells plus the length of the
path goes down; an iteration that leaves the loop leaves the grid carved. -/
theorem carveNext_inv (rs : Nat → Nat) {s : Carve} {chain : List (Int × Int)} {e : Int × Int}
    {c0 : Int} (h : CarveInv s chain e c0) :
    ((carveNext rs s).2 = true → Carved (carveNext rs s).1.g e) ∧
    ((carveNext rs s).2 = false → ∃ chain' c0', CarveInv (carveNext rs s).1 chain' e c0' ∧
      2 * (carveNext rs s).1.g.countType UNVISITED + chain'.length <
        2 * s.g.countType UNVISITED + chain.length) := by
  have hU : UNVISITED = 0 := rfl
  have hO : OPEN = 10 := rfl
  have hE : END = 4 := rfl
  have hT : END_TEMP = 3 := rfl
  have hW : WALL = 1 := rfl
  obtain ⟨htrue, hfalse⟩ := carveTry_inv rs h
  by_cases hflag : (carveTry rs s).2 = true
  · obtain ⟨h1, eg, ec, en⟩ := htrue hflag
    by_cases hne : (carveTry rs s).1.g.typeAt (carveTry rs s).1.cell ≠ END ∧
        (carveTry rs s).1.g.typeAt (carveTry rs s).1.cell ≠ END_TEMP
    · rw [carveNext_back rs s hflag hne]
      refine ⟨fun hc => by simp at hc, fun _ => ?_⟩
      obtain ⟨p, q, rest, d, hch, -, -, -, -, -, -, hb⟩ := backtrack_explicit h1 hne.1 hne.2
      obtain ⟨p2, rest2, hch2, hinv⟩ := backtrack_inv h1 hne.1 hne.2
      refine ⟨rest2, c0, hinv, ?_⟩
      have hcnt := h1.counter.1
      rw [hch] at hcnt
      simp only [List.length_cons] at hcnt
      push_cast at hcnt
      have hc0 := h1.counter.2.1
      have hle : (backtrack (carveTry rs s).1).g.countType UNVISITED ≤
          s.g.countType UNVISITED := by
        rw [hb, ← eg]
        exact le_trans (countType_setType_le _ _ _ _ (by omega))
          (countType_setType_le _ _ _ _ (by omega))
      rw [hch2]
      simp only [List.length_cons]
      omega
    · have hc := endReached_carved h1 hne
      have hg1 : endGrid (carveTry rs s).1 =
          if (carveTry rs s).1.g.typeAt (carveTry rs s).1.cell = END_TEMP then
            (carveTry rs s).1.g.setType (carveTry rs s).1.cell (carveTry rs s).1.cellsToEnd
          else (carveTry rs s).1.g := rfl
      rw [← hg1] at hc
      have hc0 := h1.counter
      have hlen : 1 ≤ chain.length := by
        have := chainOK_ne_nil h1.chainOK
        cases chain with
        | nil => exact (this rfl).elim
        | cons a l => simp
      have hle1 : (endGrid (carveTry rs s).1).countType UNVISITED ≤ s.g.countType UNVISITED := by
        rw [hg1, ← eg]
        split
        · exact countType_setType_le _ _ _ _ (by omega)
        · exact le_refl _
      cases hu : unvisitedInGrid (endGrid (carveTry rs s).1)
          (endGrid (carveTry rs s).1).height.toNat 1 with
      | none =>
        rw [carveNext_done rs s hflag hne hu]
        exact ⟨fun _ => hc, fun hc' => by simp at hc'⟩
      | some t =>
        obtain ⟨cT, d, cN⟩ := t
        rw [carveNext_path rs s hflag hne cT d cN hu]
        refine ⟨fun hc' => by simp at hc', fun _ => ?_⟩
        obtain ⟨T, hT'⟩ := newPath_inv hc _ (carveTry rs s).1.k cT d cN hu
        refine ⟨[T], _, hT', ?_⟩
        obtain ⟨x, y, hx1, hxo, hxw, hy1, hyo, hyh, hcT, htyT, hvn⟩ :=
          unvisitedInGrid_some _ _ 1 cT d cN (by omega) (by omega) hu
        obtain ⟨hd0, hd3, -, -, hgt⟩ := visitedNeighbor_some _ cT 4 0 d cN (by omega) (by omega) hvn
        have hsh := hc.frame.1
        have hinb : (endGrid (carveTry rs s).1).inb cT := by
          rw [hcT]
          exact shaped_inb hsh ⟨by omega, hxw, by omega, hyh⟩
        have hmid : ((endGrid (carveTry rs s).1).setType (cT + (endGrid (carveTry rs s).1).ptr4 d)
            ((endGrid (carveTry rs s).1).typeAt cN + 1)).typeAt cT = UNVISITED := by
          rw [typeAt_setType, if_neg, htyT]
          intro hcc
          have := shaped_ptr4_ne hsh d hd0 hd3
          omega
        have hlt := countType_setType_lt ((endGrid (carveTry rs s).1).setType
          (cT + (endGrid (carveTry rs s).1).ptr4 d) ((endGrid (carveTry rs s).1).typeAt cN + 1))
          cT END_TEMP UNVISITED (by omega)
          (by
            unfold GRID.inb at hinb ⊢
            rw [(sameButTypes_setType _ _ _).2.2.2.2.2.2.1]
            exact hinb) hmid
        have hle2 := countType_setType_le (endGrid (carveTry rs s).1)
          (cT + (endGrid (carveTry rs s).1).ptr4 d) ((endGrid (carveTry rs s).1).typeAt cN + 1)
          UNVISITED (by omega)
        simp only [List.length_singleton]
        omega
  · have hflag' : (carveTry rs s).2 = false := by simpa using hflag
    obtain ⟨⟨p, hinv⟩, d, hd0, hd3, hcell, hcnt, hinb, hty, hret⟩ := hfalse hflag'
    rw [carveNext_forward rs s hflag']
    refine ⟨fun hc => by simp at hc, fun _ => ⟨p :: chain, c0, hinv, ?_⟩⟩
    have h1 := retagged_unvisited hret
    have h2 := countType_setType_le (s.g.setType (s.cell + s.g.ptr4 d * 2) OPEN)
      (s.cell + s.g.ptr4 d) OPEN UNVISITED (by omega)
    have h3 := countType_setType_lt s.g (s.cell + s.g.ptr4 d * 2) OPEN UNVISITED (by omega)
      hinb hty
    simp only [List.length_cons]
    omega

/-- The branch "not an end yet", in terms of cells: `_cell` and the cell one
step from it in a direction `d` are `OPEN`; the branch writes the counter `c`
into `_cell` and `c - 1` into that cell, moves two steps in the direction `d`
and leaves the counter at `c - 2`. -/
theorem backtrack_facts {s : Carve} {chain : List (Int × Int)} {e : Int × Int} {c0 : Int}
    (h : CarveInv s chain e c0) (h1 : s.g.typeAt s.cell ≠ END) (h2 : s.g.typeAt s.cell ≠ END_TEMP) :
    ∃ d : Int, 0 ≤ d ∧ d ≤ 3 ∧ s.g.typeAt s.cell = OPEN ∧
      s.g.typeAt (s.cell + s.g.ptr4 d) = OPEN ∧
      s.g.inb (s.cell + s.g.ptr4 d * 2) ∧
      (backtrack s).cell = s.cell + s.g.ptr4 d * 2 ∧
      (backtrack s).cellsToEnd = s.cellsToEnd - 2 ∧
      (backtrack s).g.typeAt s.cell = s.cellsToEnd ∧
      (backtrack s).g.typeAt (s.cell + s.g.ptr4 d) = s.cellsToEnd - 1 ∧
      (backtrack s).k = s.k ∧ 12 ≤ s.cellsToEnd ∧ s.g.ptr4 d ≠ 0 ∧
      s.g.SameButTypes (backtrack s).g ∧
      ∀ i, i ≠ s.cell → i ≠ s.cell + s.g.ptr4 d → (backtrack s).g.typeAt i = s.g.typeAt i := by
  obtain ⟨p, q, rest, d, hch, hd0, hd3, hq, hmid, hcell, hopen, hb⟩ := backtrack_explicit h h1 h2
  have hs := h.frame.1
  have hck := h.chainOK
  rw [hch] at hck
  obtain ⟨-, hpinner, hpty, -, -, hck2⟩ := hck
  have hqm := chainOK_mem hck2 q (List.mem_cons_self _ _)
  have hpin := inner_inGrid hpinner
  have hqin := inner_inGrid hqm.2.1
  have hmin : s.g.InGrid (p.1 + off4X d) (p.2 + off4Y d) := inner_step4 hpinner d hd0 (by omega)
  have e1 : s.cell + s.g.ptr4 d = GETCELL s.g (p.1 + off4X d) (p.2 + off4Y d) := by
    rw [hcell]
    exact shaped_step4_one hs _ _ d hd0 hd3
  have e2 : s.cell + s.g.ptr4 d * 2 = GETCELL s.g q.1 q.2 := by
    rw [hcell, shaped_step4 hs _ _ d 2 hd0 hd3, hq]
  have hm1 : (midPos p q).1 = p.1 + off4X d := by rw [hmid]
  have hm2 : (midPos p q).2 = p.2 + off4Y d := by rw [hmid]
  have hne : s.cell ≠ s.cell + s.g.ptr4 d := by
    have := shaped_ptr4_ne hs d hd0 hd3
    omega
  have hc12 : 12 ≤ s.cellsToEnd := by
    have hO : OPEN = 10 := rfl
    obtain ⟨hcnt, hc0, -⟩ := h.counter
    rw [hch] at hcnt
    simp only [List.length_cons] at hcnt
    push_cast at hcnt
    omega
  refine ⟨d, hd0, hd3, ?_, ?_, ?_, ?_, ?_, ?_, ?_, ?_, hc12, shaped_ptr4_ne hs d hd0 hd3,
    ?_, ?_⟩
  · rw [hcell]; exact hpty
  · rw [e1]; exact hopen
  · rw [e2]; exact shaped_inb hs hqin
  · rw [hb, e2]
  · rw [hb]
    simp only
    omega
  · rw [hb, hm1, hm2, ← e1, ← hcell]
    simp only
    rw [typeAt_setType, if_neg (fun hc => hne hc.1), typeAt_setType, if_pos]
    exact ⟨rfl, by rw [hcell]; exact shaped_inb hs hpin⟩
  · rw [hb, hm1, hm2, ← e1, ← hcell]
    simp only
    rw [typeAt_setType, if_pos]
    refine ⟨rfl, ?_⟩
    have : s.g.inb (s.cell + s.g.ptr4 d) := by rw [e1]; exact shaped_inb hs hmin
    unfold GRID.inb at this ⊢
    rw [(sameButTypes_setType _ _ _).2.2.2.2.2.2.1]
    exact this
  · rw [hb]
  · rw [hb]
    exact sameButTypes_setType2 _ _ _ _ _
  · intro i hi1 hi2
    rw [hb, hm1, hm2, ← e1, ← hcell]
    simp only
    rw [typeAt_setType, if_neg (fun hc => hi2 hc.1), typeAt_setType, if_neg (fun hc => hi1 hc.1)]

/-- The invariant holds after every iteration of a `while (1)` loop that is
still running, and each iteration takes one off the measure. -/
theorem carveIter_inv (rs : Nat → Nat) {e : Int × Int} :
    ∀ (n : Nat) (s : Carve) (chain : List (Int × Int)) (c0 : Int), CarveInv s chain e c0 →
      carveRuns rs n s →
      ∃ chain' c0', CarveInv (carveIter rs n s) chain' e c0' ∧
        2 * (carveIter rs n s).g.countType UNVISITED + chain'.length + n ≤
          2 * s.g.countType UNVISITED + chain.length
  | 0, s, chain, c0, h, _ => ⟨chain, c0, h, by simp [carveIter]⟩
  | n + 1, s, chain, c0, h, hr => by
    obtain ⟨hflag, hrest⟩ := hr
    obtain ⟨chain1, c1, h1, hm1⟩ := (carveNext_inv rs h).2 hflag
    obtain ⟨chain2, c2, h2, hm2⟩ := carveIter_inv rs n _ chain1 c1 h1 hrest
    refine ⟨chain2, c2, h2, ?_⟩
    rw [carveIter]
    omega

/-- The `while (1)` loop leaves through its `break` after fewer iterations
than twice the number of unvisited cells plus the length of the path. -/
theorem carve_terminates (rs : Nat → Nat) {e : Int × Int} :
    ∀ (m : Nat) (s : Carve) (chain : List (Int × Int)) (c0 : Int), CarveInv s chain e c0 →
      2 * s.g.countType UNVISITED + chain.length ≤ m →
      ∃ n, n < m ∧ carveRuns rs n s ∧ (carveNext rs (carveIter rs n s)).2 = true
  | 0, s, chain, c0, h, hm => by
    have := chainOK_ne_nil h.chainOK
    cases chain with
    | nil => exact (this rfl).elim
    | cons a l =>
      simp only [List.length_cons] at hm
      omega
  | m + 1, s, chain, c0, h, hm => by
    by_cases hflag : (carveNext rs s).2 = true
    · exact ⟨0, by omega, trivial, hflag⟩
    · have hflag' : (carveNext rs s).2 = false := by simpa using hflag
      obtain ⟨chain1, c1, h1, hm1⟩ := (carveNext_inv rs h).2 hflag'
      obtain ⟨n, hn, hr, hd⟩ := carve_terminates rs m _ chain1 c1 h1 (by omega)
      exact ⟨n + 1, by omega, ⟨hflag', hr⟩, hd⟩

/-- With more fuel than the number of iterations before the `break`, the
function `carveLoop` returns the variables the last iteration leaves. -/
theorem carveLoop_of_runs (rs : Nat → Nat) :
    ∀ (n : Nat) (s : Carve) (fuel : Nat), carveRuns rs n s →
      (carveNext rs (carveIter rs n s)).2 = true → n < fuel →
      carveLoop rs fuel s = some (carveNext rs (carveIter rs n s)).1
  | 0, s, fuel, _, hd, hf => by
    obtain ⟨f, rfl⟩ : ∃ f, fuel = f + 1 := ⟨fuel - 1, by omega⟩
    rw [carveLoop_succ]
    simp only [carveIter] at hd ⊢
    rw [if_pos hd]
  | n + 1, s, fuel, hr, hd, hf => by
    obtain ⟨f, rfl⟩ : ∃ f, fuel = f + 1 := ⟨fuel - 1, by omega⟩
    rw [carveLoop_succ, if_neg (by rw [hr.1]; simp)]
    exact carveLoop_of_runs rs n _ f hr.2 hd (by omega)

theorem countType_le_length (g : GRID) (t : Int) : g.countType t ≤ g.cells.length := by
  unfold GRID.countType
  exact List.length_filter_le _ _

/-- The statements before the `while (1)` loop keep the layout of the grid. -/
theorem carveStart_layout (rs : Nat → Nat) (g : GRID) (k : Nat) (hf : g.Frame) :
    g.SameLayout (carveStart rs g k).g := by
  obtain ⟨l1, -⟩ := init_pattern g hf
  have hl2 : g.SameLayout { initOddRows (initEvenRows g) with bonus := 0 } :=
    sameLayout_trans l1 (sameLayout_bonus _ 0)
  have hf2 := hl2.sameFrame hf
  unfold carveStart
  simp only
  generalize ({ initOddRows (initEvenRows g) with bonus := 0 } : GRID) = g2 at hl2 hf2 ⊢
  obtain ⟨hsb, -⟩ := breakBorder_spec rs g2 k hf2.2.2.2.1 hf2.2.2.2.2
  exact sameLayout_trans hl2 (sameLayout_trans (sameLayout_of_sameButTypes hsb)
    (sameLayout_of_sameButTypes (sameButTypes_setType _ _ _)))

/-- An iteration that reaches an end marker and does not leave the loop starts
a new path. -/
theorem carveNext_startsPath (rs : Nat → Nat) {s : Carve} {chain : List (Int × Int)}
    {e : Int × Int} {c0 : Int} (h : CarveInv s chain e c0) (hflag : (carveTry rs s).2 = true)
    (hne : ¬ ((carveTry rs s).1.g.typeAt (carveTry rs s).1.cell ≠ END ∧
      (carveTry rs s).1.g.typeAt (carveTry rs s).1.cell ≠ END_TEMP))
    (hrun : (carveNext rs s).2 = false) : StartsPath rs s := by
  have hU : UNVISITED = 0 := rfl
  have hO : OPEN = 10 := rfl
  have hE : END = 4 := rfl
  have hT : END_TEMP = 3 := rfl
  obtain ⟨h1, eg, ec, en⟩ := (carveTry_inv rs h).1 hflag
  have hc := endReached_carved h1 hne
  have hg1 : endGrid (carveTry rs s).1 =
      if (carveTry rs s).1.g.typeAt (carveTry rs s).1.cell = END_TEMP then
        (carveTry rs s).1.g.setType (carveTry rs s).1.cell (carveTry rs s).1.cellsToEnd
      else (carveTry rs s).1.g := rfl
  rw [← hg1] at hc
  cases hu : unvisitedInGrid (endGrid (carveTry rs s).1)
      (endGrid (carveTry rs s).1).height.toNat 1 with
  | none =>
    rw [carveNext_done rs s hflag hne hu] at hrun
    simp at hrun
  | some t =>
    obtain ⟨cT, d, cN⟩ := t
    obtain ⟨x, y, hx1, hxo, hxw, hy1, hyo, hyh, hcT, htyT, hvn⟩ :=
      unvisitedInGrid_some _ _ 1 cT d cN (by omega) (by omega) hu
    have hsh := hc.frame.1
    have hinb : (endGrid (carveTry rs s).1).inb cT := by
      rw [hcT]
      exact shaped_inb hsh ⟨by omega, hxw, by omega, hyh⟩
    have hc0 := h1.counter
    have hlen : 1 ≤ (chain.length : Int) := by
      have := chainOK_ne_nil h1.chainOK
      cases chain with
      | nil => exact (this rfl).elim
      | cons a l => simp only [List.length_cons]; push_cast; omega
    rw [StartsPath, carveNext_path rs s hflag hne cT d cN hu]
    simp only
    refine ⟨?_, ?_, ?_⟩
    · rw [← eg, ← ec]
      by_contra hcon
      exact hne ⟨fun a => hcon (Or.inl a), fun a => hcon (Or.inr a)⟩
    · rw [← eg]
      rw [hg1] at htyT
      split at htyT
      · rw [typeAt_setType] at htyT
        split at htyT
        · omega
        · exact htyT
      · exact htyT
    · rw [typeAt_setType, if_pos]
      refine ⟨rfl, ?_⟩
      unfold GRID.inb at hinb ⊢
      rw [(sameButTypes_setType _ _ _).2.2.2.2.2.2.1]
      exact hinb

/-- An iteration of the `while (1)` loop that does not leave the loop carves an
unvisited cell, retreats one step along the chain of `OPEN` cells, or starts
a new path. -/
theorem carveNext_kind (rs : Nat → Nat) {s : Carve} {chain : List (Int × Int)} {e : Int × Int}
    {c0 : Int} (h : CarveInv s chain e c0) (hrun : (carveNext rs s).2 = false) :
    CarvesCell rs s ∨ Retreats rs s ∨ StartsPath rs s := by
  have hU : UNVISITED = 0 := rfl
  have hO : OPEN = 10 := rfl
  have hE : END = 4 := rfl
  have hT : END_TEMP = 3 := rfl
  have hS : START = 2 := rfl
  have hs := h.frame.1
  obtain ⟨htrue, hfalse⟩ := carveTry_inv rs h
  by_cases hflag : (carveTry rs s).2 = true
  · obtain ⟨h1, eg, ec, en⟩ := htrue hflag
    by_cases hne : (carveTry rs s).1.g.typeAt (carveTry rs s).1.cell ≠ END ∧
        (carveTry rs s).1.g.typeAt (carveTry rs s).1.cell ≠ END_TEMP
    · right; left
      obtain ⟨d, hd0, hd3, f1, f2, -, f4, -, -, -, -⟩ := backtrack_facts h1 hne.1 hne.2
      rw [eg, ec] at f1 f2 f4
      exact ⟨d, hd0, hd3, f1, f2, by rw [carveNext_back rs s hflag hne]; exact f4⟩
    · right; right
      exact carveNext_startsPath rs h hflag hne hrun
  · left
    have hflag' : (carveTry rs s).2 = false := by simpa using hflag
    obtain ⟨⟨p, hinv⟩, d, hd0, hd3, hcell, hcnt, hinb, hty, hret⟩ := hfalse hflag'
    obtain ⟨q, hq, hcq⟩ := h.cursor
    have hqm := chainOK_mem h.chainOK q (List.mem_of_mem_head? hq)
    have hmid : s.g.inb (s.cell + s.g.ptr4 d) := by
      rw [hcq, shaped_step4_one hs _ _ d hd0 hd3]
      exact shaped_inb hs (inner_step4 hqm.2.1 d hd0 (by omega))
    have hmid' : (s.g.setType (s.cell + s.g.ptr4 d * 2) OPEN).inb (s.cell + s.g.ptr4 d) := by
      unfold GRID.inb at hmid ⊢
      rw [(sameButTypes_setType _ _ _).2.2.2.2.2.2.1]
      exact hmid
    have t1 : ((s.g.setType (s.cell + s.g.ptr4 d * 2) OPEN).setType (s.cell + s.g.ptr4 d)
        OPEN).typeAt (s.cell + s.g.ptr4 d * 2) = OPEN := by
      rw [typeAt_setType]
      split
      · rfl
      · rw [typeAt_setType, if_pos ⟨rfl, hinb⟩]
    have t2 : ((s.g.setType (s.cell + s.g.ptr4 d * 2) OPEN).setType (s.cell + s.g.ptr4 d)
        OPEN).typeAt (s.cell + s.g.ptr4 d) = OPEN := by
      rw [typeAt_setType, if_pos ⟨rfl, hmid'⟩]
    refine ⟨d, hd0, hd3, hty, ?_, ?_, ?_⟩
    · rw [carveNext_forward rs s hflag']
      exact hcell
    · rw [carveNext_forward rs s hflag']
      rcases hret.2 (s.cell + s.g.ptr4 d * 2) with c | c
      · rw [c, t1]
      · rw [t1] at c; omega
    · rw [carveNext_forward rs s hflag']
      rcases hret.2 (s.cell + s.g.ptr4 d) with c | c
      · rw [c, t2]
      · rw [t2] at c; omega

/-! ## The scan for a cell to start a new path from -/

theorem visitedNeighbor_none (g : GRID) (cellT : Int) :
    ∀ (n : Nat) (d0 : Int), d0 + n = 4 → visitedNeighbor g cellT n d0 = none →
      ∀ d : Int, d0 ≤ d → d ≤ 3 →
        ¬ (g.inBounds ((g.cellAt cellT).posX + off4X d * 2) ((g.cellAt cellT).posY + off4Y d * 2) ∧
          g.typeAt (GETCELL g ((g.cellAt cellT).posX + off4X d * 2)
            ((g.cellAt cellT).posY + off4Y d * 2)) > OPEN)
  | 0, d0, h4, _, d, hd, hd3 => by omega
  | n + 1, d0, h4, h, d, hd, hd3 => by
    rw [visitedNeighbor] at h
    split at h
    · simp at h
    · rename_i hc
      by_cases hdd : d = d0
      · rw [hdd]; exact hc
      · exact visitedNeighbor_none g cellT n (d0 + 1) (by omega) h d (by omega) hd3

theorem unvisitedInRow_none (g : GRID) (y : Int) :
    ∀ (fuel : Nat) (x0 : Int), g.width - x0 ≤ fuel → unvisitedInRow g y fuel x0 = none →
      ∀ x : Int, x0 ≤ x → x < g.width → x % 2 = x0 % 2 →
        g.typeAt (GETCELL g x y) = UNVISITED → visitedNeighbor g (GETCELL g x y) 4 0 = none
  | 0, x0, hf, _, x, hx, hxw, _, _ => by omega
  | fuel + 1, x0, hf, h, x, hx, hxw, hpar, hty => by
    rw [unvisitedInRow] at h
    rw [if_pos (by omega)] at h
    simp only at h
    have hrec : unvisitedInRow g y fuel (x0 + 2) = none → x ≠ x0 →
        visitedNeighbor g (GETCELL g x y) 4 0 = none := fun h' hne =>
      unvisitedInRow_none g y fuel (x0 + 2) (by push_cast at hf; omega) h' x (by omega) hxw
        (by omega) hty
    split at h
    · rename_i hnot
      exact hrec h (by rintro rfl; exact hnot hty)
    · split at h
      · simp at h
      · rename_i hvn
        by_cases hxx : x = x0
        · rw [hxx]; exact hvn
        · exact hrec h hxx

theorem unvisitedInGrid_none (g : GRID) :
    ∀ (fuel : Nat) (y0 : Int), g.height - y0 ≤ fuel → unvisitedInGrid g fuel y0 = none →
      ∀ x y : Int, 1 ≤ x → x < g.width → x % 2 = 1 → y0 ≤ y → y < g.height → y % 2 = y0 % 2 →
        g.typeAt (GETCELL g x y) = UNVISITED → visitedNeighbor g (GETCELL g x y) 4 0 = none
  | 0, y0, hf, _, x, y, _, _, _, hy, hyh, _, _ => by omega
  | fuel + 1, y0, hf, h, x, y, hx1, hxw, hxo, hy, hyh, hpar, hty => by
    rw [unvisitedInGrid] at h
    rw [if_pos (by omega)] at h
    split at h
    · simp at h
    · rename_i hrow
      by_cases hyy : y = y0
      · rw [hyy] at hty ⊢
        exact unvisitedInRow_none g y0 g.width.toNat 1 (by omega) hrow x hx1 hxw (by omega) hty
      · exact unvisitedInGrid_none g fuel (y0 + 2) (by push_cast at hf; omega) h x y hx1 hxw hxo
          (by omega) hyh (by omega) hty

/-- The scan "Look for unvisited cells" finds no cell exactly when no unvisited
cell at an odd position has, two cells away in one of the four directions, a
cell of the grid with a type above `OPEN`. -/
theorem unvisitedInGrid_none_iff {g : GRID} (hs : g.Shaped) :
    unvisitedInGrid g g.height.toNat 1 = none ↔
      ∀ x y : Int, g.InGrid x y → x % 2 = 1 → y % 2 = 1 → g.ty x y = UNVISITED →
        ∀ d : Int, 0 ≤ d → d ≤ 3 → g.InGrid (x + off4X d * 2) (y + off4Y d * 2) →
          g.ty (x + off4X d * 2) (y + off4Y d * 2) ≤ OPEN := by
  constructor
  · intro h x y hin hxo hyo hty d hd0 hd3 hin2
    have hx0 := hin.1
    have hy0 := hin.2.2.1
    have hvn := unvisitedInGrid_none g g.height.toNat 1 (by omega) h x y (by omega) hin.2.1 hxo
      (by omega) hin.2.2.2 (by omega) hty
    have := visitedNeighbor_none g (GETCELL g x y) 4 0 (by omega) hvn d hd0 hd3
    have hpos := shaped_pos hs hin
    rw [hpos.1, hpos.2] at this
    by_contra hgt
    apply this
    refine ⟨?_, by unfold GRID.ty at hgt; omega⟩
    unfold GRID.inBounds
    unfold GRID.InGrid at hin2
    omega
  · intro h
    cases hu : unvisitedInGrid g g.height.toNat 1 with
    | none => rfl
    | some t =>
      exfalso
      obtain ⟨cT, d, cN⟩ := t
      obtain ⟨x, y, hx1, hxo, hxw, hy1, hyo, hyh, hcT, htyT, hvn⟩ :=
        unvisitedInGrid_some _ _ 1 cT d cN (by omega) (by omega) hu
      obtain ⟨hd0, hd3, hb, hcN, hgt⟩ := visitedNeighbor_some _ cT 4 0 d cN (by omega) (by omega) hvn
      have hin : g.InGrid x y := ⟨by omega, hxw, by omega, hyh⟩
      have hpos := shaped_pos hs hin
      rw [hcT, hpos.1, hpos.2] at hb
      rw [hcN, hcT, hpos.1, hpos.2] at hgt
      have := h x y hin hxo hyo (by rw [hcT] at htyT; exact htyT) d hd0 hd3 (by
        unfold GRID.inBounds at hb
        unfold GRID.InGrid
        omega)
      unfold GRID.ty at this
      omega

/-! ## The loops of a room -/

/-- A loop `for (i = a; i != a + 3 * step; i += step)` with a step other than 0
makes three iterations: more fuel than 3 changes nothing. -/
theorem forNe_three {σ : Type} (body : σ → Int → σ) (a step : Int) (hs : step ≠ 0) (extra : Nat)
    (s : σ) :
    forNe (extra + 3) a (a + 3 * step) step body s = forNe 3 a (a + 3 * step) step body s := by
  have e : ∀ (n : Nat) (t : σ), forNe n (a + step + step + step) (a + 3 * step) step body t = t := by
    intro n t
    cases n with
    | zero => rfl
    | succ m =>
      rw [forNe, if_neg]
      intro hc
      exact hc (by ring)
  have h1 : a ≠ a + 3 * step := by omega
  have h2 : a + step ≠ a + 3 * step := by omega
  have h3 : a + step + step ≠ a + 3 * step := by omega
  rw [forNe, if_pos h1, forNe, if_pos h2, forNe, if_pos h3, e,
    forNe, if_pos h1, forNe, if_pos h2, forNe, if_pos h3, e]

/-- The steps of the two loops that fill a room are 1 or -1, and the loops end
three steps from the position of the room. -/
theorem room_steps (px d t : Int) (h0 : 0 ≤ d) (h3 : d ≤ 3) (ht : t = 1 ∨ t = 3) :
    (Int.tdiv (px + (off4X d + off4X (Int.tmod (d + t) 4)) * 2 - px)
        (cabs (px + (off4X d + off4X (Int.tmod (d + t) 4)) * 2 - px)) =
          off4X d + off4X (Int.tmod (d + t) 4) ∧
      off4X d + off4X (Int.tmod (d + t) 4) ≠ 0) ∧
    (Int.tdiv (px + (off4Y d + off4Y (Int.tmod (d + t) 4)) * 2 - px)
        (cabs (px + (off4Y d + off4Y (Int.tmod (d + t) 4)) * 2 - px)) =
          off4Y d + off4Y (Int.tmod (d + t) 4) ∧
      off4Y d + off4Y (Int.tmod (d + t) 4) ≠ 0) := by
  obtain ⟨hx, hy⟩ := turn_perpendicular d t h0 h3 ht
  constructor
  · rw [add_sub_cancel_left]
    exact ⟨tdiv_cabs_sign _ (by omega), by omega⟩
  · rw [add_sub_cancel_left]
    exact ⟨tdiv_cabs_sign _ (by omega), by omega⟩

theorem carveRuns_prefix (rs : Nat → Nat) :
    ∀ (n m : Nat) (s : Carve), carveRuns rs n s → m < n →
      carveRuns rs m s ∧ (carveNext rs (carveIter rs m s)).2 = false
  | 0, m, s, _, hm => by omega
  | n + 1, 0, s, hr, _ => ⟨trivial, hr.1⟩
  | n + 1, m + 1, s, hr, hm => by
    obtain ⟨h1, h2⟩ := carveRuns_prefix rs n m _ hr.2 (by omega)
    exact ⟨⟨hr.1, h1⟩, h2⟩

/-- The invariant at the head of every iteration of the `while (1)` loop of a
generation attempt on a grid of `GridMaze`. -/
theorem carveIter_start (rs : Nat → Nat) (g : GRID) (k n : Nat) (hf : g.Frame)
    (hrun : carveRuns rs n (carveStart rs g k)) :
    ∃ chain e c0, CarveInv (carveIter rs n (carveStart rs g k)) chain e c0 := by
  obtain ⟨e, he⟩ := carveStart_inv rs g k hf
  obtain ⟨chain, c0, h, -⟩ := carveIter_inv rs n _ [e] OPEN he hrun
  exact ⟨chain, e, c0, h⟩

/-- An iteration that takes the branch "not an end yet", in terms of the
variables `s` it starts with: the counter `c` is at least 12, `_cell` and the
cell beside it in a direction `d` are `OPEN`; afterwards they hold `c` and
`c - 1`, the other cells are as before, `_cell` is two cells further in the
direction `d` and the counter is `c - 2`. -/
theorem carveNext_back_facts (rs : Nat → Nat) {s : Carve} {chain : List (Int × Int)}
    {e : Int × Int} {c0 : Int} (h : CarveInv s chain e c0) (hflag : (carveTry rs s).2 = true)
    (h1 : s.g.typeAt s.cell ≠ END) (h2 : s.g.typeAt s.cell ≠ END_TEMP) :
    ∃ d : Int, 0 ≤ d ∧ d ≤ 3 ∧ (carveNext rs s).2 = false ∧
      12 ≤ s.cellsToEnd ∧ s.g.ptr4 d ≠ 0 ∧
      s.g.typeAt s.cell = OPEN ∧ s.g.typeAt (s.cell + s.g.ptr4 d) = OPEN ∧
      (carveNext rs s).1.g.typeAt s.cell = s.cellsToEnd ∧
      (carveNext rs s).1.g.typeAt (s.cell + s.g.ptr4 d) = s.cellsToEnd - 1 ∧
      (carveNext rs s).1.cell = s.cell + s.g.ptr4 d * 2 ∧
      (carveNext rs s).1.cellsToEnd = s.cellsToEnd - 2 ∧
      (∀ d', (carveNext rs s).1.g.ptr4 d' = s.g.ptr4 d') ∧
      ∀ i, i ≠ s.cell → i ≠ s.cell + s.g.ptr4 d →
        (carveNext rs s).1.g.typeAt i = s.g.typeAt i := by
  obtain ⟨hinv, eg, ec, en⟩ := (carveTry_inv rs h).1 hflag
  have hne : (carveTry rs s).1.g.typeAt (carveTry rs s).1.cell ≠ END ∧
      (carveTry rs s).1.g.typeAt (carveTry rs s).1.cell ≠ END_TEMP := by
    rw [eg, ec]
    exact ⟨h1, h2⟩
  obtain ⟨d, hd0, hd3, f1, f2, -, f4, f5, f6, f7, -, f9, f10, f11, f12⟩ :=
    backtrack_facts hinv hne.1 hne.2
  simp only [eg, ec, en] at f1 f2 f4 f5 f6 f7 f9 f10 f11 f12
  rw [carveNext_back rs s hflag hne]
  exact ⟨d, hd0, hd3, rfl, f9, f10, f1, f2, f6, f7, f4, f5,
    fun d' => f11.ptr4Eq d', f12⟩

/-! ## The claims about the primary carve -/

/-- C12: one generation attempt of `GridMaze` on a grid with odd dimensions of
at least 7 terminates.  The `while (1)` loop leaves through its `break` after
`n` iterations, with `n` at most twice the number of cells; each of the `n`
iterations before carves an unvisited cell, retreats one step along the chain
of `OPEN` cells or starts a new path; and with more fuel than `n` the attempt
returns the result of the passes that follow the loop. -/
theorem C12_attempt_terminates (rs : Nat → Nat) (g : GRID) (k : Nat) (hf : g.Frame) :
    ∃ n : Nat, n ≤ 2 * g.cells.length ∧ carveRuns rs n (carveStart rs g k) ∧
      (carveNext rs (carveIter rs n (carveStart rs g k))).2 = true ∧
      (∀ m, m < n → CarvesCell rs (carveIter rs m (carveStart rs g k)) ∨
        Retreats rs (carveIter rs m (carveStart rs g k)) ∨
        StartsPath rs (carveIter rs m (carveStart rs g k))) ∧
      ∀ fuel, n < fuel → mazeAttempt rs fuel g k =
        some (finishMaze rs (carveNext rs (carveIter rs n (carveStart rs g k))).1.g
          (carveNext rs (carveIter rs n (carveStart rs g k))).1.k) := by
  obtain ⟨e, he⟩ := carveStart_inv rs g k hf
  obtain ⟨n, hn, hrun, hdone⟩ := carve_terminates rs _ _ [e] OPEN he (le_refl _)
  have hlen : (carveStart rs g k).g.cells.length = g.cells.length :=
    (carveStart_layout rs g k hf).2.2.2.2.2.1
  have hcount := countType_le_length (carveStart rs g k).g UNVISITED
  refine ⟨n, ?_, hrun, hdone, ?_, ?_⟩
  · simp only [List.length_singleton] at hn
    omega
  · intro m hm
    obtain ⟨hr, hflag⟩ := carveRuns_prefix rs n m _ hrun hm
    obtain ⟨chain, c0, h, -⟩ := carveIter_inv rs m _ [e] OPEN he hr
    exact carveNext_kind rs h hflag
  · intro fuel hfuel
    unfold mazeAttempt
    rw [carveLoop_of_runs rs n _ fuel hrun hdone hfuel]

/-- The attempt on the grid `GridCreate(7, 7)` terminates, whatever the draws. -/
theorem C12_attempt_terminates_witness :
    ∃ n : Nat, n ≤ 2 * (GridCreate 7 7 (fun _ => 0)).cells.length ∧
      carveRuns countingDraws n (carveStart countingDraws (GridCreate 7 7 (fun _ => 0)) 0) ∧
      (carveNext countingDraws (carveIter countingDraws n
        (carveStart countingDraws (GridCreate 7 7 (fun _ => 0)) 0))).2 = true ∧
      (∀ m, m < n →
        CarvesCell countingDraws (carveIter countingDraws m
          (carveStart countingDraws (GridCreate 7 7 (fun _ => 0)) 0)) ∨
        Retreats countingDraws (carveIter countingDraws m
          (carveStart countingDraws (GridCreate 7 7 (fun _ => 0)) 0)) ∨
        StartsPath countingDraws (carveIter countingDraws m
          (carveStart countingDraws (GridCreate 7 7 (fun _ => 0)) 0))) ∧
      ∀ fuel, n < fuel → mazeAttempt countingDraws fuel (GridCreate 7 7 (fun _ => 0)) 0 =
        some (finishMaze countingDraws (carveNext countingDraws (carveIter countingDraws n
            (carveStart countingDraws (GridCreate 7 7 (fun _ => 0)) 0))).1.g
          (carveNext countingDraws (carveIter countingDraws n
            (carveStart countingDraws (GridCreate 7 7 (fun _ => 0)) 0))).1.k) :=
  C12_attempt_terminates countingDraws (GridCreate 7 7 (fun _ => 0)) 0 (GridCreate_frame 7 7 _)

/-- The run on the grid `GridCreate(7, 7)` with the draws `countingDraws`: the
`while (1)` loop makes four iterations and leaves in the fifth. -/
theorem sampleStart_runs :
    carveRuns countingDraws 4 sampleStart ∧
      (carveNext countingDraws (carveIter countingDraws 4 sampleStart)).2 = true := by
  decide!

/-- C14: whenever the `while (1)` loop of a generation attempt takes the branch
"not an end yet" (the loop over `_attempts` ended with `_attempts == 4` and
`_cell` is neither `END` nor `END_TEMP`), one of the four cells beside `_cell`
has the type `OPEN`: the loop over `_dir2` finds it in a direction `d`, and
`_cell` moves to the cell two steps away in that direction, a cell of the
grid. -/
theorem C14_backtrack_finds_open (rs : Nat → Nat) (g : GRID) (k n : Nat) (s t : Carve)
    (hf : g.Frame) (hrun : carveRuns rs n (carveStart rs g k))
    (hs : s = carveIter rs n (carveStart rs g k)) (ht : t = (carveTry rs s).1)
    (hfour : (carveTry rs s).2 = true)
    (hne : t.g.typeAt t.cell ≠ END ∧ t.g.typeAt t.cell ≠ END_TEMP) :
    ∃ d : Int, 0 ≤ d ∧ d ≤ 3 ∧ t.g.typeAt (t.cell + t.g.ptr4 d) = OPEN ∧
      t.g.inb (t.cell + t.g.ptr4 d * 2) ∧
      carveNext rs s = (backtrack t, false) ∧
      (backtrack t).cell = t.cell + t.g.ptr4 d * 2 := by
  subst hs ht
  obtain ⟨chain, e, c0, h⟩ := carveIter_start rs g k n hf hrun
  obtain ⟨h1, -, -, -⟩ := (carveTry_inv rs h).1 hfour
  obtain ⟨d, hd0, hd3, -, f2, f3, f4, -, -, -, -⟩ := backtrack_facts h1 hne.1 hne.2
  exact ⟨d, hd0, hd3, f2, f3, carveNext_back rs _ hfour hne, f4⟩

/-- The second iteration of the run on `GridCreate(7, 7)` with the draws
`countingDraws` takes the branch "not an end yet". -/
theorem C14_backtrack_finds_open_witness :
    ∃ d : Int, 0 ≤ d ∧ d ≤ 3 ∧
      (carveTry countingDraws (carveIter countingDraws 1 sampleStart)).1.g.typeAt
        ((carveTry countingDraws (carveIter countingDraws 1 sampleStart)).1.cell +
          (carveTry countingDraws (carveIter countingDraws 1 sampleStart)).1.g.ptr4 d) = OPEN ∧
      (carveTry countingDraws (carveIter countingDraws 1 sampleStart)).1.g.inb
        ((carveTry countingDraws (carveIter countingDraws 1 sampleStart)).1.cell +
          (carveTry countingDraws (carveIter countingDraws 1 sampleStart)).1.g.ptr4 d * 2) ∧
      carveNext countingDraws (carveIter countingDraws 1 sampleStart) =
        (backtrack (carveTry countingDraws (carveIter countingDraws 1 sampleStart)).1, false) ∧
      (backtrack (carveTry countingDraws (carveIter countingDraws 1 sampleStart)).1).cell =
        (carveTry countingDraws (carveIter countingDraws 1 sampleStart)).1.cell +
          (carveTry countingDraws (carveIter countingDraws 1 sampleStart)).1.g.ptr4 d * 2 :=
  C14_backtrack_finds_open countingDraws (GridCreate 7 7 (fun _ => 0)) 0 1
    (carveIter countingDraws 1 sampleStart)
    (carveTry countingDraws (carveIter countingDraws 1 sampleStart)).1
    (GridCreate_frame 7 7 _) (by decide!) rfl rfl (by decide!) (by decide!)

/-- The first two iterations of the sample run, evaluated: the step takes the
counter from 10 to 12 and `_cell` from the cell 24 to the cell 22; the way
back writes 12 into the cell 22 and 11 into the cell 23, and leaves the
counter at 10 and `_cell` at 24. -/
theorem sampleStart_steps :
    sampleStart.cell = 24 ∧ sampleStart.cellsToEnd = 10 ∧
    (carveTry countingDraws sampleStart).2 = false ∧
    (carveIter countingDraws 1 sampleStart).cell = 22 ∧
    (carveIter countingDraws 1 sampleStart).cellsToEnd = 12 ∧
    (carveTry countingDraws (carveIter countingDraws 1 sampleStart)).2 = true ∧
    (carveIter countingDraws 2 sampleStart).cell = 24 ∧
    (carveIter countingDraws 2 sampleStart).cellsToEnd = 10 ∧
    (carveIter countingDraws 2 sampleStart).g.typeAt 22 = 12 ∧
    (carveIter countingDraws 2 sampleStart).g.typeAt 23 = 11 := by
  decide!

/-- C15, as stated, fails on the grid `GridCreate(7, 7)` with the draws
`countingDraws`: the fifth iteration of the `while (1)` loop reaches the
ending cell and leaves the loop, so that no new path is started, while the
cell (5, 5), at an odd position, is unvisited; it is still unvisited in the
grid `GridMaze` returns. -/
theorem C15_counterexample :
    carveRuns countingDraws 4 sampleStart ∧
    (carveTry countingDraws (carveIter countingDraws 4 sampleStart)).2 = true ∧
    (carveIter countingDraws 4 sampleStart).g.typeAt
      (carveIter countingDraws 4 sampleStart).cell = END ∧
    (carveIter countingDraws 4 sampleStart).g.ty 5 5 = UNVISITED ∧
    (carveNext countingDraws (carveIter countingDraws 4 sampleStart)).2 = true ∧
    (carveNext countingDraws (carveIter countingDraws 4 sampleStart)).1.g.ty 5 5 = UNVISITED ∧
    GridMaze countingDraws 100 (GridCreate 7 7 (fun _ => 0)) 0 = some sampleMaze ∧
    sampleMaze.1.ty 5 5 = UNVISITED := by
  decide!

/-! ## The neighbour counts and the passes after them -/

theorem navKept_refl (g : GRID) : g.NavKept g :=
  ⟨sameLayout_refl g, fun _ => ⟨Iff.rfl, rfl⟩⟩

theorem navKept_trans {g g' g'' : GRID} (h1 : g.NavKept g') (h2 : g'.NavKept g'') :
    g.NavKept g'' :=
  ⟨sameLayout_trans h1.1 h2.1, fun i =>
    ⟨(h2.2 i).1.trans (h1.2 i).1, (h2.2 i).2.trans (h1.2 i).2⟩⟩

/-- A write of a navigable type to a navigable cell keeps the navigable cells
and the counts. -/
theorem navKept_setType (g : GRID) (i v : Int) (hold : START ≤ g.typeAt i) (hv : START ≤ v) :
    g.NavKept (g.setType i v) := by
  have hsb := sameButTypes_setType g i v
  refine ⟨sameLayout_of_sameButTypes hsb, fun j => ⟨?_, hsb.countEq j⟩⟩
  rw [typeAt_setType]
  split
  · rename_i hc
    rw [hc.1]
    exact ⟨fun _ => hold, fun _ => hv⟩
  · exact Iff.rfl

theorem navKept_bonus (g : GRID) (b : Int) : g.NavKept { g with bonus := b } :=
  ⟨sameLayout_bonus g b, fun _ => ⟨Iff.rfl, rfl⟩⟩

theorem roomBorders_navKept (g : GRID) : g.NavKept (roomBorders g) := by
  have hO : OPEN = 10 := rfl
  have hS : START = 2 := rfl
  have hRB : ROOMBORDER = 6 := rfl
  unfold roomBorders
  refine forLoop_inv _ (fun (s : GRID) => g.NavKept s) _ _ _ _ (by omega) ?_ (navKept_refl g)
  intro s y _ _ _ hs
  refine forLoop_inv _ (fun (s : GRID) => g.NavKept s) _ _ _ _ (by omega) ?_ hs
  intro t x _ _ _ ht
  simp only
  split
  · exact ht
  · split
    · exact navKept_trans ht (navKept_setType _ _ _ (by omega) (by omega))
    · exact ht

theorem roomDoors_navKept (g : GRID) : g.NavKept (roomDoors g) := by
  have hO : OPEN = 10 := rfl
  have hS : START = 2 := rfl
  have hD : DOOR = 7 := rfl
  unfold roomDoors
  refine forLoop_inv _ (fun (s : GRID) => g.NavKept s) _ _ _ _ (by omega) ?_ (navKept_refl g)
  intro s y _ _ _ hs
  refine forLoop_inv _ (fun (s : GRID) => g.NavKept s) _ _ _ _ (by omega) ?_ hs
  intro t x _ _ _ ht
  simp only
  split
  · exact ht
  · split
    · exact navKept_trans ht (navKept_setType _ _ _ (by omega) (by omega))
    · exact ht

/-- The cheapest cell of "doors on corridor crosses" is the cell itself or a
cell of type `OPEN` or more. -/
theorem crossScan_open (g : GRID) (cell : Int) :
    (crossScan g cell).2 = cell ∨ OPEN ≤ g.typeAt (crossScan g cell).2 := by
  unfold crossScan
  refine forLoop_inv _ (fun (r : Int × Int) => r.2 = cell ∨ OPEN ≤ g.typeAt r.2) _ _ _ _
    (by omega) ?_ (Or.inl rfl)
  intro r d _ _ _ hr
  simp only
  split
  · exact hr
  · rename_i hge
    split
    · exact hr
    · right
      show OPEN ≤ g.typeAt (cell + g.ptr4 d)
      omega

theorem crossDoors_navKept (g : GRID) : g.NavKept (crossDoors g) := by
  have hO : OPEN = 10 := rfl
  have hS : START = 2 := rfl
  have hD : DOOR = 7 := rfl
  rw [crossDoors_eq]
  refine forLoop_inv _ (fun (s : GRID) => g.NavKept s) _ _ _ _ (by omega) ?_ (navKept_refl g)
  intro s y _ _ _ hs
  refine forLoop_inv _ (fun (s : GRID) => g.NavKept s) _ _ _ _ (by omega) ?_ hs
  intro t x _ _ _ ht
  unfold crossCell
  simp only
  split
  · exact ht
  · split
    · rename_i hne
      split
      · rcases crossScan_open t (GETCELL t x y) with c | c
        · exact (hne c.symm).elim
        · exact navKept_trans ht (navKept_setType _ _ _ (by omega) (by omega))
      · exact ht
    · exact ht

theorem corridorTreasures_navKept (rs : Nat → Nat) (g : GRID) (k : Nat) :
    g.NavKept (corridorTreasures rs (g, k)).1 := by
  have hO : OPEN = 10 := rfl
  have hS : START = 2 := rfl
  have hB : BONUS = 8 := rfl
  unfold corridorTreasures
  refine forLoop_inv _ (fun (s : GRID × Nat) => g.NavKept s.1) _ _ _ _ (by omega) ?_
    (navKept_refl g)
  intro s y _ _ _ hs
  refine forLoop_inv _ (fun (s : GRID × Nat) => g.NavKept s.1) _ _ _ _ (by omega) ?_ hs
  intro t x _ _ _ ht
  simp only
  split
  · exact ht
  · split
    · exact ht
    · split
      · exact ht
      · exact navKept_trans ht (navKept_trans (navKept_setType _ _ _ (by omega) (by omega))
          (navKept_bonus _ _))

theorem roomTreasures_navKept (rs : Nat → Nat) (g : GRID) (k : Nat) :
    g.NavKept (roomTreasures rs (g, k)).1 := by
  have hRC : ROOMCENTER = 5 := rfl
  have hS : START = 2 := rfl
  have hB : BONUS = 8 := rfl
  unfold roomTreasures
  refine forLoop_inv _ (fun (s : GRID × Nat) => g.NavKept s.1) _ _ _ _ (by omega) ?_
    (navKept_refl g)
  intro s y _ _ _ hs
  refine forLoop_inv _ (fun (s : GRID × Nat) => g.NavKept s.1) _ _ _ _ (by omega) ?_ hs
  intro t x _ _ _ ht
  simp only
  split
  · exact ht
  · split
    · exact ht
    · split
      · exact ht
      · exact navKept_trans ht (navKept_trans (navKept_setType _ _ _ (by omega) (by omega))
          (navKept_bonus _ _))

/-- The passes after the count change neither which cells are navigable nor
the counts. -/
theorem laterPasses_navKept (rs : Nat → Nat) (g : GRID) (k : Nat) :
    g.NavKept (laterPasses rs (g, k)).1 := by
  unfold laterPasses
  exact navKept_trans (roomBorders_navKept g) (navKept_trans (roomDoors_navKept _)
    (navKept_trans (crossDoors_navKept _) (navKept_trans (corridorTreasures_navKept rs _ _)
      (roomTreasures_navKept rs _ _))))

theorem finishMaze_later (rs : Nat → Nat) (g : GRID) (k : Nat) :
    (finishMaze rs g k).1 =
      (laterPasses rs (countNeighbors ((removeIsolated (connectNear rs (g, k)).1).setType
        (lookForStart (removeIsolated (connectNear rs (g, k)).1)) START),
        (connectNear rs (g, k)).2)).1 := rfl

/-! ## The count of "count neighbors and identify room centers" -/

/-- The number of navigable cells around `(x, y)`, counted over the directions. -/
theorem navCount_eq (g : GRID) (x y : Int) :
    g.navCount x y =
      ((List.range 8).filter (fun (d : Nat) => START ≤ g.ty (x + off8X d) (y + off8Y d))).length := by
  unfold GRID.navCount GRID.around8
  rw [List.filter_map, List.length_map]
  rfl

theorem navCount_congr {g s : GRID} (hw : s.width = g.width)
    (h : ∀ j, START ≤ s.typeAt j ↔ START ≤ g.typeAt j) (x y : Int) :
    s.navCount x y = g.navCount x y := by
  rw [navCount_eq, navCount_eq]
  congr 1
  apply List.filter_congr
  intro d _
  have e : GETCELL s (x + off8X d) (y + off8Y d) = GETCELL g (x + off8X d) (y + off8Y d) := by
    simp [GETCELL, hw]
  unfold GRID.ty
  rw [e]
  simp only [decide_eq_decide]
  exact h _

/-- The loop that counts the navigable neighbours of a cell adds their number
to the count of the cell, and changes nothing else. -/
theorem countDirs_exact (g1 : GRID) (cell : Int) (hinb : g1.inb cell) :
    g1.SameLayout (forLoop 0 8 1 (fun (g : GRID) (_dir : Int) =>
        if g.typeAt (cell + g.ptr8 _dir) < START then g
        else g.modifyCell cell (fun c => { c with neighborCount := c.neighborCount + 1 })) g1) ∧
    (∀ j, (forLoop 0 8 1 (fun (g : GRID) (_dir : Int) =>
        if g.typeAt (cell + g.ptr8 _dir) < START then g
        else g.modifyCell cell (fun c => { c with neighborCount := c.neighborCount + 1 }))
          g1).typeAt j = g1.typeAt j) ∧
    (∀ j, j ≠ cell → (forLoop 0 8 1 (fun (g : GRID) (_dir : Int) =>
        if g.typeAt (cell + g.ptr8 _dir) < START then g
        else g.modifyCell cell (fun c => { c with neighborCount := c.neighborCount + 1 }))
          g1).cellAt j = g1.cellAt j) ∧
    ((forLoop 0 8 1 (fun (g : GRID) (_dir : Int) =>
        if g.typeAt (cell + g.ptr8 _dir) < START then g
        else g.modifyCell cell (fun c => { c with neighborCount := c.neighborCount + 1 }))
          g1).cellAt cell).neighborCount = (g1.cellAt cell).neighborCount +
      (((List.range 8).filter
        (fun (d : Nat) => START ≤ g1.typeAt (cell + g1.ptr8 d))).length : Int) := by
  have key := forLoop_ind (fun (g : GRID) (_dir : Int) =>
        if g.typeAt (cell + g.ptr8 _dir) < START then g
        else g.modifyCell cell (fun c => { c with neighborCount := c.neighborCount + 1 }))
    (fun i s => g1.SameLayout s ∧ (∀ j, s.typeAt j = g1.typeAt j) ∧
      (∀ j, j ≠ cell → s.cellAt j = g1.cellAt j) ∧
      (s.cellAt cell).neighborCount = (g1.cellAt cell).neighborCount +
        (((List.range i.toNat).filter
          (fun (d : Nat) => START ≤ g1.typeAt (cell + g1.ptr8 d))).length : Int))
    0 8 g1 (by omega)
    ⟨sameLayout_refl g1, fun _ => rfl, fun _ _ => rfl, by simp⟩ ?_
  · exact key
  · intro i s hi0 hi8 ⟨p2, p3, p4, p5⟩
    obtain ⟨n, rfl⟩ := Int.eq_ofNat_of_zero_le hi0
    have hn : ((n : Int) + 1).toNat = n + 1 := by omega
    have hn0 : ((n : Int)).toNat = n := by omega
    rw [hn0] at p5
    have hty : s.typeAt (cell + s.ptr8 (n : Int)) = g1.typeAt (cell + g1.ptr8 (n : Int)) := by
      rw [p3, p2.samePtr8]
    beta_reduce
    rw [hn, List.range_succ, List.filter_append, List.length_append, hty]
    split
    · rename_i hlt
      refine ⟨p2, p3, p4, ?_⟩
      have : ¬ START ≤ g1.typeAt (cell + g1.ptr8 (n : Int)) := by omega
      rw [p5]
      simp [this]
    · rename_i hge
      have hl := sameLayout_modifyCell s cell
        (fun c => { c with neighborCount := c.neighborCount + 1 }) (fun c => ⟨rfl, rfl, rfl⟩)
      refine ⟨sameLayout_trans p2 hl, fun j => ?_, fun j hj => ?_, ?_⟩
      · rw [typeAt_modifyCell]
        split
        · rename_i hc
          rw [hc.1]
          exact p3 cell
        · exact p3 j
      · rw [cellAt_modifyCell_ne _ _ _ _ hj]
        exact p4 j hj
      · rw [cellAt_modifyCell_self _ _ _ ((p2.sameInb cell).2 hinb)]
        have : START ≤ g1.typeAt (cell + g1.ptr8 (n : Int)) := by omega
        simp only [p5]
        simp [this]
        ring

/-- The body of "count neighbors and identify room centers" at an interior
cell: the layout and the navigable cells stay, the counts of the other cells
stay, and a navigable cell gets the number of navigable cells around it. -/
theorem countCell_exact {g : GRID} (hs : g.Shaped) (x y : Int) (hin : g.Inner x y) :
    g.SameLayout (countCell g x y) ∧
    (∀ j, START ≤ (countCell g x y).typeAt j ↔ START ≤ g.typeAt j) ∧
    (∀ j, j ≠ GETCELL g x y →
      ((countCell g x y).cellAt j).neighborCount = (g.cellAt j).neighborCount) ∧
    (START ≤ g.ty x y →
      ((countCell g x y).cellAt (GETCELL g x y)).neighborCount = g.navCount x y) := by
  have hS : START = 2 := rfl
  have hRC : ROOMCENTER = 5 := rfl
  have hinb := shaped_inb hs (inner_inGrid hin)
  have hl1 := sameLayout_modifyCell g (GETCELL g x y) (fun c => { c with neighborCount := 0 })
    (fun c => ⟨rfl, rfl, rfl⟩)
  have hty1 : ∀ j, (g.modifyCell (GETCELL g x y)
      (fun c => { c with neighborCount := 0 })).typeAt j = g.typeAt j := by
    intro j
    rw [typeAt_modifyCell]
    split
    · rename_i hc
      rw [hc.1]
      rfl
    · rfl
  have hnc1 : ((g.modifyCell (GETCELL g x y)
      (fun c => { c with neighborCount := 0 })).cellAt (GETCELL g x y)).neighborCount = 0 := by
    rw [cellAt_modifyCell_self _ _ _ hinb]
  have hoth1 : ∀ j, j ≠ GETCELL g x y → (g.modifyCell (GETCELL g x y)
      (fun c => { c with neighborCount := 0 })).cellAt j = g.cellAt j :=
    fun j hj => cellAt_modifyCell_ne _ _ _ _ hj
  have hinb1 : (g.modifyCell (GETCELL g x y)
      (fun c => { c with neighborCount := 0 })).inb (GETCELL g x y) := (hl1.sameInb _).2 hinb
  have hnav : (((List.range 8).filter (fun (d : Nat) => START ≤ (g.modifyCell (GETCELL g x y)
      (fun c => { c with neighborCount := 0 })).typeAt (GETCELL g x y + (g.modifyCell (GETCELL g x y)
      (fun c => { c with neighborCount := 0 })).ptr8 d))).length : Int) = g.navCount x y := by
    rw [navCount_eq]
    congr 2
    apply List.filter_congr
    intro d hd
    have hd8 := List.mem_range.1 hd
    rw [hty1, hl1.samePtr8, shaped_step8 hs x y d (by omega) (by omega)]
    rfl
  unfold countCell
  simp only
  generalize g.modifyCell (GETCELL g x y) (fun c => { c with neighborCount := 0 }) = g1
    at hl1 hty1 hnc1 hoth1 hinb1 hnav ⊢
  split
  · rename_i hlt
    refine ⟨hl1, fun j => by rw [hty1], fun j hj => by rw [hoth1 j hj], fun hc => ?_⟩
    rw [hty1] at hlt
    unfold GRID.ty at hc
    omega
  · rename_i hge
    obtain ⟨q2, q3, q4, q5⟩ := countDirs_exact g1 (GETCELL g x y) hinb1
    rw [hnc1, hnav] at q5
    generalize forLoop 0 8 1 (fun (g_1 : GRID) (_dir : Int) =>
        if g_1.typeAt (GETCELL g x y + g_1.ptr8 _dir) < START then g_1
        else g_1.modifyCell (GETCELL g x y)
          (fun c => { c with neighborCount := c.neighborCount + 1 })) g1 = g2
      at q2 q3 q4 q5 ⊢
    split
    · have hsb := sameButTypes_setType g2 (GETCELL g x y) ROOMCENTER
      refine ⟨sameLayout_trans (sameLayout_trans hl1 q2) (sameLayout_of_sameButTypes hsb),
        fun j => ?_, fun j hj => ?_, fun _ => ?_⟩
      · rw [typeAt_setType]
        split
        · rename_i hc
          rw [hc.1, ← hty1]
          constructor
          · intro _; omega
          · intro _; omega
        · rw [q3, hty1]
      · rw [hsb.countEq, q4 j hj, hoth1 j hj]
      · rw [hsb.countEq, q5]
        simp
    · refine ⟨sameLayout_trans hl1 q2, fun j => by rw [q3, hty1],
        fun j hj => by rw [q4 j hj, hoth1 j hj], fun _ => ?_⟩
      rw [q5]
      simp

/-- The pass "count neighbors and identify room centers" keeps the layout and
the navigable cells, and gives every navigable interior cell the number of
navigable cells around it. -/
theorem countNeighbors_exact {g : GRID} (hs : g.Shaped) :
    g.SameLayout (countNeighbors g) ∧
    (∀ j, START ≤ (countNeighbors g).typeAt j ↔ START ≤ g.typeAt j) ∧
    ∀ x y, g.Inner x y → START ≤ g.ty x y →
      ((countNeighbors g).cellAt (GETCELL g x y)).neighborCount = g.navCount x y := by
  unfold countNeighbors
  have key := forLoop_inv_each (fun (g : GRID) (_y : Int) =>
      forLoop 1 (g.width - 1) 1 (fun (g : GRID) (_x : Int) => countCell g _x _y) g)
    (fun s => g.SameLayout s ∧ ∀ j, START ≤ s.typeAt j ↔ START ≤ g.typeAt j)
    (fun y s => ∀ x, 1 ≤ x → x < g.width - 1 → START ≤ g.ty x y →
      (s.cellAt (GETCELL g x y)).neighborCount = g.navCount x y)
    1 (g.height - 1) 1 g (by omega) ?_ ⟨sameLayout_refl g, fun _ => Iff.rfl⟩
  · refine ⟨key.1.1, key.1.2, fun x y hxy hnav => ?_⟩
    have hxy2 := hxy
    unfold GRID.Inner at hxy2
    exact key.2 y (by omega) (by omega) ⟨(y - 1).toNat, by omega⟩ x (by omega) (by omega) hnav
  · intro s y hy1 hyl _ ⟨hls, hns⟩
    beta_reduce
    have row := forLoop_inv_each (fun (g : GRID) (_x : Int) => countCell g _x y)
      (fun t => (g.SameLayout t ∧ ∀ j, START ≤ t.typeAt j ↔ START ≤ g.typeAt j) ∧
        ∀ j, (∀ x, 1 ≤ x → x < g.width - 1 → j ≠ GETCELL g x y) →
          (t.cellAt j).neighborCount = (s.cellAt j).neighborCount)
      (fun x t => START ≤ g.ty x y →
        (t.cellAt (GETCELL g x y)).neighborCount = g.navCount x y)
      1 (s.width - 1) 1 s (by omega) ?_ ⟨⟨hls, hns⟩, fun _ _ => rfl⟩
    · refine ⟨row.1.1, fun x hx1 hxl => ?_, fun y' hq x hx1 hxl hnav => ?_⟩
      · exact row.2 x hx1 (by rw [hls.1]; exact hxl) ⟨(x - 1).toNat, by omega⟩
      · by_cases hyy : y' = y
        · subst hyy
          exact row.2 x hx1 (by rw [hls.1]; exact hxl) ⟨(x - 1).toNat, by omega⟩ hnav
        · rw [row.1.2 _ (fun x' hx1' hxl' hc => ?_)]
          · exact hq x hx1 hxl hnav
          · have hw := hs.1
            unfold GETCELL at hc
            have : y' = y := by
              have h1 : (y' - y) * g.width = x' - x := by linarith
              by_contra hne
              rcases lt_or_gt_of_ne hne with c | c
              · have : (y' - y) * g.width ≤ -1 * g.width :=
                  Int.mul_le_mul_of_nonneg_right (by omega) (by omega)
                omega
              · have : 1 * g.width ≤ (y' - y) * g.width :=
                  Int.mul_le_mul_of_nonneg_right (by omega) (by omega)
                omega
            exact hyy this
    · intro t x hx1 hxl _ ⟨⟨hlt, hnt⟩, hoth⟩
      have hts : t.Shaped := hlt.sameShape hs
      have hin : t.Inner x y := by
        rw [hlt.sameInner]
        rw [hls.1] at hxl
        unfold GRID.Inner
        omega
      obtain ⟨c1, c2, c3, c4⟩ := countCell_exact hts x y hin
      have hgc : GETCELL t x y = GETCELL g x y := hlt.sameIndex x y
      rw [hgc] at c3 c4
      refine ⟨⟨⟨sameLayout_trans hlt c1, fun j => (c2 j).trans (hnt j)⟩, fun j hj => ?_⟩,
        fun hnav => ?_, fun x' hq hnav => ?_⟩
      · rw [c3 j (hj x hx1 (by rw [hls.1] at hxl; exact hxl))]
        exact hoth j hj
      · rw [c4 (by unfold GRID.ty; rw [hgc]; exact (hnt _).2 hnav)]
        congr 1
        exact navCount_congr hlt.1 hnt x y
      · by_cases hxx : x' = x
        · subst hxx
          rw [c4 (by unfold GRID.ty; rw [hgc]; exact (hnt _).2 hnav)]
          congr 1
          exact navCount_congr hlt.1 hnt x' y
        · rw [c3 _ (fun hc => ?_)]
          · exact hq hnav
          · unfold GETCELL at hc
            omega

/-- The grid the passes after the carve leave: every navigable interior cell
has the number of navigable cells around it as its count. -/
theorem finishMaze_counts (rs : Nat → Nat) {g : GRID} {e : Int × Int} (k : Nat)
    (h : Carved g e) (x y : Int) (hin : (finishMaze rs g k).1.Inner x y)
    (hnav : START ≤ (finishMaze rs g k).1.ty x y) :
    ((finishMaze rs g k).1.cellAt (GETCELL (finishMaze rs g k).1 x y)).neighborCount =
      (finishMaze rs g k).1.navCount x y := by
  have h1 := (connectNear_settled rs g k (carved_settled h)).1
  have h2 := (removeIsolated_settled _ h1).1
  have h3 := started_of_settled h2
  have hs3 := h3.frame.1
  obtain ⟨c1, c2, c3⟩ := countNeighbors_exact hs3
  have hk := laterPasses_navKept rs (countNeighbors ((removeIsolated (connectNear rs (g, k)).1).setType
    (lookForStart (removeIsolated (connectNear rs (g, k)).1)) START)) (connectNear rs (g, k)).2
  rw [finishMaze_later] at hin hnav ⊢
  generalize (removeIsolated (connectNear rs (g, k)).1).setType
    (lookForStart (removeIsolated (connectNear rs (g, k)).1)) START = g3 at hs3 c1 c2 c3 hk hin hnav ⊢
  generalize (laterPasses rs (countNeighbors g3, (connectNear rs (g, k)).2)).1 = r at hk hin hnav ⊢
  have hl := sameLayout_trans c1 hk.1
  have hnavr : ∀ j, START ≤ r.typeAt j ↔ START ≤ g3.typeAt j :=
    fun j => (hk.2 j).1.trans (c2 j)
  rw [hl.sameInner] at hin
  unfold GRID.ty at hnav
  rw [hl.sameIndex] at hnav ⊢
  rw [(hk.2 _).2, c3 x y hin ((hnavr _).1 hnav)]
  congr 1
  exact (navCount_congr hl.1 hnavr x y).symm

/-- What `GridMaze` returns is the result of a generation attempt on a grid
with odd dimensions of at least 7. -/
theorem GridMaze_attempt (rs : Nat → Nat) :
    ∀ (fuel : Nat) (g : GRID) (k : Nat) (r : GRID × Int × Nat), g.Frame →
      GridMaze rs fuel g k = some r →
      ∃ (f : Nat) (g' : GRID) (k' : Nat), g'.Frame ∧ mazeAttempt rs f g' k' = some r
  | 0, g, k, r, _, h => by
    rw [GridMaze_zero] at h
    exact absurd h (by simp)
  | fuel + 1, g, k, r, hf, h => by
    rw [GridMaze_succ] at h
    split at h
    · exact absurd h (by simp)
    · rename_i r1 hr1
      have hfin := mazeAttempt_finished rs (fuel + 1) k hf hr1
      split at h
      · exact GridMaze_attempt rs fuel r1.1 r1.2.2 r hfin.frame h
      · simp only [Option.some.injEq] at h
        rw [← h]
        exact ⟨fuel + 1, g, k, hf, hr1⟩

/-- C11: in the grid `GridMaze` returns, every interior cell that is navigable
(of type `START` or more) has as its `neighborCount` the number of navigable
cells among the eight cells around it; and the passes that follow the count
(room borders, doors, treasures) change neither which cells are navigable nor
the counts, whatever the grid they start from. -/
theorem C11_neighbor_counts (rs : Nat → Nat) (fuel : Nat) (g : GRID) (k : Nat)
    (r : GRID × Int × Nat) (hf : g.Frame) (h : GridMaze rs fuel g k = some r) :
    (∀ x y, r.1.Inner x y → START ≤ r.1.ty x y →
      (r.1.cellAt (GETCELL r.1 x y)).neighborCount = r.1.navCount x y) ∧
    ∀ (g' : GRID) (k' : Nat) (i : Int),
      (START ≤ (laterPasses rs (g', k')).1.typeAt i ↔ START ≤ g'.typeAt i) ∧
      ((laterPasses rs (g', k')).1.cellAt i).neighborCount = (g'.cellAt i).neighborCount := by
  refine ⟨fun x y hin hnav => ?_, fun g' k' i => (laterPasses_navKept rs g' k').2 i⟩
  obtain ⟨f, g1, k1, hf1, hatt⟩ := GridMaze_attempt rs fuel g k r hf h
  unfold mazeAttempt at hatt
  split at hatt
  · simp at hatt
  · rename_i s hs
    simp only [Option.some.injEq] at hatt
    obtain ⟨e, he⟩ := carveStart_inv rs g1 k1 hf1
    have hc := carveLoop_carved rs f _ [e] OPEN s he hs
    rw [← hatt] at hin hnav ⊢
    exact finishMaze_counts rs s.k hc x y hin hnav

/-- The counts of the grid `sampleMaze`. -/
theorem C11_neighbor_counts_witness :
    (∀ x y, sampleMaze.1.Inner x y → START ≤ sampleMaze.1.ty x y →
      (sampleMaze.1.cellAt (GETCELL sampleMaze.1 x y)).neighborCount =
        sampleMaze.1.navCount x y) ∧
    ∀ (g' : GRID) (k' : Nat) (i : Int),
      (START ≤ (laterPasses countingDraws (g', k')).1.typeAt i ↔ START ≤ g'.typeAt i) ∧
      ((laterPasses countingDraws (g', k')).1.cellAt i).neighborCount =
        (g'.cellAt i).neighborCount :=
  C11_neighbor_counts countingDraws 100 (GridCreate 7 7 (fun _ => 0)) 0 sampleMaze
    (GridCreate_frame 7 7 _) sampleMaze_run

/-! ## The cells the generator dereferences lie in the cell array -/

theorem mem_loopCells {start limit step j : Int} (hs : 0 < step)
    (h : j ∈ loopCells start limit step) :
    start ≤ j ∧ j < limit ∧ ∃ n : Nat, j = start + n * step :=
  (mem_forLoop_indices start limit step j hs).1 h

theorem mem_neIndices_three {a last step j : Int} (h : j ∈ neIndices 3 a last step) :
    j = a ∨ j = a + step ∨ j = a + step + step := by
  simp only [neIndices] at h
  split at h
  · rcases List.mem_cons.1 h with c | h
    · exact Or.inl c
    · split at h
      · rcases List.mem_cons.1 h with c | h
        · exact Or.inr (Or.inl c)
        · split at h
          · rcases List.mem_cons.1 h with c | h
            · exact Or.inr (Or.inr c)
            · simp at h
          · simp at h
      · simp at h
  · simp at h

theorem off4_bounds (d : Int) (h0 : 0 ≤ d) (h3 : d ≤ 3) :
    -1 ≤ off4X d ∧ off4X d ≤ 1 ∧ -1 ≤ off4Y d ∧ off4Y d ≤ 1 ∧
      (off4X d = 0 ∨ off4Y d = 0) := by
  rcases off4_cases d h0 h3 with ⟨-, a, b⟩ | ⟨-, a, b⟩ | ⟨-, a, b⟩ | ⟨-, a, b⟩ <;> omega

theorem getcell_inb {g : GRID} (hs : g.Shaped) {x y : Int} (hx0 : 0 ≤ x) (hxw : x < g.width)
    (hy0 : 0 ≤ y) (hyh : y < g.height) : g.inb (GETCELL g x y) :=
  shaped_inb hs ⟨hx0, hxw, hy0, hyh⟩

theorem inBounds_inb {g : GRID} (hs : g.Shaped) {x y : Int} (h : g.inBounds x y) :
    g.inb (GETCELL g x y) := by
  unfold GRID.inBounds at h
  exact getcell_inb hs (by omega) (by omega) (by omega) (by omega)

theorem sameLayout_inb {g g' : GRID} (h : g.SameLayout g') {i : Int} (hi : g'.inb i) :
    g.inb i := (h.sameInb i).1 hi

/-- The cells of a row of the grid lie in the cell array. -/
theorem row_inb {g : GRID} (hs : g.Shaped) {sY i : Int} (n : Nat) (hn : sY = n * g.width)
    (hlt : sY < g.size) (h0 : sY ≤ i) (h1 : i < sY + g.width) : g.inb i := by
  obtain ⟨hw, hh, hsz, hlen, -⟩ := hs
  unfold GRID.inb
  rw [hlen]
  have hn0 : (0 : Int) ≤ (n : Int) * g.width := Int.mul_nonneg (by omega) (by omega)
  rw [hsz, hn] at hlt
  have hnh : (n : Int) < g.height := by
    by_contra hc
    have : g.height * g.width ≤ (n : Int) * g.width :=
      Int.mul_le_mul_of_nonneg_right (by omega) (by omega)
    have e : g.width * g.height = g.height * g.width := Int.mul_comm _ _
    omega
  have : ((n : Int) + 1) * g.width ≤ g.height * g.width :=
    Int.mul_le_mul_of_nonneg_right (by omega) (by omega)
  have e : g.width * g.height = g.height * g.width := Int.mul_comm _ _
  have e2 : ((n : Int) + 1) * g.width = (n : Int) * g.width + g.width := by ring
  omega

theorem initAcc_inb {g : GRID} (hs : g.Shaped) : ∀ i ∈ initAcc g, g.inb i := by
  have hw := hs.1
  intro i hi
  unfold initAcc at hi
  rcases List.mem_append.1 hi with h | h
  · obtain ⟨sY, hsY, hi⟩ := List.mem_flatMap.1 h
    obtain ⟨a0, a1, n, hn⟩ := mem_loopCells (by omega) hsY
    obtain ⟨b0, b1, -⟩ := mem_loopCells (by omega) hi
    refine row_inb hs (n * 2) ?_ a1 b0 b1
    rw [hn]
    push_cast
    ring
  · obtain ⟨sY, hsY, hi⟩ := List.mem_flatMap.1 h
    obtain ⟨a0, a1, n, hn⟩ := mem_loopCells (by omega) hsY
    obtain ⟨b0, b1, -⟩ := mem_loopCells (by omega) hi
    refine row_inb hs (n * 2 + 1) ?_ a1 b0 b1
    rw [hn]
    push_cast
    ring

theorem breakBorderAcc_inb {g : GRID} (hf : g.Frame) : ∀ i ∈ breakBorderAcc g, g.inb i := by
  obtain ⟨hs, -, -, fw, fh⟩ := hf
  intro i hi
  unfold breakBorderAcc at hi
  rcases List.mem_append.1 hi with h | h
  · obtain ⟨x, hx, hi⟩ := List.mem_flatMap.1 h
    obtain ⟨y, hy, rfl⟩ := List.mem_map.1 hi
    obtain ⟨a0, a1, -⟩ := mem_loopCells (by omega) hx
    obtain ⟨b0, b1, -⟩ := mem_loopCells (by omega) hy
    exact getcell_inb hs (by omega) a1 (by omega) b1
  · obtain ⟨y, hy, hi⟩ := List.mem_flatMap.1 h
    obtain ⟨x, hx, rfl⟩ := List.mem_map.1 hi
    obtain ⟨a0, a1, -⟩ := mem_loopCells (by omega) hx
    obtain ⟨b0, b1, -⟩ := mem_loopCells (by omega) hy
    exact getcell_inb hs (by omega) a1 (by omega) b1

theorem around8Acc_inb {g : GRID} (hs : g.Shaped) {x y : Int} (hin : g.Inner x y) :
    ∀ i ∈ around8Acc g x y, g.inb i := by
  intro i hi
  unfold around8Acc at hi
  rcases List.mem_cons.1 hi with rfl | h
  · exact shaped_inb hs (inner_inGrid hin)
  · obtain ⟨d, hd, rfl⟩ := List.mem_map.1 h
    have hd8 := List.mem_range.1 hd
    rw [shaped_step8 hs x y d (by omega) (by omega)]
    exact shaped_inb hs (inner_step8 hin d (by omega) (by omega))

theorem around4Acc_inb {g : GRID} (hs : g.Shaped) {x y : Int} (hin : g.Inner x y) :
    ∀ i ∈ around4Acc g x y, g.inb i := by
  intro i hi
  unfold around4Acc at hi
  rcases List.mem_cons.1 hi with rfl | h
  · exact shaped_inb hs (inner_inGrid hin)
  · obtain ⟨d, hd, rfl⟩ := List.mem_map.1 h
    have hd4 := List.mem_range.1 hd
    rw [shaped_step4_one hs x y d (by omega) (by omega)]
    exact shaped_inb hs (inner_step4 hin d (by omega) (by omega))

theorem connectNearAcc_inb {g : GRID} (hs : g.Shaped) : ∀ i ∈ connectNearAcc g, g.inb i := by
  intro i hi
  unfold connectNearAcc at hi
  obtain ⟨y, hy, hi⟩ := List.mem_flatMap.1 hi
  obtain ⟨x, hx, hi⟩ := List.mem_flatMap.1 hi
  obtain ⟨a0, a1, -⟩ := mem_loopCells (by omega) hx
  obtain ⟨b0, b1, -⟩ := mem_loopCells (by omega) hy
  rcases List.mem_cons.1 hi with rfl | h
  · exact getcell_inb hs (by omega) (by omega) (by omega) (by omega)
  · obtain ⟨d, hd, hi⟩ := List.mem_flatMap.1 h
    have hd4 := List.mem_range.1 hd
    have hoff := off4_bounds d (by omega) (by omega)
    simp only [List.mem_cons, List.mem_singleton, List.not_mem_nil, or_false] at hi
    rcases hi with rfl | rfl
    · rw [shaped_step4 hs x y d 2 (by omega) (by omega)]
      exact getcell_inb hs (by omega) (by omega) (by omega) (by omega)
    · rw [shaped_step4_one hs x y d (by omega) (by omega)]
      exact getcell_inb hs (by omega) (by omega) (by omega) (by omega)

theorem removeIsolatedAcc_inb {g : GRID} (hs : g.Shaped) :
    ∀ i ∈ removeIsolatedAcc g, g.inb i := by
  intro i hi
  unfold removeIsolatedAcc at hi
  obtain ⟨y, hy, hi⟩ := List.mem_flatMap.1 hi
  obtain ⟨x, hx, hi⟩ := List.mem_flatMap.1 hi
  obtain ⟨a0, a1, -⟩ := mem_loopCells (by omega) hx
  obtain ⟨b0, b1, -⟩ := mem_loopCells (by omega) hy
  exact around8Acc_inb hs (by unfold GRID.Inner; omega) i hi

theorem interior8Acc_inb {g : GRID} (hs : g.Shaped) : ∀ i ∈ interior8Acc g, g.inb i := by
  intro i hi
  unfold interior8Acc at hi
  obtain ⟨y, hy, hi⟩ := List.mem_flatMap.1 hi
  obtain ⟨x, hx, hi⟩ := List.mem_flatMap.1 hi
  obtain ⟨a0, a1, -⟩ := mem_loopCells (by omega) hx
  obtain ⟨b0, b1, -⟩ := mem_loopCells (by omega) hy
  exact around8Acc_inb hs (by unfold GRID.Inner; omega) i hi

theorem interior4Acc_inb {g : GRID} (hs : g.Shaped) : ∀ i ∈ interior4Acc g, g.inb i := by
  intro i hi
  unfold interior4Acc at hi
  obtain ⟨y, hy, hi⟩ := List.mem_flatMap.1 hi
  obtain ⟨x, hx, hi⟩ := List.mem_flatMap.1 hi
  obtain ⟨a0, a1, -⟩ := mem_loopCells (by omega) hx
  obtain ⟨b0, b1, -⟩ := mem_loopCells (by omega) hy
  exact around4Acc_inb hs (by unfold GRID.Inner; omega) i hi

theorem corridorTreasuresAcc_inb {g : GRID} (hs : g.Shaped) :
    ∀ i ∈ corridorTreasuresAcc g, g.inb i := by
  intro i hi
  unfold corridorTreasuresAcc at hi
  obtain ⟨y, hy, hi⟩ := List.mem_flatMap.1 hi
  obtain ⟨x, hx, rfl⟩ := List.mem_map.1 hi
  obtain ⟨a0, a1, -⟩ := mem_loopCells (by omega) hx
  obtain ⟨b0, b1, -⟩ := mem_loopCells (by omega) hy
  exact getcell_inb hs (by omega) (by omega) (by omega) (by omega)

theorem roomTreasuresAcc_inb {g : GRID} (hs : g.Shaped) :
    ∀ i ∈ roomTreasuresAcc g, g.inb i := by
  intro i hi
  unfold roomTreasuresAcc at hi
  obtain ⟨x, hx, hi⟩ := List.mem_flatMap.1 hi
  obtain ⟨y, hy, rfl⟩ := List.mem_map.1 hi
  obtain ⟨a0, a1, -⟩ := mem_loopCells (by omega) hx
  obtain ⟨b0, b1, -⟩ := mem_loopCells (by omega) hy
  exact getcell_inb hs (by omega) (by omega) (by omega) (by omega)

theorem lookForStartAcc_inb {g : GRID} (hf : g.Frame) : ∀ i ∈ lookForStartAcc g, g.inb i := by
  obtain ⟨hs, fwo, fho, fw, fh⟩ := hf
  have h0 : g.inb 0 := by
    have := getcell_inb hs (x := 0) (y := 0) (by omega) (by omega) (by omega) (by omega)
    simpa [GETCELL] using this
  intro i hi
  unfold lookForStartAcc at hi
  rcases List.mem_cons.1 hi with rfl | hi
  · exact h0
  rcases List.mem_cons.1 hi with rfl | hi
  · rcases lookForStart_spec g ⟨hs, fwo, fho, fw, fh⟩ with ⟨c, -⟩ | ⟨x, y, hin, -, c, -⟩
    · rw [c]; exact h0
    · rw [c]; exact shaped_inb hs (inner_inGrid hin)
  · split at hi
    · rcases List.mem_append.1 hi with h | h
      · obtain ⟨x, hx, hi⟩ := List.mem_flatMap.1 h
        obtain ⟨y, hy, rfl⟩ := List.mem_map.1 hi
        obtain ⟨a0, a1, -⟩ := mem_loopCells (by omega) hx
        obtain ⟨b0, b1, -⟩ := mem_loopCells (by omega) hy
        exact getcell_inb hs (by omega) a1 (by omega) b1
      · obtain ⟨y, hy, hi⟩ := List.mem_flatMap.1 h
        obtain ⟨x, hx, rfl⟩ := List.mem_map.1 hi
        obtain ⟨a0, a1, -⟩ := mem_loopCells (by omega) hx
        obtain ⟨b0, b1, -⟩ := mem_loopCells (by omega) hy
        exact getcell_inb hs (by omega) a1 (by omega) b1
    · simp at hi

/-! ## The cells of a room -/

theorem roomStitch_sameButTypes (g0 g : GRID) (x y c : Int) (h : g0.SameButTypes g) :
    g0.SameButTypes (roomStitch x y c g) := by
  unfold roomStitch
  refine forLoop_inv _ (fun s => g0.SameButTypes s) 0 4 1 g (by omega) ?_ h
  intro s d _ _ _ hs
  simp only
  split_ifs
  · exact sameButTypes_trans hs (sameButTypes_setType _ _ _)
  · exact hs

/-- The loops that set a room as walkable change types only. -/
theorem roomFill_sameButTypes (g : GRID) (px py xl yl sx sy c : Int) :
    g.SameButTypes (roomFill px py xl yl sx sy c g) := by
  unfold roomFill
  refine forNe_inv _ (fun s => g.SameButTypes s) 3 px xl sx g ?_ (sameButTypes_refl g)
  intro s m _ hs
  refine forNe_inv _ (fun s => g.SameButTypes s) 3 py yl sy s ?_ hs
  intro t n _ ht
  simp only
  split
  · exact ht
  · exact roomStitch_sameButTypes g _ _ _ _ (sameButTypes_trans ht (sameButTypes_setType _ _ _))

theorem roomStitchAcc_inb {g : GRID} (hs : g.Shaped) (x y : Int) :
    ∀ i ∈ roomStitchAcc g x y, g.inb i := by
  intro i hi
  unfold roomStitchAcc at hi
  obtain ⟨d, -, hi⟩ := List.mem_flatMap.1 hi
  split at hi
  · rename_i hb
    simp only [List.mem_singleton] at hi
    rw [hi]
    exact inBounds_inb hs hb
  · simp at hi

theorem roomFillAcc_inb {g : GRID} (hs : g.Shaped) (px py xl yl sx sy : Int)
    (hp : g.InGrid px py) (hq : g.InGrid (px + sx * 2) (py + sy * 2)) :
    ∀ i ∈ roomFillAcc g px py xl yl sx sy, g.inb i := by
  intro i hi
  unfold roomFillAcc at hi
  obtain ⟨x, hx, hi⟩ := List.mem_flatMap.1 hi
  obtain ⟨y, hy, hi⟩ := List.mem_flatMap.1 hi
  have hx3 := mem_neIndices_three hx
  have hy3 := mem_neIndices_three hy
  unfold GRID.InGrid at hp hq
  rcases List.mem_cons.1 hi with rfl | hi
  · exact getcell_inb hs (by omega) (by omega) (by omega) (by omega)
  · exact roomStitchAcc_inb hs x y i hi

theorem roomAttemptsAcc_inb (rs : Nat → Nat)
    (deeperAcc : Option (GRID → Nat → Int → Int → Int → List Int))
    (hdeep : ∀ roomAcc, deeperAcc = some roomAcc → ∀ (g : GRID) (k : Nat) (x y c : Int),
      g.Shaped → g.InGrid x y → ∀ i ∈ roomAcc g k x y c, g.inb i) :
    ∀ (n : Nat) (g : GRID) (k : Nat) (px py c dir turn : Int), g.Shaped → g.InGrid px py →
      0 ≤ dir → dir ≤ 3 → (turn = 1 ∨ turn = 3) →
      ∀ i ∈ roomAttemptsAcc rs deeperAcc n g k px py c dir turn, g.inb i
  | 0, g, k, px, py, c, dir, turn, _, _, _, _, _, i, hi => by
    simp [roomAttemptsAcc] at hi
  | n + 1, g, k, px, py, c, dir, turn, hs, hin, hd0, hd3, ht, i, hi => by
    have hd' := turn_dir_bounds dir turn hd0 (by omega)
    obtain ⟨⟨hsx, -⟩, -⟩ := room_steps px dir turn hd0 hd3 ht
    have hsy' := (room_steps py dir turn hd0 hd3 ht).2
    rw [roomAttemptsAcc] at hi
    simp only [List.mem_append] at hi
    rcases hi with ((hi | hi) | hi) | hi
    · split at hi
      · rename_i hb
        simp only [List.mem_singleton] at hi
        rw [hi]; exact inBounds_inb hs hb
      · simp at hi
    · split at hi
      · rename_i hb
        simp only [List.mem_singleton] at hi
        rw [hi]; exact inBounds_inb hs hb.2
      · simp at hi
    · split at hi
      · rename_i hb
        simp only [List.mem_singleton] at hi
        rw [hi]; exact inBounds_inb hs hb.2.2
      · simp at hi
    · split at hi
      · rename_i hb
        obtain ⟨⟨b1, -⟩, ⟨b2, -⟩, ⟨b3, -⟩⟩ := hb
        have hin1 : g.InGrid (px + off4X dir * 2) (py + off4Y dir * 2) := by
          unfold GRID.inBounds at b1; unfold GRID.InGrid; omega
        have hin2 : g.InGrid (px + off4X (Int.tmod (dir + turn) 4) * 2)
            (py + off4Y (Int.tmod (dir + turn) 4) * 2) := by
          unfold GRID.inBounds at b2; unfold GRID.InGrid; omega
        have hin3 : g.InGrid (px + (off4X dir + off4X (Int.tmod (dir + turn) 4)) * 2)
            (py + (off4Y dir + off4Y (Int.tmod (dir + turn) 4)) * 2) := by
          unfold GRID.inBounds at b3; unfold GRID.InGrid; omega
        simp only [List.mem_append] at hi
        rcases hi with hi | hi
        · refine roomFillAcc_inb hs px py _ _ _ _ hin ?_ i hi
          rw [hsx, hsy'.1]
          exact hin3
        · have hsb := roomFill_sameButTypes g px py
            (px + (off4X dir + off4X (Int.tmod (dir + turn) 4)) * 3)
            (py + (off4Y dir + off4Y (Int.tmod (dir + turn) 4)) * 3)
            (Int.tdiv (px + (off4X dir + off4X (Int.tmod (dir + turn) 4)) * 2 - px)
              (cabs (px + (off4X dir + off4X (Int.tmod (dir + turn) 4)) * 2 - px)))
            (Int.tdiv (py + (off4Y dir + off4Y (Int.tmod (dir + turn) 4)) * 2 - py)
              (cabs (py + (off4Y dir + off4Y (Int.tmod (dir + turn) 4)) * 2 - py))) c
          have hs1 := hsb.keepsShape hs
          have hl := sameLayout_of_sameButTypes hsb
          cases hda : deeperAcc with
          | none =>
            rw [hda] at hi
            simp at hi
          | some roomAcc =>
            rw [hda] at hi
            simp only at hi
            have hd := hdeep roomAcc hda
            split at hi
            · exact sameLayout_inb hl (hd _ _ _ _ _ hs1 ((hsb.inGridIff _ _).2 hin1) i hi)
            · split at hi
              · exact sameLayout_inb hl (hd _ _ _ _ _ hs1 ((hsb.inGridIff _ _).2 hin2) i hi)
              · split at hi
                · exact sameLayout_inb hl (hd _ _ _ _ _ hs1 ((hsb.inGridIff _ _).2 hin3) i hi)
                · simp at hi
      · exact roomAttemptsAcc_inb rs deeperAcc hdeep n g k px py c _ turn hs hin hd'.1 hd'.2 ht
          i hi

theorem roomBodyAcc_inb (rs : Nat → Nat)
    (deeperAcc : Option (GRID → Nat → Int → Int → Int → List Int))
    (hdeep : ∀ roomAcc, deeperAcc = some roomAcc → ∀ (g : GRID) (k : Nat) (x y c : Int),
      g.Shaped → g.InGrid x y → ∀ i ∈ roomAcc g k x y c, g.inb i)
    (g : GRID) (k : Nat) (px py c : Int) (hs : g.Shaped) (hin : g.InGrid px py) :
    ∀ i ∈ roomBodyAcc rs deeperAcc g k px py c, g.inb i := by
  intro i hi
  unfold roomBodyAcc at hi
  simp only at hi
  rcases List.mem_cons.1 hi with rfl | hi
  · exact shaped_inb hs hin
  · split at hi
    · simp at hi
    · split at hi
      · simp at hi
      · have hd := GetRandomValue_bounds rs k 0 3 (by omega)
        have ht := GetRandomValue_bounds rs (k + 1) 0 1 (by omega)
        exact roomAttemptsAcc_inb rs deeperAcc hdeep 4 g (k + 2) px py c _ _ hs hin hd.1 hd.2
          (by omega) i hi

/-- Every cell a call of `GridMazeRoom` at a position of the grid dereferences
lies in the cell array. -/
theorem GridMazeRoomAcc_inb (rs : Nat → Nat) :
    ∀ (count : Nat) (g : GRID) (k : Nat) (px py c : Int), g.Shaped → g.InGrid px py →
      ∀ i ∈ GridMazeRoomAcc rs count g k px py c, g.inb i
  | 0, g, k, px, py, c, hs, hin => by
    rw [GridMazeRoomAcc]
    exact roomBodyAcc_inb rs none (fun _ h => by simp at h) g k px py c hs hin
  | n + 1, g, k, px, py, c, hs, hin => by
    rw [GridMazeRoomAcc]
    refine roomBodyAcc_inb rs _ ?_ g k px py c hs hin
    intro roomAcc hroom g' k' x y c' hs' hin'
    simp only [Option.some.injEq] at hroom
    subst hroom
    exact GridMazeRoomAcc_inb rs n g' k' x y c' hs' hin'

/-! ## The cells of the `while (1)` loop -/

/-- The cell of the cursor and the four cells beside it lie in the cell array. -/
theorem cursor_inb {s : Carve} {chain : List (Int × Int)} {e : Int × Int} {c0 : Int}
    (h : CarveInv s chain e c0) :
    ∃ p : Int × Int, s.cell = GETCELL s.g p.1 p.2 ∧ s.g.Inner p.1 p.2 ∧ s.g.inb s.cell ∧
      ∀ d : Int, 0 ≤ d → d ≤ 3 → s.g.inb (s.cell + s.g.ptr4 d) := by
  have hs := h.frame.1
  obtain ⟨p, hp, hcell⟩ := h.cursor
  have hpm := chainOK_mem h.chainOK p (List.mem_of_mem_head? hp)
  refine ⟨p, hcell, hpm.2.1, by rw [hcell]; exact shaped_inb hs (inner_inGrid hpm.2.1), ?_⟩
  intro d hd0 hd3
  rw [hcell, shaped_step4_one hs _ _ d hd0 hd3]
  exact shaped_inb hs (inner_step4 hpm.2.1 d hd0 (by omega))

theorem carveAttemptsAcc_inb (rs : Nat → Nat) {chain : List (Int × Int)} {e : Int × Int}
    {c0 : Int} :
    ∀ (n : Nat) (s : Carve) (dir turn : Int), CarveInv s chain e c0 → 0 ≤ dir → dir ≤ 3 →
      (turn = 1 ∨ turn = 3) → ∀ i ∈ carveAttemptsAcc rs n s dir turn, s.g.inb i
  | 0, s, dir, turn, _, _, _, _, i, hi => by
    simp [carveAttemptsAcc] at hi
  | n + 1, s, dir, turn, h, hd0, hd3, ht, i, hi => by
    rw [carveAttemptsAcc] at hi
    split at hi
    · simp at hi
    · simp only at hi
      generalize hs1 : (if s.cellsToEnd > OPEN + 6 then { s with k := s.k + 1 } else s) = s1
        at hi
      have e1 : s1.g = s.g := by rw [← hs1]; split <;> rfl
      have e2 : s1.cell = s.cell := by rw [← hs1]; split <;> rfl
      have e3 : s1.cellsToEnd = s.cellsToEnd := by rw [← hs1]; split <;> rfl
      have h1 : CarveInv s1 chain e c0 := carveInv_of_eq h e1 e2 e3
      rw [← e1]
      have hs := h1.frame.1
      obtain ⟨p, hcell, hpinner, hcinb, hnb⟩ := cursor_inb h1
      have hpos := shaped_pos hs (inner_inGrid hpinner)
      rcases List.mem_cons.1 hi with rfl | hi
      · exact hcinb
      rcases List.mem_append.1 hi with hi | hi
      · split at hi
        · rename_i hb
          simp only [List.mem_singleton] at hi
          rw [hi, hcell, shaped_step4 hs _ _ dir 2 hd0 hd3]
          rw [hcell, hpos.1, hpos.2] at hb
          exact inBounds_inb hs hb
        · simp at hi
      · split at hi
        · rename_i hcond
          obtain ⟨p', hp', hcell', hN, hnin, hstep⟩ :=
            carve_step h1 dir hd0 hd3 (s1.k + 1) hcond.1 hcond.2
          rcases List.mem_cons.1 hi with rfl | hi
          · rw [hN]; exact shaped_inb hs hnin
          rcases List.mem_cons.1 hi with rfl | hi
          · exact hnb dir hd0 hd3
          · split at hi
            · have hsb := sameButTypes_setType2 s1.g (s1.cell + s1.g.ptr4 dir * 2)
                (s1.cell + s1.g.ptr4 dir) OPEN OPEN
              have hsh := hstep.frame.1
              have hpos2 := shaped_pos hsh ((hsb.inGridIff _ _).2 hnin)
              have hgc : GETCELL ((s1.g.setType (s1.cell + s1.g.ptr4 dir * 2) OPEN).setType
                  (s1.cell + s1.g.ptr4 dir) OPEN) (p'.1 + off4X dir * 2)
                  (p'.2 + off4Y dir * 2) = s1.cell + s1.g.ptr4 dir * 2 :=
                (hsb.cellIndex _ _).trans hN.symm
              rw [hgc] at hpos2
              have hp'in : s1.g.InGrid p'.1 p'.2 := by
                have := chainOK_mem h1.chainOK p' (List.mem_of_mem_head? hp')
                exact inner_inGrid this.2.1
              refine sameLayout_inb (sameLayout_of_sameButTypes hsb)
                (GridMazeRoomAcc_inb rs 1 _ _ _ _ _ hsh ?_ i hi)
              rw [hpos2.1, hpos2.2, hsb.inGridIff]
              have e4 : p'.1 + off4X dir * 2 - off4X dir * 2 = p'.1 := by ring
              have e5 : p'.2 + off4Y dir * 2 - off4Y dir * 2 = p'.2 := by ring
              rw [e4, e5]
              exact hp'in
            · simp at hi
        · have hd := turn_dir_bounds dir turn hd0 (by omega)
          exact carveAttemptsAcc_inb rs n s1 _ turn h1 hd.1 hd.2 ht i hi

theorem backtrackScanAcc_sub :
    ∀ (n : Nat) (s : Carve) (d2 i : Int), i ∈ backtrackScanAcc n s d2 →
      ∃ d : Int, d2 ≤ d ∧ d < d2 + n ∧ i = s.cell + s.g.ptr4 d
  | 0, s, d2, i, hi => by simp [backtrackScanAcc] at hi
  | n + 1, s, d2, i, hi => by
    rw [backtrackScanAcc] at hi
    rcases List.mem_cons.1 hi with rfl | hi
    · exact ⟨d2, le_refl _, by omega, rfl⟩
    · split at hi
      · obtain ⟨d, h1, h2, h3⟩ := backtrackScanAcc_sub n s (d2 + 1) i hi
        exact ⟨d, by omega, by push_cast; omega, h3⟩
      · simp at hi

theorem backtrackAcc_inb {s : Carve} {chain : List (Int × Int)} {e : Int × Int} {c0 : Int}
    (h : CarveInv s chain e c0) : ∀ i ∈ backtrackAcc s, s.g.inb i := by
  obtain ⟨p, hcell, hpinner, hcinb, hnb⟩ := cursor_inb h
  intro i hi
  unfold backtrackAcc at hi
  rcases List.mem_cons.1 hi with rfl | hi
  · exact hcinb
  · obtain ⟨d, h1, h2, h3⟩ := backtrackScanAcc_sub _ _ _ _ hi
    rw [h3]
    show s.g.inb (s.cell + (s.g.setType s.cell s.cellsToEnd).ptr4 d)
    rw [(sameButTypes_setType _ _ _).ptr4Eq]
    exact hnb d h1 (by omega)

theorem visitedNeighborAcc_inb {g : GRID} (hs : g.Shaped) (cT : Int) (hc : g.inb cT) :
    ∀ (n : Nat) (d2 : Int), ∀ i ∈ visitedNeighborAcc g cT n d2, g.inb i
  | 0, d2, i, hi => by simp [visitedNeighborAcc] at hi
  | n + 1, d2, i, hi => by
    rw [visitedNeighborAcc] at hi
    rcases List.mem_cons.1 hi with rfl | hi
    · exact hc
    · split at hi
      · rename_i hb
        rcases List.mem_cons.1 hi with rfl | hi
        · exact inBounds_inb hs hb
        · split at hi
          · simp at hi
          · exact visitedNeighborAcc_inb hs cT hc n _ i hi
      · exact visitedNeighborAcc_inb hs cT hc n _ i hi

theorem unvisitedInRowAcc_inb {g : GRID} (hs : g.Shaped) (y : Int) (hy0 : 0 ≤ y)
    (hyh : y < g.height) :
    ∀ (fuel : Nat) (x0 : Int), 0 ≤ x0 → ∀ i ∈ unvisitedInRowAcc g y fuel x0, g.inb i
  | 0, x0, _, i, hi => by simp [unvisitedInRowAcc] at hi
  | fuel + 1, x0, hx0, i, hi => by
    rw [unvisitedInRowAcc] at hi
    split at hi
    · rename_i hxw
      simp only at hi
      have hin : g.InGrid x0 y := ⟨hx0, hxw, hy0, hyh⟩
      have hcT := shaped_inb hs hin
      rcases List.mem_cons.1 hi with rfl | hi
      · exact hcT
      · split at hi
        · exact unvisitedInRowAcc_inb hs y hy0 hyh fuel (x0 + 2) (by omega) i hi
        · rcases List.mem_append.1 hi with hi | hi
          · exact visitedNeighborAcc_inb hs _ hcT 4 0 i hi
          · split at hi
            · rename_i d2 cN hvn
              obtain ⟨hd0, hd3, hb, hcN, -⟩ :=
                visitedNeighbor_some g _ 4 0 d2 cN (by omega) (by omega) hvn
              have hpos := shaped_pos hs hin
              rw [hpos.1, hpos.2] at hb hcN
              have hoff := off4_bounds d2 hd0 hd3
              simp only [List.mem_cons, List.mem_singleton, List.not_mem_nil, or_false] at hi
              rcases hi with rfl | rfl | rfl
              · rw [shaped_step4_one hs _ _ d2 hd0 hd3]
                unfold GRID.inBounds at hb
                exact getcell_inb hs (by omega) (by omega) (by omega) (by omega)
              · rw [hcN]; exact inBounds_inb hs hb
              · exact hcT
            · exact unvisitedInRowAcc_inb hs y hy0 hyh fuel (x0 + 2) (by omega) i hi
    · simp at hi

theorem unvisitedInGridAcc_inb {g : GRID} (hs : g.Shaped) :
    ∀ (fuel : Nat) (y0 : Int), 0 ≤ y0 → ∀ i ∈ unvisitedInGridAcc g fuel y0, g.inb i
  | 0, y0, _, i, hi => by simp [unvisitedInGridAcc] at hi
  | fuel + 1, y0, hy0, i, hi => by
    rw [unvisitedInGridAcc] at hi
    split at hi
    · rename_i hyh
      rcases List.mem_append.1 hi with hi | hi
      · exact unvisitedInRowAcc_inb hs y0 hy0 hyh _ 1 (by omega) i hi
      · split at hi
        · simp at hi
        · exact unvisitedInGridAcc_inb hs fuel (y0 + 2) (by omega) i hi
    · simp at hi

theorem endGrid_sameButTypes (t : Carve) : t.g.SameButTypes (endGrid t) := by
  unfold endGrid
  split
  · exact sameButTypes_setType _ _ _
  · exact sameButTypes_refl _

/-- An iteration of the `while (1)` loop keeps the layout of the grid. -/
theorem carveNext_layout (rs : Nat → Nat) {s : Carve} {chain : List (Int × Int)}
    {e : Int × Int} {c0 : Int} (h : CarveInv s chain e c0) :
    s.g.SameLayout (carveNext rs s).1.g := by
  obtain ⟨htrue, hfalse⟩ := carveTry_inv rs h
  by_cases hflag : (carveTry rs s).2 = true
  · obtain ⟨h1, eg, ec, en⟩ := htrue hflag
    by_cases hne : (carveTry rs s).1.g.typeAt (carveTry rs s).1.cell ≠ END ∧
        (carveTry rs s).1.g.typeAt (carveTry rs s).1.cell ≠ END_TEMP
    · rw [carveNext_back rs s hflag hne]
      obtain ⟨d, -, -, -, -, -, -, -, -, -, -, -, -, f11, -⟩ := backtrack_facts h1 hne.1 hne.2
      rw [eg] at f11
      exact sameLayout_of_sameButTypes f11
    · have hl1 : s.g.SameButTypes (endGrid (carveTry rs s).1) := by
        have := endGrid_sameButTypes (carveTry rs s).1
        rw [eg] at this
        exact this
      cases hu : unvisitedInGrid (endGrid (carveTry rs s).1)
          (endGrid (carveTry rs s).1).height.toNat 1 with
      | none =>
        rw [carveNext_done rs s hflag hne hu]
        exact sameLayout_of_sameButTypes hl1
      | some t =>
        obtain ⟨cT, d, cN⟩ := t
        rw [carveNext_path rs s hflag hne cT d cN hu]
        exact sameLayout_of_sameButTypes (sameButTypes_trans hl1
          (sameButTypes_setType2 _ _ _ _ _))
  · have hflag' : (carveTry rs s).2 = false := by simpa using hflag
    obtain ⟨-, d, -, -, -, -, -, -, hret⟩ := hfalse hflag'
    rw [carveNext_forward rs s hflag']
    exact sameLayout_of_sameButTypes (sameButTypes_trans (sameButTypes_setType2 _ _ _ _ _)
      hret.1)

/-- Every cell an iteration of the `while (1)` loop dereferences lies in the
cell array. -/
theorem carveNextAcc_inb (rs : Nat → Nat) {s : Carve} {chain : List (Int × Int)}
    {e : Int × Int} {c0 : Int} (h : CarveInv s chain e c0) :
    ∀ i ∈ carveNextAcc rs s, s.g.inb i := by
  intro i hi
  unfold carveNextAcc at hi
  have hd := GetRandomValue_bounds rs s.k 0 3 (by omega)
  have ht := GetRandomValue_bounds rs (s.k + 1) 0 1 (by omega)
  have h0 : CarveInv { s with k := s.k + 2 } chain e c0 := carveInv_of_eq h rfl rfl rfl
  rcases List.mem_append.1 hi with hi | hi
  · exact carveAttemptsAcc_inb rs 4 { s with k := s.k + 2 } _ _ h0 hd.1 hd.2 (by omega) i hi
  · simp only at hi
    split at hi
    · rename_i hflag
      obtain ⟨h1, eg, ec, en⟩ := (carveTry_inv rs h).1 hflag
      obtain ⟨p, hcell, hpinner, hcinb, hnb⟩ := cursor_inb h1
      rw [← eg]
      rcases List.mem_cons.1 hi with rfl | hi
      · exact hcinb
      · split at hi
        · exact backtrackAcc_inb h1 i hi
        · rcases List.mem_cons.1 hi with rfl | hi
          · exact hcinb
          · have hsb := endGrid_sameButTypes (carveTry rs s).1
            exact sameLayout_inb (sameLayout_of_sameButTypes hsb)
              (unvisitedInGridAcc_inb (hsb.keepsShape h1.frame.1) _ 1 (by omega) i hi)
    · simp at hi

theorem carveLoopAcc_inb (rs : Nat → Nat) {e : Int × Int} :
    ∀ (fuel : Nat) (s : Carve) (chain : List (Int × Int)) (c0 : Int), CarveInv s chain e c0 →
      ∀ i ∈ carveLoopAcc rs fuel s, s.g.inb i
  | 0, s, chain, c0, _, i, hi => by simp [carveLoopAcc] at hi
  | fuel + 1, s, chain, c0, h, i, hi => by
    rw [carveLoopAcc] at hi
    rcases List.mem_append.1 hi with hi | hi
    · exact carveNextAcc_inb rs h i hi
    · split at hi
      · simp at hi
      · rename_i hflag
        obtain ⟨chain1, c1, h1, -⟩ := (carveNext_inv rs h).2 (by simpa using hflag)
        exact sameLayout_inb (carveNext_layout rs h)
          (carveLoopAcc_inb rs fuel _ chain1 c1 h1 i hi)

/-- The `while (1)` loop keeps the layout of the grid. -/
theorem carveLoop_layout (rs : Nat → Nat) {e : Int × Int} :
    ∀ (fuel : Nat) (s : Carve) (chain : List (Int × Int)) (c0 : Int) (s' : Carve),
      CarveInv s chain e c0 → carveLoop rs fuel s = some s' → s.g.SameLayout s'.g
  | 0, _, _, _, _, _, h => by simp [carveLoop] at h
  | fuel + 1, s, chain, c0, s', hinv, h => by
    rw [carveLoop_succ] at h
    split at h
    · simp only [Option.some.injEq] at h
      rw [← h]
      exact carveNext_layout rs hinv
    · rename_i hflag
      obtain ⟨chain1, c1, h1, -⟩ := (carveNext_inv rs hinv).2 (by simpa using hflag)
      exact sameLayout_trans (carveNext_layout rs hinv)
        (carveLoop_layout rs fuel _ chain1 c1 s' h1 h)

/-! ## The cells of the passes after the loop -/

theorem connectNear_sameButTypes (rs : Nat → Nat) (g : GRID) (k : Nat) :
    g.SameButTypes (connectNear rs (g, k)).1 := by
  unfold connectNear
  simp only
  refine forLoop_inv _ (fun (s : GRID × Nat) => g.SameButTypes s.1) _ _ _ _ (by omega) ?_
    (sameButTypes_refl g)
  intro s y _ _ _ hs
  refine forLoop_inv _ (fun (t : GRID × Nat) => g.SameButTypes t.1) _ _ _ _ (by omega) ?_ hs
  intro t x _ _ _ ht
  split
  · exact ht
  · refine forLoop_inv _ (fun (u : GRID × Nat) => g.SameButTypes u.1) 0 4 1 t (by omega) ?_ ht
    intro u d _ _ _ hu
    split
    · exact hu
    · split
      · exact hu
      · split
        · exact sameButTypes_trans hu (sameButTypes_setType _ _ _)
        · exact hu

theorem removeIsolated_sameButTypes (g : GRID) : g.SameButTypes (removeIsolated g) := by
  unfold removeIsolated
  refine forLoop_inv _ (fun (s : GRID) => g.SameButTypes s) _ _ _ _ (by omega) ?_
    (sameButTypes_refl g)
  intro s y _ _ _ hs
  refine forLoop_inv _ (fun (t : GRID) => g.SameButTypes t) _ _ _ _ (by omega) ?_ hs
  intro t x _ _ _ ht
  simp only
  split
  · exact ht
  · split
    · exact sameButTypes_trans ht (sameButTypes_setType _ _ _)
    · exact ht

/-- The layouts of the grids the passes after the loop work on. -/
theorem finishMaze_layouts (rs : Nat → Nat) (g : GRID) (k : Nat) (hf : g.Frame) :
    g.SameLayout (connectNear rs (g, k)).1 ∧
    g.SameLayout (removeIsolated (connectNear rs (g, k)).1) ∧
    g.SameLayout ((removeIsolated (connectNear rs (g, k)).1).setType
      (lookForStart (removeIsolated (connectNear rs (g, k)).1)) START) ∧
    g.SameLayout (countNeighbors ((removeIsolated (connectNear rs (g, k)).1).setType
      (lookForStart (removeIsolated (connectNear rs (g, k)).1)) START)) ∧
    g.SameLayout (roomBorders (countNeighbors ((removeIsolated (connectNear rs (g, k)).1).setType
      (lookForStart (removeIsolated (connectNear rs (g, k)).1)) START))) ∧
    g.SameLayout (roomDoors (roomBorders (countNeighbors
      ((removeIsolated (connectNear rs (g, k)).1).setType
        (lookForStart (removeIsolated (connectNear rs (g, k)).1)) START)))) ∧
    g.SameLayout (crossDoors (roomDoors (roomBorders (countNeighbors
      ((removeIsolated (connectNear rs (g, k)).1).setType
        (lookForStart (removeIsolated (connectNear rs (g, k)).1)) START))))) ∧
    g.SameLayout (corridorTreasures rs (crossDoors (roomDoors (roomBorders (countNeighbors
      ((removeIsolated (connectNear rs (g, k)).1).setType
        (lookForStart (removeIsolated (connectNear rs (g, k)).1)) START)))),
          (connectNear rs (g, k)).2)).1 ∧
    g.SameLayout (finishMaze rs g k).1 := by
  have l1 := sameLayout_of_sameButTypes (connectNear_sameButTypes rs g k)
  have l2 := sameLayout_trans l1
    (sameLayout_of_sameButTypes (removeIsolated_sameButTypes (connectNear rs (g, k)).1))
  have l3 := sameLayout_trans l2 (sameLayout_of_sameButTypes
    (sameButTypes_setType (removeIsolated (connectNear rs (g, k)).1)
      (lookForStart (removeIsolated (connectNear rs (g, k)).1)) START))
  have l4 := sameLayout_trans l3 (countNeighbors_exact (l3.sameShape hf.1)).1
  have l5 := sameLayout_trans l4 (roomBorders_navKept _).1
  have l6 := sameLayout_trans l5 (roomDoors_navKept _).1
  have l7 := sameLayout_trans l6 (crossDoors_navKept _).1
  have l8 := sameLayout_trans l7 (corridorTreasures_navKept rs _ (connectNear rs (g, k)).2).1
  have l9 : g.SameLayout (finishMaze rs g k).1 := by
    rw [finishMaze_later]
    exact sameLayout_trans l4 (laterPasses_navKept rs _ _).1
  exact ⟨l1, l2, l3, l4, l5, l6, l7, l8, l9⟩

/-- Every cell the passes after the loop dereference lies in the cell array. -/
theorem finishMazeAcc_inb (rs : Nat → Nat) (g : GRID) (k : Nat) (hf : g.Frame) :
    ∀ i ∈ finishMazeAcc rs g k, g.inb i := by
  obtain ⟨l1, l2, l3, l4, l5, l6, l7, l8, -⟩ := finishMaze_layouts rs g k hf
  have hs := hf.1
  intro i hi
  unfold finishMazeAcc at hi
  simp only [List.mem_append] at hi
  rcases hi with (((((((hi | hi) | hi) | hi) | hi) | hi) | hi) | hi) | hi
  · exact connectNearAcc_inb hs i hi
  · exact sameLayout_inb l1 (removeIsolatedAcc_inb (l1.sameShape hs) i hi)
  · exact sameLayout_inb l2 (lookForStartAcc_inb (l2.sameFrame hf) i hi)
  · exact sameLayout_inb l3 (interior8Acc_inb (l3.sameShape hs) i hi)
  · exact sameLayout_inb l4 (interior8Acc_inb (l4.sameShape hs) i hi)
  · exact sameLayout_inb l5 (interior4Acc_inb (l5.sameShape hs) i hi)
  · exact sameLayout_inb l6 (interior4Acc_inb (l6.sameShape hs) i hi)
  · exact sameLayout_inb l7 (corridorTreasuresAcc_inb (l7.sameShape hs) i hi)
  · exact sameLayout_inb l8 (roomTreasuresAcc_inb (l8.sameShape hs) i hi)

/-- A generation attempt keeps the layout of the grid. -/
theorem mazeAttempt_layout (rs : Nat → Nat) (fuel : Nat) {g : GRID} (k : Nat) (hf : g.Frame)
    {r : GRID × Int × Nat} (h : mazeAttempt rs fuel g k = some r) : g.SameLayout r.1 := by
  unfold mazeAttempt at h
  split at h
  · simp at h
  · rename_i s hs
    simp only [Option.some.injEq] at h
    obtain ⟨e, he⟩ := carveStart_inv rs g k hf
    have hc := carveLoop_carved rs fuel _ [e] OPEN s he hs
    have hl := sameLayout_trans (carveStart_layout rs g k hf)
      (carveLoop_layout rs fuel _ [e] OPEN s he hs)
    rw [← h]
    exact sameLayout_trans hl (finishMaze_layouts rs s.g s.k hc.frame).2.2.2.2.2.2.2.2

/-- Every cell a generation attempt dereferences lies in the cell array. -/
theorem mazeAttemptAcc_inb (rs : Nat → Nat) (fuel : Nat) (g : GRID) (k : Nat) (hf : g.Frame) :
    ∀ i ∈ mazeAttemptAcc rs fuel g k, g.inb i := by
  obtain ⟨e, he⟩ := carveStart_inv rs g k hf
  have hl0 := carveStart_layout rs g k hf
  intro i hi
  unfold mazeAttemptAcc at hi
  simp only [List.mem_append] at hi
  rcases hi with (hi | hi) | hi
  · unfold carveStartAcc at hi
    simp only [List.mem_append, List.mem_singleton] at hi
    rcases hi with (hi | hi) | rfl
    · exact initAcc_inb hf.1 i hi
    · exact breakBorderAcc_inb hf i hi
    · obtain ⟨-, -, -, hc, -⟩ := cursor_inb he
      exact sameLayout_inb hl0 hc
  · exact sameLayout_inb hl0 (carveLoopAcc_inb rs fuel _ [e] OPEN he i hi)
  · split at hi
    · simp at hi
    · rename_i s hs
      have hc := carveLoop_carved rs fuel _ [e] OPEN s he hs
      have hl := sameLayout_trans hl0 (carveLoop_layout rs fuel _ [e] OPEN s he hs)
      exact sameLayout_inb hl (finishMazeAcc_inb rs s.g s.k hc.frame i hi)

theorem GridMazeAcc_zero (rs : Nat → Nat) (g : GRID) (k : Nat) : GridMazeAcc rs 0 g k = [] := rfl

theorem GridMazeAcc_succ (rs : Nat → Nat) (fuel : Nat) (g : GRID) (k : Nat) :
    GridMazeAcc rs (fuel + 1) g k =
      mazeAttemptAcc rs (fuel + 1) g k ++
        match mazeAttempt rs (fuel + 1) g k with
        | none => []
        | some r => if r.1.bonus = 0 then GridMazeAcc rs fuel r.1 r.2.2 else [] := rfl

/-- Every cell `GridMaze` dereferences, over all its attempts, lies in the cell
array. -/
theorem GridMazeAcc_inb (rs : Nat → Nat) :
    ∀ (fuel : Nat) (g : GRID) (k : Nat), g.Frame → ∀ i ∈ GridMazeAcc rs fuel g k, g.inb i
  | 0, g, k, _, i, hi => by
    rw [GridMazeAcc_zero] at hi
    simp at hi
  | fuel + 1, g, k, hf, i, hi => by
    rw [GridMazeAcc_succ] at hi
    rcases List.mem_append.1 hi with hi | hi
    · exact mazeAttemptAcc_inb rs (fuel + 1) g k hf i hi
    · split at hi
      · simp at hi
      · rename_i r hr
        split at hi
        · have hfin := mazeAttempt_finished rs (fuel + 1) k hf hr
          exact sameLayout_inb (mazeAttempt_layout rs (fuel + 1) k hf hr)
            (GridMazeAcc_inb rs fuel r.1 r.2.2 hfin.frame i hi)
        · simp at hi

theorem inb_size {g : GRID} (hs : g.Shaped) {i : Int} (h : g.inb i) : 0 ≤ i ∧ i < g.size := by
  unfold GRID.inb at h
  rw [hs.2.2.2.1, ← hs.2.2.1] at h
  exact h

/-- C13: on a grid with odd dimensions of at least 7, as `GridCreate` makes
them, every cell `GridMaze` reads or writes, in any of its attempts and with
any draws, has an index in `[0, size)`, the indices of the cells of the grid;
so has every cell `GridMazeRoom` reads or writes when it is called at a
position of a grid laid out as `GridCreate` does.  The lists `GridMazeAcc`
and `GridMazeRoomAcc` hold the indices of the pointers the statements
dereference, among them the cells reached through the offset tables with no
bounds check: the cells of the branch "not an end yet", the cell in the
middle of a new path and the neighbours the passes after the loop look at. -/
theorem C13_accesses_in_bounds (rs : Nat → Nat) (fuel : Nat) (g : GRID) (k : Nat)
    (hf : g.Frame) :
    (∀ i ∈ GridMazeAcc rs fuel g k, 0 ≤ i ∧ i < g.size) ∧
    ∀ (count : Nat) (g' : GRID) (k' : Nat) (px py c : Int), g'.Shaped → g'.InGrid px py →
      ∀ i ∈ GridMazeRoomAcc rs count g' k' px py c, 0 ≤ i ∧ i < g'.size :=
  ⟨fun i hi => inb_size hf.1 (GridMazeAcc_inb rs fuel g k hf i hi),
    fun count g' k' px py c hf' hin i hi =>
      inb_size hf' (GridMazeRoomAcc_inb rs count g' k' px py c hf' hin i hi)⟩

/-- The cells of the run on `GridCreate(7, 7)` with the draws `countingDraws`,
and those of a room asked for at `(3, 3)` of the grid `GridCreate(7, 7)`. -/
theorem C13_accesses_in_bounds_witness :
    (∀ i ∈ GridMazeAcc countingDraws 100 (GridCreate 7 7 (fun _ => 0)) 0,
      0 ≤ i ∧ i < (GridCreate 7 7 (fun _ => 0)).size) ∧
    ∀ i ∈ GridMazeRoomAcc countingDraws 1 (GridCreate 7 7 (fun _ => 0)) 0 3 3 14,
      0 ≤ i ∧ i < (GridCreate 7 7 (fun _ => 0)).size :=
  ⟨(C13_accesses_in_bounds countingDraws 100 (GridCreate 7 7 (fun _ => 0)) 0
      (GridCreate_frame 7 7 _)).1,
    (C13_accesses_in_bounds countingDraws 100 (GridCreate 7 7 (fun _ => 0)) 0
      (GridCreate_frame 7 7 _)).2 1 _ 0 3 3 14 (GridCreate_shaped 7 7 _) (by decide)⟩

/-- The first two iterations of the sample run: the step from the cell 24 reads
the cell 22, two cells away, writes it and the cell 23 between, and the room
looks at the cell 24; the next iteration tries the cells 8, 36 and 24, then
goes back through the cell 23. -/
theorem sampleStart_cells :
    carveNextAcc countingDraws sampleStart = [24, 22, 22, 23, 24] ∧
    carveNextAcc countingDraws (carveIter countingDraws 1 sampleStart) =
      [22, 8, 22, 22, 36, 22, 24, 22, 22, 23] ∧
    (GridCreate 7 7 (fun _ => 0)).size = 49 := by
  decide!

/-- On the grid `GridCreate` returns, whatever the dimensions asked for and
whatever the memory held, `GridMaze` stays inside the cell array. -/
theorem GridCreate_accesses (rs : Nat → Nat) (fuel : Nat) (w h : Int) (junk : Int → Int)
    (k : Nat) :
    ∀ i ∈ GridMazeAcc rs fuel (GridCreate w h junk) k,
      0 ≤ i ∧ i < (GridCreate w h junk).size :=
  fun i hi => inb_size (GridCreate_frame w h junk).1
    (GridMazeAcc_inb rs fuel _ k (GridCreate_frame w h junk) i hi)

/-! ## The border of the maze -/

theorem border_not_inner {g : GRID} {x y : Int}
    (hb : x = 0 ∨ y = 0 ∨ x = g.width - 1 ∨ y = g.height - 1) : ¬ g.Inner x y := by
  unfold GRID.Inner
  omega

/-- On a grid whose border is made of walls but for the start, a cell above
`WALL` other than the start is an interior cell. -/
theorem bordered_inner {g : GRID} {start : Int} (hb : g.Bordered start) {x y : Int}
    (hin : g.InGrid x y) (hty : WALL < g.ty x y) (hne : GETCELL g x y ≠ start) : g.Inner x y := by
  by_contra hni
  rcases hb x y hin hni with c | ⟨c1, c2, c3, -⟩
  · omega
  · apply hne
    rw [c1, c2, c3]
    unfold GETCELL
    ring

/-- The last attempt of `GridMaze`: the carve that ended and the passes after it. -/
theorem GridMaze_last (rs : Nat → Nat) (fuel : Nat) (g : GRID) (k : Nat)
    (r : GRID × Int × Nat) (hf : g.Frame) (h : GridMaze rs fuel g k = some r) :
    ∃ (f : Nat) (g0 : GRID) (k0 : Nat) (s : Carve) (e : Int × Int),
      carveLoop rs f (carveStart rs g0 k0) = some s ∧ finishMaze rs s.g s.k = r ∧
      Carved s.g e := by
  obtain ⟨f, g0, k0, hf0, hatt⟩ := GridMaze_attempt rs fuel g k r hf h
  unfold mazeAttempt at hatt
  split at hatt
  · simp at hatt
  · rename_i s hs
    simp only [Option.some.injEq] at hatt
    obtain ⟨e, he⟩ := carveStart_inv rs g0 k0 hf0
    exact ⟨f, g0, k0, s, e, hs, hatt, carveLoop_carved rs f _ [e] OPEN s he hs⟩

/-- When `GridMaze` returns on a grid created by `GridCreate`, every cell of
the border of the grid (`x = 0`, `y = 0`, `x = width - 1` or `y = height - 1`)
other than the cell returned has the type `WALL`, and every cell of a type
above `WALL` other than the cell returned is an interior cell, whose
neighbours through the offset tables lie in the cell array.  In the attempt
that returns, the border is made of walls when the `while (1)` loop ends,
rooms included, and still after the passes "Connect depth near" and "Remove
isolated wall cells"; the choice of the start is the one statement after them
that can type a cell of the border. -/
theorem border_walls_on_return (rs : Nat → Nat) (fuel : Nat) (w h : Int) (junk : Int → Int)
    (k : Nat) (r : GRID × Int × Nat)
    (hrun : GridMaze rs fuel (GridCreate w h junk) k = some r) :
    (∀ x y, r.1.InGrid x y → (x = 0 ∨ y = 0 ∨ x = r.1.width - 1 ∨ y = r.1.height - 1) →
      GETCELL r.1 x y ≠ r.2.1 → r.1.ty x y = WALL) ∧
    (∀ x y, r.1.InGrid x y → WALL < r.1.ty x y → GETCELL r.1 x y ≠ r.2.1 →
      r.1.Inner x y ∧ (∀ d : Nat, d < 4 → r.1.inb (GETCELL r.1 x y + r.1.ptr4 d)) ∧
      ∀ d : Nat, d < 8 → r.1.inb (GETCELL r.1 x y + r.1.ptr8 d)) ∧
    ∃ (f : Nat) (g0 : GRID) (k0 : Nat) (s : Carve),
      carveLoop rs f (carveStart rs g0 k0) = some s ∧ finishMaze rs s.g s.k = r ∧
      s.g.BorderWall ∧ (removeIsolated (connectNear rs (s.g, s.k)).1).BorderWall := by
  have hfr := GridCreate_frame w h junk
  have hfin := (GridMaze_finished rs fuel _ k r hfr hrun).1
  have hs := hfin.frame.1
  refine ⟨?_, ?_, ?_⟩
  · intro x y hin hb hne
    rcases hfin.border x y hin (border_not_inner hb) with c | ⟨c1, c2, c3, -⟩
    · exact c
    · exfalso
      apply hne
      rw [c1, c2, c3]
      unfold GETCELL
      ring
  · intro x y hin hty hne
    have hi := bordered_inner hfin.border hin hty hne
    refine ⟨hi, ?_, ?_⟩
    · intro d hd
      rw [shaped_step4_one hs x y d (by omega) (by omega)]
      exact shaped_inb hs (inner_step4 hi d (by omega) (by omega))
    · intro d hd
      rw [shaped_neighbor hs x y d hd]
      exact shaped_inb hs (inner_neighbor hi d hd)
  · obtain ⟨f, g0, k0, s, e, h1, h2, hc⟩ := GridMaze_last rs fuel _ k r hfr hrun
    have hset := (connectNear_settled rs s.g s.k (carved_settled hc)).1
    exact ⟨f, g0, k0, s, h1, h2, hc.border, (removeIsolated_settled _ hset).1.border⟩

/-- C22 fails in the code on the grid `GridCreate(9, 9)` with every draw at its
minimum (the draws `zeroDraws`).  The first attempt returns; after the pass
"Remove isolated wall cells" the corner (0, 0) of the border is a wall, and
the pass "Look for start point" chooses it and types it `START`: a pass after
the carve writes a cell of the border.  `GridMaze` returns that cell, so the
cell `gCell + ptrOffsets4[2]` that `Move` reads from it is `cells[-1]`, and
the flood, which goes on from a cell of type `START`, reads its neighbours
`cells[-8]`, `cells[-9]`, `cells[-10]` and `cells[-1]`: none lies in the cell
array. -/
theorem C22_corner_start :
    GridMaze zeroDraws 100 (GridCreate 9 9 (fun _ => 0)) 0 = some cornerMaze ∧
    carveLoop zeroDraws 100 (carveStart zeroDraws (GridCreate 9 9 (fun _ => 0)) 0) =
      some cornerCarve ∧
    finishMaze zeroDraws cornerCarve.g cornerCarve.k = cornerMaze ∧
    (removeIsolated (connectNear zeroDraws (cornerCarve.g, cornerCarve.k)).1).ty 0 0 = WALL ∧
    lookForStart (removeIsolated (connectNear zeroDraws (cornerCarve.g, cornerCarve.k)).1) =
      GETCELL cornerMaze.1 0 0 ∧
    cornerMaze.2.1 = GETCELL cornerMaze.1 0 0 ∧ cornerMaze.1.ty 0 0 = START ∧
    moveCell cornerMaze.1 cornerMaze.2.1 2 = -1 ∧
    ¬ cornerMaze.1.inb (moveCell cornerMaze.1 cornerMaze.2.1 2) ∧
    cornerMaze.1.Propagates cornerMaze.2.1 ∧
    (List.range 8).map (fun (d : Nat) => cornerMaze.2.1 + cornerMaze.1.ptr8 d) =
      [1, -8, -9, -10, -1, 8, 9, 10] ∧
    ∀ d : Nat, 1 ≤ d → d ≤ 4 → ¬ cornerMaze.1.inb (cornerMaze.2.1 + cornerMaze.1.ptr8 d) := by
  have h1 : (carveLoop zeroDraws 100
      (carveStart zeroDraws (GridCreate 9 9 (fun _ => 0)) 0)).isSome = true := by decide!
  have h2 : finishMaze zeroDraws cornerCarve.g cornerCarve.k = cornerMaze := by decide!
  have h3 : (removeIsolated (connectNear zeroDraws (cornerCarve.g, cornerCarve.k)).1).ty 0 0 =
      WALL := by decide!
  have h4 : lookForStart (removeIsolated (connectNear zeroDraws
      (cornerCarve.g, cornerCarve.k)).1) = GETCELL cornerMaze.1 0 0 := by decide!
  have h5 : cornerMaze.2.1 = GETCELL cornerMaze.1 0 0 ∧ cornerMaze.1.ty 0 0 = START ∧
      moveCell cornerMaze.1 cornerMaze.2.1 2 = -1 ∧
      ¬ cornerMaze.1.inb (moveCell cornerMaze.1 cornerMaze.2.1 2) ∧
      cornerMaze.1.Propagates cornerMaze.2.1 ∧
      (List.range 8).map (fun (d : Nat) => cornerMaze.2.1 + cornerMaze.1.ptr8 d) =
        [1, -8, -9, -10, -1, 8, 9, 10] ∧
      ∀ d : Nat, 1 ≤ d → d ≤ 4 →
        ¬ cornerMaze.1.inb (cornerMaze.2.1 + cornerMaze.1.ptr8 d) := by decide!
  exact ⟨cornerMaze_run, eq_some_getD _ _ h1, h2, h3, h4, h5⟩

/-- The run on `GridCreate(7, 7)` with the draws `countingDraws` returns the
cell (1, 3), an interior cell: the border is made of walls. -/
theorem sampleMaze_border :
    sampleMaze.2.1 = GETCELL sampleMaze.1 1 3 ∧
    ∀ x : Nat, x < 7 → ∀ y : Nat, y < 7 → (x = 0 ∨ y = 0 ∨ x = 6 ∨ y = 6) →
      sampleMaze.1.ty x y = WALL := by
  decide!

/-! ## The flood, state by state -/

theorem foldlM_option_fst {α σ τ : Type} (f : σ → α → Option σ)
    (f' : σ × τ → α → Option (σ × τ)) :
    ∀ (l : List α) (p : σ × τ), (∀ p a, a ∈ l → (f' p a).map Prod.fst = f p.1 a) →
      (l.foldlM f' p).map Prod.fst = l.foldlM f p.1
  | [], _, _ => rfl
  | a :: l, p, h => by
    have ha := h p a (List.mem_cons_self a l)
    simp only [List.foldlM_cons, bind, Option.bind]
    cases hf : f' p a with
    | none =>
      rw [hf] at ha
      simp only [Option.map_none'] at ha
      rw [← ha]
      rfl
    | some p1 =>
      rw [hf] at ha
      simp only [Option.map_some'] at ha
      rw [← ha]
      exact foldlM_option_fst f f' l p1 (fun q b hb => h q b (List.mem_cons_of_mem a hb))

theorem floodLog_succ (fuel : Nat) (g : GRID) (c d ts : Int) :
    GridFloodVisibilityLog (fuel + 1) g c d ts =
      if ((g.modifyCell c (CELL.stamp d ts)).cellAt c).depth < 0 then
        some ((g.modifyCell c (CELL.stamp d ts)).modifyCell c CELL.hide,
          [g.modifyCell c (CELL.setDepth d), g.modifyCell c (CELL.stamp d ts),
            (g.modifyCell c (CELL.stamp d ts)).modifyCell c CELL.hide])
      else if ((g.modifyCell c (CELL.stamp d ts)).modifyCell c CELL.unhide).typeAt c ≤ WALL ∨
          ((g.modifyCell c (CELL.stamp d ts)).modifyCell c CELL.unhide).typeAt c = DOOR then
        some ((g.modifyCell c (CELL.stamp d ts)).modifyCell c CELL.unhide,
          [g.modifyCell c (CELL.setDepth d), g.modifyCell c (CELL.stamp d ts),
            (g.modifyCell c (CELL.stamp d ts)).modifyCell c CELL.unhide])
      else
        (List.range 8).foldlM (floodNeighborLog
          (fun s t => GridFloodVisibilityLog fuel s t
            (d - (5 - Int.tdiv ((g.modifyCell c (CELL.stamp d ts)).cellAt c).neighborCount 2)) ts)
          c (d - (5 - Int.tdiv ((g.modifyCell c (CELL.stamp d ts)).cellAt c).neighborCount 2)) ts)
          ((g.modifyCell c (CELL.stamp d ts)).modifyCell c CELL.unhide,
            [g.modifyCell c (CELL.setDepth d), g.modifyCell c (CELL.stamp d ts),
              (g.modifyCell c (CELL.stamp d ts)).modifyCell c CELL.unhide]) := by
  rw [GridFloodVisibilityLog]

/-- The grid `GridFloodVisibilityLog` returns is the one `GridFloodVisibility`
returns, and it returns when that one does. -/
theorem floodLog_fst : ∀ (fuel : Nat) (g : GRID) (c d ts : Int),
    (GridFloodVisibilityLog fuel g c d ts).map Prod.fst = GridFloodVisibility fuel g c d ts
  | 0, _, _, _, _ => rfl
  | fuel + 1, g, c, d, ts => by
    rw [floodLog_succ, flood_succ]
    split_ifs with h1 h2
    · rfl
    · rfl
    · apply foldlM_option_fst
      intro p a _
      unfold floodNeighborLog floodNeighbor
      split_ifs with h3
      · rw [Option.map_map]
        exact floodLog_fst fuel p.1 _ _ ts
      · rfl

theorem floodNeighborLog_cases {visit : GRID → Int → Option (GRID × List GRID)} {c d ts : Int}
    {s s' : GRID × List GRID} {a : Nat} (h : floodNeighborLog visit c d ts s a = some s') :
    (¬ s.1.Stamped ts (c + s.1.ptr8 a) d ∧
      ∃ r, visit s.1 (c + s.1.ptr8 a) = some r ∧ s' = (r.1, s.2 ++ r.2)) ∨
    (s.1.Stamped ts (c + s.1.ptr8 a) d ∧ s' = s) := by
  unfold floodNeighborLog at h
  unfold GRID.Stamped
  split at h
  · rename_i hg
    left
    refine ⟨?_, ?_⟩
    · rintro ⟨h1, h2⟩
      rcases hg with hg | hg
      · exact hg h1
      · omega
    · cases hv : visit s.1 (c + s.1.ptr8 a) with
      | none => rw [hv] at h; simp at h
      | some r =>
        rw [hv] at h
        simp only [Option.map_some', Option.some.injEq] at h
        exact ⟨r, rfl, h.symm⟩
  · rename_i hg
    right
    simp only [Option.some.injEq] at h
    refine ⟨⟨?_, ?_⟩, h.symm⟩
    · by_contra hne
      exact hg (Or.inl hne)
    · by_contra hlt
      exact hg (Or.inr (by omega))

theorem depthKept_iff (ts : Int) (s t : GRID) :
    GRID.DepthKept ts s t ↔ ∀ j e, s.Stamped ts j e → t.Stamped ts j e := by
  unfold GRID.DepthKept GRID.Stamped
  constructor
  · intro h j e hj
    have := h j hj.1
    exact ⟨this.1, by omega⟩
  · intro h j hj
    have := h j _ ⟨hj, le_refl _⟩
    exact this

theorem depthKept_setDepth (g : GRID) (c d ts : Int) (hn : ¬ g.Stamped ts c d) :
    GRID.DepthKept ts g (g.modifyCell c (CELL.setDepth d)) := by
  intro j hj
  rw [cellAt_modifyCell]
  split
  · rename_i h
    rw [h.1] at hj ⊢
    refine ⟨hj, ?_⟩
    simp only [CELL.setDepth]
    by_contra hlt
    exact hn ⟨hj, by omega⟩
  · exact ⟨hj, le_refl _⟩

theorem depthKept_timeStamp (g : GRID) (c d ts : Int) :
    GRID.DepthKept ts (g.modifyCell c (CELL.setDepth d)) (g.modifyCell c (CELL.stamp d ts)) := by
  intro j hj
  simp only [cellAt_modifyCell] at hj ⊢
  by_cases h : j = c ∧ g.inb c
  · simp only [if_pos h]
    exact ⟨rfl, le_refl _⟩
  · simp only [if_neg h] at hj ⊢
    exact ⟨hj, le_refl _⟩

theorem depthKept_flags (g : GRID) (c ts : Int) (f : CELL → CELL)
    (hf : ∀ x, (f x).timeStamp = x.timeStamp ∧ (f x).depth = x.depth) :
    GRID.DepthKept ts g (g.modifyCell c f) := by
  intro j hj
  rw [cellAt_modifyCell]
  split
  · rename_i h
    rw [h.1] at hj
    rw [(hf _).1, (hf _).2, h.1]
    exact ⟨hj, le_refl _⟩
  · exact ⟨hj, le_refl _⟩

theorem keptAlong_append (ts : Int) :
    ∀ (l1 l2 : List GRID) (a m b : GRID), GRID.KeptAlong ts a l1 m →
      GRID.KeptAlong ts m l2 b → GRID.KeptAlong ts a (l1 ++ l2) b
  | [], l2, a, m, b, h1, h2 => by
    simp only [GRID.KeptAlong] at h1
    rw [h1]
    exact h2
  | s :: l1, l2, a, m, b, h1, h2 => by
    simp only [GRID.KeptAlong, List.cons_append] at h1 ⊢
    exact ⟨h1.1, keptAlong_append ts l1 l2 s m b h1.2 h2⟩

/-- The list of states leads to its last state. -/
theorem keptAlong_last (ts : Int) :
    ∀ (l : List GRID) (a b : GRID), GRID.KeptAlong ts a l b → (l.getLast?).getD a = b
  | [], a, b, h => by
    simp only [GRID.KeptAlong] at h
    simp [h]
  | [s], a, b, h => by
    simp only [GRID.KeptAlong] at h
    simp [h.2]
  | s :: t :: l, a, b, h => by
    simp only [GRID.KeptAlong] at h
    have := keptAlong_last ts (t :: l) s b (by simp only [GRID.KeptAlong]; exact h.2)
    simp only [List.getLast?_cons_cons]
    simp only [List.getLast?_cons_cons] at this
    cases hl : (t :: l).getLast? with
    | none => simp at hl
    | some z =>
      rw [hl] at this
      simpa using this

/-- From one state to the next, over a call of the flood that is not left out,
no depth of the pass decreases. -/
theorem floodLog_kept : ∀ (fuel : Nat) (g : GRID) (c d ts : Int) (r : GRID × List GRID),
    GridFloodVisibilityLog fuel g c d ts = some r → ¬ g.Stamped ts c d →
    GRID.KeptAlong ts g r.2 r.1
  | 0, g, c, d, ts, r, h, _ => by simp [GridFloodVisibilityLog] at h
  | fuel + 1, g, c, d, ts, r, h, hn => by
    rw [floodLog_succ] at h
    have k0 := depthKept_setDepth g c d ts hn
    have k1 := depthKept_timeStamp g c d ts
    have k2 : GRID.DepthKept ts (g.modifyCell c (CELL.stamp d ts))
        ((g.modifyCell c (CELL.stamp d ts)).modifyCell c CELL.hide) :=
      depthKept_flags _ c ts _ (fun _ => by simp [CELL.hide])
    have k3 : GRID.DepthKept ts (g.modifyCell c (CELL.stamp d ts))
        ((g.modifyCell c (CELL.stamp d ts)).modifyCell c CELL.unhide) :=
      depthKept_flags _ c ts _ (fun _ => by simp [CELL.unhide])
    split at h
    · simp only [Option.some.injEq] at h
      subst h
      simp only [GRID.KeptAlong]
      exact ⟨k0, k1, k2, trivial⟩
    · split at h
      · simp only [Option.some.injEq] at h
        subst h
        simp only [GRID.KeptAlong]
        exact ⟨k0, k1, k3, trivial⟩
      · refine (foldlM_option_inv _ (fun (p : GRID × List GRID) => GRID.KeptAlong ts g p.2 p.1)
          (fun _ _ => True) _ _ _ ?_ ?_ h).1
        · intro s a s' _ hs hstep
          refine ⟨?_, trivial, fun _ _ => trivial⟩
          rcases floodNeighborLog_cases hstep with ⟨hg, r', hv, rfl⟩ | ⟨_, rfl⟩
          · exact keptAlong_append ts _ _ _ _ _ hs (floodLog_kept fuel s.1 _ _ ts r' hv hg)
          · exact hs
        · simp only [GRID.KeptAlong]
          exact ⟨k0, k1, k3, trivial⟩

/-! ## The flood is consistent around the cells it goes on from -/

theorem consistent_keep {s t : GRID} {ts j : Int} (hsm : s.SameMaze t)
    (hmono : ∀ j e, s.Stamped ts j e → t.Stamped ts j e)
    (hd : (t.cellAt j).depth = (s.cellAt j).depth) (h : s.Consistent ts j) :
    t.Consistent ts j := by
  unfold GRID.Consistent at *
  intro h0 hp a ha
  rw [hd] at h0 ⊢
  rw [hsm.ptr8, (hsm.2.2.2.2.2.2.2 j).2.2.2.2]
  exact hmono _ _ (h h0 ((hsm.propagates j).1 hp) a ha)

/-- A call of the flood that is not left out leaves a cell with the pass id and
the depth it had, or with the pass id, a depth of at most the depth of the
call and consistent with the cells around it. -/
theorem flood_local : ∀ (fuel : Nat) (g : GRID) (x y d ts : Int) (g' : GRID),
    g.Shaped → g.FloodSafe → g.InGrid x y →
    (g.Propagates (GETCELL g x y) → g.Inner x y) →
    GridFloodVisibility fuel g (GETCELL g x y) d ts = some g' →
    ¬ g.Stamped ts (GETCELL g x y) d →
    ∀ j, ((g'.cellAt j).timeStamp = (g.cellAt j).timeStamp ∧
        (g'.cellAt j).depth = (g.cellAt j).depth) ∨
      ((g'.cellAt j).timeStamp = ts ∧ (g'.cellAt j).depth ≤ d ∧ g'.Consistent ts j)
  | 0, g, x, y, d, ts, g', _, _, _, _, h, _ => by simp [GridFloodVisibility] at h
  | fuel + 1, g, x, y, d, ts, g', hs, hf, hxy, hpi, h, hn => by
    have hc := shaped_inb hs hxy
    rw [flood_succ] at h
    have e1 : ((g.modifyCell (GETCELL g x y) (CELL.stamp d ts)).cellAt (GETCELL g x y)).depth = d := by
      rw [cellAt_modifyCell_self _ _ _ hc]
      rfl
    rw [e1] at h
    split at h
    · rename_i hd
      simp only [Option.some.injEq] at h
      subst h
      intro j
      by_cases hj : j = GETCELL g x y
      · right
        rw [hj]
        have e2 : ((g.modifyCell (GETCELL g x y) (CELL.stamp d ts)).modifyCell (GETCELL g x y)
            CELL.hide).cellAt (GETCELL g x y) = (CELL.stamp d ts (g.cellAt (GETCELL g x y))).hide := by
          rw [cellAt_modifyCell_self _ _ _ (by simpa using hc), cellAt_modifyCell_self _ _ _ hc]
        refine ⟨by rw [e2]; rfl, by rw [e2]; exact le_refl _, ?_⟩
        unfold GRID.Consistent
        rw [e2]
        intro h0
        exact absurd h0 (by simp only [CELL.hide, CELL.stamp]; omega)
      · left
        rw [cellAt_modifyCell_ne _ _ _ _ hj, cellAt_modifyCell_ne _ _ _ _ hj]
        exact ⟨rfl, rfl⟩
    · split at h
      · rename_i hblk
        simp only [Option.some.injEq] at h
        subst h
        intro j
        by_cases hj : j = GETCELL g x y
        · right
          rw [hj]
          have e2 : ((g.modifyCell (GETCELL g x y) (CELL.stamp d ts)).modifyCell (GETCELL g x y)
              CELL.unhide).cellAt (GETCELL g x y) =
              (CELL.stamp d ts (g.cellAt (GETCELL g x y))).unhide := by
            rw [cellAt_modifyCell_self _ _ _ (by simpa using hc), cellAt_modifyCell_self _ _ _ hc]
          refine ⟨by rw [e2]; rfl, by rw [e2]; exact le_refl _, ?_⟩
          unfold GRID.Consistent
          intro _ hp
          exact absurd hblk hp
        · left
          rw [cellAt_modifyCell_ne _ _ _ _ hj, cellAt_modifyCell_ne _ _ _ _ hj]
          exact ⟨rfl, rfl⟩
      · rename_i hd hblk
        have hp := propagates_of_unhide_stamp hblk
        have hin := hpi hp
        have hsm2 := (sameMaze_stamp g (GETCELL g x y) d ts).trans (sameMaze_unhide _ (GETCELL g x y))
        have hcost : 5 - Int.tdiv (g.cellAt (GETCELL g x y)).neighborCount 2 ≥ 1 := by
          have := tdiv_two_le _ (hf x y hin hp).1
          omega
        rw [neighborCount_stamp] at h
        have e3 : ((g.modifyCell (GETCELL g x y) (CELL.stamp d ts)).modifyCell (GETCELL g x y)
            CELL.unhide).cellAt (GETCELL g x y) =
            (CELL.stamp d ts (g.cellAt (GETCELL g x y))).unhide := by
          rw [cellAt_modifyCell_self _ _ _ (by simpa using hc), cellAt_modifyCell_self _ _ _ hc]
        have key := by
          refine foldlM_option_inv _
            (fun s => g.SameMaze s ∧ s.Stamped ts (GETCELL g x y) d ∧
              (s.cellAt (GETCELL g x y)).depth = d ∧
              ∀ j, j ≠ GETCELL g x y →
                ((s.cellAt j).timeStamp = (g.cellAt j).timeStamp ∧
                  (s.cellAt j).depth = (g.cellAt j).depth) ∨
                ((s.cellAt j).timeStamp = ts ∧
                  (s.cellAt j).depth ≤
                    d - (5 - Int.tdiv (g.cellAt (GETCELL g x y)).neighborCount 2) ∧
                  s.Consistent ts j))
            (fun (a : Nat) s => s.Stamped ts (GETCELL g x y + g.ptr8 a)
              (d - (5 - Int.tdiv (g.cellAt (GETCELL g x y)).neighborCount 2)))
            _ _ _ ?_ ⟨hsm2, ?_, ?_, ?_⟩ h
          · intro s a s' ha hP hstep
            have ha8 : a < 8 := List.mem_range.1 ha
            obtain ⟨c1, c2, c3, c4, c5, -⟩ := flood_step_context hs hf hP.1 hin hp a ha8
            rcases floodNeighbor_cases hstep with ⟨hg, hv⟩ | ⟨hst', rfl⟩
            · rw [c5] at hg hv
              have ih := flood_local fuel s _ _ _ ts s' c1 c2 c3 c4 hv hg
              have hmono := flood_mono fuel s _ _ ts s' hv hg
              have hsm' := flood_sameMaze fuel s _ _ ts s' hv
              have hst2 := hmono _ _ hP.2.1
              refine ⟨⟨hP.1.trans hsm', hst2, ?_, ?_⟩, ?_, fun b hb => hmono _ _ hb⟩
              · rcases ih (GETCELL g x y) with ⟨-, t2⟩ | ⟨-, t2, -⟩
                · rw [t2]
                  exact hP.2.2.1
                · have := hst2.2
                  omega
              · intro j hj
                rcases ih j with ⟨t1, t2⟩ | ⟨t1, t2, t3⟩
                · rcases hP.2.2.2 j hj with ⟨u1, u2⟩ | ⟨u1, u2, u3⟩
                  · exact Or.inl ⟨t1.trans u1, t2.trans u2⟩
                  · exact Or.inr ⟨t1.trans u1, by rw [t2]; exact u2,
                      consistent_keep hsm' hmono t2 u3⟩
                · exact Or.inr ⟨t1, t2, t3⟩
              · show s'.Stamped ts (GETCELL g x y + g.ptr8 a) _
                rw [← hP.1.ptr8, c5]
                exact flood_stamps fuel s _ _ ts s' hv (shaped_inb c1 c3)
            · refine ⟨hP, ?_, fun b hb => hb⟩
              show s'.Stamped ts (GETCELL g x y + g.ptr8 a) _
              rw [← hP.1.ptr8]
              exact hst'
          · exact (stamped_unhide_iff _ _ ts _ d).2 (stamped_stamp_self g _ d ts hc)
          · rw [e3]
            rfl
          · intro j hj
            left
            rw [cellAt_modifyCell_ne _ _ _ _ hj, cellAt_modifyCell_ne _ _ _ _ hj]
            exact ⟨rfl, rfl⟩
        obtain ⟨⟨hsm, hst, hdep, hoth⟩, hQ⟩ := key
        intro j
        by_cases hj : j = GETCELL g x y
        · right
          rw [hj]
          refine ⟨hst.1, by omega, ?_⟩
          unfold GRID.Consistent
          intro _ _ a ha
          rw [hdep, hsm.ptr8, (hsm.2.2.2.2.2.2.2 _).2.2.2.2]
          exact hQ a (List.mem_range.2 ha)
        · rcases hoth j hj with u | ⟨u1, u2, u3⟩
          · exact Or.inl u
          · exact Or.inr ⟨u1, by omega, u3⟩

/-! ## The claim about the consistency of the flood -/

theorem centerGrid_fresh (x y : Int) (hxy : centerGrid.InGrid x y) :
    (centerGrid.cellAt (GETCELL centerGrid x y)).timeStamp ≠ 1 := by
  obtain ⟨hx0, hx1, hy0, hy1⟩ := hxy
  have hw : centerGrid.width = 7 := by decide
  have hh : centerGrid.height = 7 := by decide
  rw [hw] at hx1
  rw [hh] at hy1
  interval_cases x <;> interval_cases y <;> decide

/-- C21, as the claim states it, fails on a cell of type `UNVISITED`, which is
neither a wall nor a door but stops the flood as a wall does (the test is
`_cell->type <= WALL`).  In `centerGrid` no cell of the border lets the flood
go on, the cell from which it goes on, (3, 3), has a neighbour count of 0, and
no cell carries the pass id 1.  After the flood from (3, 3) with depth 10 and
pass id 1 the cell (2, 2), of type `UNVISITED`, carries the pass id and the
depth 5, and its neighbour (1, 1) does not carry the pass id. -/
theorem C21_counterexample :
    centerGrid.Shaped ∧
    (∀ x : Nat, x < 7 → ∀ y : Nat, y < 7 → (x = 0 ∨ y = 0 ∨ x = 6 ∨ y = 6) →
      ¬ centerGrid.Propagates (GETCELL centerGrid x y)) ∧
    (∀ n : Nat, n < 49 → centerGrid.Propagates n →
      0 ≤ (centerGrid.cellAt n).neighborCount ∧ (centerGrid.cellAt n).neighborCount ≤ 8) ∧
    (∀ n : Nat, n < 49 → (centerGrid.cellAt n).timeStamp ≠ 1) ∧
    GridFloodVisibility 12 centerGrid (GETCELL centerGrid 3 3) 10 1 = some centerFlooded ∧
    (centerFlooded.cellAt (GETCELL centerFlooded 2 2)).timeStamp = 1 ∧
    (centerFlooded.cellAt (GETCELL centerFlooded 2 2)).depth = 5 ∧
    centerFlooded.typeAt (GETCELL centerFlooded 2 2) = UNVISITED ∧
    centerFlooded.typeAt (GETCELL centerFlooded 2 2) ≠ WALL ∧
    centerFlooded.typeAt (GETCELL centerFlooded 2 2) ≠ DOOR ∧
    GETCELL centerFlooded 2 2 + centerFlooded.ptr8 3 = GETCELL centerFlooded 1 1 ∧
    (centerFlooded.cellAt (GETCELL centerFlooded 1 1)).timeStamp ≠ 1 := by
  refine ⟨shaped_setType _ _ _ (GridCreate_shaped 7 7 _), by decide, by decide, by decide,
    eq_some_getD _ _ (by decide!), by decide!, by decide!, by decide!, by decide!, by decide!,
    by decide!, by decide!⟩

/-- C21, amended: on a grid in which the flood goes on only from interior cells
(no cell of the border lets it go on), each with a neighbour count between 0
and 8, and for a pass id that no cell of the grid carries,
`GridFloodVisibility(origin, maxDepth, passId)` returns, and in the grid it
returns every cell that carries the pass id, has a depth of 0 or more and
lets the flood go on (its type is above `WALL` and is not `DOOR`) has its
eight neighbours carrying the pass id, each with a depth of at least that of
the cell less `5 - neighborCount / 2`.  The list `log` holds the grids after
each assignment of the run, the last being the grid returned: from each to
the next, and from the grid of the call to the first, a cell that carries the
pass id keeps it and its depth does not decrease. -/
theorem C21_flood_locally_consistent (fuel : Nat) (g : GRID) (x y d ts : Int)
    (hs : g.Shaped)
    (hp : ∀ x y, g.InGrid x y → g.Propagates (GETCELL g x y) →
      g.Inner x y ∧ 0 ≤ (g.cellAt (GETCELL g x y)).neighborCount ∧
        (g.cellAt (GETCELL g x y)).neighborCount ≤ 8)
    (hxy : g.InGrid x y)
    (hfresh : ∀ x y, g.InGrid x y → (g.cellAt (GETCELL g x y)).timeStamp ≠ ts)
    (h1 : 1 ≤ fuel) (hfuel : d + 2 ≤ fuel) :
    ∃ (g' : GRID) (log : List GRID),
      GridFloodVisibility fuel g (GETCELL g x y) d ts = some g' ∧
      GridFloodVisibilityLog fuel g (GETCELL g x y) d ts = some (g', log) ∧
      (∀ cx cy, g'.InGrid cx cy → (g'.cellAt (GETCELL g' cx cy)).timeStamp = ts →
        0 ≤ (g'.cellAt (GETCELL g' cx cy)).depth → g'.Propagates (GETCELL g' cx cy) →
        ∀ a : Nat, a < 8 →
          (g'.cellAt (GETCELL g' (cx + off8X a) (cy + off8Y a))).timeStamp = ts ∧
          (g'.cellAt (GETCELL g' cx cy)).depth -
              (5 - Int.tdiv (g'.cellAt (GETCELL g' cx cy)).neighborCount 2) ≤
            (g'.cellAt (GETCELL g' (cx + off8X a) (cy + off8Y a))).depth) ∧
      GRID.KeptAlong ts g log g' := by
  have hf := floodSafe_of_interior hp
  have hpi : g.Propagates (GETCELL g x y) → g.Inner x y := fun h => (hp x y hxy h).1
  have hn : ¬ g.Stamped ts (GETCELL g x y) d := fun h => hfresh x y hxy h.1
  obtain ⟨g', hg'⟩ := flood_returns fuel g x y d ts hs hf hxy hpi h1 hfuel
  have hfst := floodLog_fst fuel g (GETCELL g x y) d ts
  rw [hg'] at hfst
  cases hlog : GridFloodVisibilityLog fuel g (GETCELL g x y) d ts with
  | none =>
    rw [hlog] at hfst
    simp at hfst
  | some r =>
    rw [hlog] at hfst
    simp only [Option.map_some', Option.some.injEq] at hfst
    have hk := floodLog_kept fuel g _ d ts r hlog hn
    rw [hfst] at hk
    have hr : r = (g', r.2) := by rw [← hfst]
    refine ⟨g', r.2, hg', hr ▸ rfl, ?_, hk⟩
    have hsm := flood_sameMaze fuel g _ d ts g' hg'
    have hs' := hsm.shaped hs
    have hloc := flood_local fuel g x y d ts g' hs hf hxy hpi hg' hn
    intro cx cy hin hts h0 hpr a ha
    have hin' := (hsm.inGrid cx cy).1 hin
    rcases hloc (GETCELL g' cx cy) with ⟨t1, -⟩ | ⟨-, -, t3⟩
    · rw [hsm.getcell] at t1 hts
      exact absurd (t1 ▸ hts) (hfresh cx cy hin')
    · have := t3 h0 hpr a ha
      rw [shaped_neighbor hs' cx cy a ha] at this
      exact this

/-- The flood of `centerGrid` from (3, 3) with depth 10 and pass id 1. -/
theorem C21_flood_locally_consistent_witness :
    centerGrid.Shaped ∧ centerGrid.InGrid 3 3 ∧ 1 ≤ 12 ∧ (10 : Int) + 2 ≤ (12 : Nat) ∧
    ∃ (g' : GRID) (log : List GRID),
      GridFloodVisibility 12 centerGrid (GETCELL centerGrid 3 3) 10 1 = some g' ∧
      GridFloodVisibilityLog 12 centerGrid (GETCELL centerGrid 3 3) 10 1 = some (g', log) ∧
      (∀ cx cy, g'.InGrid cx cy → (g'.cellAt (GETCELL g' cx cy)).timeStamp = 1 →
        0 ≤ (g'.cellAt (GETCELL g' cx cy)).depth → g'.Propagates (GETCELL g' cx cy) →
        ∀ a : Nat, a < 8 →
          (g'.cellAt (GETCELL g' (cx + off8X a) (cy + off8Y a))).timeStamp = 1 ∧
          (g'.cellAt (GETCELL g' cx cy)).depth -
              (5 - Int.tdiv (g'.cellAt (GETCELL g' cx cy)).neighborCount 2) ≤
            (g'.cellAt (GETCELL g' (cx + off8X a) (cy + off8Y a))).depth) ∧
      GRID.KeptAlong 1 centerGrid log g' :=
  ⟨shaped_setType _ _ _ (GridCreate_shaped 7 7 _), by decide, by decide, by decide,
    C21_flood_locally_consistent 12 centerGrid 3 3 10 1
      (shaped_setType _ _ _ (GridCreate_shaped 7 7 _)) centerGrid_propagates
      (by decide) centerGrid_fresh (by decide) (by decide)⟩

/-- The flood of `centerGrid` from (3, 3) with depth 10 and pass id 1 goes
through 27 states; the cell (3, 3) ends with the depth 10, the eight cells
around it with the depth 5, which is 10 less `5 - 0 / 2`. -/
theorem centerFlooded_sample :
    (GridFloodVisibilityLog 12 centerGrid (GETCELL centerGrid 3 3) 10 1).map
      (fun r => (decide (r.1 = centerFlooded), r.2.length)) = some (true, 27) ∧
    (centerFlooded.cellAt (GETCELL centerFlooded 3 3)).depth = 10 ∧
    (List.range 8).map (fun (a : Nat) =>
      (centerFlooded.cellAt (GETCELL centerFlooded (3 + off8X a) (3 + off8Y a))).depth) =
      [5, 5, 5, 5, 5, 5, 5, 5] := by
  decide!

/-! ## The path of the carve and the tags written along it -/

theorem getcell_of_width {g t : GRID} (h : t.width = g.width) (x y : Int) :
    GETCELL t x y = GETCELL g x y := by
  unfold GETCELL
  rw [h]

theorem carveIter_succ (rs : Nat → Nat) :
    ∀ (n : Nat) (s : Carve), carveIter rs (n + 1) s = (carveNext rs (carveIter rs n s)).1
  | 0, _ => rfl
  | n + 1, s => by
    show carveIter rs (n + 1) (carveNext rs s).1 = _
    rw [carveIter_succ rs n (carveNext rs s).1]
    rfl

theorem carvePath_succ (rs : Nat → Nat) :
    ∀ (n : Nat) (s : Carve) (p : List Int × Int),
      carvePath rs (n + 1) s p = pathStep rs (carveIter rs n s) (carvePath rs n s p)
  | 0, _, _ => rfl
  | n + 1, s, p => by
    show carvePath rs (n + 1) (carveNext rs s).1 (pathStep rs s p) = _
    rw [carvePath_succ rs n (carveNext rs s).1]
    rfl

/-- One iteration moves the path along with the invariant: a step puts the new
cell in front, the branch "not an end yet" takes the head off, and a new path
is the list of its one cell, with the counter it starts with. -/
theorem pathStep_inv (rs : Nat → Nat) {s : Carve} {chain : List (Int × Int)} {e : Int × Int}
    {c0 : Int} (h : CarveInv s chain e c0) (hrun : (carveNext rs s).2 = false) :
    ∃ chain' c0', CarveInv (carveNext rs s).1 chain' e c0' ∧
      pathStep rs s (chain.map (fun q => GETCELL s.g q.1 q.2), c0) =
        (chain'.map (fun q => GETCELL (carveNext rs s).1.g q.1 q.2), c0') := by
  have hw : (carveNext rs s).1.g.width = s.g.width := (carveNext_layout rs h).1
  have hmap : ∀ l : List (Int × Int),
      l.map (fun q => GETCELL (carveNext rs s).1.g q.1 q.2) =
        l.map (fun q => GETCELL s.g q.1 q.2) := by
    intro l
    apply List.map_congr_left
    intro q _
    exact getcell_of_width hw _ _
  obtain ⟨htrue, hfalse⟩ := carveTry_inv rs h
  by_cases hflag : (carveTry rs s).2 = true
  · obtain ⟨h1, eg, ec, en⟩ := htrue hflag
    have hnf : ¬ (carveTry rs s).2 = false := by rw [hflag]; simp
    by_cases hne : (carveTry rs s).1.g.typeAt (carveTry rs s).1.cell ≠ END ∧
        (carveTry rs s).1.g.typeAt (carveTry rs s).1.cell ≠ END_TEMP
    · obtain ⟨p2, rest2, hch2, hinv⟩ := backtrack_inv h1 hne.1 hne.2
      have hne' : s.g.typeAt s.cell ≠ END ∧ s.g.typeAt s.cell ≠ END_TEMP := by
        rw [← eg, ← ec]
        exact hne
      refine ⟨rest2, c0, by rw [carveNext_back rs s hflag hne]; exact hinv, ?_⟩
      unfold pathStep
      rw [if_neg hnf, if_pos hne', hmap, hch2]
      rfl
    · have hne' : ¬ (s.g.typeAt s.cell ≠ END ∧ s.g.typeAt s.cell ≠ END_TEMP) := by
        rw [← eg, ← ec]
        exact hne
      have hc := endReached_carved h1 hne
      have hg1 : endGrid (carveTry rs s).1 =
          if (carveTry rs s).1.g.typeAt (carveTry rs s).1.cell = END_TEMP then
            (carveTry rs s).1.g.setType (carveTry rs s).1.cell (carveTry rs s).1.cellsToEnd
          else (carveTry rs s).1.g := rfl
      rw [← hg1] at hc
      cases hu : unvisitedInGrid (endGrid (carveTry rs s).1)
          (endGrid (carveTry rs s).1).height.toNat 1 with
      | none =>
        rw [carveNext_done rs s hflag hne hu] at hrun
        simp at hrun
      | some t =>
        obtain ⟨cT, d, cN⟩ := t
        obtain ⟨T, hT'⟩ := newPath_inv hc _ (carveTry rs s).1.k cT d cN hu
        have hnext := congrArg Prod.fst (carveNext_path rs s hflag hne cT d cN hu)
        simp only at hnext
        rw [← hnext] at hT'
        refine ⟨[T], _, hT', ?_⟩
        obtain ⟨q, hq, hcur⟩ := hT'.cursor
        simp only [List.head?_cons, Option.some.injEq] at hq
        have hcnt := hT'.counter.1
        simp only [List.length_singleton, Nat.cast_one, sub_self, mul_zero, add_zero] at hcnt
        unfold pathStep
        rw [if_neg hnf, if_neg hne', hcur, hcnt, hq]
        rfl
  · have hflag' : (carveTry rs s).2 = false := by simpa using hflag
    obtain ⟨⟨p, hinv⟩, -⟩ := hfalse hflag'
    have hnext := carveNext_forward rs s hflag'
    have hinv' : CarveInv (carveNext rs s).1 (p :: chain) e c0 := by
      rw [hnext]
      exact hinv
    obtain ⟨q, hq, hcur⟩ := hinv'.cursor
    simp only [List.head?_cons, Option.some.injEq] at hq
    refine ⟨p :: chain, c0, hinv', ?_⟩
    unfold pathStep
    rw [if_pos hflag', hcur, ← hq]
    simp only [List.map_cons]
    rw [hmap]

/-- The path kept beside the loop is the path of the invariant, cell by cell,
with the counter of its root. -/
theorem carvePath_inv (rs : Nat → Nat) {e : Int × Int} :
    ∀ (n : Nat) (s : Carve) (chain : List (Int × Int)) (c0 : Int), CarveInv s chain e c0 →
      carveRuns rs n s →
      ∃ chain' c0', CarveInv (carveIter rs n s) chain' e c0' ∧
        carvePath rs n s (chain.map (fun q => GETCELL s.g q.1 q.2), c0) =
          (chain'.map (fun q => GETCELL (carveIter rs n s).g q.1 q.2), c0')
  | 0, _, chain, c0, h, _ => ⟨chain, c0, h, rfl⟩
  | n + 1, s, chain, c0, h, hr => by
    obtain ⟨hflag, hrest⟩ := hr
    obtain ⟨chain1, c1, h1, hp1⟩ := pathStep_inv rs h hflag
    obtain ⟨chain2, c2, h2, hp2⟩ := carvePath_inv rs n _ chain1 c1 h1 hrest
    refine ⟨chain2, c2, h2, ?_⟩
    show carvePath rs n (carveNext rs s).1 (pathStep rs s _) = _
    rw [hp1]
    exact hp2

/-- The path at the head of every iteration of a generation attempt. -/
theorem carvePath_start (rs : Nat → Nat) (g : GRID) (k n : Nat) (hf : g.Frame)
    (hrun : carveRuns rs n (carveStart rs g k)) :
    ∃ chain e c0, CarveInv (carveIter rs n (carveStart rs g k)) chain e c0 ∧
      carvePath rs n (carveStart rs g k) (startPath (carveStart rs g k)) =
        (chain.map (fun q => GETCELL (carveIter rs n (carveStart rs g k)).g q.1 q.2), c0) := by
  obtain ⟨e, he⟩ := carveStart_inv rs g k hf
  obtain ⟨q, hq, hcur⟩ := he.cursor
  simp only [List.head?_cons, Option.some.injEq] at hq
  have hcnt := he.counter.1
  simp only [List.length_singleton, Nat.cast_one, sub_self, mul_zero, add_zero] at hcnt
  obtain ⟨chain, c0, h, hp⟩ := carvePath_inv rs n _ [e] OPEN he hrun
  refine ⟨chain, e, c0, h, ?_⟩
  rw [← hp]
  unfold startPath
  rw [hcur, hcnt, hq]
  rfl

/-- Iterations in a row that take the branch "not an end yet" do not leave the
loop, and change no cell of a type other than `OPEN`. -/
theorem backs_kept (rs : Nat → Nat) {e : Int × Int} :
    ∀ (m : Nat) (s : Carve) (chain : List (Int × Int)) (c0 : Int), CarveInv s chain e c0 →
      (∀ i, i < m → GoesBack rs (carveIter rs i s)) →
      carveRuns rs m s ∧ (∀ d', (carveIter rs m s).g.ptr4 d' = s.g.ptr4 d') ∧
      ∀ x, s.g.typeAt x ≠ OPEN → (carveIter rs m s).g.typeAt x = s.g.typeAt x
  | 0, _, _, _, _, _ => ⟨trivial, fun _ => rfl, fun _ _ => rfl⟩
  | m + 1, s, chain, c0, h, hb => by
    have gb : GoesBack rs s := hb 0 (by omega)
    obtain ⟨d, -, -, a1, -, -, a4, a5, -, -, -, -, a10, a11⟩ :=
      carveNext_back_facts rs h gb.1 gb.2.1 gb.2.2
    obtain ⟨chain1, c1, hinv1, -⟩ := (carveNext_inv rs h).2 a1
    obtain ⟨r1, r2, r3⟩ := backs_kept rs m (carveNext rs s).1 chain1 c1 hinv1
      (fun i hi => hb (i + 1) (by omega))
    refine ⟨⟨a1, r1⟩, fun d' => (r2 d').trans (a10 d'), fun x hx => ?_⟩
    show (carveIter rs m (carveNext rs s).1).g.typeAt x = _
    have hx1 : (carveNext rs s).1.g.typeAt x = s.g.typeAt x :=
      a11 x (fun hc => hx (by rw [hc]; exact a4)) (fun hc => hx (by rw [hc]; exact a5))
    rw [r3 x (by rw [hx1]; exact hx), hx1]

/-- Iterations in a row that take the branch "not an end yet", from the counter
`c`: the one number `j` starts with the counter `c - 2 * j`, and when all are
done its cell holds `c - 2 * j` and the cell it went back through
`c - 2 * j - 1`. -/
theorem backs_tags (rs : Nat → Nat) {e : Int × Int} :
    ∀ (m : Nat) (s : Carve) (chain : List (Int × Int)) (c0 : Int), CarveInv s chain e c0 →
      (∀ i, i < m → GoesBack rs (carveIter rs i s)) →
      ∀ j, j < m → ∃ d : Int, 0 ≤ d ∧ d ≤ 3 ∧
        (carveIter rs j s).cellsToEnd = s.cellsToEnd - 2 * (j : Int) ∧
        (carveIter rs m s).g.typeAt (carveIter rs j s).cell = s.cellsToEnd - 2 * (j : Int) ∧
        (carveIter rs m s).g.typeAt ((carveIter rs j s).cell + s.g.ptr4 d) =
          s.cellsToEnd - 2 * (j : Int) - 1 ∧
        (carveIter rs (j + 1) s).cell = (carveIter rs j s).cell + s.g.ptr4 d * 2 ∧
        (carveIter rs (j + 1) s).cellsToEnd = s.cellsToEnd - 2 * (j : Int) - 2
  | 0, _, _, _, _, _, j, hj => by omega
  | m + 1, s, chain, c0, h, hb, j, hj => by
    have hO : OPEN = 10 := rfl
    have gb : GoesBack rs s := hb 0 (by omega)
    obtain ⟨d, hd0, hd3, a1, a2, -, -, -, a6, a7, a8, a9, a10, -⟩ :=
      carveNext_back_facts rs h gb.1 gb.2.1 gb.2.2
    obtain ⟨chain1, c1, hinv1, -⟩ := (carveNext_inv rs h).2 a1
    have hb1 : ∀ i, i < m → GoesBack rs (carveIter rs i (carveNext rs s).1) :=
      fun i hi => hb (i + 1) (by omega)
    cases j with
    | zero =>
      obtain ⟨-, -, r3⟩ := backs_kept rs m (carveNext rs s).1 chain1 c1 hinv1 hb1
      refine ⟨d, hd0, hd3, by simp [carveIter], ?_, ?_, ?_, ?_⟩
      · show (carveIter rs m (carveNext rs s).1).g.typeAt s.cell = _
        rw [r3 _ (by rw [a6]; omega), a6]
        simp
      · show (carveIter rs m (carveNext rs s).1).g.typeAt (s.cell + s.g.ptr4 d) = _
        rw [r3 _ (by rw [a7]; omega), a7]
        simp
      · exact a8
      · show (carveNext rs s).1.cellsToEnd = _
        rw [a9]
        simp
    | succ j' =>
      obtain ⟨d1, b0, b3, b1, b2, b4, b5, b6⟩ :=
        backs_tags rs m (carveNext rs s).1 chain1 c1 hinv1 hb1 j' (by omega)
      rw [a9] at b1 b2 b4 b6
      rw [a10] at b4 b5
      refine ⟨d1, b0, b3, ?_, ?_, ?_, b5, ?_⟩
      · show (carveIter rs j' (carveNext rs s).1).cellsToEnd = _
        rw [b1]
        push_cast
        ring
      · show (carveIter rs m (carveNext rs s).1).g.typeAt
          (carveIter rs j' (carveNext rs s).1).cell = _
        rw [b2]
        push_cast
        ring
      · show (carveIter rs m (carveNext rs s).1).g.typeAt
          ((carveIter rs j' (carveNext rs s).1).cell + s.g.ptr4 d1) = _
        rw [b4]
        push_cast
        ring
      · show (carveIter rs (j' + 1) (carveNext rs s).1).cellsToEnd = _
        rw [b6]
        push_cast
        ring

/-- C16: in the `while (1)` loop of a generation attempt, an iteration that
makes a step adds 2 to the depth counter; an iteration that takes the branch
"not an end yet" with the counter at `c` writes `c` into `_cell` and `c - 1`
into the cell beside it that it goes back through, moves two cells and leaves
the counter at `c - 2`; so a step followed by that branch leaves the counter
as it was.  Along a path of any length: when `m` iterations in a row take
that branch, the one number `j` starts with the counter `c - 2 * j`, and
after the `m` iterations its cell holds `c - 2 * j` and the cell it went back
through `c - 2 * j - 1`, so that the tags go down by 1 from each cell to the
next on the way back and up by 1 on the way forward.  And whatever the steps
and returns before: `_cell` is the first cell of the path `p` kept beside the
loop, the counter is the counter at the root of the path plus twice the
number of steps from the root to `_cell`, a step puts the new cell in front
of the path, and the branch "not an end yet" goes back to the second cell of
the path; so the tag a cell of a path gets depends only on its place on the
path. -/
theorem C16_counter_steps (rs : Nat → Nat) (g : GRID) (k n : Nat) (s : Carve)
    (p : List Int × Int) (hf : g.Frame) (hrun : carveRuns rs n (carveStart rs g k))
    (hs : s = carveIter rs n (carveStart rs g k))
    (hp : p = carvePath rs n (carveStart rs g k) (startPath (carveStart rs g k))) :
    ((carveTry rs s).2 = false →
      carveNext rs s = ((carveTry rs s).1, false) ∧
        (carveNext rs s).1.cellsToEnd = s.cellsToEnd + 2) ∧
    ((carveTry rs s).2 = true → s.g.typeAt s.cell ≠ END → s.g.typeAt s.cell ≠ END_TEMP →
      ∃ d : Int, 0 ≤ d ∧ d ≤ 3 ∧ (carveNext rs s).2 = false ∧
        (carveNext rs s).1.g.typeAt s.cell = s.cellsToEnd ∧
        (carveNext rs s).1.g.typeAt (s.cell + s.g.ptr4 d) = s.cellsToEnd - 1 ∧
        (carveNext rs s).1.cell = s.cell + s.g.ptr4 d * 2 ∧
        (carveNext rs s).1.cellsToEnd = s.cellsToEnd - 2) ∧
    ((carveTry rs s).2 = false → (carveTry rs (carveNext rs s).1).2 = true →
      (carveNext rs s).1.g.typeAt (carveNext rs s).1.cell ≠ END →
      (carveNext rs s).1.g.typeAt (carveNext rs s).1.cell ≠ END_TEMP →
      (carveNext rs (carveNext rs s).1).1.cellsToEnd = s.cellsToEnd) ∧
    (∀ m : Nat, (∀ i, i < m → GoesBack rs (carveIter rs i s)) →
      ∀ j, j < m → ∃ d : Int, 0 ≤ d ∧ d ≤ 3 ∧
        (carveIter rs j s).cellsToEnd = s.cellsToEnd - 2 * (j : Int) ∧
        (carveIter rs m s).g.typeAt (carveIter rs j s).cell = s.cellsToEnd - 2 * (j : Int) ∧
        (carveIter rs m s).g.typeAt ((carveIter rs j s).cell + s.g.ptr4 d) =
          s.cellsToEnd - 2 * (j : Int) - 1 ∧
        (carveIter rs (j + 1) s).cell = (carveIter rs j s).cell + s.g.ptr4 d * 2 ∧
        (carveIter rs (j + 1) s).cellsToEnd = s.cellsToEnd - 2 * (j : Int) - 2) ∧
    p.1.head? = some s.cell ∧
    s.cellsToEnd = p.2 + 2 * ((p.1.length : Int) - 1) ∧
    ((carveTry rs s).2 = false →
      carvePath rs (n + 1) (carveStart rs g k) (startPath (carveStart rs g k)) =
        ((carveNext rs s).1.cell :: p.1, p.2)) ∧
    (GoesBack rs s → ∃ (b : Int) (rest : List Int), p.1 = s.cell :: b :: rest ∧
      (carveNext rs s).1.cell = b ∧
      carvePath rs (n + 1) (carveStart rs g k) (startPath (carveStart rs g k)) =
        (b :: rest, p.2)) := by
  subst hs
  have hO : OPEN = 10 := rfl
  obtain ⟨chain, e, c0, h, hpath⟩ := carvePath_start rs g k n hf hrun
  rw [← hp] at hpath
  have hnext : carvePath rs (n + 1) (carveStart rs g k) (startPath (carveStart rs g k)) =
      pathStep rs (carveIter rs n (carveStart rs g k)) p := by
    rw [carvePath_succ, hp]
  have hfwd : (carveTry rs (carveIter rs n (carveStart rs g k))).2 = false →
      carveNext rs (carveIter rs n (carveStart rs g k)) =
          ((carveTry rs (carveIter rs n (carveStart rs g k))).1, false) ∧
        (carveNext rs (carveIter rs n (carveStart rs g k))).1.cellsToEnd =
          (carveIter rs n (carveStart rs g k)).cellsToEnd + 2 := by
    intro hflag
    obtain ⟨-, d, -, -, -, hcnt, -⟩ := (carveTry_inv rs h).2 hflag
    rw [carveNext_forward rs _ hflag]
    exact ⟨rfl, hcnt⟩
  refine ⟨hfwd, ?_, ?_, ?_, ?_, ?_, ?_, ?_⟩
  · intro hflag h1 h2
    obtain ⟨d, hd0, hd3, a1, -, -, -, -, a6, a7, a8, a9, -⟩ :=
      carveNext_back_facts rs h hflag h1 h2
    exact ⟨d, hd0, hd3, a1, a6, a7, a8, a9⟩
  · intro hflag hflag2 h1 h2
    obtain ⟨hnext', hcnt⟩ := hfwd hflag
    have hrun2 : (carveNext rs (carveIter rs n (carveStart rs g k))).2 = false := by rw [hnext']
    obtain ⟨chain1, c1, hinv1, -⟩ := (carveNext_inv rs h).2 hrun2
    obtain ⟨d, -, -, -, -, -, -, -, -, -, -, f, -⟩ :=
      carveNext_back_facts rs hinv1 hflag2 h1 h2
    rw [f, hcnt]
    omega
  · intro m hb j hj
    exact backs_tags rs m _ chain c0 h hb j hj
  · obtain ⟨q, hq, hcur⟩ := h.cursor
    rw [hpath, hcur]
    cases chain with
    | nil => simp at hq
    | cons a l =>
      simp only [List.head?_cons, Option.some.injEq] at hq
      rw [hq]
      rfl
  · rw [hpath]
    simp only [List.length_map]
    exact h.counter.1
  · intro hflag
    rw [hnext]
    unfold pathStep
    rw [if_pos hflag]
  · intro gb
    obtain ⟨h1, eg, ec, en⟩ := (carveTry_inv rs h).1 gb.1
    have hne : (carveTry rs (carveIter rs n (carveStart rs g k))).1.g.typeAt
          (carveTry rs (carveIter rs n (carveStart rs g k))).1.cell ≠ END ∧
        (carveTry rs (carveIter rs n (carveStart rs g k))).1.g.typeAt
          (carveTry rs (carveIter rs n (carveStart rs g k))).1.cell ≠ END_TEMP := by
      rw [eg, ec]
      exact gb.2
    obtain ⟨p0, q, rest, d, hch, -, -, -, -, hcell, -, hb⟩ := backtrack_explicit h1 hne.1 hne.2
    have hnf : ¬ (carveTry rs (carveIter rs n (carveStart rs g k))).2 = false := by
      rw [gb.1]
      simp
    refine ⟨GETCELL (carveIter rs n (carveStart rs g k)).g q.1 q.2,
      rest.map (fun q => GETCELL (carveIter rs n (carveStart rs g k)).g q.1 q.2), ?_, ?_, ?_⟩
    · rw [hpath, hch, ← ec, hcell, eg]
      rfl
    · rw [carveNext_back rs _ gb.1 hne, hb, eg]
    · rw [hnext]
      unfold pathStep
      rw [if_neg hnf, if_pos gb.2, hpath, hch]
      rfl

/-- The run on `GridCreate(9, 9)` with the draws `tenDraws`: the fifth
iteration makes a step, and the sixth, the seventh and the eighth take the
branch "not an end yet". -/
theorem C16_counter_steps_witness :
    carveRuns tenDraws 5 pathStart ∧
    (carveNext tenDraws (carveIter tenDraws 4 pathStart)).1.cellsToEnd =
      (carveIter tenDraws 4 pathStart).cellsToEnd + 2 ∧
    (∃ d : Int, 0 ≤ d ∧ d ≤ 3 ∧ (carveNext tenDraws (carveIter tenDraws 5 pathStart)).2 = false ∧
      (carveNext tenDraws (carveIter tenDraws 5 pathStart)).1.g.typeAt
        (carveIter tenDraws 5 pathStart).cell = (carveIter tenDraws 5 pathStart).cellsToEnd ∧
      (carveNext tenDraws (carveIter tenDraws 5 pathStart)).1.g.typeAt
        ((carveIter tenDraws 5 pathStart).cell + (carveIter tenDraws 5 pathStart).g.ptr4 d) =
          (carveIter tenDraws 5 pathStart).cellsToEnd - 1 ∧
      (carveNext tenDraws (carveIter tenDraws 5 pathStart)).1.cell =
        (carveIter tenDraws 5 pathStart).cell + (carveIter tenDraws 5 pathStart).g.ptr4 d * 2 ∧
      (carveNext tenDraws (carveIter tenDraws 5 pathStart)).1.cellsToEnd =
        (carveIter tenDraws 5 pathStart).cellsToEnd - 2) ∧
    (carveNext tenDraws (carveNext tenDraws (carveIter tenDraws 4 pathStart)).1).1.cellsToEnd =
      (carveIter tenDraws 4 pathStart).cellsToEnd ∧
    (∀ j, j < 3 → ∃ d : Int, 0 ≤ d ∧ d ≤ 3 ∧
      (carveIter tenDraws j (carveIter tenDraws 5 pathStart)).cellsToEnd =
        (carveIter tenDraws 5 pathStart).cellsToEnd - 2 * (j : Int) ∧
      (carveIter tenDraws 3 (carveIter tenDraws 5 pathStart)).g.typeAt
        (carveIter tenDraws j (carveIter tenDraws 5 pathStart)).cell =
          (carveIter tenDraws 5 pathStart).cellsToEnd - 2 * (j : Int) ∧
      (carveIter tenDraws 3 (carveIter tenDraws 5 pathStart)).g.typeAt
        ((carveIter tenDraws j (carveIter tenDraws 5 pathStart)).cell +
          (carveIter tenDraws 5 pathStart).g.ptr4 d) =
          (carveIter tenDraws 5 pathStart).cellsToEnd - 2 * (j : Int) - 1 ∧
      (carveIter tenDraws (j + 1) (carveIter tenDraws 5 pathStart)).cell =
        (carveIter tenDraws j (carveIter tenDraws 5 pathStart)).cell +
          (carveIter tenDraws 5 pathStart).g.ptr4 d * 2 ∧
      (carveIter tenDraws (j + 1) (carveIter tenDraws 5 pathStart)).cellsToEnd =
        (carveIter tenDraws 5 pathStart).cellsToEnd - 2 * (j : Int) - 2) ∧
    (carvePath tenDraws 5 pathStart (startPath pathStart)).1.head? =
      some (carveIter tenDraws 5 pathStart).cell ∧
    (carveIter tenDraws 5 pathStart).cellsToEnd =
      (carvePath tenDraws 5 pathStart (startPath pathStart)).2 +
        2 * (((carvePath tenDraws 5 pathStart (startPath pathStart)).1.length : Int) - 1) ∧
    carvePath tenDraws (4 + 1) pathStart (startPath pathStart) =
      ((carveNext tenDraws (carveIter tenDraws 4 pathStart)).1.cell ::
        (carvePath tenDraws 4 pathStart (startPath pathStart)).1,
        (carvePath tenDraws 4 pathStart (startPath pathStart)).2) ∧
    ∃ (b : Int) (rest : List Int),
      (carvePath tenDraws 5 pathStart (startPath pathStart)).1 =
        (carveIter tenDraws 5 pathStart).cell :: b :: rest ∧
      (carveNext tenDraws (carveIter tenDraws 5 pathStart)).1.cell = b ∧
      carvePath tenDraws (5 + 1) pathStart (startPath pathStart) =
        (b :: rest, (carvePath tenDraws 5 pathStart (startPath pathStart)).2) := by
  have r4 : carveRuns tenDraws 4 pathStart := by decide!
  have r5 : carveRuns tenDraws 5 pathStart := by decide!
  have f4 : (carveTry tenDraws (carveIter tenDraws 4 pathStart)).2 = false := by decide!
  have b4 : (carveTry tenDraws (carveNext tenDraws (carveIter tenDraws 4 pathStart)).1).2 = true ∧
      (carveNext tenDraws (carveIter tenDraws 4 pathStart)).1.g.typeAt
        (carveNext tenDraws (carveIter tenDraws 4 pathStart)).1.cell ≠ END ∧
      (carveNext tenDraws (carveIter tenDraws 4 pathStart)).1.g.typeAt
        (carveNext tenDraws (carveIter tenDraws 4 pathStart)).1.cell ≠ END_TEMP := by decide!
  have b5 : GoesBack tenDraws (carveIter tenDraws 5 pathStart) := by decide!
  have b3 : ∀ i, i < 3 →
      GoesBack tenDraws (carveIter tenDraws i (carveIter tenDraws 5 pathStart)) := by decide!
  have h4 := C16_counter_steps tenDraws (GridCreate 9 9 (fun _ => 0)) 0 4
    (carveIter tenDraws 4 pathStart) (carvePath tenDraws 4 pathStart (startPath pathStart))
    (GridCreate_frame 9 9 _) r4 rfl rfl
  have h5 := C16_counter_steps tenDraws (GridCreate 9 9 (fun _ => 0)) 0 5
    (carveIter tenDraws 5 pathStart) (carvePath tenDraws 5 pathStart (startPath pathStart))
    (GridCreate_frame 9 9 _) r5 rfl rfl
  exact ⟨r5, (h4.1 f4).2, h5.2.1 b5.1 b5.2.1 b5.2.2, h4.2.2.1 f4 b4.1 b4.2.1 b4.2.2,
    h5.2.2.2.1 3 b3, h5.2.2.2.2.1, h5.2.2.2.2.2.1, h4.2.2.2.2.2.2.1 f4, h5.2.2.2.2.2.2.2 b5⟩

/-- The run on `GridCreate(9, 9)` with the draws `tenDraws`, evaluated: after
five steps the path leads from the cell 66 back to the ending cell 48 and the
counter is 20, the counter 10 of the root plus twice the five steps; the
three iterations that follow go back through the cells 66, 65, 64, 55, 46 and
37 and leave there the tags 20, 19, 18, 17, 16 and 15. -/
theorem pathStart_sample :
    carvePath tenDraws 5 pathStart (startPath pathStart) = ([66, 64, 46, 28, 30, 48], 10) ∧
    (carveIter tenDraws 5 pathStart).cell = 66 ∧
    (carveIter tenDraws 5 pathStart).cellsToEnd = 20 ∧
    carvePath tenDraws 8 pathStart (startPath pathStart) = ([28, 30, 48], 10) ∧
    (carveIter tenDraws 8 pathStart).cell = 28 ∧
    (carveIter tenDraws 8 pathStart).cellsToEnd = 14 ∧
    [66, 65, 64, 55, 46, 37].map (fun i => (carveIter tenDraws 8 pathStart).g.typeAt i) =
      [20, 19, 18, 17, 16, 15] := by
  decide!

/-! ## The cells that stay unvisited -/

theorem unvisitedKept_refl (g : GRID) : g.UnvisitedKept g := fun _ h => h

theorem unvisitedKept_trans {g t u : GRID} (h1 : g.UnvisitedKept t) (h2 : t.UnvisitedKept u) :
    g.UnvisitedKept u := fun i h => h2 i (h1 i h)

/-- A write to a cell that is not unvisited keeps the unvisited cells. -/
theorem unvisitedKept_setType (g : GRID) (i v : Int) (hold : g.typeAt i ≠ UNVISITED) :
    g.UnvisitedKept (g.setType i v) := by
  intro j hj
  rw [typeAt_setType]
  split
  · rename_i hc
    rw [hc.1] at hj
    exact (hold hj).elim
  · exact hj

theorem unvisitedKept_bonus (g : GRID) (b : Int) : g.UnvisitedKept { g with bonus := b } :=
  fun _ h => h

theorem unvisitedKept_of_types {g t : GRID} (h : ∀ j, t.typeAt j = g.typeAt j) :
    g.UnvisitedKept t := fun j hj => by rw [h j]; exact hj

/-- A grid of the same dimensions with no new unvisited cell has its unvisited
cells at odd positions when the first grid has. -/
theorem oddUnvisited_of {g t : GRID} (ho : g.OddUnvisited) (hw : t.width = g.width)
    (hh : t.height = g.height) (hn : ∀ i, t.typeAt i = UNVISITED → g.typeAt i = UNVISITED) :
    t.OddUnvisited := by
  intro x y hin hty
  have hin' : g.InGrid x y := by
    unfold GRID.InGrid at hin ⊢
    rw [hw, hh] at hin
    exact hin
  refine ho x y hin' ?_
  unfold GRID.ty at hty ⊢
  rw [← getcell_of_width hw]
  exact hn _ hty

theorem removeIsolated_unvisited (g : GRID) : g.UnvisitedKept (removeIsolated g) := by
  have hW : WALL = 1 := rfl
  have hU : UNVISITED = 0 := rfl
  unfold removeIsolated
  refine forLoop_inv _ (fun (s : GRID) => g.UnvisitedKept s) _ _ _ _ (by omega) ?_
    (unvisitedKept_refl g)
  intro s y _ _ _ hs
  refine forLoop_inv _ (fun (s : GRID) => g.UnvisitedKept s) _ _ _ _ (by omega) ?_ hs
  intro t x _ _ _ ht
  simp only
  split
  · exact ht
  · rename_i hw
    split
    · refine unvisitedKept_trans ht (unvisitedKept_setType _ _ _ ?_)
      have : t.typeAt (GETCELL t x y) = WALL := by
        by_contra hc
        exact hw hc
      omega
    · exact ht

theorem roomBorders_unvisited (g : GRID) : g.UnvisitedKept (roomBorders g) := by
  have hO : OPEN = 10 := rfl
  have hU : UNVISITED = 0 := rfl
  unfold roomBorders
  refine forLoop_inv _ (fun (s : GRID) => g.UnvisitedKept s) _ _ _ _ (by omega) ?_
    (unvisitedKept_refl g)
  intro s y _ _ _ hs
  refine forLoop_inv _ (fun (s : GRID) => g.UnvisitedKept s) _ _ _ _ (by omega) ?_ hs
  intro t x _ _ _ ht
  simp only
  split
  · exact ht
  · split
    · exact unvisitedKept_trans ht (unvisitedKept_setType _ _ _ (by omega))
    · exact ht

theorem roomDoors_unvisited (g : GRID) : g.UnvisitedKept (roomDoors g) := by
  have hO : OPEN = 10 := rfl
  have hU : UNVISITED = 0 := rfl
  unfold roomDoors
  refine forLoop_inv _ (fun (s : GRID) => g.UnvisitedKept s) _ _ _ _ (by omega) ?_
    (unvisitedKept_refl g)
  intro s y _ _ _ hs
  refine forLoop_inv _ (fun (s : GRID) => g.UnvisitedKept s) _ _ _ _ (by omega) ?_ hs
  intro t x _ _ _ ht
  simp only
  split
  · exact ht
  · split
    · exact unvisitedKept_trans ht (unvisitedKept_setType _ _ _ (by omega))
    · exact ht

theorem crossDoors_unvisited (g : GRID) : g.UnvisitedKept (crossDoors g) := by
  have hO : OPEN = 10 := rfl
  have hU : UNVISITED = 0 := rfl
  rw [crossDoors_eq]
  refine forLoop_inv _ (fun (s : GRID) => g.UnvisitedKept s) _ _ _ _ (by omega) ?_
    (unvisitedKept_refl g)
  intro s y _ _ _ hs
  refine forLoop_inv _ (fun (s : GRID) => g.UnvisitedKept s) _ _ _ _ (by omega) ?_ hs
  intro t x _ _ _ ht
  unfold crossCell
  simp only
  split
  · exact ht
  · split
    · rename_i hne
      split
      · rcases crossScan_open t (GETCELL t x y) with c | c
        · exact (hne c.symm).elim
        · exact unvisitedKept_trans ht (unvisitedKept_setType _ _ _ (by omega))
      · exact ht
    · exact ht

theorem corridorTreasures_unvisited (rs : Nat → Nat) (g : GRID) (k : Nat) :
    g.UnvisitedKept (corridorTreasures rs (g, k)).1 := by
  have hO : OPEN = 10 := rfl
  have hU : UNVISITED = 0 := rfl
  unfold corridorTreasures
  refine forLoop_inv _ (fun (s : GRID × Nat) => g.UnvisitedKept s.1) _ _ _ _ (by omega) ?_
    (unvisitedKept_refl g)
  intro s y _ _ _ hs
  refine forLoop_inv _ (fun (s : GRID × Nat) => g.UnvisitedKept s.1) _ _ _ _ (by omega) ?_ hs
  intro t x _ _ _ ht
  simp only
  split
  · exact ht
  · split
    · exact ht
    · split
      · exact ht
      · exact unvisitedKept_trans ht (unvisitedKept_trans
          (unvisitedKept_setType _ _ _ (by omega)) (unvisitedKept_bonus _ _))

theorem roomTreasures_unvisited (rs : Nat → Nat) (g : GRID) (k : Nat) :
    g.UnvisitedKept (roomTreasures rs (g, k)).1 := by
  have hRC : ROOMCENTER = 5 := rfl
  have hU : UNVISITED = 0 := rfl
  unfold roomTreasures
  refine forLoop_inv _ (fun (s : GRID × Nat) => g.UnvisitedKept s.1) _ _ _ _ (by omega) ?_
    (unvisitedKept_refl g)
  intro s y _ _ _ hs
  refine forLoop_inv _ (fun (s : GRID × Nat) => g.UnvisitedKept s.1) _ _ _ _ (by omega) ?_ hs
  intro t x _ _ _ ht
  simp only
  split
  · exact ht
  · split
    · exact ht
    · split
      · exact ht
      · exact unvisitedKept_trans ht (unvisitedKept_trans
          (unvisitedKept_setType _ _ _ (by omega)) (unvisitedKept_bonus _ _))

/-- The body of "count neighbors and identify room centers" types a cell only
when its type is `START` or more. -/
theorem countCell_unvisited (g : GRID) (x y : Int) : g.UnvisitedKept (countCell g x y) := by
  have hS : START = 2 := rfl
  have hU : UNVISITED = 0 := rfl
  have hty1 : ∀ j, (g.modifyCell (GETCELL g x y)
      (fun c => { c with neighborCount := 0 })).typeAt j = g.typeAt j := by
    intro j
    rw [typeAt_modifyCell]
    split
    · rename_i hc
      rw [hc.1]
      rfl
    · rfl
  unfold countCell
  simp only
  generalize g.modifyCell (GETCELL g x y) (fun c => { c with neighborCount := 0 }) = g1
    at hty1 ⊢
  split
  · exact unvisitedKept_of_types hty1
  · rename_i hge
    have hty2 : ∀ j, (forLoop 0 8 1 (fun (g_1 : GRID) (_dir : Int) =>
        if g_1.typeAt (GETCELL g x y + g_1.ptr8 _dir) < START then g_1
        else g_1.modifyCell (GETCELL g x y)
          (fun c => { c with neighborCount := c.neighborCount + 1 })) g1).typeAt j =
        g1.typeAt j := by
      refine forLoop_inv _ (fun (s : GRID) => ∀ j, s.typeAt j = g1.typeAt j) _ _ _ _ (by omega)
        ?_ (fun _ => rfl)
      intro s d _ _ _ hs
      split
      · exact hs
      · intro j
        rw [typeAt_modifyCell]
        split
        · rename_i hc
          rw [← hs j, hc.1]
          rfl
        · exact hs j
    generalize forLoop 0 8 1 (fun (g_1 : GRID) (_dir : Int) =>
        if g_1.typeAt (GETCELL g x y + g_1.ptr8 _dir) < START then g_1
        else g_1.modifyCell (GETCELL g x y)
          (fun c => { c with neighborCount := c.neighborCount + 1 })) g1 = g2 at hty2 ⊢
    have h12 : g.UnvisitedKept g2 := unvisitedKept_of_types (fun j => by rw [hty2, hty1])
    split
    · refine unvisitedKept_trans h12 (unvisitedKept_setType _ _ _ ?_)
      rw [hty2]
      omega
    · exact h12

theorem countNeighbors_unvisited (g : GRID) : g.UnvisitedKept (countNeighbors g) := by
  unfold countNeighbors
  refine forLoop_inv _ (fun (s : GRID) => g.UnvisitedKept s) _ _ _ _ (by omega) ?_
    (unvisitedKept_refl g)
  intro s y _ _ _ hs
  refine forLoop_inv _ (fun (s : GRID) => g.UnvisitedKept s) _ _ _ _ (by omega) ?_ hs
  intro t x _ _ _ ht
  exact unvisitedKept_trans ht (countCell_unvisited t x y)

/-- The pass "Connect depth near" types cells between two cells at odd
positions only; none of them is unvisited. -/
theorem connectNear_unvisited (rs : Nat → Nat) (g : GRID) (k : Nat) (hf : g.Frame)
    (ho : g.OddUnvisited) : g.UnvisitedKept (connectNear rs (g, k)).1 := by
  have hO : OPEN = 10 := rfl
  have hU : UNVISITED = 0 := rfl
  have hsg := hf.1
  unfold connectNear
  simp only
  refine (forLoop_inv _ (fun (s : GRID × Nat) => g.SameButTypes s.1 ∧ g.UnvisitedKept s.1 ∧
    ∀ i, s.1.typeAt i = UNVISITED → g.typeAt i = UNVISITED) _ _ _ _
    (by omega) ?_ ⟨sameButTypes_refl g, unvisitedKept_refl g, fun _ h => h⟩).2.1
  intro s y hy3 hyl ⟨ny, hny⟩ hs
  refine forLoop_inv _ (fun (t : GRID × Nat) => g.SameButTypes t.1 ∧ g.UnvisitedKept t.1 ∧
    ∀ i, t.1.typeAt i = UNVISITED → g.typeAt i = UNVISITED) _ _ _ _ (by omega) ?_ hs
  intro t x hx3 hxl ⟨nx, hnx⟩ ht
  split
  · exact ht
  · rename_i hopen
    refine (forLoop_inv _ (fun (u : GRID × Nat) => (g.SameButTypes u.1 ∧ g.UnvisitedKept u.1 ∧
        ∀ i, u.1.typeAt i = UNVISITED → g.typeAt i = UNVISITED) ∧
        OPEN ≤ u.1.typeAt (GETCELL t.1 x y)) 0 4 1 t (by omega) ?_ ⟨ht, by omega⟩).1
    intro u d hd0 hd4 _ ⟨⟨hu1, hu2, hu3⟩, huo⟩
    split
    · exact ⟨⟨hu1, hu2, hu3⟩, huo⟩
    · rename_i hn
      split
      · exact ⟨⟨hu1, hu2, hu3⟩, huo⟩
      · split
        · simp only
          have hv : 5 ≤ Int.tdiv (u.1.typeAt (GETCELL t.1 x y + u.1.ptr4 d * 2)) 2 :=
            tdiv_ge_of_mul_le _ _ _ (by omega) (by omega) (by omega)
          have hgc : GETCELL t.1 x y = GETCELL g x y := getcell_of_width ht.1.1 x y
          have hold : u.1.typeAt (GETCELL t.1 x y + u.1.ptr4 d) ≠ UNVISITED := by
            intro hc
            have hg0 := hu3 _ hc
            rw [hgc, hu1.ptr4Eq, shaped_step4_one hsg x y d hd0 (by omega)] at hg0
            have hoff := off4_cases d hd0 (by omega)
            have hw := hs.1.1
            have hin : g.InGrid (x + off4X d) (y + off4Y d) := by
              unfold GRID.InGrid
              rcases hoff with ⟨-, a, b⟩ | ⟨-, a, b⟩ | ⟨-, a, b⟩ | ⟨-, a, b⟩ <;> rw [a, b] <;>
                omega
            have := ho _ _ hin hg0
            rcases hoff with ⟨-, a, b⟩ | ⟨-, a, b⟩ | ⟨-, a, b⟩ | ⟨-, a, b⟩ <;>
              rw [a, b] at this <;> omega
          refine ⟨⟨sameButTypes_trans hu1 (sameButTypes_setType _ _ _),
            unvisitedKept_trans hu2 (unvisitedKept_setType _ _ _ hold), fun i hi => ?_⟩, ?_⟩
          · rw [typeAt_setType] at hi
            split at hi
            · omega
            · exact hu3 i hi
          · rw [typeAt_setType]
            split
            · omega
            · exact huo
        · exact ⟨⟨hu1, hu2, hu3⟩, huo⟩

/-- The passes of `GridMaze` after the `while (1)` loop leave every unvisited
cell unvisited. -/
theorem finishMaze_unvisited (rs : Nat → Nat) {g : GRID} {e : Int × Int} (hc : Carved g e)
    (ho : g.OddUnvisited) (k : Nat) : g.UnvisitedKept (finishMaze rs g k).1 := by
  have hW : WALL = 1 := rfl
  have hU : UNVISITED = 0 := rfl
  have h1 := (connectNear_settled rs g k (carved_settled hc)).1
  have h2 := (removeIsolated_settled _ h1).1
  have k1 := connectNear_unvisited rs g k hc.frame ho
  have k2 := removeIsolated_unvisited (connectNear rs (g, k)).1
  have hcorner : (removeIsolated (connectNear rs (g, k)).1).typeAt 0 = WALL := by
    have hb := h2.border 0 0 (by
      have := h2.frame
      unfold GRID.Frame at this
      unfold GRID.InGrid
      omega) (by unfold GRID.Inner; omega)
    unfold GRID.ty GETCELL at hb
    simpa using hb
  have k3 : (removeIsolated (connectNear rs (g, k)).1).UnvisitedKept
      ((removeIsolated (connectNear rs (g, k)).1).setType
        (lookForStart (removeIsolated (connectNear rs (g, k)).1)) START) := by
    refine unvisitedKept_setType _ _ _ ?_
    rcases lookForStart_spec _ h2.frame with ⟨c, -⟩ | ⟨x, y, -, -, c1, c⟩
    · rw [c, hcorner]
      omega
    · rw [hcorner] at c
      rw [c1]
      omega
  unfold finishMaze
  simp only
  exact unvisitedKept_trans k1 (unvisitedKept_trans k2 (unvisitedKept_trans k3
    (unvisitedKept_trans (countNeighbors_unvisited _) (unvisitedKept_trans
      (roomBorders_unvisited _) (unvisitedKept_trans (roomDoors_unvisited _)
        (unvisitedKept_trans (crossDoors_unvisited _) (unvisitedKept_trans
          (corridorTreasures_unvisited rs _ _) (roomTreasures_unvisited rs _ _))))))))

/-! ## The carve makes no cell unvisited -/

/-- When the `while (1)` loop starts, the unvisited cells lie at odd positions. -/
theorem carveStart_odd (rs : Nat → Nat) (g : GRID) (k : Nat) (hf : g.Frame) :
    (carveStart rs g k).g.OddUnvisited := by
  have hE : END = 4 := rfl
  have hW : WALL = 1 := rfl
  have hU : UNVISITED = 0 := rfl
  obtain ⟨l1, p1⟩ := init_pattern g hf
  have hl2 : g.SameLayout { initOddRows (initEvenRows g) with bonus := 0 } :=
    sameLayout_trans l1 (sameLayout_bonus _ 0)
  have hp2 : GRID.Pattern { initOddRows (initEvenRows g) with bonus := 0 } := p1
  have hf2 := hl2.sameFrame hf
  unfold carveStart
  simp only
  generalize ({ initOddRows (initEvenRows g) with bonus := 0 } : GRID) = g2 at hl2 hp2 hf2 ⊢
  obtain ⟨hsb, hbb⟩ := breakBorder_spec rs g2 k hf2.2.2.2.1 hf2.2.2.2.2
  generalize breakBorder rs (g2, k) = s at hsb hbb ⊢
  have hsb3 := sameButTypes_setType s.1 (GETCELL s.1 (MAKEODD (GetRandomValue rs s.2 3
    (s.1.width - 4))) (MAKEODD (GetRandomValue rs (s.2 + 1) 3 (s.1.height - 4)))) END
  intro x y hxy hty
  rw [hsb3.inGridIff] at hxy
  unfold GRID.ty at hty
  rw [hsb3.cellIndex, typeAt_setType] at hty
  split at hty
  · omega
  · have h1 := hp2 x y ((hsb.inGridIff x y).1 hxy)
    unfold GRID.ty at h1
    rcases hbb (GETCELL s.1 x y) with c | c
    · rw [c, hsb.cellIndex, h1] at hty
      split at hty
      · assumption
      · omega
    · omega

/-- The statement that replaces a temporary end marker makes no cell unvisited. -/
theorem endGrid_noNew {s : Carve} {chain : List (Int × Int)} {e : Int × Int} {c0 : Int}
    (h : CarveInv s chain e c0) :
    ∀ i, (endGrid s).typeAt i = UNVISITED → s.g.typeAt i = UNVISITED := by
  have hO : OPEN = 10 := rfl
  have hU : UNVISITED = 0 := rfl
  intro i hi
  unfold endGrid at hi
  split at hi
  · rw [typeAt_setType] at hi
    split at hi
    · have hcnt := h.counter
      have hlen : 1 ≤ chain.length := by
        have := chainOK_ne_nil h.chainOK
        cases chain with
        | nil => exact (this rfl).elim
        | cons a l => simp
      have : (1 : Int) ≤ (chain.length : Int) := by exact_mod_cast hlen
      omega
    · exact hi
  · exact hi

/-- An iteration of the `while (1)` loop makes no cell unvisited. -/
theorem carveNext_noNew (rs : Nat → Nat) {s : Carve} {chain : List (Int × Int)} {e : Int × Int}
    {c0 : Int} (h : CarveInv s chain e c0) :
    ∀ i, (carveNext rs s).1.g.typeAt i = UNVISITED → s.g.typeAt i = UNVISITED := by
  have hO : OPEN = 10 := rfl
  have hU : UNVISITED = 0 := rfl
  have hT : END_TEMP = 3 := rfl
  obtain ⟨htrue, hfalse⟩ := carveTry_inv rs h
  by_cases hflag : (carveTry rs s).2 = true
  · obtain ⟨h1, eg, ec, en⟩ := htrue hflag
    by_cases hne : (carveTry rs s).1.g.typeAt (carveTry rs s).1.cell ≠ END ∧
        (carveTry rs s).1.g.typeAt (carveTry rs s).1.cell ≠ END_TEMP
    · have hne' : s.g.typeAt s.cell ≠ END ∧ s.g.typeAt s.cell ≠ END_TEMP := by
        rw [← eg, ← ec]
        exact hne
      obtain ⟨d, -, -, -, a2, -, -, -, a6, a7, -, -, -, a11⟩ :=
        carveNext_back_facts rs h hflag hne'.1 hne'.2
      intro i hi
      by_cases hc1 : i = s.cell
      · rw [hc1, a6] at hi
        omega
      · by_cases hc2 : i = s.cell + s.g.ptr4 d
        · rw [hc2, a7] at hi
          omega
        · rw [a11 i hc1 hc2] at hi
          exact hi
    · have hend := endGrid_noNew h1
      rw [eg] at hend
      cases hu : unvisitedInGrid (endGrid (carveTry rs s).1)
          (endGrid (carveTry rs s).1).height.toNat 1 with
      | none =>
        rw [carveNext_done rs s hflag hne hu]
        exact hend
      | some t =>
        obtain ⟨cT, d, cN⟩ := t
        rw [carveNext_path rs s hflag hne cT d cN hu]
        simp only
        obtain ⟨x, y, -, -, -, -, -, -, -, -, hvn⟩ :=
          unvisitedInGrid_some _ _ 1 cT d cN (by omega) (by omega) hu
        obtain ⟨-, -, -, -, hgt⟩ := visitedNeighbor_some _ cT 4 0 d cN (by omega) (by omega) hvn
        intro i hi
        rw [typeAt_setType] at hi
        split at hi
        · omega
        · rw [typeAt_setType] at hi
          split at hi
          · omega
          · exact hend i hi
  · have hflag' : (carveTry rs s).2 = false := by simpa using hflag
    obtain ⟨-, d, -, -, -, -, -, -, hret⟩ := hfalse hflag'
    rw [carveNext_forward rs s hflag']
    simp only
    intro i hi
    rcases hret.2 i with c | c
    · rw [hi] at c
      have c' := c.symm
      rw [typeAt_setType] at c'
      split at c'
      · omega
      · rw [typeAt_setType] at c'
        split at c'
        · omega
        · exact c'
    · omega

/-- The iterations of the `while (1)` loop make no cell unvisited, and keep the
dimensions of the grid. -/
theorem carveIter_noNew (rs : Nat → Nat) {e : Int × Int} :
    ∀ (n : Nat) (s : Carve) (chain : List (Int × Int)) (c0 : Int), CarveInv s chain e c0 →
      carveRuns rs n s →
      (carveIter rs n s).g.width = s.g.width ∧ (carveIter rs n s).g.height = s.g.height ∧
      ∀ i, (carveIter rs n s).g.typeAt i = UNVISITED → s.g.typeAt i = UNVISITED
  | 0, _, _, _, _, _ => ⟨rfl, rfl, fun _ h => h⟩
  | n + 1, s, chain, c0, h, hr => by
    obtain ⟨hflag, hrest⟩ := hr
    obtain ⟨chain1, c1, h1, -⟩ := (carveNext_inv rs h).2 hflag
    obtain ⟨r1, r2, r3⟩ := carveIter_noNew rs n _ chain1 c1 h1 hrest
    have hl := carveNext_layout rs h
    refine ⟨?_, ?_, fun i hi => carveNext_noNew rs h i (r3 i hi)⟩
    · show (carveIter rs n (carveNext rs s).1).g.width = _
      rw [r1, hl.1]
    · show (carveIter rs n (carveNext rs s).1).g.height = _
      rw [r2, hl.2.1]

/-- In the grid the `while (1)` loop of a generation attempt leaves, the
unvisited cells lie at odd positions. -/
theorem carve_odd (rs : Nat → Nat) (g : GRID) (k n : Nat) (hf : g.Frame)
    (hrun : carveRuns rs n (carveStart rs g k)) :
    (carveNext rs (carveIter rs n (carveStart rs g k))).1.g.OddUnvisited := by
  obtain ⟨e, he⟩ := carveStart_inv rs g k hf
  obtain ⟨chain, c0, h, -⟩ := carveIter_inv rs n _ [e] OPEN he hrun
  obtain ⟨r1, r2, r3⟩ := carveIter_noNew rs n _ [e] OPEN he hrun
  have hl := carveNext_layout rs h
  exact oddUnvisited_of (carveStart_odd rs g k hf) (by rw [hl.1, r1]) (by rw [hl.2.1, r2])
    (fun i hi => r3 i (carveNext_noNew rs h i hi))

/-! ## C15 -/

/-- C15, amended: the `while (1)` loop of a generation attempt leaves through
its `break` exactly when an iteration reaches an end marker (the loop over
`_attempts` ended with `_attempts == 4` and `_cell` is `END` or `END_TEMP`)
and, once the temporary end marker is replaced, no unvisited cell at an odd
position has, two cells away in one of the four directions, a cell of the
grid with a type above `OPEN`; when an end marker is reached and there is
such a cell, the iteration starts a new path and the loop goes on; and when
the loop leaves, the attempt goes on to the later passes with the grid the
loop left, in which every cell that is still unvisited lies at an odd
position and is unvisited in the grid the attempt produces. -/
theorem C15_new_path_scan (rs : Nat → Nat) (g : GRID) (k n : Nat) (s t : Carve)
    (hf : g.Frame) (hrun : carveRuns rs n (carveStart rs g k))
    (hs : s = carveIter rs n (carveStart rs g k)) (ht : t = (carveTry rs s).1) :
    ((carveNext rs s).2 = true ↔
      (carveTry rs s).2 = true ∧ (t.g.typeAt t.cell = END ∨ t.g.typeAt t.cell = END_TEMP) ∧
      ∀ x y : Int, (endGrid t).InGrid x y → x % 2 = 1 → y % 2 = 1 →
        (endGrid t).ty x y = UNVISITED →
        ∀ d : Int, 0 ≤ d → d ≤ 3 → (endGrid t).InGrid (x + off4X d * 2) (y + off4Y d * 2) →
          (endGrid t).ty (x + off4X d * 2) (y + off4Y d * 2) ≤ OPEN) ∧
    ((carveTry rs s).2 = true → (t.g.typeAt t.cell = END ∨ t.g.typeAt t.cell = END_TEMP) →
      (∃ x y d : Int, (endGrid t).InGrid x y ∧ x % 2 = 1 ∧ y % 2 = 1 ∧
        (endGrid t).ty x y = UNVISITED ∧ 0 ≤ d ∧ d ≤ 3 ∧
        (endGrid t).InGrid (x + off4X d * 2) (y + off4Y d * 2) ∧
        OPEN < (endGrid t).ty (x + off4X d * 2) (y + off4Y d * 2)) →
      (carveNext rs s).2 = false ∧ StartsPath rs s) ∧
    ((carveNext rs s).2 = true →
      mazeAttempt rs (n + 1) g k = some (finishMaze rs (endGrid t) t.k) ∧
      ∀ x y : Int, (endGrid t).InGrid x y → (endGrid t).ty x y = UNVISITED →
        x % 2 = 1 ∧ y % 2 = 1 ∧ (finishMaze rs (endGrid t) t.k).1.ty x y = UNVISITED) := by
  subst hs ht
  have hE : END = 4 := rfl
  have hT : END_TEMP = 3 := rfl
  obtain ⟨chain, e, c0, h⟩ := carveIter_start rs g k n hf hrun
  have hodd := carve_odd rs g k n hf hrun
  have hloop : (carveNext rs (carveIter rs n (carveStart rs g k))).2 = true →
      mazeAttempt rs (n + 1) g k = some (finishMaze rs
        (carveNext rs (carveIter rs n (carveStart rs g k))).1.g
        (carveNext rs (carveIter rs n (carveStart rs g k))).1.k) := by
    intro hdone
    unfold mazeAttempt
    rw [carveLoop_of_runs rs n _ (n + 1) hrun hdone (by omega)]
  generalize carveIter rs n (carveStart rs g k) = s at h hodd hloop
  have hendiff : ((carveTry rs s).1.g.typeAt (carveTry rs s).1.cell = END ∨
      (carveTry rs s).1.g.typeAt (carveTry rs s).1.cell = END_TEMP) ↔
      ¬ ((carveTry rs s).1.g.typeAt (carveTry rs s).1.cell ≠ END ∧
        (carveTry rs s).1.g.typeAt (carveTry rs s).1.cell ≠ END_TEMP) := by
    constructor
    · rintro (c | c) ⟨c1, c2⟩
      · exact c1 c
      · exact c2 c
    · intro hc
      by_contra hcon
      exact hc ⟨fun a => hcon (Or.inl a), fun a => hcon (Or.inr a)⟩
  have hshape : (carveTry rs s).2 = true → (endGrid (carveTry rs s).1).Shaped := by
    intro hflag
    obtain ⟨h1, -⟩ := (carveTry_inv rs h).1 hflag
    unfold endGrid
    split
    · exact shaped_setType _ _ _ h1.frame.1
    · exact h1.frame.1
  have hleave : (carveNext rs s).2 = true →
      (carveTry rs s).2 = true ∧
      ¬ ((carveTry rs s).1.g.typeAt (carveTry rs s).1.cell ≠ END ∧
        (carveTry rs s).1.g.typeAt (carveTry rs s).1.cell ≠ END_TEMP) ∧
      unvisitedInGrid (endGrid (carveTry rs s).1)
        (endGrid (carveTry rs s).1).height.toNat 1 = none := by
    intro hdone
    by_cases hflag : (carveTry rs s).2 = true
    · by_cases hne : (carveTry rs s).1.g.typeAt (carveTry rs s).1.cell ≠ END ∧
          (carveTry rs s).1.g.typeAt (carveTry rs s).1.cell ≠ END_TEMP
      · rw [carveNext_back rs s hflag hne] at hdone
        simp at hdone
      · refine ⟨hflag, hne, ?_⟩
        cases hu : unvisitedInGrid (endGrid (carveTry rs s).1)
            (endGrid (carveTry rs s).1).height.toNat 1 with
        | none => rfl
        | some r =>
          obtain ⟨cT, d, cN⟩ := r
          rw [carveNext_path rs s hflag hne cT d cN hu] at hdone
          simp at hdone
    · rw [carveNext_forward rs s (by simpa using hflag)] at hdone
      simp at hdone
  refine ⟨⟨?_, ?_⟩, ?_, ?_⟩
  · intro hdone
    obtain ⟨hflag, hne, hu⟩ := hleave hdone
    exact ⟨hflag, hendiff.2 hne, (unvisitedInGrid_none_iff (hshape hflag)).1 hu⟩
  · rintro ⟨hflag, hend, hall⟩
    have hu := (unvisitedInGrid_none_iff (hshape hflag)).2 hall
    rw [carveNext_done rs s hflag (hendiff.1 hend) hu]
  · rintro hflag hend ⟨x, y, d, hin, hxo, hyo, hty, hd0, hd3, hin2, hgt⟩
    have hrun2 : (carveNext rs s).2 = false := by
      cases hc : (carveNext rs s).2 with
      | false => rfl
      | true =>
        exfalso
        cases hu : unvisitedInGrid (endGrid (carveTry rs s).1)
            (endGrid (carveTry rs s).1).height.toNat 1 with
        | none =>
          have := (unvisitedInGrid_none_iff (hshape hflag)).1 hu x y hin hxo hyo hty d hd0 hd3 hin2
          omega
        | some r =>
          obtain ⟨cT, d', cN⟩ := r
          rw [carveNext_path rs s hflag (hendiff.1 hend) cT d' cN hu] at hc
          simp at hc
    exact ⟨hrun2, carveNext_startsPath rs h hflag (hendiff.1 hend) hrun2⟩
  · intro hdone
    obtain ⟨hflag, hne, hu⟩ := hleave hdone
    have hcar := (carveNext_inv rs h).1 hdone
    have hl := hloop hdone
    rw [carveNext_done rs s hflag hne hu] at hcar hodd hl
    simp only at hcar hodd hl
    refine ⟨hl, fun x y hin hty => ?_⟩
    obtain ⟨o1, o2⟩ := hodd x y hin hty
    refine ⟨o1, o2, ?_⟩
    have hkept := finishMaze_unvisited rs hcar hodd (carveTry rs s).1.k
    have hlay := (finishMaze_layouts rs _ (carveTry rs s).1.k hcar.frame).2.2.2.2.2.2.2.2
    unfold GRID.ty at hty ⊢
    rw [hlay.sameIndex]
    exact hkept _ hty

/-- On `GridCreate(9, 9)` with the draws `tenDraws` the thirteenth iteration
reaches the ending cell while the unvisited cell `(7, 1)` has the cell
`(5, 1)`, of a type above `OPEN`, two cells away, and starts a new path; on
`GridCreate(7, 7)` with the draws `countingDraws` the fifth iteration leaves
the loop, and the cell `(5, 5)`, unvisited then, is unvisited in the grid the
attempt produces. -/
theorem C15_new_path_scan_witness :
    (GridCreate 9 9 (fun _ => 0)).Frame ∧ carveRuns tenDraws 12 pathStart ∧
    (carveTry tenDraws (carveIter tenDraws 12 pathStart)).2 = true ∧
    (carveTry tenDraws (carveIter tenDraws 12 pathStart)).1.g.typeAt
      (carveTry tenDraws (carveIter tenDraws 12 pathStart)).1.cell = END ∧
    (endGrid (carveTry tenDraws (carveIter tenDraws 12 pathStart)).1).ty 7 1 = UNVISITED ∧
    (endGrid (carveTry tenDraws (carveIter tenDraws 12 pathStart)).1).ty 5 1 = 14 ∧
    ((carveNext tenDraws (carveIter tenDraws 12 pathStart)).2 = false ∧
      StartsPath tenDraws (carveIter tenDraws 12 pathStart)) ∧
    (GridCreate 7 7 (fun _ => 0)).Frame ∧ carveRuns countingDraws 4 sampleStart ∧
    (carveNext countingDraws (carveIter countingDraws 4 sampleStart)).2 = true ∧
    (endGrid (carveTry countingDraws (carveIter countingDraws 4 sampleStart)).1).ty 5 5 =
      UNVISITED ∧
    (mazeAttempt countingDraws (4 + 1) (GridCreate 7 7 (fun _ => 0)) 0 =
        some (finishMaze countingDraws
          (endGrid (carveTry countingDraws (carveIter countingDraws 4 sampleStart)).1)
          (carveTry countingDraws (carveIter countingDraws 4 sampleStart)).1.k) ∧
      (5 : Int) % 2 = 1 ∧ (5 : Int) % 2 = 1 ∧
      (finishMaze countingDraws
        (endGrid (carveTry countingDraws (carveIter countingDraws 4 sampleStart)).1)
        (carveTry countingDraws (carveIter countingDraws 4 sampleStart)).1.k).1.ty 5 5 =
          UNVISITED) := by
  have r12 : carveRuns tenDraws 12 pathStart := by decide!
  have f12 : (carveTry tenDraws (carveIter tenDraws 12 pathStart)).2 = true := by decide!
  have e12 : (carveTry tenDraws (carveIter tenDraws 12 pathStart)).1.g.typeAt
      (carveTry tenDraws (carveIter tenDraws 12 pathStart)).1.cell = END := by decide!
  have u12 : (endGrid (carveTry tenDraws (carveIter tenDraws 12 pathStart)).1).ty 7 1 =
      UNVISITED := by decide!
  have v12 : (endGrid (carveTry tenDraws (carveIter tenDraws 12 pathStart)).1).ty 5 1 = 14 := by
    decide!
  have i12 : (endGrid (carveTry tenDraws (carveIter tenDraws 12 pathStart)).1).InGrid 7 1 := by
    decide!
  have j12 : (endGrid (carveTry tenDraws (carveIter tenDraws 12 pathStart)).1).InGrid
      (7 + off4X 2 * 2) (1 + off4Y 2 * 2) := by decide!
  have w12 : OPEN < (endGrid (carveTry tenDraws (carveIter tenDraws 12 pathStart)).1).ty
      (7 + off4X 2 * 2) (1 + off4Y 2 * 2) := by decide!
  have r4 : carveRuns countingDraws 4 sampleStart := by decide!
  have d4 : (carveNext countingDraws (carveIter countingDraws 4 sampleStart)).2 = true := by
    decide!
  have i4 : (endGrid (carveTry countingDraws (carveIter countingDraws 4 sampleStart)).1).InGrid
      5 5 := by decide!
  have u4 : (endGrid (carveTry countingDraws (carveIter countingDraws 4 sampleStart)).1).ty 5 5 =
      UNVISITED := by decide!
  have a12 := (C15_new_path_scan tenDraws (GridCreate 9 9 (fun _ => 0)) 0 12
    (carveIter tenDraws 12 pathStart) (carveTry tenDraws (carveIter tenDraws 12 pathStart)).1
    (GridCreate_frame 9 9 _) r12 rfl rfl).2.1 f12 (Or.inl e12)
    ⟨7, 1, 2, i12, by decide, by decide, u12, by decide, by decide, j12, w12⟩
  have a4 := (C15_new_path_scan countingDraws (GridCreate 7 7 (fun _ => 0)) 0 4
    (carveIter countingDraws 4 sampleStart)
    (carveTry countingDraws (carveIter countingDraws 4 sampleStart)).1
    (GridCreate_frame 7 7 _) r4 rfl rfl).2.2 d4
  exact ⟨GridCreate_frame 9 9 _, r12, f12, e12, u12, v12, a12, GridCreate_frame 7 7 _, r4, d4, u4,
    a4.1, a4.2 5 5 i4 u4⟩

end Maze
